import Mathlib

/-!
Direct-composition overlay promotion: `components/viz/service/display/dc_layer_overlay.cc`.

A shallow embedding of `DCLayerOverlayProcessor` and of the helper functions of
`dc_layer_overlay.cc`, followed by theorems about it.

Conventions of the embedding.

* A `QuadList` is a `List` of quads and a `QuadList::Iterator` is an index into
  it (`quad_list->end()` is the length of the list).
* Mutation through pointers becomes explicit state passing: the fields of the
  processor, the render pass being visited, the two damage rectangles, the
  output list and the histogram samples are bundled in `PassState`.
* `float` values are exact rationals; `int` coordinates are unbounded integers.
* `gfx::Transform` is a type parameter; its operations, the feature flags, the
  resource provider and the two inline predicates declared in headers
  (`DrawQuad::ShouldDrawWithBlending`, `DCLayerOverlay::RequiresOverlay`) are
  collected in `Collaborators`.
-/

namespace Viz

/-! ## Geometry: `gfx::Rect`, `gfx::RectF` -/

/-- Modelled from the spec: the integer rectangle `gfx::Rect` (origin and size);
`ui/gfx/geometry/rect.h` is not part of the sources at hand. The default
rectangle is the empty rectangle at the origin. -/
structure Rect where
  x : Int := 0
  y : Int := 0
  width : Int := 0
  height : Int := 0
deriving DecidableEq, Repr

/-- Modelled from the spec: the float rectangle `gfx::RectF`, with exact
rational coordinates; `ui/gfx/geometry/rect_f.h` is not part of the sources at
hand. -/
structure RectF where
  x : ℚ := 0
  y : ℚ := 0
  width : ℚ := 0
  height : ℚ := 0
deriving DecidableEq

namespace Rect

/-- Modelled from the spec: `gfx::Rect::right`. -/
def right (r : Rect) : Int := r.x + r.width

/-- Modelled from the spec: `gfx::Rect::bottom`. -/
def bottom (r : Rect) : Int := r.y + r.height

/-- Modelled from the spec: `gfx::Rect::IsEmpty`, a rectangle without area. -/
def IsEmpty (r : Rect) : Bool := decide (r.width ≤ 0) || decide (r.height ≤ 0)

/-- Modelled from the spec: `gfx::Rect::SetByBounds`, the rectangle with the
given edges (an inverted pair of edges gives size zero). -/
def SetByBounds (left top right bottom : Int) : Rect :=
  { x := left, y := top, width := max 0 (right - left), height := max 0 (bottom - top) }

/-- Modelled from the spec: `gfx::Rect::Intersect`, the common part of two
rectangles; the empty rectangle at the origin when there is none. -/
def Intersect (r s : Rect) : Rect :=
  if r.IsEmpty || s.IsEmpty then {}
  else
    let left := max r.x s.x
    let top := max r.y s.y
    let new_right := min r.right s.right
    let new_bottom := min r.bottom s.bottom
    if left ≥ new_right ∨ top ≥ new_bottom then {}
    else SetByBounds left top new_right new_bottom

/-- Modelled from the spec: `gfx::Rect::Union`, the smallest rectangle holding
both; an empty operand is ignored. -/
def Union (r s : Rect) : Rect :=
  if r.IsEmpty then s
  else if s.IsEmpty then r
  else SetByBounds (min r.x s.x) (min r.y s.y) (max r.right s.right) (max r.bottom s.bottom)

/-- Modelled from the spec: `gfx::Rect::Intersects`. -/
def Intersects (r s : Rect) : Bool :=
  !(r.IsEmpty || s.IsEmpty || decide (s.x ≥ r.right) || decide (s.right ≤ r.x) ||
    decide (s.y ≥ r.bottom) || decide (s.bottom ≤ r.y))

/-- Modelled from the spec: `gfx::Rect::Contains(const Rect&)`. -/
def Contains (r s : Rect) : Bool :=
  decide (s.x ≥ r.x) && decide (s.right ≤ r.right) && decide (s.y ≥ r.y) &&
    decide (s.bottom ≤ r.bottom)

/-- Modelled from the spec: `gfx::Rect::Subtract`, the bounding rectangle of
what is left of `r` once `s` is taken away. -/
def Subtract (r s : Rect) : Rect :=
  if !r.Intersects s then r
  else if s.Contains r then {}
  else
    if s.y ≤ r.y ∧ s.bottom ≥ r.bottom then
      -- complete intersection in the y-direction
      if s.x ≤ r.x then SetByBounds s.right r.y r.right r.bottom
      else if s.right ≥ r.right then SetByBounds r.x r.y s.x r.bottom
      else SetByBounds r.x r.y r.right r.bottom
    else if s.x ≤ r.x ∧ s.right ≥ r.right then
      -- complete intersection in the x-direction
      if s.y ≤ r.y then SetByBounds r.x s.bottom r.right r.bottom
      else if s.bottom ≥ r.bottom then SetByBounds r.x r.y r.right s.y
      else SetByBounds r.x r.y r.right r.bottom
    else SetByBounds r.x r.y r.right r.bottom

/-- The pixel with integer coordinates `(px, py)` lies in the rectangle. -/
def HasPoint (r : Rect) (px py : Int) : Prop :=
  r.x ≤ px ∧ px < r.right ∧ r.y ≤ py ∧ py < r.bottom

/-- Every pixel of `r` is a pixel of `s`. -/
def SubsetOf (r s : Rect) : Prop := ∀ px py, r.HasPoint px py → s.HasPoint px py

end Rect

namespace RectF

/-- Modelled from the spec: `gfx::RectF::right`. -/
def right (r : RectF) : ℚ := r.x + r.width

/-- Modelled from the spec: `gfx::RectF::bottom`. -/
def bottom (r : RectF) : ℚ := r.y + r.height

/-- Modelled from the spec: `gfx::RectF::IsEmpty`. -/
def IsEmpty (r : RectF) : Bool := decide (r.width ≤ 0) || decide (r.height ≤ 0)

/-- Modelled from the spec: the conversion constructor `gfx::RectF(const Rect&)`. -/
def ofRect (r : Rect) : RectF :=
  { x := r.x, y := r.y, width := r.width, height := r.height }

/-- Modelled from the spec: `gfx::RectF::Intersect`. -/
def Intersect (r s : RectF) : RectF :=
  if r.IsEmpty || s.IsEmpty then {}
  else
    let rx := max r.x s.x
    let ry := max r.y s.y
    let rr := min r.right s.right
    let rb := min r.bottom s.bottom
    if rx ≥ rr ∨ ry ≥ rb then {}
    else { x := rx, y := ry, width := rr - rx, height := rb - ry }

/-- Modelled from the spec: `gfx::RectF::Union`. -/
def Union (r s : RectF) : RectF :=
  if r.IsEmpty then s
  else if s.IsEmpty then r
  else
    let rx := min r.x s.x
    let ry := min r.y s.y
    let rr := max r.right s.right
    let rb := max r.bottom s.bottom
    { x := rx, y := ry, width := rr - rx, height := rb - ry }

end RectF

/-- Modelled from the spec: `gfx::ToEnclosingRect`, the smallest integer
rectangle that holds the float rectangle. -/
def ToEnclosingRect (r : RectF) : Rect :=
  let min_x := ⌊r.x⌋
  let min_y := ⌊r.y⌋
  { x := min_x, y := min_y,
    width := if r.width = 0 then 0 else max (⌈r.right⌉ - min_x) 0,
    height := if r.height = 0 then 0 else max (⌈r.bottom⌉ - min_y) 0 }

/-! ## Quads, render passes, overlay candidates -/

/-- The tag `DrawQuad::Material`; the materials the processor does not name
are gathered in `OTHER`. `INVALID` is the tag of a quad that has been
constructed and not yet set. -/
inductive Material where
  | INVALID
  | RENDER_PASS
  | SOLID_COLOR
  | YUV_VIDEO_CONTENT
  | OTHER
deriving DecidableEq, Repr

/-- The blend modes of `SkBlendMode` the processor distinguishes, and a few more. -/
inductive SkBlendMode where
  | kClear
  | kSrc
  | kSrcOver
  | kDstOver
  | kDstOut
  | kMultiply
  | kScreen
deriving DecidableEq, Repr

/-- The content-protection classification `ui::ProtectedVideoType`. -/
inductive ProtectedVideoType where
  | kClear
  | kSoftwareProtected
  | kHardwareProtected
deriving DecidableEq, Repr

/-- The result codes `DCLayerOverlayProcessor::DCLayerResult`. -/
inductive DCLayerResult where
  | DC_LAYER_SUCCESS
  | DC_LAYER_FAILED_UNSUPPORTED_QUAD
  | DC_LAYER_FAILED_QUAD_BLEND_MODE
  | DC_LAYER_FAILED_TEXTURE_NOT_CANDIDATE
  | DC_LAYER_FAILED_OCCLUDED
  | DC_LAYER_FAILED_COMPLEX_TRANSFORM
  | DC_LAYER_FAILED_TRANSPARENT
  | DC_LAYER_FAILED_NON_ROOT
  | DC_LAYER_FAILED_TOO_MANY_OVERLAYS
  | DC_LAYER_FAILED_NO_HW_OVERLAY_SUPPORT
deriving DecidableEq, Repr

abbrev ResourceId := Nat
abbrev RenderPassId := Nat
abbrev ColorSpace := Nat

/-- A 32-bit ARGB colour `SkColor`. -/
abbrev SkColor := Nat

def SK_ColorTRANSPARENT : SkColor := 0x00000000
def SK_ColorBLACK : SkColor := 0xFF000000

/-- The alpha byte of a colour, `SkColorGetA`. -/
def SkColorGetA (color : SkColor) : Nat := (color >>> 24) &&& 0xFF

/-- The smallest positive step of a `float` at one,
`std::numeric_limits<float>::epsilon()`, which is `2^-23`. -/
def float_epsilon : ℚ := 1 / 8388608

/-- The geometric state shared by quads. A quad holds its state by value: the
processor never writes to an existing state, it only allocates copies. -/
structure SharedQuadState (T : Type) where
  quad_to_target_transform : T
  is_clipped : Bool := false
  clip_rect : Rect := {}
  opacity : ℚ := 0
  blend_mode : SkBlendMode := SkBlendMode.kSrcOver
deriving DecidableEq

/-- A draw quad. The class hierarchy below `DrawQuad` is flattened: the fields
of `SolidColorDrawQuad`, `RenderPassDrawQuad` and `YUVVideoDrawQuad` are all
present and `material` says which of them are meaningful. -/
structure DrawQuad (T : Type) where
  material : Material := Material.INVALID
  rect : Rect := {}
  visible_rect : Rect := {}
  needs_blending : Bool := false
  shared_quad_state : SharedQuadState T
  resources : List ResourceId := []
  color : SkColor := 0
  force_anti_aliasing_off : Bool := false
  render_pass_id : RenderPassId := 0
  ya_tex_coord_rect : RectF := {}
  video_color_space : ColorSpace := 0
  protected_video_type : ProtectedVideoType := ProtectedVideoType.kClear
deriving DecidableEq

instance {T : Type} [Inhabited T] : Inhabited (SharedQuadState T) :=
  ⟨{ quad_to_target_transform := default }⟩

/-- A quad as its constructor leaves it: `DrawQuad()` followed by
`SolidColorDrawQuad()`, before any `SetAll`. -/
instance {T : Type} [Inhabited T] : Inhabited (DrawQuad T) :=
  ⟨{ shared_quad_state := default }⟩

namespace DrawQuad

variable {T : Type}

/-- The accessor `YUVVideoDrawQuad::y_plane_resource_id` (slot 0 of the resources). -/
def y_plane_resource_id (q : DrawQuad T) : ResourceId := q.resources.getD 0 0

/-- The accessor `YUVVideoDrawQuad::u_plane_resource_id` (slot 1 of the resources). -/
def u_plane_resource_id (q : DrawQuad T) : ResourceId := q.resources.getD 1 0

/-- The accessor `YUVVideoDrawQuad::v_plane_resource_id` (slot 2 of the resources). -/
def v_plane_resource_id (q : DrawQuad T) : ResourceId := q.resources.getD 2 0

/-- `SolidColorDrawQuad::SetAll`: sets the common fields, tags the quad as a
solid-colour quad and stores the colour. -/
def SetAll (q : DrawQuad T) (shared_quad_state : SharedQuadState T) (rect visible_rect : Rect)
    (needs_blending : Bool) (color : SkColor) (force_anti_aliasing_off : Bool) : DrawQuad T :=
  { q with
    shared_quad_state := shared_quad_state
    material := Material.SOLID_COLOR
    rect := rect
    visible_rect := visible_rect
    needs_blending := needs_blending
    color := color
    force_anti_aliasing_off := force_anti_aliasing_off }

end DrawQuad

/-- A render pass: identifier, quads in compositing order, transform to the
root target and damage rectangle. -/
structure RenderPass (T : Type) where
  id : RenderPassId
  quad_list : List (DrawQuad T) := []
  transform_to_root_target : T
  damage_rect : Rect := {}
deriving DecidableEq

/-- The overlay candidate descriptor `DCLayerOverlay`. -/
structure DCLayerOverlay (T : Type) where
  y_resource_id : ResourceId := 0
  uv_resource_id : ResourceId := 0
  z_order : Int := 0
  content_rect : Rect := {}
  quad_rect : Rect := {}
  transform : T
  is_clipped : Bool := false
  clip_rect : Rect := {}
  color_space : ColorSpace := 0
  protected_video_type : ProtectedVideoType := ProtectedVideoType.kClear
deriving DecidableEq

instance {T : Type} [Inhabited T] : Inhabited (DCLayerOverlay T) :=
  ⟨{ transform := default }⟩

/-- Everything the translation unit uses and does not define: the operations of
`gfx::Transform` and `cc::MathUtil`, the resource provider, the feature flags,
and the two inline predicates that live in headers. -/
structure Collaborators (T : Type) where
  /-- `gfx::Transform::Preserves2dAxisAlignment`. -/
  Preserves2dAxisAlignment : T → Bool
  /-- `a.ConcatTransform(b)`: the transform `a` followed by `b`. -/
  ConcatTransform : T → T → T
  /-- `gfx::Transform::FlattenTo2d`. -/
  FlattenTo2d : T → T
  /-- `gfx::Transform::TransformRect`. -/
  TransformRect : T → RectF → RectF
  /-- `cc::MathUtil::MapClippedRect`. -/
  MapClippedRect : T → RectF → RectF
  /-- `cc::MathUtil::MapEnclosingClippedRect`. -/
  MapEnclosingClippedRect : T → Rect → Rect
  /-- `gfx::ToNearestRect`. -/
  ToNearestRect : RectF → Rect
  /-- `DisplayResourceProvider::IsOverlayCandidate`. -/
  IsOverlayCandidate : ResourceId → Bool
  /-- `base::FeatureList::IsEnabled(features::kDirectCompositionUnderlays)`. -/
  kDirectCompositionUnderlays : Bool
  /-- `base::FeatureList::IsEnabled(features::kDirectCompositionNonrootOverlays)`. -/
  kDirectCompositionNonrootOverlays : Bool
  /-- `base::FeatureList::IsEnabled(features::kDirectCompositionComplexOverlays)`. -/
  kDirectCompositionComplexOverlays : Bool
  /-- `DrawQuad::ShouldDrawWithBlending`. -/
  ShouldDrawWithBlending : DrawQuad T → Bool
  /-- `DCLayerOverlay::RequiresOverlay`. -/
  RequiresOverlay : DCLayerOverlay T → Bool

/-! ## The punch-through map -/

/-- The member `pass_punch_through_rects_`, a `base::flat_map` from render-pass
id to a vector of rectangles: an association list sorted by key. -/
abbrev PunchThroughMap := List (RenderPassId × List Rect)

namespace PunchThroughMap

/-- The number of entries with the key, `flat_map::count`. -/
def count (m : PunchThroughMap) (id : RenderPassId) : Nat :=
  (m.filter (fun e => e.1 == id)).length

/-- The vector stored under a key that is present, `flat_map::operator[]` read. -/
def lookup : PunchThroughMap → RenderPassId → List Rect
  | [], _ => []
  | (k, v) :: m, id => if k = id then v else lookup m id

/-- The update `m[id].push_back(r)`: appends to the vector of an existing key,
and otherwise inserts the key, at its sorted position, with the one rectangle. -/
def pushBack : PunchThroughMap → RenderPassId → Rect → PunchThroughMap
  | [], id, r => [(id, [r])]
  | (k, v) :: m, id, r =>
    if k = id then (k, v ++ [r]) :: m
    else if id < k then (id, [r]) :: (k, v) :: m
    else (k, v) :: pushBack m id r

end PunchThroughMap

/-! ## The processor and the state one frame threads through it -/

/-- The member fields of `DCLayerOverlayProcessor`. -/
structure DCLayerOverlayProcessor where
  has_hw_overlay_support_ : Bool := true
  processed_overlay_in_frame_ : Bool := false
  pass_punch_through_rects_ : PunchThroughMap := []
  previous_display_rect_ : RectF := {}
  previous_frame_underlay_rect_ : Rect := {}
  previous_frame_underlay_occlusion_ : Rect := {}
deriving DecidableEq

/-- All that `ProcessRenderPass` reads and writes through `this` and through its
pointer arguments, its two locals `this_frame_underlay_rect` and
`this_frame_underlay_occlusion`, and the histogram samples recorded so far
(classification and result, oldest first). `damage_rect` is the rectangle the
argument `damage_rect` points at. -/
structure PassState (T : Type) where
  processor : DCLayerOverlayProcessor
  render_pass : RenderPass T
  overlay_damage_rect : Rect
  damage_rect : Rect
  dc_layer_overlays : List (DCLayerOverlay T)
  this_frame_underlay_rect : Rect := {}
  this_frame_underlay_occlusion : Rect := {}
  histograms : List (ProtectedVideoType × DCLayerResult) := []
deriving DecidableEq

/-- The processor, the arguments `Process` writes through, and the histogram
samples. -/
structure FrameState (T : Type) where
  processor : DCLayerOverlayProcessor
  render_passes : List (RenderPass T)
  overlay_damage_rect : Rect
  damage_rect : Rect
  dc_layer_overlays : List (DCLayerOverlay T)
  histograms : List (ProtectedVideoType × DCLayerResult) := []
deriving DecidableEq

/-! ## The functions of `dc_layer_overlay.cc` -/

section Functions

variable {T : Type} [DecidableEq T] [Inhabited T]

/-- The quad an iterator points at, `*it`. -/
def deref (quad_list : List (DrawQuad T)) (it : Nat) : DrawQuad T :=
  quad_list.getD it default

/-- `QuadList::InsertBeforeAndInvalidateAllPointers<SolidColorDrawQuad>(it, count)`:
makes room for `count` freshly constructed quads before position `it`; the
returned iterator, the first new quad, is `it` again. -/
def InsertBeforeAndInvalidateAllPointers (quad_list : List (DrawQuad T)) (it count : Nat) :
    List (DrawQuad T) :=
  quad_list.take it ++ List.replicate count default ++ quad_list.drop it

/-- `QuadList::ReplaceExistingElement<SolidColorDrawQuad>(it)`: the quad at `it`
is destroyed and a freshly constructed quad takes its place. -/
def ReplaceExistingElement (quad_list : List (DrawQuad T)) (it : Nat) : List (DrawQuad T) :=
  quad_list.set it default

/-- Modelled from the spec: `QuadList::ReplaceExistingQuadWithOpaqueTransparentSolidColor`
(`quad_list.cc` is not part of the sources at hand), which puts a fully
transparent solid-colour quad, drawn without blending, in the place of the quad
at `it`, over the same rectangle and with the same shared state. -/
def ReplaceExistingQuadWithOpaqueTransparentSolidColor (quad_list : List (DrawQuad T))
    (it : Nat) : List (DrawQuad T) :=
  let rect := (deref quad_list it).rect
  let shared_quad_state := (deref quad_list it).shared_quad_state
  let replacement := deref (ReplaceExistingElement quad_list it) it
  quad_list.set it
    (replacement.SetAll shared_quad_state rect rect false SK_ColorTRANSPARENT true)

/-- `FromYUVQuad` (lines 23-58). -/
def FromYUVQuad (env : Collaborators T) (quad : DrawQuad T) (transform_to_root_target : T) :
    DCLayerOverlay T :=
  let quad_to_root_transform :=
    env.FlattenTo2d
      (env.ConcatTransform quad.shared_quad_state.quad_to_target_transform
        transform_to_root_target)
  let is_clipped := quad.shared_quad_state.is_clipped
  { y_resource_id := quad.y_plane_resource_id
    uv_resource_id := quad.u_plane_resource_id
    z_order := 1
    content_rect := env.ToNearestRect quad.ya_tex_coord_rect
    quad_rect := quad.rect
    transform := quad_to_root_transform
    is_clipped := is_clipped
    clip_rect :=
      if is_clipped then
        ToEnclosingRect
          (env.TransformRect transform_to_root_target
            (RectF.ofRect quad.shared_quad_state.clip_rect))
      else {}
    color_space := quad.video_color_space
    protected_video_type := quad.protected_video_type }

/-- `ClippedQuadRectangle` (lines 61-68): the smallest rectangle in target space
that contains the quad. -/
def ClippedQuadRectangle (env : Collaborators T) (quad : DrawQuad T) : RectF :=
  let quad_rect :=
    env.MapClippedRect quad.shared_quad_state.quad_to_target_transform (RectF.ofRect quad.rect)
  if quad.shared_quad_state.is_clipped then
    quad_rect.Intersect (RectF.ofRect quad.shared_quad_state.clip_rect)
  else quad_rect

/-- One iteration of the loop of `GetOcclusionBounds` (lines 78-93). -/
def GetOcclusionBoundsStep (env : Collaborators T) (target_quad : RectF)
    (occlusion_bounding_box : RectF) (quad : DrawQuad T) : RectF :=
  let opacity := quad.shared_quad_state.opacity
  if opacity < float_epsilon then occlusion_bounding_box
  else
    let overlap_rect := ClippedQuadRectangle env quad
    let alpha := ((SkColorGetA quad.color : ℚ) * (1 / 255)) * opacity
    if quad.material = Material.SOLID_COLOR ∧
        (env.ShouldDrawWithBlending quad = true ∧ alpha < float_epsilon) then
      occlusion_bounding_box
    else
      let overlap_rect := overlap_rect.Intersect target_quad
      if !overlap_rect.IsEmpty then occlusion_bounding_box.Union overlap_rect
      else occlusion_bounding_box

/-- `GetOcclusionBounds` (lines 72-96); `quads` are the quads from
`quad_list_begin` up to and without `quad_list_end`. -/
def GetOcclusionBounds (env : Collaborators T) (target_quad : RectF)
    (quads : List (DrawQuad T)) : RectF :=
  quads.foldl (GetOcclusionBoundsStep env target_quad) {}

/-- `RecordDCLayerResult` (lines 98-114): one sample in the histogram of the
classification. -/
def RecordDCLayerResult (result : DCLayerResult) (protected_video_type : ProtectedVideoType)
    (st : PassState T) : PassState T :=
  { st with histograms := st.histograms ++ [(protected_video_type, result)] }

/-- `DCLayerOverlayProcessor::FromDrawQuad` (lines 138-170). The result is the
code returned and the value left in `*dc_layer_overlay`. The argument
`quad_list_begin` is not used by the function and is left out. -/
def FromDrawQuad (env : Collaborators T) (processor : DCLayerOverlayProcessor)
    (quad : DrawQuad T) (transform_to_root_target : T) (dc_layer_overlay : DCLayerOverlay T) :
    DCLayerResult × DCLayerOverlay T :=
  if quad.material ≠ Material.YUV_VIDEO_CONTENT then
    (DCLayerResult.DC_LAYER_FAILED_UNSUPPORTED_QUAD, dc_layer_overlay)
  else
    let dc_layer_overlay := FromYUVQuad env quad transform_to_root_target
    if quad.shared_quad_state.blend_mode ≠ SkBlendMode.kSrcOver ∧
        dc_layer_overlay.protected_video_type ≠ ProtectedVideoType.kHardwareProtected then
      (DCLayerResult.DC_LAYER_FAILED_QUAD_BLEND_MODE, dc_layer_overlay)
    else if quad.resources.any (fun resource => !env.IsOverlayCandidate resource) then
      (DCLayerResult.DC_LAYER_FAILED_TEXTURE_NOT_CANDIDATE, dc_layer_overlay)
    else if processor.has_hw_overlay_support_ = false ∧
        dc_layer_overlay.protected_video_type ≠ ProtectedVideoType.kSoftwareProtected then
      (DCLayerResult.DC_LAYER_FAILED_NO_HW_OVERLAY_SUPPORT, dc_layer_overlay)
    else (DCLayerResult.DC_LAYER_SUCCESS, dc_layer_overlay)

/-- What the loop of `ProcessRenderPassDrawQuad` reads and writes. -/
structure PunchState (T : Type) where
  quad_list : List (DrawQuad T)
  it : Nat
  damage_rect : Rect
  pass_punch_through_rects_ : PunchThroughMap

/-- The loop of `ProcessRenderPassDrawQuad` (lines 255-279) over the rectangles
`punch_through_rects`. -/
def PunchThroughLoop (env : Collaborators T) (render_pass_id : RenderPassId)
    (original_shared_quad_state : SharedQuadState T) : List Rect → PunchState T → PunchState T
  | [], s => s
  | punch_through_rect :: rest, s =>
    let new_shared_quad_state := { original_shared_quad_state with opacity := 1 }
    let solid_quad :=
      (deref s.quad_list s.it).SetAll new_shared_quad_state punch_through_rect
        punch_through_rect false SK_ColorTRANSPARENT true
    let clipped_quad_rect := ToEnclosingRect (ClippedQuadRectangle env solid_quad)
    PunchThroughLoop env render_pass_id original_shared_quad_state rest
      { quad_list := s.quad_list.set s.it solid_quad
        it := s.it + 1
        damage_rect := s.damage_rect.Union clipped_quad_rect
        pass_punch_through_rects_ :=
          s.pass_punch_through_rects_.pushBack render_pass_id clipped_quad_rect }

/-- `DCLayerOverlayProcessor::ProcessRenderPassDrawQuad` (lines 190-281): the
state afterwards and the iterator returned. -/
def ProcessRenderPassDrawQuad (env : Collaborators T) (st : PassState T) (it : Nat) :
    PassState T × Nat :=
  let rpdq := deref st.render_pass.quad_list it
  let it := it + 1
  if rpdq.render_pass_id = st.render_pass.id then (st, it)
  else if st.processor.pass_punch_through_rects_.count rpdq.render_pass_id = 0 then (st, it)
  else
    let punch_through_rects := st.processor.pass_punch_through_rects_.lookup rpdq.render_pass_id
    let original_shared_quad_state := rpdq.shared_quad_state
    let s := PunchThroughLoop env st.render_pass.id original_shared_quad_state
      punch_through_rects
      { quad_list :=
          InsertBeforeAndInvalidateAllPointers st.render_pass.quad_list it
            punch_through_rects.length
        it := it
        damage_rect := st.damage_rect
        pass_punch_through_rects_ := st.processor.pass_punch_through_rects_ }
    ({ st with
        render_pass := { st.render_pass with quad_list := s.quad_list }
        damage_rect := s.damage_rect
        processor :=
          { st.processor with pass_punch_through_rects_ := s.pass_punch_through_rects_ } },
      s.it)

/-- `DCLayerOverlayProcessor::ProcessForOverlay` (lines 377-397): the value
returned, the state afterwards and the iterator `*it` afterwards. -/
def ProcessForOverlay (env : Collaborators T) (display_rect : RectF) (quad_rectangle : Rect)
    (occlusion_bounding_box : RectF) (st : PassState T) (it : Nat) :
    Bool × PassState T × Nat :=
  if !occlusion_bounding_box.IsEmpty then (false, st, it)
  else
    let display_rect_changed := decide (display_rect ≠ st.processor.previous_display_rect_)
    let quad := deref st.render_pass.quad_list it
    let damage_rect :=
      if env.Preserves2dAxisAlignment quad.shared_quad_state.quad_to_target_transform &&
          !display_rect_changed && !env.ShouldDrawWithBlending quad then
        st.damage_rect.Subtract quad_rectangle
      else st.damage_rect
    (true,
      { st with
        damage_rect := damage_rect
        render_pass := { st.render_pass with quad_list := st.render_pass.quad_list.eraseIdx it } },
      it)

/-- The rejections of `ProcessForUnderlay` (lines 410-434): the result code
recorded when the quad is turned down, `none` when it is accepted. -/
def ProcessForUnderlayRejection (env : Collaborators T) (st : PassState T) (it : Nat)
    (is_root : Bool) (dc_layer : DCLayerOverlay T) : Option DCLayerResult :=
  if !env.RequiresOverlay dc_layer then
    if !env.kDirectCompositionUnderlays then
      some DCLayerResult.DC_LAYER_FAILED_OCCLUDED
    else if !is_root && !env.kDirectCompositionNonrootOverlays then
      some DCLayerResult.DC_LAYER_FAILED_NON_ROOT
    else if (deref st.render_pass.quad_list it).shared_quad_state.opacity < 1 then
      some DCLayerResult.DC_LAYER_FAILED_TRANSPARENT
    else if st.processor.processed_overlay_in_frame_ then
      some DCLayerResult.DC_LAYER_FAILED_TOO_MANY_OVERLAYS
    else none
  else none

/-- The replacement of the quad in `ProcessForUnderlay` (lines 440-474): the
quad list afterwards and the local `is_opaque`. -/
def ProcessForUnderlayReplace (env : Collaborators T) (quad_list : List (DrawQuad T))
    (it : Nat) : List (DrawQuad T) × Bool :=
  let shared_quad_state := (deref quad_list it).shared_quad_state
  let rect := (deref quad_list it).visible_rect
  if env.ShouldDrawWithBlending (deref quad_list it) &&
      decide (shared_quad_state.blend_mode = SkBlendMode.kSrcOver) then
    let new_shared_quad_state := { shared_quad_state with blend_mode := SkBlendMode.kDstOut }
    let quad_list := ReplaceExistingElement quad_list it
    let replacement := deref quad_list it
    (quad_list.set it
        (replacement.SetAll new_shared_quad_state rect rect (deref quad_list it).needs_blending
          SK_ColorBLACK true),
      false)
  else (ReplaceExistingQuadWithOpaqueTransparentSolidColor quad_list it, true)

/-- `DCLayerOverlayProcessor::ProcessForUnderlay` (lines 399-521): the value
returned, the state afterwards and the value left in `*dc_layer`. -/
def ProcessForUnderlay (env : Collaborators T) (display_rect : RectF) (quad_rectangle : Rect)
    (occlusion_bounding_box : RectF) (it : Nat) (is_root : Bool) (st : PassState T)
    (dc_layer : DCLayerOverlay T) : Bool × PassState T × DCLayerOverlay T :=
  match ProcessForUnderlayRejection env st it is_root dc_layer with
  | some result => (false, RecordDCLayerResult result dc_layer.protected_video_type st, dc_layer)
  | none =>
    let dc_layer := { dc_layer with z_order := -1 }
    let shared_quad_state := (deref st.render_pass.quad_list it).shared_quad_state
    let replaced := ProcessForUnderlayReplace env st.render_pass.quad_list it
    let quad_list := replaced.1
    let is_opaque := replaced.2
    let display_rect_changed := decide (display_rect ≠ st.processor.previous_display_rect_)
    let underlay_rect_changed :=
      decide (quad_rectangle ≠ st.processor.previous_frame_underlay_rect_)
    let is_axis_aligned := env.Preserves2dAxisAlignment shared_quad_state.quad_to_target_transform
    let damage_rect :=
      if is_root && !st.processor.processed_overlay_in_frame_ && is_axis_aligned && is_opaque &&
          !underlay_rect_changed && !display_rect_changed then
        let occluding_damage_rect := st.damage_rect
        let damage_rect := st.damage_rect.Subtract quad_rectangle
        let occlusion :=
          (ToEnclosingRect occlusion_bounding_box).Union
            st.processor.previous_frame_underlay_occlusion_
        let occluding_damage_rect := occluding_damage_rect.Intersect quad_rectangle
        let occluding_damage_rect := occluding_damage_rect.Intersect occlusion
        damage_rect.Union occluding_damage_rect
      else st.damage_rect.Union quad_rectangle
    let first_root_underlay :=
      is_root && !st.processor.processed_overlay_in_frame_ && is_axis_aligned && is_opaque
    (true,
      { st with
        render_pass := { st.render_pass with quad_list := quad_list }
        damage_rect := damage_rect
        this_frame_underlay_rect :=
          if first_root_underlay then quad_rectangle else st.this_frame_underlay_rect
        this_frame_underlay_occlusion :=
          if first_root_underlay then ToEnclosingRect occlusion_bounding_box
          else st.this_frame_underlay_occlusion
        processor :=
          { st.processor with
            pass_punch_through_rects_ :=
              st.processor.pass_punch_through_rects_.pushBack st.render_pass.id
                (ToEnclosingRect (ClippedQuadRectangle env (deref quad_list it))) } },
      dc_layer)

/-- The two promotion tiers of the loop body of `ProcessRenderPass` (lines
340-353): whether the quad was promoted (`processed_overlay`), the state
afterwards, `next_it`, and the candidate. The overlay tier is tried on the root
pass when no candidate has been accepted in the frame or the candidate requires
an overlay; the underlay tier is tried when the overlay tier was not tried or
returned false. -/
def ProcessTiers (env : Collaborators T) (display_rect : RectF) (is_root : Bool)
    (quad_rectangle : Rect) (occlusion_bounding_box : RectF) (st : PassState T) (it : Nat)
    (dc_layer : DCLayerOverlay T) : Bool × PassState T × Nat × DCLayerOverlay T :=
  let overlay :=
    if is_root && (!st.processor.processed_overlay_in_frame_ || env.RequiresOverlay dc_layer) then
      ProcessForOverlay env display_rect quad_rectangle occlusion_bounding_box st it
    else (false, st, it)
  if overlay.1 then (true, overlay.2.1, overlay.2.2, dc_layer)
  else
    let underlay :=
      ProcessForUnderlay env display_rect quad_rectangle occlusion_bounding_box overlay.2.2
        is_root overlay.2.1 dc_layer
    (underlay.1, underlay.2.1, it + 1, underlay.2.2)

/-- The bookkeeping of an accepted promotion (lines 355-367). -/
def RecordPromotion (env : Collaborators T) (quad_rectangle : Rect) (st : PassState T)
    (dc_layer : DCLayerOverlay T) : PassState T :=
  let rect_in_root :=
    env.MapEnclosingClippedRect st.render_pass.transform_to_root_target quad_rectangle
  let st := { st with overlay_damage_rect := st.overlay_damage_rect.Union rect_in_root }
  let st := RecordDCLayerResult DCLayerResult.DC_LAYER_SUCCESS dc_layer.protected_video_type st
  { st with
    dc_layer_overlays := st.dc_layer_overlays ++ [dc_layer]
    processor := { st.processor with processed_overlay_in_frame_ := true } }

/-- The complex-transform test of the loop body (lines 316-320). -/
def ComplexTransformRejected (env : Collaborators T) (quad : DrawQuad T)
    (dc_layer : DCLayerOverlay T) : Bool :=
  !env.Preserves2dAxisAlignment quad.shared_quad_state.quad_to_target_transform &&
    !env.RequiresOverlay dc_layer && !env.kDirectCompositionComplexOverlays

/-- The body of the loop of `ProcessRenderPass` (lines 297-367) for the quad at
`it`: the state afterwards and `next_it`. -/
def ProcessQuad (env : Collaborators T) (display_rect : RectF) (is_root : Bool)
    (st : PassState T) (it : Nat) : PassState T × Nat :=
  let quad := deref st.render_pass.quad_list it
  if quad.material = Material.RENDER_PASS then ProcessRenderPassDrawQuad env st it
  else
    let from_quad :=
      FromDrawQuad env st.processor quad st.render_pass.transform_to_root_target default
    let result := from_quad.1
    let dc_layer := from_quad.2
    if result ≠ DCLayerResult.DC_LAYER_SUCCESS then
      (RecordDCLayerResult result dc_layer.protected_video_type st, it + 1)
    else if ComplexTransformRejected env quad dc_layer then
      (RecordDCLayerResult DCLayerResult.DC_LAYER_FAILED_COMPLEX_TRANSFORM
          dc_layer.protected_video_type st,
        it + 1)
    else
      let quad_rectangle := ToEnclosingRect (ClippedQuadRectangle env quad)
      let occlusion_bounding_box :=
        GetOcclusionBounds env (RectF.ofRect quad_rectangle) (st.render_pass.quad_list.take it)
      let tiers :=
        ProcessTiers env display_rect is_root quad_rectangle occlusion_bounding_box st it dc_layer
      if tiers.1 then (RecordPromotion env quad_rectangle tiers.2.1 tiers.2.2.2, tiers.2.2.1)
      else (tiers.2.1, tiers.2.2.1)

/-- The loop of `ProcessRenderPass` (lines 296-368), from iterator `it`, for at
most `fuel` iterations: the state and the iterator when the loop is left. -/
def ProcessQuads (env : Collaborators T) (display_rect : RectF) (is_root : Bool) :
    Nat → PassState T → Nat → PassState T × Nat
  | 0, st, it => (st, it)
  | fuel + 1, st, it =>
    if it < st.render_pass.quad_list.length then
      let step := ProcessQuad env display_rect is_root st it
      ProcessQuads env display_rect is_root fuel step.1 step.2
    else (st, it)

/-- `DCLayerOverlayProcessor::ProcessRenderPass` (lines 283-375). Every
iteration of the loop brings the iterator one quad closer to the end of the
list, so as many iterations as the list has quads on entry are enough. -/
def ProcessRenderPass (env : Collaborators T) (display_rect : RectF) (is_root : Bool)
    (st : PassState T) : PassState T :=
  let st := { st with this_frame_underlay_rect := {}, this_frame_underlay_occlusion := {} }
  let st := (ProcessQuads env display_rect is_root st.render_pass.quad_list.length st 0).1
  if is_root then
    { st with
      damage_rect := st.damage_rect.Intersect (ToEnclosingRect display_rect)
      processor :=
        { st.processor with
          previous_display_rect_ := display_rect
          previous_frame_underlay_rect_ := st.this_frame_underlay_rect
          previous_frame_underlay_occlusion_ := st.this_frame_underlay_occlusion } }
  else st

/-- One iteration of the loop of `Process` (lines 181-187) for the pass `pass`:
the frame state afterwards (its list of passes untouched) and the pass
afterwards. The damage rectangle handed to `ProcessRenderPass` is the
one of the frame for the root and the one of the pass itself otherwise. -/
def ProcessPass (env : Collaborators T) (display_rect : RectF) (is_root : Bool)
    (fs : FrameState T) (pass : RenderPass T) : FrameState T × RenderPass T :=
  let st := ProcessRenderPass env display_rect is_root
    { processor := fs.processor
      render_pass := pass
      overlay_damage_rect := fs.overlay_damage_rect
      damage_rect := if is_root then fs.damage_rect else pass.damage_rect
      dc_layer_overlays := fs.dc_layer_overlays
      histograms := fs.histograms }
  ({ fs with
      processor := st.processor
      overlay_damage_rect := st.overlay_damage_rect
      damage_rect := if is_root then st.damage_rect else fs.damage_rect
      dc_layer_overlays := st.dc_layer_overlays
      histograms := st.histograms },
    if is_root then st.render_pass else { st.render_pass with damage_rect := st.damage_rect })

/-- The loop of `Process` over the passes still to visit; `fs.render_passes`
collects the passes already visited. -/
def ProcessPasses (env : Collaborators T) (display_rect : RectF) :
    List (RenderPass T) → FrameState T → FrameState T
  | [], fs => fs
  | pass :: rest, fs =>
    let is_root := rest.isEmpty
    let step := ProcessPass env display_rect is_root fs pass
    ProcessPasses env display_rect rest
      { step.1 with render_passes := step.1.render_passes ++ [step.2] }

/-- `DCLayerOverlayProcessor::Process` (lines 172-188). -/
def Process (env : Collaborators T) (display_rect : RectF) (fs : FrameState T) : FrameState T :=
  let processor :=
    { fs.processor with processed_overlay_in_frame_ := false, pass_punch_through_rects_ := [] }
  ProcessPasses env display_rect fs.render_passes
    { fs with processor := processor, render_passes := [] }

end Functions

/-! ## A concrete instance of the collaborators

Integer affine maps of the plane stand in for `gfx::Transform`, and the two
header predicates are given concrete bodies. The instance is used to evaluate
the functions above on concrete frames. -/

/-- An affine map of the plane with integer coefficients:
`(x, y) ↦ (a * x + c * y + tx, b * x + d * y + ty)`. -/
structure Affine2d where
  a : Int := 1
  b : Int := 0
  c : Int := 0
  d : Int := 1
  tx : Int := 0
  ty : Int := 0
deriving DecidableEq, Repr

instance : Inhabited Affine2d := ⟨{}⟩

namespace Affine2d

/-- The shear `(x, y) ↦ (x + y, y)`, which tilts vertical edges. -/
def shear : Affine2d := { c := 1 }

/-- The translation by `(tx, ty)`. -/
def translate (tx ty : Int) : Affine2d := { tx := tx, ty := ty }

/-- Axis-aligned rectangles stay axis-aligned: a scaling or a quarter turn. -/
def Preserves2dAxisAlignment (t : Affine2d) : Bool :=
  (decide (t.b = 0) && decide (t.c = 0)) || (decide (t.a = 0) && decide (t.d = 0))

/-- The map `t` followed by the map `u`. -/
def ConcatTransform (t u : Affine2d) : Affine2d :=
  { a := u.a * t.a + u.c * t.b
    b := u.b * t.a + u.d * t.b
    c := u.a * t.c + u.c * t.d
    d := u.b * t.c + u.d * t.d
    tx := u.a * t.tx + u.c * t.ty + u.tx
    ty := u.b * t.tx + u.d * t.ty + u.ty }

/-- The bounding rectangle of the image of a rectangle. -/
def TransformRect (t : Affine2d) (r : RectF) : RectF :=
  let x0 := min (t.a * r.x) (t.a * r.right) + min (t.c * r.y) (t.c * r.bottom) + t.tx
  let x1 := max (t.a * r.x) (t.a * r.right) + max (t.c * r.y) (t.c * r.bottom) + t.tx
  let y0 := min (t.b * r.x) (t.b * r.right) + min (t.d * r.y) (t.d * r.bottom) + t.ty
  let y1 := max (t.b * r.x) (t.b * r.right) + max (t.d * r.y) (t.d * r.bottom) + t.ty
  { x := x0, y := y0, width := x1 - x0, height := y1 - y0 }

end Affine2d

/-- Modelled from the spec: `DrawQuad::ShouldDrawWithBlending` (`draw_quad.h` is
not part of the sources at hand): a quad draws with blending when it is flagged
so, when its opacity is below one, or when its blend mode is not SrcOver (the
comment at line 463 names the flag and the opacity). -/
def ShouldDrawWithBlending {T : Type} (quad : DrawQuad T) : Bool :=
  quad.needs_blending || decide (quad.shared_quad_state.opacity < 1) ||
    decide (quad.shared_quad_state.blend_mode ≠ SkBlendMode.kSrcOver)

/-- Modelled from the spec: `DCLayerOverlay::RequiresOverlay`
(`dc_layer_overlay.h` is not part of the sources at hand): hardware-protected
video must be shown by an overlay (the comment at line 152). -/
def RequiresOverlay {T : Type} (dc_layer : DCLayerOverlay T) : Bool :=
  decide (dc_layer.protected_video_type = ProtectedVideoType.kHardwareProtected)

/-- The collaborators over integer affine maps, for given feature flags
(underlays, non-root overlays, complex overlays); every resource is an overlay
candidate except resource 0. -/
def sampleCollaborators (underlays nonroot complex : Bool) : Collaborators Affine2d where
  Preserves2dAxisAlignment := Affine2d.Preserves2dAxisAlignment
  ConcatTransform := Affine2d.ConcatTransform
  FlattenTo2d := fun t => t
  TransformRect := Affine2d.TransformRect
  MapClippedRect := Affine2d.TransformRect
  MapEnclosingClippedRect := fun t r => ToEnclosingRect (Affine2d.TransformRect t (RectF.ofRect r))
  ToNearestRect := fun r => ToEnclosingRect r
  IsOverlayCandidate := fun resource => decide (resource ≠ 0)
  kDirectCompositionUnderlays := underlays
  kDirectCompositionNonrootOverlays := nonroot
  kDirectCompositionComplexOverlays := complex
  ShouldDrawWithBlending := ShouldDrawWithBlending
  RequiresOverlay := RequiresOverlay

/-- The video quad of the scenarios: 100 by 100 at the origin, opaque, normal
blend mode, with the given transform and classification. -/
def sampleVideoQuad (t : Affine2d) (protected_video_type : ProtectedVideoType) :
    DrawQuad Affine2d :=
  { material := Material.YUV_VIDEO_CONTENT
    rect := { width := 100, height := 100 }
    visible_rect := { width := 100, height := 100 }
    shared_quad_state := { quad_to_target_transform := t, opacity := 1 }
    resources := [1, 2, 2]
    protected_video_type := protected_video_type }

/-- A render-pass quad that refers to the pass with the given id. -/
def sampleRenderPassQuad (render_pass_id : RenderPassId) : DrawQuad Affine2d :=
  { material := Material.RENDER_PASS
    rect := { width := 100, height := 100 }
    visible_rect := { width := 100, height := 100 }
    shared_quad_state := { quad_to_target_transform := {}, opacity := 1 }
    render_pass_id := render_pass_id }

/-- An opaque black solid-colour quad, 50 by 50 at the origin. -/
def sampleSolidQuad : DrawQuad Affine2d :=
  { material := Material.SOLID_COLOR
    rect := { width := 50, height := 50 }
    visible_rect := { width := 50, height := 50 }
    shared_quad_state := { quad_to_target_transform := {}, opacity := 1 }
    color := SK_ColorBLACK }

/-- The state of a pass with id 1 and the given quads, on entry to
`ProcessRenderPass` in a frame where nothing has happened yet. -/
def samplePassState (quad_list : List (DrawQuad Affine2d)) : PassState Affine2d :=
  { processor := {}
    render_pass := { id := 1, quad_list := quad_list, transform_to_root_target := {} }
    overlay_damage_rect := {}
    damage_rect := { width := 200, height := 200 }
    dc_layer_overlays := [] }

/-- A frame of one pass with id 1 and the given quads, handed to a processor
that has processed nothing yet. -/
def sampleFrame (quad_list : List (DrawQuad Affine2d)) : FrameState Affine2d :=
  { processor := {}
    render_passes := [{ id := 1, quad_list := quad_list, transform_to_root_target := {} }]
    overlay_damage_rect := {}
    damage_rect := { width := 200, height := 200 }
    dc_layer_overlays := [] }

/-- The display rectangle of the scenarios, 200 by 200 at the origin. -/
def sampleDisplayRect : RectF := { width := 200, height := 200 }

/-! ## Notions used to state the theorems -/

/-- What a stretch of a frame has recorded and emitted: the histogram samples
went from `h0` to `h1` and the candidate list from `d0` to `d1`, both by
appending; the samples with a code other than unsupported-quad carry, in order,
the classifications `videos`; the candidates correspond, in order, to the
samples with the success code; every candidate has z-order 1 or -1. -/
def StretchTrace {T : Type} (h0 : List (ProtectedVideoType × DCLayerResult))
    (d0 : List (DCLayerOverlay T)) (h1 : List (ProtectedVideoType × DCLayerResult))
    (d1 : List (DCLayerOverlay T)) (videos : List ProtectedVideoType) : Prop :=
  ∃ (samples : List (ProtectedVideoType × DCLayerResult)) (added : List (DCLayerOverlay T)),
    h1 = h0 ++ samples ∧
    d1 = d0 ++ added ∧
    (samples.filter fun sample =>
        decide (sample.2 ≠ DCLayerResult.DC_LAYER_FAILED_UNSUPPORTED_QUAD)).map Prod.fst
      = videos ∧
    added.map (fun dc_layer => dc_layer.protected_video_type)
      = (samples.filter fun sample =>
          decide (sample.2 = DCLayerResult.DC_LAYER_SUCCESS)).map Prod.fst ∧
    (∀ dc_layer ∈ added, dc_layer.z_order = 1 ∨ dc_layer.z_order = -1)

/-- The classifications of the video quads of a list, in order. -/
def VideoTags {T : Type} (quad_list : List (DrawQuad T)) : List ProtectedVideoType :=
  (quad_list.filter fun q => decide (q.material = Material.YUV_VIDEO_CONTENT)).map
    fun q => q.protected_video_type

/-- The rectangle `s` holds the rectangle `r`: every edge of `r` lies within `s`. -/
def RectF.Encloses (s r : RectF) : Prop :=
  s.x ≤ r.x ∧ s.y ≤ r.y ∧ r.right ≤ s.right ∧ r.bottom ≤ s.bottom

/-- In the words of the occlusion calculator: a quad above the target is
skipped when its opacity is below epsilon, or when it is a solid-colour quad
that draws with blending and whose alpha over 255 times its opacity is below
epsilon. -/
def OccluderSkipped {T : Type} (env : Collaborators T) (quad : DrawQuad T) : Bool :=
  decide (quad.shared_quad_state.opacity < float_epsilon) ||
    (decide (quad.material = Material.SOLID_COLOR) && env.ShouldDrawWithBlending quad &&
      decide ((SkColorGetA quad.color : ℚ) / 255 * quad.shared_quad_state.opacity
        < float_epsilon))

/-- In the words of the occlusion calculator: the non-empty intersections with
the target of the clipped bounds of the quads that are not skipped. -/
def OcclusionIntersections {T : Type} (env : Collaborators T) (target_quad : RectF)
    (quads : List (DrawQuad T)) : List RectF :=
  ((quads.filter fun quad => !OccluderSkipped env quad).map fun quad =>
    (ClippedQuadRectangle env quad).Intersect target_quad).filter fun r => !r.IsEmpty

/-- The quad at `it` of the root pass is promoted by the underlay tier as the
first promotion of the frame, its transform is axis-aligned and the underlay
tier takes it for opaque: `FromDrawQuad` accepts the quad, the complex-transform
test lets it through, the overlay tier turns it down because the occlusion
bound is not empty, the underlay tier does not reject it, nothing has been
accepted in the frame so far, and the replacement is the opaque one. -/
def FirstRootUnderlay {T : Type} [Inhabited T] (env : Collaborators T) (st : PassState T)
    (it : Nat) : Prop :=
  (FromDrawQuad env st.processor (deref st.render_pass.quad_list it)
      st.render_pass.transform_to_root_target default).1 = DCLayerResult.DC_LAYER_SUCCESS ∧
    ComplexTransformRejected env (deref st.render_pass.quad_list it)
      (FromYUVQuad env (deref st.render_pass.quad_list it)
        st.render_pass.transform_to_root_target) = false ∧
    (GetOcclusionBounds env
      (RectF.ofRect
        (ToEnclosingRect (ClippedQuadRectangle env (deref st.render_pass.quad_list it))))
      (st.render_pass.quad_list.take it)).IsEmpty = false ∧
    ProcessForUnderlayRejection env st it true
      (FromYUVQuad env (deref st.render_pass.quad_list it)
        st.render_pass.transform_to_root_target) = none ∧
    st.processor.processed_overlay_in_frame_ = false ∧
    env.Preserves2dAxisAlignment
      (deref st.render_pass.quad_list it).shared_quad_state.quad_to_target_transform = true ∧
    (ProcessForUnderlayReplace env st.render_pass.quad_list it).2 = true

/-- The loop of `ProcessRenderPass` over a root pass entered in state `st` is,
after some number of iterations, at the quad `it'` in state `st'`. -/
def LoopReaches {T : Type} [Inhabited T] (env : Collaborators T) (display_rect : RectF)
    (st st' : PassState T) (it' : Nat) : Prop :=
  it' < st'.render_pass.quad_list.length ∧
    ∃ k : Nat,
      ProcessQuads env display_rect true k
        { st with this_frame_underlay_rect := {}, this_frame_underlay_occlusion := {} } 0
        = (st', it')

/-- The representation invariant of a `flat_map`: the keys are strictly
increasing, so that no key occurs twice. -/
def PunchThroughMap.Sorted (m : PunchThroughMap) : Prop :=
  List.Pairwise (fun a b => a < b) (m.map Prod.fst)

/-- The clipped bounds of the placeholder that `ProcessRenderPassDrawQuad`
builds for the rectangle `r` from the shared state of the render-pass quad: the
enclosing rectangle of `ClippedQuadRectangle` of a solid-colour quad with rect
`r` and a copy of that shared state with opacity 1. -/
def PlaceholderBounds {T : Type} [Inhabited T] (env : Collaborators T)
    (original_shared_quad_state : SharedQuadState T) (r : Rect) : Rect :=
  ToEnclosingRect
    (ClippedQuadRectangle env
      ((default : DrawQuad T).SetAll { original_shared_quad_state with opacity := 1 } r r false
        SK_ColorTRANSPARENT true))

/-- The loop body of `ProcessRenderPass` (lines 306-353) promotes the quad at
`it` of `render_pass` when `has_hw_overlay_support_` is `has_hw` and
`processed_overlay_in_frame_` is `processed`: `FromDrawQuad` accepts the quad,
the complex-transform test lets it through, and either the overlay tier is
tried and finds the occlusion bound empty, or the underlay tier does not turn
the quad down (its candidate requires an overlay, or underlays are enabled, the
pass is the root or non-root overlays are enabled, the opacity is not below
one and nothing has been accepted in the frame). -/
def TiersPromote {T : Type} [Inhabited T] (env : Collaborators T)
    (is_root has_hw processed : Bool) (render_pass : RenderPass T) (it : Nat) : Prop :=
  (FromDrawQuad env { has_hw_overlay_support_ := has_hw } (deref render_pass.quad_list it)
      render_pass.transform_to_root_target default).1 = DCLayerResult.DC_LAYER_SUCCESS ∧
    ComplexTransformRejected env (deref render_pass.quad_list it)
      (FromYUVQuad env (deref render_pass.quad_list it) render_pass.transform_to_root_target)
        = false ∧
    (((is_root && (!processed ||
          env.RequiresOverlay (FromYUVQuad env (deref render_pass.quad_list it)
            render_pass.transform_to_root_target))) = true ∧
        (GetOcclusionBounds env
          (RectF.ofRect (ToEnclosingRect (ClippedQuadRectangle env (deref render_pass.quad_list it))))
          (render_pass.quad_list.take it)).IsEmpty = true) ∨
      env.RequiresOverlay (FromYUVQuad env (deref render_pass.quad_list it)
        render_pass.transform_to_root_target) = true ∨
      (env.kDirectCompositionUnderlays = true ∧
        (is_root = true ∨ env.kDirectCompositionNonrootOverlays = true) ∧
        ¬ (deref render_pass.quad_list it).shared_quad_state.opacity < 1 ∧
        processed = false))

/-- No quad of any of the passes would be promoted by the loop body of
`ProcessRenderPass` in a frame in which nothing has been accepted yet; the last
pass of the list is the root pass. -/
def PassesSettled {T : Type} [Inhabited T] (env : Collaborators T) (has_hw : Bool) :
    List (RenderPass T) → Prop
  | [] => True
  | pass :: rest =>
    (∀ i, i < pass.quad_list.length → ¬ TiersPromote env rest.isEmpty has_hw false pass i) ∧
      PassesSettled env has_hw rest

/-- The quad at `it` is held back by the limit of one promotion per frame: the
iteration of the loop of `ProcessRenderPass` at `it` appends no candidate, and
the same iteration entered with `processed_overlay_in_frame_` clear appends
one. -/
def HeldBack {T : Type} [Inhabited T] (env : Collaborators T) (display_rect : RectF)
    (is_root : Bool) (st : PassState T) (it : Nat) : Bool :=
  decide ((ProcessQuad env display_rect is_root st it).1.dc_layer_overlays.length
      = st.dc_layer_overlays.length) &&
    decide ((ProcessQuad env display_rect is_root
        { st with processor := { st.processor with processed_overlay_in_frame_ := false } }
        it).1.dc_layer_overlays.length ≠ st.dc_layer_overlays.length)

/-- Some iteration of the loop of `ProcessRenderPass`, run from iterator `it`
for at most `fuel` iterations as in `ProcessQuads`, holds its quad back. -/
def HeldBackInLoop {T : Type} [Inhabited T] (env : Collaborators T) (display_rect : RectF)
    (is_root : Bool) : Nat → PassState T → Nat → Bool
  | 0, _, _ => false
  | fuel + 1, st, it =>
    if it < st.render_pass.quad_list.length then
      HeldBack env display_rect is_root st it ||
        HeldBackInLoop env display_rect is_root fuel
          (ProcessQuad env display_rect is_root st it).1
          (ProcessQuad env display_rect is_root st it).2
    else false

/-- Some iteration of the loops that `ProcessPasses` runs over the passes
still to visit holds its quad back; the state in which each pass is entered is
the one `ProcessPass` and `ProcessRenderPass` build. -/
def HeldBackInPasses {T : Type} [Inhabited T] (env : Collaborators T) (display_rect : RectF) :
    List (RenderPass T) → FrameState T → Bool
  | [], _ => false
  | pass :: rest, fs =>
    HeldBackInLoop env display_rect rest.isEmpty pass.quad_list.length
        { processor := fs.processor
          render_pass := pass
          overlay_damage_rect := fs.overlay_damage_rect
          damage_rect := if rest.isEmpty then fs.damage_rect else pass.damage_rect
          dc_layer_overlays := fs.dc_layer_overlays
          this_frame_underlay_rect := {}
          this_frame_underlay_occlusion := {}
          histograms := fs.histograms } 0 ||
      HeldBackInPasses env display_rect rest
        { (ProcessPass env display_rect rest.isEmpty fs pass).1 with
          render_passes := (ProcessPass env display_rect rest.isEmpty fs pass).1.render_passes
            ++ [(ProcessPass env display_rect rest.isEmpty fs pass).2] }

/-- Some iteration of `Process` on the frame holds its quad back: a quad is
turned down that would have been promoted had no promotion been accepted
earlier in the frame. -/
def HeldBackInFrame {T : Type} [Inhabited T] (env : Collaborators T) (display_rect : RectF)
    (fs : FrameState T) : Bool :=
  HeldBackInPasses env display_rect fs.render_passes
    { fs with
      processor :=
        { fs.processor with
          processed_overlay_in_frame_ := false, pass_punch_through_rects_ := [] }
      render_passes := [] }

end Viz

/-! ## Theorems -/

namespace Viz

section Theorems

variable {T : Type}

/-! ### Eligibility: `FromDrawQuad` -/

theorem FromYUVQuad_protected_video_type (env : Collaborators T) (quad : DrawQuad T) (t : T) :
    (FromYUVQuad env quad t).protected_video_type = quad.protected_video_type := rfl

theorem FromDrawQuad_video (env : Collaborators T) (processor : DCLayerOverlayProcessor)
    (quad : DrawQuad T) (t : T) (dc : DCLayerOverlay T)
    (h : (FromDrawQuad env processor quad t dc).1 = DCLayerResult.DC_LAYER_SUCCESS) :
    quad.material = Material.YUV_VIDEO_CONTENT ∧
      (FromDrawQuad env processor quad t dc).2 = FromYUVQuad env quad t := by
  unfold FromDrawQuad at h ⊢
  by_cases hm : quad.material = Material.YUV_VIDEO_CONTENT
  · simp only [hm, ne_eq, not_true_eq_false, if_false] at h ⊢
    refine ⟨trivial, ?_⟩
    split_ifs <;> rfl
  · simp [hm] at h

/-- C4. `FromDrawQuad` returns the first failure of a fixed cascade: the
unsupported-material code for a quad that is not a video quad; else the
blend-mode code when the blend mode is not SrcOver and the content is not
hardware-protected; else the resource code when some resource is not an overlay
candidate; else the no-hardware code when hardware overlay support is absent
and the content is not software-protected; else success. Success is returned
exactly when none of the four conditions holds. -/
theorem FromDrawQuad_cascade (env : Collaborators T) (processor : DCLayerOverlayProcessor)
    (quad : DrawQuad T) (t : T) (dc : DCLayerOverlay T) :
    let result := (FromDrawQuad env processor quad t dc).1
    let not_video := quad.material ≠ Material.YUV_VIDEO_CONTENT
    let bad_blend := quad.shared_quad_state.blend_mode ≠ SkBlendMode.kSrcOver ∧
      quad.protected_video_type ≠ ProtectedVideoType.kHardwareProtected
    let bad_resource := ∃ resource ∈ quad.resources, env.IsOverlayCandidate resource = false
    let no_hardware := processor.has_hw_overlay_support_ = false ∧
      quad.protected_video_type ≠ ProtectedVideoType.kSoftwareProtected
    (not_video → result = DCLayerResult.DC_LAYER_FAILED_UNSUPPORTED_QUAD) ∧
    (¬ not_video → bad_blend → result = DCLayerResult.DC_LAYER_FAILED_QUAD_BLEND_MODE) ∧
    (¬ not_video → ¬ bad_blend → bad_resource →
      result = DCLayerResult.DC_LAYER_FAILED_TEXTURE_NOT_CANDIDATE) ∧
    (¬ not_video → ¬ bad_blend → ¬ bad_resource → no_hardware →
      result = DCLayerResult.DC_LAYER_FAILED_NO_HW_OVERLAY_SUPPORT) ∧
    (¬ not_video → ¬ bad_blend → ¬ bad_resource → ¬ no_hardware →
      result = DCLayerResult.DC_LAYER_SUCCESS) ∧
    (result = DCLayerResult.DC_LAYER_SUCCESS ↔
      ¬ not_video ∧ ¬ bad_blend ∧ ¬ bad_resource ∧ ¬ no_hardware) := by
  intro result not_video bad_blend bad_resource no_hardware
  have hany : (quad.resources.any fun resource => !env.IsOverlayCandidate resource) = true ↔
      bad_resource := by
    simp [bad_resource, List.any_eq_true]
  have key : result =
      if not_video then DCLayerResult.DC_LAYER_FAILED_UNSUPPORTED_QUAD
      else if bad_blend then DCLayerResult.DC_LAYER_FAILED_QUAD_BLEND_MODE
      else if bad_resource then DCLayerResult.DC_LAYER_FAILED_TEXTURE_NOT_CANDIDATE
      else if no_hardware then DCLayerResult.DC_LAYER_FAILED_NO_HW_OVERLAY_SUPPORT
      else DCLayerResult.DC_LAYER_SUCCESS := by
    simp only [result, FromDrawQuad, FromYUVQuad_protected_video_type]
    by_cases h1 : not_video
    · simp only [not_video] at h1
      simp [h1, not_video]
    · by_cases h2 : bad_blend
      · simp only [not_video, bad_blend] at h1 h2
        simp [h1, h2, not_video, bad_blend]
      · by_cases h3 : bad_resource
        · have h3a := hany.mpr h3
          simp only [not_video, bad_blend] at h1 h2
          rw [if_neg h1, if_neg h2, if_pos h3a, if_neg h1, if_neg h2, if_pos h3]
        · have h3a : ¬ (quad.resources.any fun resource => !env.IsOverlayCandidate resource)
              = true := fun h => h3 (hany.mp h)
          by_cases h4 : no_hardware
          · simp only [not_video, bad_blend, no_hardware] at h1 h2 h4
            rw [if_neg h1, if_neg h2, if_neg h3a, if_pos h4, if_neg h1, if_neg h2, if_neg h3,
              if_pos h4]
          · simp only [not_video, bad_blend, no_hardware] at h1 h2 h4
            rw [if_neg h1, if_neg h2, if_neg h3a, if_neg h4, if_neg h1, if_neg h2, if_neg h3,
              if_neg h4]
  refine ⟨?_, ?_, ?_, ?_, ?_, ?_⟩
  · intro h1; rw [key, if_pos h1]
  · intro h1 h2; rw [key, if_neg h1, if_pos h2]
  · intro h1 h2 h3; rw [key, if_neg h1, if_neg h2, if_pos h3]
  · intro h1 h2 h3 h4; rw [key, if_neg h1, if_neg h2, if_neg h3, if_pos h4]
  · intro h1 h2 h3 h4; rw [key, if_neg h1, if_neg h2, if_neg h3, if_neg h4]
  · rw [key]
    constructor
    · intro h
      split_ifs at h with h1 h2 h3 h4
      exact ⟨h1, h2, h3, h4⟩
    · rintro ⟨h1, h2, h3, h4⟩
      rw [if_neg h1, if_neg h2, if_neg h3, if_neg h4]

/-! ### The two tiers -/

theorem ProcessForOverlay_fst (env : Collaborators T) [Inhabited T] (display_rect : RectF)
    (quad_rectangle : Rect) (occlusion_bounding_box : RectF) (st : PassState T) (it : Nat) :
    (ProcessForOverlay env display_rect quad_rectangle occlusion_bounding_box st it).1 =
      occlusion_bounding_box.IsEmpty := by
  unfold ProcessForOverlay
  cases occlusion_bounding_box.IsEmpty <;> simp

theorem ProcessForOverlay_false (env : Collaborators T) [Inhabited T] (display_rect : RectF)
    (quad_rectangle : Rect) (occlusion_bounding_box : RectF) (st : PassState T) (it : Nat)
    (h : (ProcessForOverlay env display_rect quad_rectangle occlusion_bounding_box st it).1
      = false) :
    ProcessForOverlay env display_rect quad_rectangle occlusion_bounding_box st it
      = (false, st, it) := by
  rw [ProcessForOverlay_fst] at h
  unfold ProcessForOverlay
  simp [h]

theorem ProcessForUnderlay_rejected (env : Collaborators T) [Inhabited T] (display_rect : RectF)
    (quad_rectangle : Rect) (occlusion_bounding_box : RectF) (it : Nat) (is_root : Bool)
    (st : PassState T) (dc_layer : DCLayerOverlay T) (result : DCLayerResult)
    (h : ProcessForUnderlayRejection env st it is_root dc_layer = some result) :
    ProcessForUnderlay env display_rect quad_rectangle occlusion_bounding_box it is_root st
      dc_layer = (false, RecordDCLayerResult result dc_layer.protected_video_type st, dc_layer) := by
  simp only [ProcessForUnderlay, h]

theorem ProcessForUnderlay_fst (env : Collaborators T) [Inhabited T] (display_rect : RectF)
    (quad_rectangle : Rect) (occlusion_bounding_box : RectF) (it : Nat) (is_root : Bool)
    (st : PassState T) (dc_layer : DCLayerOverlay T) :
    (ProcessForUnderlay env display_rect quad_rectangle occlusion_bounding_box it is_root st
      dc_layer).1 = (ProcessForUnderlayRejection env st it is_root dc_layer).isNone := by
  unfold ProcessForUnderlay
  cases ProcessForUnderlayRejection env st it is_root dc_layer <;> rfl

theorem ProcessForUnderlayRejection_codes (env : Collaborators T) [Inhabited T]
    (st : PassState T) (it : Nat) (is_root : Bool) (dc_layer : DCLayerOverlay T)
    (result : DCLayerResult)
    (h : ProcessForUnderlayRejection env st it is_root dc_layer = some result) :
    env.RequiresOverlay dc_layer = false ∧
    (result = DCLayerResult.DC_LAYER_FAILED_OCCLUDED ∨
      result = DCLayerResult.DC_LAYER_FAILED_NON_ROOT ∨
      result = DCLayerResult.DC_LAYER_FAILED_TRANSPARENT ∨
      result = DCLayerResult.DC_LAYER_FAILED_TOO_MANY_OVERLAYS) := by
  unfold ProcessForUnderlayRejection at h
  split_ifs at h with h1 h2 h3 h4 h5
  all_goals first
    | (cases h; done)
    | (cases h; exact ⟨by simpa using h1, by simp⟩)

theorem ProcessTiers_rejected (env : Collaborators T) [Inhabited T] (display_rect : RectF)
    (is_root : Bool) (quad_rectangle : Rect) (occlusion_bounding_box : RectF) (st : PassState T)
    (it : Nat) (dc_layer : DCLayerOverlay T)
    (h : (ProcessTiers env display_rect is_root quad_rectangle occlusion_bounding_box st it
      dc_layer).1 = false) :
    ∃ result, ProcessForUnderlayRejection env st it is_root dc_layer = some result ∧
      ProcessTiers env display_rect is_root quad_rectangle occlusion_bounding_box st it dc_layer
        = (false, RecordDCLayerResult result dc_layer.protected_video_type st, it + 1,
            dc_layer) := by
  unfold ProcessTiers at h ⊢
  -- the overlay tier, tried or not, has returned false and left the state alone
  have hov : (if (is_root && (!st.processor.processed_overlay_in_frame_ ||
        env.RequiresOverlay dc_layer)) = true then
        ProcessForOverlay env display_rect quad_rectangle occlusion_bounding_box st it
      else (false, st, it)) = (false, st, it) := by
    split_ifs with hc
    · apply ProcessForOverlay_false
      by_contra hne
      simp only [if_pos hc] at h
      rw [Bool.not_eq_false] at hne
      simp [hne] at h
    · rfl
  simp only [hov] at h ⊢
  simp only [Bool.false_eq_true, if_false] at h ⊢
  rw [ProcessForUnderlay_fst] at h
  cases hr : ProcessForUnderlayRejection env st it is_root dc_layer with
  | none => simp [hr] at h
  | some result =>
    refine ⟨result, rfl, ?_⟩
    rw [ProcessForUnderlay_rejected env display_rect quad_rectangle occlusion_bounding_box it
      is_root st dc_layer result hr]

theorem ProcessTiers_fst_false (env : Collaborators T) [Inhabited T] (display_rect : RectF)
    (is_root : Bool) (quad_rectangle : Rect) (occlusion_bounding_box : RectF) (st : PassState T)
    (it : Nat) (dc_layer : DCLayerOverlay T)
    (hov : (is_root && (!st.processor.processed_overlay_in_frame_ ||
        env.RequiresOverlay dc_layer)) = false ∨
      (ProcessForOverlay env display_rect quad_rectangle occlusion_bounding_box st it).1 = false)
    (hun : (ProcessForUnderlay env display_rect quad_rectangle occlusion_bounding_box it is_root
      st dc_layer).1 = false) :
    (ProcessTiers env display_rect is_root quad_rectangle occlusion_bounding_box st it
      dc_layer).1 = false := by
  have hval : (if (is_root && (!st.processor.processed_overlay_in_frame_ ||
        env.RequiresOverlay dc_layer)) = true then
        ProcessForOverlay env display_rect quad_rectangle occlusion_bounding_box st it
      else (false, st, it)) = (false, st, it) := by
    rcases hov with h | h
    · rw [h]; rfl
    · split_ifs
      · exact ProcessForOverlay_false _ _ _ _ _ _ h
      · rfl
  unfold ProcessTiers
  simp only [hval, Bool.false_eq_true, if_false]
  exact hun

theorem ProcessForUnderlay_accepted (env : Collaborators T) [Inhabited T] (display_rect : RectF)
    (quad_rectangle : Rect) (occlusion_bounding_box : RectF) (it : Nat) (is_root : Bool)
    (st : PassState T) (dc_layer : DCLayerOverlay T)
    (h : ProcessForUnderlayRejection env st it is_root dc_layer = none) :
    let underlay := ProcessForUnderlay env display_rect quad_rectangle occlusion_bounding_box it
      is_root st dc_layer
    underlay.1 = true ∧
      underlay.2.2 = { dc_layer with z_order := -1 } ∧
      underlay.2.1.render_pass.quad_list
        = (ProcessForUnderlayReplace env st.render_pass.quad_list it).1 ∧
      underlay.2.1.render_pass.id = st.render_pass.id ∧
      underlay.2.1.render_pass.transform_to_root_target
        = st.render_pass.transform_to_root_target ∧
      underlay.2.1.histograms = st.histograms ∧
      underlay.2.1.dc_layer_overlays = st.dc_layer_overlays ∧
      underlay.2.1.overlay_damage_rect = st.overlay_damage_rect ∧
      underlay.2.1.processor.processed_overlay_in_frame_
        = st.processor.processed_overlay_in_frame_ := by
  unfold ProcessForUnderlay
  rw [h]
  exact ⟨rfl, rfl, rfl, rfl, rfl, rfl, rfl, rfl, rfl⟩

theorem ProcessForOverlay_accepted (env : Collaborators T) [Inhabited T] (display_rect : RectF)
    (quad_rectangle : Rect) (occlusion_bounding_box : RectF) (st : PassState T) (it : Nat)
    (h : occlusion_bounding_box.IsEmpty = true) :
    let overlay := ProcessForOverlay env display_rect quad_rectangle occlusion_bounding_box st it
    overlay.1 = true ∧
      overlay.2.2 = it ∧
      overlay.2.1.render_pass.quad_list = st.render_pass.quad_list.eraseIdx it ∧
      overlay.2.1.render_pass.id = st.render_pass.id ∧
      overlay.2.1.render_pass.transform_to_root_target
        = st.render_pass.transform_to_root_target ∧
      overlay.2.1.histograms = st.histograms ∧
      overlay.2.1.dc_layer_overlays = st.dc_layer_overlays ∧
      overlay.2.1.overlay_damage_rect = st.overlay_damage_rect ∧
      overlay.2.1.processor = st.processor := by
  unfold ProcessForOverlay
  rw [h]
  exact ⟨rfl, rfl, rfl, rfl, rfl, rfl, rfl, rfl, rfl⟩

theorem ProcessTiers_overlay (env : Collaborators T) [Inhabited T] (display_rect : RectF)
    (is_root : Bool) (quad_rectangle : Rect) (occlusion_bounding_box : RectF) (st : PassState T)
    (it : Nat) (dc_layer : DCLayerOverlay T)
    (hatt : (is_root && (!st.processor.processed_overlay_in_frame_ ||
      env.RequiresOverlay dc_layer)) = true)
    (hocc : occlusion_bounding_box.IsEmpty = true) :
    ProcessTiers env display_rect is_root quad_rectangle occlusion_bounding_box st it dc_layer
      = (true,
          (ProcessForOverlay env display_rect quad_rectangle occlusion_bounding_box st it).2.1,
          it, dc_layer) := by
  obtain ⟨ha, hb, -⟩ := ProcessForOverlay_accepted env display_rect quad_rectangle
    occlusion_bounding_box st it hocc
  unfold ProcessTiers
  simp only [hatt, if_true, ha, hb]

theorem ProcessTiers_underlay (env : Collaborators T) [Inhabited T] (display_rect : RectF)
    (is_root : Bool) (quad_rectangle : Rect) (occlusion_bounding_box : RectF) (st : PassState T)
    (it : Nat) (dc_layer : DCLayerOverlay T)
    (hov : (is_root && (!st.processor.processed_overlay_in_frame_ ||
        env.RequiresOverlay dc_layer)) = false ∨ occlusion_bounding_box.IsEmpty = false) :
    ProcessTiers env display_rect is_root quad_rectangle occlusion_bounding_box st it dc_layer
      = ((ProcessForUnderlay env display_rect quad_rectangle occlusion_bounding_box it is_root
            st dc_layer).1,
          (ProcessForUnderlay env display_rect quad_rectangle occlusion_bounding_box it is_root
            st dc_layer).2.1,
          it + 1,
          (ProcessForUnderlay env display_rect quad_rectangle occlusion_bounding_box it is_root
            st dc_layer).2.2) := by
  have hval : (if (is_root && (!st.processor.processed_overlay_in_frame_ ||
        env.RequiresOverlay dc_layer)) = true then
        ProcessForOverlay env display_rect quad_rectangle occlusion_bounding_box st it
      else (false, st, it)) = (false, st, it) := by
    rcases hov with h | h
    · rw [h]; rfl
    · split_ifs
      · apply ProcessForOverlay_false
        rw [ProcessForOverlay_fst]
        exact h
      · rfl
  unfold ProcessTiers
  simp only [hval, Bool.false_eq_true, if_false]

/-- The three outcomes of the two tiers: the overlay tier accepts, the underlay
tier accepts, or the underlay tier rejects. -/
theorem ProcessTiers_cases (env : Collaborators T) [Inhabited T] (display_rect : RectF)
    (is_root : Bool) (quad_rectangle : Rect) (occlusion_bounding_box : RectF) (st : PassState T)
    (it : Nat) (dc_layer : DCLayerOverlay T) :
    ((is_root && (!st.processor.processed_overlay_in_frame_ || env.RequiresOverlay dc_layer))
        = true ∧ occlusion_bounding_box.IsEmpty = true ∧
      ProcessTiers env display_rect is_root quad_rectangle occlusion_bounding_box st it dc_layer
        = (true,
            (ProcessForOverlay env display_rect quad_rectangle occlusion_bounding_box st it).2.1,
            it, dc_layer)) ∨
    (ProcessForUnderlayRejection env st it is_root dc_layer = none ∧
      ProcessTiers env display_rect is_root quad_rectangle occlusion_bounding_box st it dc_layer
        = (true,
            (ProcessForUnderlay env display_rect quad_rectangle occlusion_bounding_box it is_root
              st dc_layer).2.1,
            it + 1, { dc_layer with z_order := -1 })) ∨
    (∃ result, ProcessForUnderlayRejection env st it is_root dc_layer = some result ∧
      ProcessTiers env display_rect is_root quad_rectangle occlusion_bounding_box st it dc_layer
        = (false, RecordDCLayerResult result dc_layer.protected_video_type st, it + 1,
            dc_layer)) := by
  by_cases hov : (is_root && (!st.processor.processed_overlay_in_frame_ ||
      env.RequiresOverlay dc_layer)) = true ∧ occlusion_bounding_box.IsEmpty = true
  · left
    obtain ⟨h1, h2⟩ := hov
    obtain ⟨ha, hb, -⟩ := ProcessForOverlay_accepted env display_rect quad_rectangle
      occlusion_bounding_box st it h2
    refine ⟨h1, h2, ?_⟩
    unfold ProcessTiers
    simp only [h1, if_true, ha, hb]
  · right
    have hval : (if (is_root && (!st.processor.processed_overlay_in_frame_ ||
          env.RequiresOverlay dc_layer)) = true then
          ProcessForOverlay env display_rect quad_rectangle occlusion_bounding_box st it
        else (false, st, it)) = (false, st, it) := by
      split_ifs with hc
      · apply ProcessForOverlay_false
        rw [ProcessForOverlay_fst]
        by_contra hne
        exact hov ⟨hc, by simpa using hne⟩
      · rfl
    cases hr : ProcessForUnderlayRejection env st it is_root dc_layer with
    | none =>
      left
      obtain ⟨ha, hb, -⟩ := ProcessForUnderlay_accepted env display_rect quad_rectangle
        occlusion_bounding_box it is_root st dc_layer hr
      refine ⟨rfl, ?_⟩
      unfold ProcessTiers
      simp only [hval, Bool.false_eq_true, if_false, ha, hb]
    | some result =>
      right
      refine ⟨result, rfl, ?_⟩
      unfold ProcessTiers
      simp only [hval, Bool.false_eq_true, if_false]
      rw [ProcessForUnderlay_rejected env display_rect quad_rectangle occlusion_bounding_box it
        is_root st dc_layer result hr]

/-! ### One iteration of the loop of `ProcessRenderPass` -/

theorem ProcessQuad_not_eligible (env : Collaborators T) [Inhabited T] (display_rect : RectF)
    (is_root : Bool) (st : PassState T) (it : Nat)
    (hmat : (deref st.render_pass.quad_list it).material ≠ Material.RENDER_PASS)
    (h : (FromDrawQuad env st.processor (deref st.render_pass.quad_list it)
      st.render_pass.transform_to_root_target default).1 ≠ DCLayerResult.DC_LAYER_SUCCESS) :
    ProcessQuad env display_rect is_root st it =
      (RecordDCLayerResult
        (FromDrawQuad env st.processor (deref st.render_pass.quad_list it)
          st.render_pass.transform_to_root_target default).1
        (FromDrawQuad env st.processor (deref st.render_pass.quad_list it)
          st.render_pass.transform_to_root_target default).2.protected_video_type st,
        it + 1) := by
  unfold ProcessQuad
  simp only [if_neg hmat, if_pos h]

theorem ProcessQuad_eligible (env : Collaborators T) [Inhabited T] (display_rect : RectF)
    (is_root : Bool) (st : PassState T) (it : Nat)
    (h : (FromDrawQuad env st.processor (deref st.render_pass.quad_list it)
      st.render_pass.transform_to_root_target default).1 = DCLayerResult.DC_LAYER_SUCCESS) :
    ProcessQuad env display_rect is_root st it =
      let quad := deref st.render_pass.quad_list it
      let dc_layer := FromYUVQuad env quad st.render_pass.transform_to_root_target
      if ComplexTransformRejected env quad dc_layer then
        (RecordDCLayerResult DCLayerResult.DC_LAYER_FAILED_COMPLEX_TRANSFORM
          quad.protected_video_type st, it + 1)
      else
        let quad_rectangle := ToEnclosingRect (ClippedQuadRectangle env quad)
        let occlusion_bounding_box :=
          GetOcclusionBounds env (RectF.ofRect quad_rectangle) (st.render_pass.quad_list.take it)
        let tiers :=
          ProcessTiers env display_rect is_root quad_rectangle occlusion_bounding_box st it
            dc_layer
        if tiers.1 then (RecordPromotion env quad_rectangle tiers.2.1 tiers.2.2.2, tiers.2.2.1)
        else (tiers.2.1, tiers.2.2.1) := by
  obtain ⟨hvideo, hdc⟩ := FromDrawQuad_video env st.processor _ _ _ h
  have hmat : (deref st.render_pass.quad_list it).material ≠ Material.RENDER_PASS := by
    rw [hvideo]; decide
  unfold ProcessQuad
  simp only [if_neg hmat, h, hdc, ne_eq, not_true_eq_false, if_false,
    FromYUVQuad_protected_video_type]

/-- C3. A quad that is rejected, because `FromDrawQuad` returns a code other
than success, or the complex-transform test turns it down, or the underlay
tier returns false after the overlay tier was not tried or returned false,
leaves the quad sequence of the pass, the damage rectangle, the overlay damage
rectangle, the output candidate list, the punch-through map and the
accepted-this-frame flag unchanged: the one effect is the histogram sample of
the rejection, and the traversal moves on to the next quad. -/
theorem rejected_quad_leaves_state (env : Collaborators T) [Inhabited T] (display_rect : RectF)
    (is_root : Bool) (st : PassState T) (it : Nat)
    (hmat : (deref st.render_pass.quad_list it).material ≠ Material.RENDER_PASS)
    (hrej :
      (FromDrawQuad env st.processor (deref st.render_pass.quad_list it)
        st.render_pass.transform_to_root_target default).1 ≠ DCLayerResult.DC_LAYER_SUCCESS ∨
      ComplexTransformRejected env (deref st.render_pass.quad_list it)
        (FromYUVQuad env (deref st.render_pass.quad_list it)
          st.render_pass.transform_to_root_target) = true ∨
      (((is_root && (!st.processor.processed_overlay_in_frame_ ||
            env.RequiresOverlay (FromYUVQuad env (deref st.render_pass.quad_list it)
              st.render_pass.transform_to_root_target))) = false ∨
          (ProcessForOverlay env display_rect
            (ToEnclosingRect (ClippedQuadRectangle env (deref st.render_pass.quad_list it)))
            (GetOcclusionBounds env
              (RectF.ofRect
                (ToEnclosingRect (ClippedQuadRectangle env (deref st.render_pass.quad_list it))))
              (st.render_pass.quad_list.take it)) st it).1 = false) ∧
        (ProcessForUnderlay env display_rect
          (ToEnclosingRect (ClippedQuadRectangle env (deref st.render_pass.quad_list it)))
          (GetOcclusionBounds env
            (RectF.ofRect
              (ToEnclosingRect (ClippedQuadRectangle env (deref st.render_pass.quad_list it))))
            (st.render_pass.quad_list.take it)) it is_root st
          (FromYUVQuad env (deref st.render_pass.quad_list it)
            st.render_pass.transform_to_root_target)).1 = false)) :
    (ProcessQuad env display_rect is_root st it).1.render_pass.quad_list
        = st.render_pass.quad_list ∧
      (ProcessQuad env display_rect is_root st it).1.damage_rect = st.damage_rect ∧
      (ProcessQuad env display_rect is_root st it).1.overlay_damage_rect
        = st.overlay_damage_rect ∧
      (ProcessQuad env display_rect is_root st it).1.dc_layer_overlays = st.dc_layer_overlays ∧
      (ProcessQuad env display_rect is_root st it).1.processor.pass_punch_through_rects_
        = st.processor.pass_punch_through_rects_ ∧
      (ProcessQuad env display_rect is_root st it).1.processor.processed_overlay_in_frame_
        = st.processor.processed_overlay_in_frame_ ∧
      (∃ result protected_video_type, result ≠ DCLayerResult.DC_LAYER_SUCCESS ∧
        ProcessQuad env display_rect is_root st it
          = (RecordDCLayerResult result protected_video_type st, it + 1)) := by
  have key : ∃ result protected_video_type, result ≠ DCLayerResult.DC_LAYER_SUCCESS ∧
      ProcessQuad env display_rect is_root st it
        = (RecordDCLayerResult result protected_video_type st, it + 1) := by
    by_cases hfrom : (FromDrawQuad env st.processor (deref st.render_pass.quad_list it)
        st.render_pass.transform_to_root_target default).1 = DCLayerResult.DC_LAYER_SUCCESS
    · rw [ProcessQuad_eligible env display_rect is_root st it hfrom]
      simp only []
      rcases hrej with h1 | h2 | ⟨h3, h4⟩
      · exact absurd hfrom h1
      · rw [if_pos h2]
        exact ⟨_, _, by decide, rfl⟩
      · split_ifs with hc ht
        · exact ⟨_, _, by decide, rfl⟩
        · -- a tier accepted the quad: against the hypothesis
          exfalso
          have hf := ProcessTiers_fst_false env display_rect is_root _ _ st it _ h3 h4
          rw [hf] at ht
          exact Bool.false_ne_true ht
        · have hf : (ProcessTiers env display_rect is_root
              (ToEnclosingRect (ClippedQuadRectangle env (deref st.render_pass.quad_list it)))
              (GetOcclusionBounds env
                (RectF.ofRect (ToEnclosingRect
                  (ClippedQuadRectangle env (deref st.render_pass.quad_list it))))
                (st.render_pass.quad_list.take it)) st it
              (FromYUVQuad env (deref st.render_pass.quad_list it)
                st.render_pass.transform_to_root_target)).1 = false := by
            simpa using ht
          obtain ⟨result, hr, heq⟩ := ProcessTiers_rejected _ _ _ _ _ _ _ _ hf
          obtain ⟨-, hcodes⟩ := ProcessForUnderlayRejection_codes _ _ _ _ _ _ hr
          refine ⟨result, (deref st.render_pass.quad_list it).protected_video_type, ?_, ?_⟩
          · rcases hcodes with h | h | h | h <;> rw [h] <;> decide
          · rw [heq]
            rfl
    · exact ⟨_, _, hfrom, ProcessQuad_not_eligible env display_rect is_root st it hmat hfrom⟩
  obtain ⟨result, pvt, hne, heq⟩ := key
  refine ⟨?_, ?_, ?_, ?_, ?_, ?_, ⟨result, pvt, hne, heq⟩⟩ <;> rw [heq] <;> rfl

theorem rejected_quad_leaves_state_witness :
    (deref (samplePassState [sampleVideoQuad Affine2d.shear ProtectedVideoType.kClear]).render_pass.quad_list
        0).material ≠ Material.RENDER_PASS ∧
      ComplexTransformRejected (sampleCollaborators true true false)
        (sampleVideoQuad Affine2d.shear ProtectedVideoType.kClear)
        (FromYUVQuad (sampleCollaborators true true false)
          (sampleVideoQuad Affine2d.shear ProtectedVideoType.kClear) {}) = true ∧
      (ProcessQuad (sampleCollaborators true true false) sampleDisplayRect true
        (samplePassState [sampleVideoQuad Affine2d.shear ProtectedVideoType.kClear])
        0).1.render_pass.quad_list = [sampleVideoQuad Affine2d.shear ProtectedVideoType.kClear] :=
  ⟨by decide, by decide,
    (rejected_quad_leaves_state (sampleCollaborators true true false) sampleDisplayRect true
      (samplePassState [sampleVideoQuad Affine2d.shear ProtectedVideoType.kClear]) 0
      (by decide) (Or.inr (Or.inl (by decide)))).1⟩

/-- C5. For a video quad that passes `FromDrawQuad`: when its quad-to-target
transform does not preserve axis alignment, the candidate does not require an
overlay and the complex-overlay capability is off, the iteration records the
complex-transform code and does nothing else (the state is otherwise the one
before, so the quad stays in the pass and neither tier has run), and the
traversal moves to the next quad; when one of the three conditions fails, the
one sample the iteration records is not the complex-transform code. -/
theorem complex_transform_rejection (env : Collaborators T) [Inhabited T] (display_rect : RectF)
    (is_root : Bool) (st : PassState T) (it : Nat)
    (h : (FromDrawQuad env st.processor (deref st.render_pass.quad_list it)
      st.render_pass.transform_to_root_target default).1 = DCLayerResult.DC_LAYER_SUCCESS) :
    let quad := deref st.render_pass.quad_list it
    let dc_layer := FromYUVQuad env quad st.render_pass.transform_to_root_target
    let complex :=
      env.Preserves2dAxisAlignment quad.shared_quad_state.quad_to_target_transform = false ∧
        env.RequiresOverlay dc_layer = false ∧ env.kDirectCompositionComplexOverlays = false
    (complex →
      ProcessQuad env display_rect is_root st it
        = (RecordDCLayerResult DCLayerResult.DC_LAYER_FAILED_COMPLEX_TRANSFORM
            quad.protected_video_type st, it + 1) ∧
      (ProcessQuad env display_rect is_root st it).1.render_pass.quad_list
        = st.render_pass.quad_list) ∧
    (¬ complex →
      ∃ result, result ≠ DCLayerResult.DC_LAYER_FAILED_COMPLEX_TRANSFORM ∧
        (ProcessQuad env display_rect is_root st it).1.histograms
          = st.histograms ++ [(quad.protected_video_type, result)]) := by
  intro quad dc_layer complex
  have hiff : ComplexTransformRejected env quad dc_layer = true ↔ complex := by
    simp [ComplexTransformRejected, complex, and_assoc]
  rw [ProcessQuad_eligible env display_rect is_root st it h]
  simp only []
  constructor
  · intro hc
    rw [if_pos (hiff.mpr hc)]
    exact ⟨rfl, rfl⟩
  · intro hc
    rw [if_neg (fun hx => hc (hiff.mp hx))]
    rcases ProcessTiers_cases env display_rect is_root
      (ToEnclosingRect (ClippedQuadRectangle env quad))
      (GetOcclusionBounds env (RectF.ofRect (ToEnclosingRect (ClippedQuadRectangle env quad)))
        (st.render_pass.quad_list.take it)) st it dc_layer with
      ⟨-, hocc, heq⟩ | ⟨hnone, heq⟩ | ⟨result, hsome, heq⟩
    · obtain ⟨-, -, -, -, -, hh, -⟩ := ProcessForOverlay_accepted env display_rect
        (ToEnclosingRect (ClippedQuadRectangle env quad)) _ st it hocc
      refine ⟨DCLayerResult.DC_LAYER_SUCCESS, by decide, ?_⟩
      rw [heq]
      simp only [if_true, RecordPromotion, RecordDCLayerResult, hh]
      rfl
    · obtain ⟨-, -, -, -, -, hh, -⟩ := ProcessForUnderlay_accepted env display_rect
        (ToEnclosingRect (ClippedQuadRectangle env quad))
        (GetOcclusionBounds env (RectF.ofRect (ToEnclosingRect (ClippedQuadRectangle env quad)))
          (st.render_pass.quad_list.take it)) it is_root st dc_layer hnone
      refine ⟨DCLayerResult.DC_LAYER_SUCCESS, by decide, ?_⟩
      rw [heq]
      simp only [if_true, RecordPromotion, RecordDCLayerResult, hh]
      rfl
    · obtain ⟨-, hcodes⟩ := ProcessForUnderlayRejection_codes _ _ _ _ _ _ hsome
      refine ⟨result, ?_, ?_⟩
      · rcases hcodes with hx | hx | hx | hx <;> rw [hx] <;> decide
      · rw [heq]
        rfl

theorem complex_transform_rejection_witness :
    (FromDrawQuad (sampleCollaborators true true false) {}
        (sampleVideoQuad Affine2d.shear ProtectedVideoType.kClear) {} default).1
        = DCLayerResult.DC_LAYER_SUCCESS ∧
      (ProcessQuad (sampleCollaborators true true false) sampleDisplayRect true
        (samplePassState [sampleVideoQuad Affine2d.shear ProtectedVideoType.kClear]) 0).1.histograms
        = [(ProtectedVideoType.kClear, DCLayerResult.DC_LAYER_FAILED_COMPLEX_TRANSFORM)] :=
  ⟨by decide,
    congrArg (fun r => r.1.histograms)
      ((complex_transform_rejection (sampleCollaborators true true false) sampleDisplayRect true
        (samplePassState [sampleVideoQuad Affine2d.shear ProtectedVideoType.kClear]) 0
        (by decide)).1 ⟨by decide, by decide, by decide⟩).1⟩

theorem ProcessQuad_overlay (env : Collaborators T) [Inhabited T] (display_rect : RectF)
    (is_root : Bool) (st : PassState T) (it : Nat)
    (h : (FromDrawQuad env st.processor (deref st.render_pass.quad_list it)
      st.render_pass.transform_to_root_target default).1 = DCLayerResult.DC_LAYER_SUCCESS)
    (hc : ComplexTransformRejected env (deref st.render_pass.quad_list it)
      (FromYUVQuad env (deref st.render_pass.quad_list it)
        st.render_pass.transform_to_root_target) = false)
    (hatt : (is_root && (!st.processor.processed_overlay_in_frame_ ||
      env.RequiresOverlay (FromYUVQuad env (deref st.render_pass.quad_list it)
        st.render_pass.transform_to_root_target))) = true)
    (hocc : (GetOcclusionBounds env
      (RectF.ofRect (ToEnclosingRect (ClippedQuadRectangle env (deref st.render_pass.quad_list it))))
      (st.render_pass.quad_list.take it)).IsEmpty = true) :
    ProcessQuad env display_rect is_root st it =
      (RecordPromotion env
          (ToEnclosingRect (ClippedQuadRectangle env (deref st.render_pass.quad_list it)))
          (ProcessForOverlay env display_rect
            (ToEnclosingRect (ClippedQuadRectangle env (deref st.render_pass.quad_list it)))
            (GetOcclusionBounds env
              (RectF.ofRect
                (ToEnclosingRect (ClippedQuadRectangle env (deref st.render_pass.quad_list it))))
              (st.render_pass.quad_list.take it)) st it).2.1
          (FromYUVQuad env (deref st.render_pass.quad_list it)
            st.render_pass.transform_to_root_target),
        it) := by
  rw [ProcessQuad_eligible env display_rect is_root st it h]
  simp only [hc, Bool.false_eq_true, if_false]
  rw [ProcessTiers_overlay env display_rect is_root _ _ st it _ hatt hocc]
  simp only [if_true]

theorem ProcessQuad_underlay_rejected (env : Collaborators T) [Inhabited T]
    (display_rect : RectF) (is_root : Bool) (st : PassState T) (it : Nat)
    (result : DCLayerResult)
    (h : (FromDrawQuad env st.processor (deref st.render_pass.quad_list it)
      st.render_pass.transform_to_root_target default).1 = DCLayerResult.DC_LAYER_SUCCESS)
    (hc : ComplexTransformRejected env (deref st.render_pass.quad_list it)
      (FromYUVQuad env (deref st.render_pass.quad_list it)
        st.render_pass.transform_to_root_target) = false)
    (hov : (is_root && (!st.processor.processed_overlay_in_frame_ ||
        env.RequiresOverlay (FromYUVQuad env (deref st.render_pass.quad_list it)
          st.render_pass.transform_to_root_target))) = false ∨
      (GetOcclusionBounds env
        (RectF.ofRect
          (ToEnclosingRect (ClippedQuadRectangle env (deref st.render_pass.quad_list it))))
        (st.render_pass.quad_list.take it)).IsEmpty = false)
    (hr : ProcessForUnderlayRejection env st it is_root
      (FromYUVQuad env (deref st.render_pass.quad_list it)
        st.render_pass.transform_to_root_target) = some result) :
    ProcessQuad env display_rect is_root st it =
      (RecordDCLayerResult result (deref st.render_pass.quad_list it).protected_video_type st,
        it + 1) := by
  rw [ProcessQuad_eligible env display_rect is_root st it h]
  simp only [hc, Bool.false_eq_true, if_false]
  rw [ProcessTiers_underlay env display_rect is_root _ _ st it _ hov]
  rw [ProcessForUnderlay_rejected env display_rect _ _ it is_root st _ result hr]
  simp only [Bool.false_eq_true, if_false]
  rfl

theorem ProcessQuad_underlay_accepted (env : Collaborators T) [Inhabited T]
    (display_rect : RectF) (is_root : Bool) (st : PassState T) (it : Nat)
    (h : (FromDrawQuad env st.processor (deref st.render_pass.quad_list it)
      st.render_pass.transform_to_root_target default).1 = DCLayerResult.DC_LAYER_SUCCESS)
    (hc : ComplexTransformRejected env (deref st.render_pass.quad_list it)
      (FromYUVQuad env (deref st.render_pass.quad_list it)
        st.render_pass.transform_to_root_target) = false)
    (hov : (is_root && (!st.processor.processed_overlay_in_frame_ ||
        env.RequiresOverlay (FromYUVQuad env (deref st.render_pass.quad_list it)
          st.render_pass.transform_to_root_target))) = false ∨
      (GetOcclusionBounds env
        (RectF.ofRect
          (ToEnclosingRect (ClippedQuadRectangle env (deref st.render_pass.quad_list it))))
        (st.render_pass.quad_list.take it)).IsEmpty = false)
    (hr : ProcessForUnderlayRejection env st it is_root
      (FromYUVQuad env (deref st.render_pass.quad_list it)
        st.render_pass.transform_to_root_target) = none) :
    ProcessQuad env display_rect is_root st it =
      (RecordPromotion env
          (ToEnclosingRect (ClippedQuadRectangle env (deref st.render_pass.quad_list it)))
          (ProcessForUnderlay env display_rect
            (ToEnclosingRect (ClippedQuadRectangle env (deref st.render_pass.quad_list it)))
            (GetOcclusionBounds env
              (RectF.ofRect
                (ToEnclosingRect (ClippedQuadRectangle env (deref st.render_pass.quad_list it))))
              (st.render_pass.quad_list.take it)) it is_root st
            (FromYUVQuad env (deref st.render_pass.quad_list it)
              st.render_pass.transform_to_root_target)).2.1
          { FromYUVQuad env (deref st.render_pass.quad_list it)
              st.render_pass.transform_to_root_target with z_order := -1 },
        it + 1) := by
  rw [ProcessQuad_eligible env display_rect is_root st it h]
  simp only [hc, Bool.false_eq_true, if_false]
  rw [ProcessTiers_underlay env display_rect is_root _ _ st it _ hov]
  obtain ⟨ha, hb, -⟩ := ProcessForUnderlay_accepted env display_rect
    (ToEnclosingRect (ClippedQuadRectangle env (deref st.render_pass.quad_list it)))
    (GetOcclusionBounds env
      (RectF.ofRect
        (ToEnclosingRect (ClippedQuadRectangle env (deref st.render_pass.quad_list it))))
      (st.render_pass.quad_list.take it)) it is_root st _ hr
  simp only [ha, hb, if_true]

/-- C2. For an eligible video quad on the root pass for which the overlay tier
is tried (no candidate accepted yet in the frame, or the candidate requires an
overlay), `ProcessForOverlay` returns true exactly when the occlusion bound is
empty; and then the quad sequence of the pass is the original one with that
quad erased, every other quad kept in order, and the traversal resumes at the
position of the erased quad, where the quad that followed it now stands. -/
theorem overlay_tier_iff_unoccluded (env : Collaborators T) [Inhabited T] (display_rect : RectF)
    (st : PassState T) (it : Nat)
    (h : (FromDrawQuad env st.processor (deref st.render_pass.quad_list it)
      st.render_pass.transform_to_root_target default).1 = DCLayerResult.DC_LAYER_SUCCESS)
    (hc : ComplexTransformRejected env (deref st.render_pass.quad_list it)
      (FromYUVQuad env (deref st.render_pass.quad_list it)
        st.render_pass.transform_to_root_target) = false)
    (hatt : st.processor.processed_overlay_in_frame_ = false ∨
      env.RequiresOverlay (FromYUVQuad env (deref st.render_pass.quad_list it)
        st.render_pass.transform_to_root_target) = true) :
    let quad_rectangle :=
      ToEnclosingRect (ClippedQuadRectangle env (deref st.render_pass.quad_list it))
    let occlusion_bounding_box :=
      GetOcclusionBounds env (RectF.ofRect quad_rectangle) (st.render_pass.quad_list.take it)
    let step := ProcessQuad env display_rect true st it
    ((ProcessForOverlay env display_rect quad_rectangle occlusion_bounding_box st it).1 = true ↔
        occlusion_bounding_box.IsEmpty = true) ∧
      (occlusion_bounding_box.IsEmpty = true →
        step.1.render_pass.quad_list
            = st.render_pass.quad_list.take it ++ st.render_pass.quad_list.drop (it + 1) ∧
          step.2 = it ∧
          step.1.render_pass.quad_list[step.2]? = st.render_pass.quad_list[it + 1]? ∧
          step.1.histograms = st.histograms ++
            [((deref st.render_pass.quad_list it).protected_video_type,
              DCLayerResult.DC_LAYER_SUCCESS)]) := by
  intro quad_rectangle occlusion_bounding_box step
  refine ⟨by rw [ProcessForOverlay_fst], ?_⟩
  intro hocc
  have hatt2 : (true && (!st.processor.processed_overlay_in_frame_ ||
      env.RequiresOverlay (FromYUVQuad env (deref st.render_pass.quad_list it)
        st.render_pass.transform_to_root_target))) = true := by
    rcases hatt with h1 | h1 <;> simp [h1]
  have hstep : step = _ := ProcessQuad_overlay env display_rect true st it h hc hatt2 hocc
  obtain ⟨-, -, hql, -, -, hh, -⟩ := ProcessForOverlay_accepted env display_rect quad_rectangle
    occlusion_bounding_box st it hocc
  have hlist : step.1.render_pass.quad_list = st.render_pass.quad_list.eraseIdx it := by
    rw [hstep]
    exact hql
  have hit : step.2 = it := by rw [hstep]
  refine ⟨?_, hit, ?_, ?_⟩
  · rw [hlist, List.eraseIdx_eq_take_drop_succ]
  · rw [hlist, hit, List.getElem?_eraseIdx_of_ge _ _ _ (le_refl it)]
  · rw [hstep]
    simp only [RecordPromotion, RecordDCLayerResult]
    rw [hh]
    rfl

theorem overlay_tier_iff_unoccluded_witness :
    (FromDrawQuad (sampleCollaborators true true false) {}
        (sampleVideoQuad {} ProtectedVideoType.kClear) {} default).1
        = DCLayerResult.DC_LAYER_SUCCESS ∧
      (ProcessQuad (sampleCollaborators true true false) sampleDisplayRect true
        (samplePassState [sampleVideoQuad {} ProtectedVideoType.kClear,
          sampleRenderPassQuad 7]) 0).1.render_pass.quad_list = [sampleRenderPassQuad 7] :=
  ⟨by decide,
    ((overlay_tier_iff_unoccluded (sampleCollaborators true true false) sampleDisplayRect
      (samplePassState [sampleVideoQuad {} ProtectedVideoType.kClear, sampleRenderPassQuad 7]) 0
      (by decide) (by decide) (Or.inl (by decide))).2 (by decide)).1⟩

/-! ### The underlay tier -/

theorem ProcessForUnderlayReplace_spec (env : Collaborators T) [Inhabited T]
    (quad_list : List (DrawQuad T)) (it : Nat) :
    ∃ placeholder : DrawQuad T,
      (ProcessForUnderlayReplace env quad_list it).1 = quad_list.set it placeholder ∧
      placeholder.material = Material.SOLID_COLOR ∧
      ((env.ShouldDrawWithBlending (deref quad_list it) = true ∧
          (deref quad_list it).shared_quad_state.blend_mode = SkBlendMode.kSrcOver) →
        placeholder.color = SK_ColorBLACK ∧
          placeholder.shared_quad_state.blend_mode = SkBlendMode.kDstOut ∧
          (ProcessForUnderlayReplace env quad_list it).2 = false) ∧
      (¬ (env.ShouldDrawWithBlending (deref quad_list it) = true ∧
          (deref quad_list it).shared_quad_state.blend_mode = SkBlendMode.kSrcOver) →
        placeholder.color = SK_ColorTRANSPARENT ∧
          (ProcessForUnderlayReplace env quad_list it).2 = true) := by
  by_cases hb : env.ShouldDrawWithBlending (deref quad_list it) = true ∧
      (deref quad_list it).shared_quad_state.blend_mode = SkBlendMode.kSrcOver
  · have hcond : (env.ShouldDrawWithBlending (deref quad_list it) &&
        decide ((deref quad_list it).shared_quad_state.blend_mode = SkBlendMode.kSrcOver))
        = true := by
      simp [hb.1, hb.2]
    refine ⟨(deref (ReplaceExistingElement quad_list it) it).SetAll
      { (deref quad_list it).shared_quad_state with blend_mode := SkBlendMode.kDstOut }
      (deref quad_list it).visible_rect (deref quad_list it).visible_rect
      (deref (ReplaceExistingElement quad_list it) it).needs_blending SK_ColorBLACK true,
      ?_, ?_, ?_, ?_⟩
    · unfold ProcessForUnderlayReplace
      simp only [hcond, if_true, ReplaceExistingElement]
      rw [List.set_set]
    · rfl
    · intro _
      refine ⟨rfl, rfl, ?_⟩
      unfold ProcessForUnderlayReplace
      simp only [hcond, if_true]
    · intro hn
      exact absurd hb hn
  · have hcond : ¬ (env.ShouldDrawWithBlending (deref quad_list it) &&
        decide ((deref quad_list it).shared_quad_state.blend_mode = SkBlendMode.kSrcOver))
        = true := by
      simpa using hb
    refine ⟨(deref (ReplaceExistingElement quad_list it) it).SetAll
      (deref quad_list it).shared_quad_state (deref quad_list it).rect (deref quad_list it).rect
      false SK_ColorTRANSPARENT true, ?_, ?_, ?_, ?_⟩
    · unfold ProcessForUnderlayReplace
      simp only [hcond, if_false, ReplaceExistingQuadWithOpaqueTransparentSolidColor,
        Bool.false_eq_true]
    · rfl
    · intro hp
      exact absurd hp hb
    · intro _
      refine ⟨rfl, ?_⟩
      unfold ProcessForUnderlayReplace
      simp only [hcond, if_false, Bool.false_eq_true]

/-- C6. When `ProcessForUnderlay` accepts the quad at `it`, the quad sequence
keeps its length, every quad at another position is unchanged, and the quad at
`it` is a solid-colour placeholder: opaque black with a shared state whose blend
mode is destination-out when the original quad draws with blending and uses
SrcOver, and fully transparent otherwise; the z-order of the candidate is -1. -/
theorem underlay_replacement (env : Collaborators T) [Inhabited T] (display_rect : RectF)
    (quad_rectangle : Rect) (occlusion_bounding_box : RectF) (it : Nat) (is_root : Bool)
    (st : PassState T) (dc_layer : DCLayerOverlay T)
    (hit : it < st.render_pass.quad_list.length)
    (hacc : (ProcessForUnderlay env display_rect quad_rectangle occlusion_bounding_box it
      is_root st dc_layer).1 = true) :
    let quad := deref st.render_pass.quad_list it
    let underlay := ProcessForUnderlay env display_rect quad_rectangle occlusion_bounding_box it
      is_root st dc_layer
    let blended := env.ShouldDrawWithBlending quad = true ∧
      quad.shared_quad_state.blend_mode = SkBlendMode.kSrcOver
    underlay.2.1.render_pass.quad_list.length = st.render_pass.quad_list.length ∧
      (∀ k, k ≠ it →
        underlay.2.1.render_pass.quad_list[k]? = st.render_pass.quad_list[k]?) ∧
      (∃ placeholder : DrawQuad T,
        underlay.2.1.render_pass.quad_list[it]? = some placeholder ∧
        placeholder.material = Material.SOLID_COLOR ∧
        (blended → placeholder.color = SK_ColorBLACK ∧ SkColorGetA placeholder.color = 255 ∧
          placeholder.shared_quad_state.blend_mode = SkBlendMode.kDstOut) ∧
        (¬ blended →
          placeholder.color = SK_ColorTRANSPARENT ∧ SkColorGetA placeholder.color = 0)) ∧
      underlay.2.2.z_order = -1 := by
  intro quad underlay blended
  have hnone : ProcessForUnderlayRejection env st it is_root dc_layer = none := by
    rw [ProcessForUnderlay_fst] at hacc
    cases hr : ProcessForUnderlayRejection env st it is_root dc_layer with
    | none => rfl
    | some r => rw [hr] at hacc; exact absurd hacc (by simp)
  obtain ⟨-, hdc, hql, -⟩ := ProcessForUnderlay_accepted env display_rect quad_rectangle
    occlusion_bounding_box it is_root st dc_layer hnone
  obtain ⟨placeholder, hset, hmat, hblack, htransparent⟩ :=
    ProcessForUnderlayReplace_spec env st.render_pass.quad_list it
  have hlist : underlay.2.1.render_pass.quad_list = st.render_pass.quad_list.set it placeholder :=
    hql.trans hset
  refine ⟨?_, ?_, ⟨placeholder, ?_, hmat, ?_, ?_⟩, ?_⟩
  · rw [hlist, List.length_set]
  · intro k hk
    rw [hlist, List.getElem?_set_ne (Ne.symm hk)]
  · rw [hlist, List.getElem?_set_self hit]
  · intro hb
    obtain ⟨h1, h2, -⟩ := hblack hb
    exact ⟨h1, by rw [h1]; decide, h2⟩
  · intro hb
    obtain ⟨h1, -⟩ := htransparent hb
    exact ⟨h1, by rw [h1]; decide⟩
  · show underlay.2.2.z_order = -1
    rw [hdc]

theorem underlay_replacement_witness :
    0 < (samplePassState [sampleVideoQuad {} ProtectedVideoType.kClear]).render_pass.quad_list.length ∧
      (ProcessForUnderlay (sampleCollaborators true false false) sampleDisplayRect
        { width := 100, height := 100 } { width := 100, height := 100 } 0 true
        (samplePassState [sampleVideoQuad {} ProtectedVideoType.kClear])
        (FromYUVQuad (sampleCollaborators true false false)
          (sampleVideoQuad {} ProtectedVideoType.kClear) {})).1 = true ∧
      (ProcessForUnderlay (sampleCollaborators true false false) sampleDisplayRect
        { width := 100, height := 100 } { width := 100, height := 100 } 0 true
        (samplePassState [sampleVideoQuad {} ProtectedVideoType.kClear])
        (FromYUVQuad (sampleCollaborators true false false)
          (sampleVideoQuad {} ProtectedVideoType.kClear) {})).2.2.z_order = -1 :=
  ⟨by decide, by decide,
    (underlay_replacement (sampleCollaborators true false false) sampleDisplayRect
      { width := 100, height := 100 } { width := 100, height := 100 } 0 true
      (samplePassState [sampleVideoQuad {} ProtectedVideoType.kClear])
      (FromYUVQuad (sampleCollaborators true false false)
        (sampleVideoQuad {} ProtectedVideoType.kClear) {})
      (by decide) (by decide)).2.2.2⟩

/-- C7, as the code has it. For a candidate that does not require an overlay,
`ProcessForUnderlay` accepts the quad only if the underlays capability is on
and, when the pass is not the root pass, only if the non-root overlays
capability is on as well. -/
theorem underlay_needs_capabilities (env : Collaborators T) [Inhabited T] (display_rect : RectF)
    (quad_rectangle : Rect) (occlusion_bounding_box : RectF) (it : Nat) (is_root : Bool)
    (st : PassState T) (dc_layer : DCLayerOverlay T)
    (hreq : env.RequiresOverlay dc_layer = false)
    (hacc : (ProcessForUnderlay env display_rect quad_rectangle occlusion_bounding_box it
      is_root st dc_layer).1 = true) :
    env.kDirectCompositionUnderlays = true ∧
      (is_root = false → env.kDirectCompositionNonrootOverlays = true) := by
  rw [ProcessForUnderlay_fst] at hacc
  unfold ProcessForUnderlayRejection at hacc
  simp only [hreq, Bool.not_false, if_true] at hacc
  by_cases hu : env.kDirectCompositionUnderlays = true
  · refine ⟨hu, ?_⟩
    intro hroot
    by_contra hn
    have hn2 : env.kDirectCompositionNonrootOverlays = false := by simpa using hn
    simp [hu, hroot, hn2] at hacc
  · have hu2 : env.kDirectCompositionUnderlays = false := by simpa using hu
    simp [hu2] at hacc

theorem underlay_needs_capabilities_witness :
    RequiresOverlay
        (FromYUVQuad (sampleCollaborators true false false)
          (sampleVideoQuad {} ProtectedVideoType.kClear) {}) = false ∧
      (ProcessForUnderlay (sampleCollaborators true false false) sampleDisplayRect
        { width := 100, height := 100 } { width := 100, height := 100 } 0 true
        (samplePassState [sampleVideoQuad {} ProtectedVideoType.kClear])
        (FromYUVQuad (sampleCollaborators true false false)
          (sampleVideoQuad {} ProtectedVideoType.kClear) {})).1 = true ∧
      (sampleCollaborators true false false).kDirectCompositionUnderlays = true :=
  ⟨by decide, by decide,
    (underlay_needs_capabilities (sampleCollaborators true false false) sampleDisplayRect
      { width := 100, height := 100 } { width := 100, height := 100 } 0 true
      (samplePassState [sampleVideoQuad {} ProtectedVideoType.kClear])
      (FromYUVQuad (sampleCollaborators true false false)
        (sampleVideoQuad {} ProtectedVideoType.kClear) {})
      (by decide) (by decide)).1⟩

/-- C7, against the claim as stated. A hardware-protected video quad, whose
candidate requires an overlay, in a pass that is not the root, with the
underlays and the non-root overlays capabilities both off: `ProcessForUnderlay`
accepts it, and `Process` on the frame of that pass and a root pass that embeds
it emits the candidate with z-order -1. -/
theorem underlay_without_capabilities :
    (sampleCollaborators false false false).kDirectCompositionUnderlays = false ∧
      (sampleCollaborators false false false).kDirectCompositionNonrootOverlays = false ∧
      (ProcessForUnderlay (sampleCollaborators false false false) sampleDisplayRect
        { width := 100, height := 100 } {} 0 false
        (samplePassState [sampleVideoQuad {} ProtectedVideoType.kHardwareProtected])
        (FromYUVQuad (sampleCollaborators false false false)
          (sampleVideoQuad {} ProtectedVideoType.kHardwareProtected) {})).1 = true ∧
      ((Process (sampleCollaborators false false false) sampleDisplayRect
        { processor := {}
          render_passes :=
            [{ id := 1, quad_list := [sampleVideoQuad {} ProtectedVideoType.kHardwareProtected],
               transform_to_root_target := {} },
             { id := 2, quad_list := [sampleRenderPassQuad 1], transform_to_root_target := {} }]
          overlay_damage_rect := {}
          damage_rect := {}
          dc_layer_overlays := [] }).dc_layer_overlays.map fun dc_layer => dc_layer.z_order)
        = [-1] := by
  refine ⟨rfl, rfl, by decide, by decide⟩

theorem FromDrawQuad_processor (env : Collaborators T) (p p' : DCLayerOverlayProcessor)
    (quad : DrawQuad T) (t : T) (dc : DCLayerOverlay T)
    (h : p.has_hw_overlay_support_ = p'.has_hw_overlay_support_) :
    FromDrawQuad env p quad t dc = FromDrawQuad env p' quad t dc := by
  unfold FromDrawQuad
  rw [h]

theorem RecordPromotion_has_hw_overlay_support (env : Collaborators T) (quad_rectangle : Rect)
    (st : PassState T) (dc_layer : DCLayerOverlay T) :
    (RecordPromotion env quad_rectangle st dc_layer).processor.has_hw_overlay_support_
      = st.processor.has_hw_overlay_support_ := rfl

theorem GetOcclusionBounds_nil (env : Collaborators T) (target_quad : RectF) :
    (GetOcclusionBounds env target_quad []).IsEmpty = true := by
  rfl

/-- Scenario C on one pass: two eligible video quads that do not require an
overlay, alone on the root pass, in a frame where nothing has been accepted. -/
theorem ProcessQuads_two_video_quads (env : Collaborators T) [Inhabited T] (display_rect : RectF)
    (st : PassState T) (q1 q2 : DrawQuad T)
    (hql : st.render_pass.quad_list = [q1, q2])
    (hflag : st.processor.processed_overlay_in_frame_ = false)
    (h1 : (FromDrawQuad env st.processor q1 st.render_pass.transform_to_root_target default).1
      = DCLayerResult.DC_LAYER_SUCCESS)
    (h2 : (FromDrawQuad env st.processor q2 st.render_pass.transform_to_root_target default).1
      = DCLayerResult.DC_LAYER_SUCCESS)
    (hc1 : ComplexTransformRejected env q1
      (FromYUVQuad env q1 st.render_pass.transform_to_root_target) = false)
    (hc2 : ComplexTransformRejected env q2
      (FromYUVQuad env q2 st.render_pass.transform_to_root_target) = false)
    (hr2 : env.RequiresOverlay (FromYUVQuad env q2 st.render_pass.transform_to_root_target)
      = false)
    (hu : env.kDirectCompositionUnderlays = true) :
    let out := (ProcessQuads env display_rect true 2 st 0).1
    out.render_pass.quad_list = [q2] ∧
      out.histograms = st.histograms ++
        [(q1.protected_video_type, DCLayerResult.DC_LAYER_SUCCESS),
          (q2.protected_video_type,
            if q2.shared_quad_state.opacity < 1 then DCLayerResult.DC_LAYER_FAILED_TRANSPARENT
            else DCLayerResult.DC_LAYER_FAILED_TOO_MANY_OVERLAYS)] ∧
      out.dc_layer_overlays = st.dc_layer_overlays ++
        [FromYUVQuad env q1 st.render_pass.transform_to_root_target] := by
  intro out
  have hd1 : deref st.render_pass.quad_list 0 = q1 := by rw [hql]; rfl
  -- the first quad: the overlay tier accepts it
  have hocc1 : (GetOcclusionBounds env
      (RectF.ofRect (ToEnclosingRect (ClippedQuadRectangle env (deref st.render_pass.quad_list 0))))
      (st.render_pass.quad_list.take 0)).IsEmpty = true := by
    rw [List.take_zero]
    exact GetOcclusionBounds_nil env _
  have hstep1 := ProcessQuad_overlay env display_rect true st 0 (by rw [hd1]; exact h1)
    (by rw [hd1]; exact hc1) (by simp [hflag]) hocc1
  obtain ⟨-, -, hql1, hid1, ht1, hh1, hdc1, -, hp1⟩ := ProcessForOverlay_accepted env display_rect
    (ToEnclosingRect (ClippedQuadRectangle env (deref st.render_pass.quad_list 0)))
    (GetOcclusionBounds env
      (RectF.ofRect (ToEnclosingRect (ClippedQuadRectangle env (deref st.render_pass.quad_list 0))))
      (st.render_pass.quad_list.take 0)) st 0 hocc1
  generalize hst1 : (ProcessQuad env display_rect true st 0).1 = st1 at *
  have hs1ql : st1.render_pass.quad_list = [q2] := by
    rw [← hst1, hstep1]
    show (ProcessForOverlay env display_rect _ _ st 0).2.1.render_pass.quad_list = [q2]
    rw [hql1, hql]
    rfl
  have hs1t : st1.render_pass.transform_to_root_target
      = st.render_pass.transform_to_root_target := by
    rw [← hst1, hstep1]
    exact ht1
  have hs1flag : st1.processor.processed_overlay_in_frame_ = true := by
    rw [← hst1, hstep1]
    rfl
  have hs1hw : st1.processor.has_hw_overlay_support_ = st.processor.has_hw_overlay_support_ := by
    rw [← hst1, hstep1]
    simp only [RecordPromotion_has_hw_overlay_support, hp1]
  have hs1h : st1.histograms = st.histograms ++
      [(q1.protected_video_type, DCLayerResult.DC_LAYER_SUCCESS)] := by
    rw [← hst1, hstep1]
    show (ProcessForOverlay env display_rect _ _ st 0).2.1.histograms ++ _ = _
    rw [hh1, hd1]
    rfl
  have hs1dc : st1.dc_layer_overlays = st.dc_layer_overlays ++
      [FromYUVQuad env q1 st.render_pass.transform_to_root_target] := by
    rw [← hst1, hstep1]
    show (ProcessForOverlay env display_rect _ _ st 0).2.1.dc_layer_overlays ++ _ = _
    rw [hdc1, hd1]
  -- the second quad: the overlay tier is not tried, the underlay tier rejects it
  have hd2 : deref st1.render_pass.quad_list 0 = q2 := by rw [hs1ql]; rfl
  have hstep2 := ProcessQuad_underlay_rejected env display_rect true st1 0
    (if q2.shared_quad_state.opacity < 1 then DCLayerResult.DC_LAYER_FAILED_TRANSPARENT
      else DCLayerResult.DC_LAYER_FAILED_TOO_MANY_OVERLAYS)
    (by rw [hd2, hs1t, FromDrawQuad_processor env st1.processor st.processor _ _ _ hs1hw]
        exact h2)
    (by rw [hd2, hs1t]; exact hc2)
    (Or.inl (by rw [hd2, hs1t, hr2, hs1flag]; rfl))
    (by
      unfold ProcessForUnderlayRejection
      rw [hd2, hs1t, hr2, hu, hs1flag]
      by_cases ho2 : q2.shared_quad_state.opacity < 1 <;> simp [ho2])
  have hloop : ProcessQuads env display_rect true 2 st 0
      = ((ProcessQuad env display_rect true st1 0).1, (ProcessQuad env display_rect true st1 0).2)
      := by
    have hlt : 0 < st.render_pass.quad_list.length := by rw [hql]; simp
    have hlt1 : 0 < st1.render_pass.quad_list.length := by rw [hs1ql]; simp
    have hit1 : (ProcessQuad env display_rect true st 0).2 = 0 := by rw [hstep1]
    show ProcessQuads env display_rect true (1 + 1) st 0 = _
    unfold ProcessQuads
    rw [if_pos hlt]
    simp only [hst1, hit1]
    unfold ProcessQuads
    rw [if_pos hlt1]
    simp only []
    unfold ProcessQuads
    rfl
  have hout : out = RecordDCLayerResult
      (if q2.shared_quad_state.opacity < 1 then DCLayerResult.DC_LAYER_FAILED_TRANSPARENT
        else DCLayerResult.DC_LAYER_FAILED_TOO_MANY_OVERLAYS)
      q2.protected_video_type st1 := by
    show (ProcessQuads env display_rect true 2 st 0).1 = _
    rw [hloop, hstep2, hd2]
  rw [hout]
  refine ⟨hs1ql, ?_, hs1dc⟩
  show st1.histograms ++ _ = _
  rw [hs1h]
  simp

/-! ### `ProcessRenderPass` and `Process` -/

theorem ProcessRenderPass_fields (env : Collaborators T) [Inhabited T] (display_rect : RectF)
    (is_root : Bool) (st : PassState T) :
    let loop := (ProcessQuads env display_rect is_root st.render_pass.quad_list.length
      { st with this_frame_underlay_rect := {}, this_frame_underlay_occlusion := {} } 0).1
    (ProcessRenderPass env display_rect is_root st).render_pass = loop.render_pass ∧
      (ProcessRenderPass env display_rect is_root st).histograms = loop.histograms ∧
      (ProcessRenderPass env display_rect is_root st).dc_layer_overlays
        = loop.dc_layer_overlays ∧
      (ProcessRenderPass env display_rect is_root st).overlay_damage_rect
        = loop.overlay_damage_rect ∧
      (ProcessRenderPass env display_rect is_root st).processor.processed_overlay_in_frame_
        = loop.processor.processed_overlay_in_frame_ ∧
      (ProcessRenderPass env display_rect is_root st).processor.pass_punch_through_rects_
        = loop.processor.pass_punch_through_rects_ ∧
      (ProcessRenderPass env display_rect is_root st).processor.has_hw_overlay_support_
        = loop.processor.has_hw_overlay_support_ := by
  intro loop
  unfold ProcessRenderPass
  cases is_root <;> exact ⟨rfl, rfl, rfl, rfl, rfl, rfl, rfl⟩

/-- The state in which `Process` enters `ProcessRenderPass` for the one pass of
a one-pass frame. -/
theorem Process_single_pass (env : Collaborators T) [Inhabited T] (display_rect : RectF)
    (fs : FrameState T) (pass : RenderPass T) (h : fs.render_passes = [pass]) :
    let st := ProcessRenderPass env display_rect true
      { processor :=
          { fs.processor with
            processed_overlay_in_frame_ := false, pass_punch_through_rects_ := [] }
        render_pass := pass
        overlay_damage_rect := fs.overlay_damage_rect
        damage_rect := fs.damage_rect
        dc_layer_overlays := fs.dc_layer_overlays
        histograms := fs.histograms }
    Process env display_rect fs =
      { processor := st.processor
        render_passes := [st.render_pass]
        overlay_damage_rect := st.overlay_damage_rect
        damage_rect := st.damage_rect
        dc_layer_overlays := st.dc_layer_overlays
        histograms := st.histograms } := by
  intro st
  unfold Process
  rw [h]
  rfl

/-- C8. For a candidate that does not require an overlay and reaches the
underlay tier with the capabilities it needs (underlays, and non-root overlays
off the root pass): a quad of opacity below one is rejected with the
transparent code; otherwise the quad is rejected with the too-many-overlays
code when a candidate was already accepted in the frame; otherwise it is
accepted. A candidate that requires an overlay is always accepted by the
underlay tier. And for a frame whose one pass holds two eligible video quads
that do not require an overlay, with underlays enabled: the first quad is
promoted by the overlay tier (it leaves the pass and its candidate, of z-order
1, is emitted) and the second one stays and is rejected by the underlay tier,
with the too-many-overlays code when its opacity is not below one (and with
the transparent code when it is, by the order of the tests above). -/
theorem underlay_tier_decisions (env : Collaborators T) [Inhabited T] (display_rect : RectF) :
    (∀ (quad_rectangle : Rect) (occlusion_bounding_box : RectF) (it : Nat) (is_root : Bool)
        (st : PassState T) (dc_layer : DCLayerOverlay T),
      env.RequiresOverlay dc_layer = false →
      env.kDirectCompositionUnderlays = true →
      (is_root = false → env.kDirectCompositionNonrootOverlays = true) →
      ((deref st.render_pass.quad_list it).shared_quad_state.opacity < 1 →
          ProcessForUnderlay env display_rect quad_rectangle occlusion_bounding_box it is_root
            st dc_layer
            = (false,
                RecordDCLayerResult DCLayerResult.DC_LAYER_FAILED_TRANSPARENT
                  dc_layer.protected_video_type st, dc_layer)) ∧
        (¬ (deref st.render_pass.quad_list it).shared_quad_state.opacity < 1 →
          st.processor.processed_overlay_in_frame_ = true →
          ProcessForUnderlay env display_rect quad_rectangle occlusion_bounding_box it is_root
            st dc_layer
            = (false,
                RecordDCLayerResult DCLayerResult.DC_LAYER_FAILED_TOO_MANY_OVERLAYS
                  dc_layer.protected_video_type st, dc_layer)) ∧
        (¬ (deref st.render_pass.quad_list it).shared_quad_state.opacity < 1 →
          st.processor.processed_overlay_in_frame_ = false →
          (ProcessForUnderlay env display_rect quad_rectangle occlusion_bounding_box it is_root
            st dc_layer).1 = true)) ∧
    (∀ (quad_rectangle : Rect) (occlusion_bounding_box : RectF) (it : Nat) (is_root : Bool)
        (st : PassState T) (dc_layer : DCLayerOverlay T),
      env.RequiresOverlay dc_layer = true →
      (ProcessForUnderlay env display_rect quad_rectangle occlusion_bounding_box it is_root
        st dc_layer).1 = true) ∧
    (∀ (fs : FrameState T) (pass : RenderPass T) (q1 q2 : DrawQuad T),
      fs.render_passes = [pass] →
      pass.quad_list = [q1, q2] →
      (FromDrawQuad env fs.processor q1 pass.transform_to_root_target default).1
        = DCLayerResult.DC_LAYER_SUCCESS →
      (FromDrawQuad env fs.processor q2 pass.transform_to_root_target default).1
        = DCLayerResult.DC_LAYER_SUCCESS →
      ComplexTransformRejected env q1 (FromYUVQuad env q1 pass.transform_to_root_target)
        = false →
      ComplexTransformRejected env q2 (FromYUVQuad env q2 pass.transform_to_root_target)
        = false →
      env.RequiresOverlay (FromYUVQuad env q1 pass.transform_to_root_target) = false →
      env.RequiresOverlay (FromYUVQuad env q2 pass.transform_to_root_target) = false →
      env.kDirectCompositionUnderlays = true →
      (Process env display_rect fs).render_passes.map (fun p => p.quad_list) = [[q2]] ∧
        (Process env display_rect fs).histograms = fs.histograms ++
          [(q1.protected_video_type, DCLayerResult.DC_LAYER_SUCCESS),
            (q2.protected_video_type,
              if q2.shared_quad_state.opacity < 1 then DCLayerResult.DC_LAYER_FAILED_TRANSPARENT
              else DCLayerResult.DC_LAYER_FAILED_TOO_MANY_OVERLAYS)] ∧
        (Process env display_rect fs).dc_layer_overlays = fs.dc_layer_overlays ++
          [FromYUVQuad env q1 pass.transform_to_root_target] ∧
        (FromYUVQuad env q1 pass.transform_to_root_target).z_order = 1) := by
  refine ⟨?_, ?_, ?_⟩
  · intro quad_rectangle occlusion_bounding_box it is_root st dc_layer hreq hu hnr
    have hnr2 : (!is_root && !env.kDirectCompositionNonrootOverlays) = false := by
      cases hroot : is_root
      · simp [hnr hroot]
      · simp
    refine ⟨?_, ?_, ?_⟩
    · intro hop
      apply ProcessForUnderlay_rejected
      unfold ProcessForUnderlayRejection
      simp [hreq, hu, hnr2, hop]
    · intro hop hflag
      apply ProcessForUnderlay_rejected
      unfold ProcessForUnderlayRejection
      simp [hreq, hu, hnr2, hop, hflag]
    · intro hop hflag
      rw [ProcessForUnderlay_fst]
      unfold ProcessForUnderlayRejection
      simp [hreq, hu, hnr2, hop, hflag]
  · intro quad_rectangle occlusion_bounding_box it is_root st dc_layer hreq
    rw [ProcessForUnderlay_fst]
    unfold ProcessForUnderlayRejection
    simp [hreq]
  · intro fs pass q1 q2 hpasses hql h1 h2 hc1 hc2 _ hr2 hu
    rw [Process_single_pass env display_rect fs pass hpasses]
    simp only [List.map_cons, List.map_nil]
    obtain ⟨hrp, hh, hdc, -⟩ := ProcessRenderPass_fields env display_rect true
      { processor :=
          { fs.processor with
            processed_overlay_in_frame_ := false, pass_punch_through_rects_ := [] }
        render_pass := pass
        overlay_damage_rect := fs.overlay_damage_rect
        damage_rect := fs.damage_rect
        dc_layer_overlays := fs.dc_layer_overlays
        histograms := fs.histograms }
    rw [hrp, hh, hdc]
    simp only [hql, List.length_cons, List.length_nil]
    obtain ⟨ha, hb, hc⟩ := ProcessQuads_two_video_quads env display_rect
      { processor :=
          { fs.processor with
            processed_overlay_in_frame_ := false, pass_punch_through_rects_ := [] }
        render_pass := pass
        overlay_damage_rect := fs.overlay_damage_rect
        damage_rect := fs.damage_rect
        dc_layer_overlays := fs.dc_layer_overlays
        this_frame_underlay_rect := {}
        this_frame_underlay_occlusion := {}
        histograms := fs.histograms } q1 q2 hql rfl
      ((congrArg Prod.fst (FromDrawQuad_processor env _ fs.processor q1
        pass.transform_to_root_target default rfl)).trans h1)
      ((congrArg Prod.fst (FromDrawQuad_processor env _ fs.processor q2
        pass.transform_to_root_target default rfl)).trans h2)
      hc1 hc2 hr2 hu
    exact ⟨by rw [ha], hb, hc, rfl⟩

theorem underlay_tier_decisions_witness :
    (Process (sampleCollaborators true false false) sampleDisplayRect
        (sampleFrame [sampleVideoQuad {} ProtectedVideoType.kClear,
          sampleVideoQuad (Affine2d.translate 100 0) ProtectedVideoType.kSoftwareProtected])).histograms
      = [(ProtectedVideoType.kClear, DCLayerResult.DC_LAYER_SUCCESS),
          (ProtectedVideoType.kSoftwareProtected,
            DCLayerResult.DC_LAYER_FAILED_TOO_MANY_OVERLAYS)] :=
  ((underlay_tier_decisions (sampleCollaborators true false false) sampleDisplayRect).2.2
    (sampleFrame [sampleVideoQuad {} ProtectedVideoType.kClear,
      sampleVideoQuad (Affine2d.translate 100 0) ProtectedVideoType.kSoftwareProtected])
    { id := 1
      quad_list := [sampleVideoQuad {} ProtectedVideoType.kClear,
        sampleVideoQuad (Affine2d.translate 100 0) ProtectedVideoType.kSoftwareProtected]
      transform_to_root_target := {} }
    (sampleVideoQuad {} ProtectedVideoType.kClear)
    (sampleVideoQuad (Affine2d.translate 100 0) ProtectedVideoType.kSoftwareProtected)
    rfl rfl (by decide) (by decide) (by decide) (by decide) (by decide) (by decide) rfl).2.1

/-! ### Damage and the display rectangle -/

theorem Rect.not_hasPoint_default (px py : Int) : ¬ Rect.HasPoint {} px py := by
  unfold Rect.HasPoint Rect.right
  simp only []
  omega

theorem Rect.Intersect_subset_right (r s : Rect) : (r.Intersect s).SubsetOf s := by
  intro px py hp
  simp only [Rect.Intersect] at hp
  split_ifs at hp with h1 h2
  · exact absurd hp (Rect.not_hasPoint_default px py)
  · exact absurd hp (Rect.not_hasPoint_default px py)
  · simp only [Rect.HasPoint, Rect.SetByBounds, Rect.right, Rect.bottom] at h2 hp ⊢
    omega

theorem Rect.Intersect_subset_left (r s : Rect) : (r.Intersect s).SubsetOf r := by
  intro px py hp
  simp only [Rect.Intersect] at hp
  split_ifs at hp with h1 h2
  · exact absurd hp (Rect.not_hasPoint_default px py)
  · exact absurd hp (Rect.not_hasPoint_default px py)
  · simp only [Rect.HasPoint, Rect.SetByBounds, Rect.right, Rect.bottom] at h2 hp ⊢
    omega

theorem ProcessRenderPass_root (env : Collaborators T) [Inhabited T] (display_rect : RectF)
    (st : PassState T) :
    (ProcessRenderPass env display_rect true st).damage_rect.SubsetOf
        (ToEnclosingRect display_rect) ∧
      (ProcessRenderPass env display_rect true st).processor.previous_display_rect_
        = display_rect := by
  unfold ProcessRenderPass
  exact ⟨Rect.Intersect_subset_right _ _, rfl⟩

theorem ProcessPasses_root (env : Collaborators T) [Inhabited T] (display_rect : RectF)
    (passes : List (RenderPass T)) (hne : passes ≠ []) (fs : FrameState T) :
    (ProcessPasses env display_rect passes fs).damage_rect.SubsetOf
        (ToEnclosingRect display_rect) ∧
      (ProcessPasses env display_rect passes fs).processor.previous_display_rect_
        = display_rect := by
  induction passes generalizing fs with
  | nil => exact absurd rfl hne
  | cons pass rest ih =>
    unfold ProcessPasses
    cases rest with
    | nil =>
      simp only [List.isEmpty_nil, ProcessPasses, ProcessPass, if_true]
      exact ProcessRenderPass_root env display_rect _
    | cons pass2 rest2 => exact ih (by simp) _

/-- C9. For a non-empty list of render passes, after `Process` the damage
rectangle of the frame lies within the enclosing integer rectangle of the
display rectangle, and the stored previous display rectangle is the display
rectangle of the frame just processed. -/
theorem damage_within_display_rect (env : Collaborators T) [Inhabited T] (display_rect : RectF)
    (fs : FrameState T) (hne : fs.render_passes ≠ []) :
    (Process env display_rect fs).damage_rect.SubsetOf (ToEnclosingRect display_rect) ∧
      (Process env display_rect fs).processor.previous_display_rect_ = display_rect := by
  unfold Process
  exact ProcessPasses_root env display_rect fs.render_passes hne _

theorem damage_within_display_rect_witness :
    (sampleFrame [sampleVideoQuad {} ProtectedVideoType.kClear]).render_passes ≠ [] ∧
      (Process (sampleCollaborators true false false) sampleDisplayRect
        (sampleFrame [sampleVideoQuad {} ProtectedVideoType.kClear])).processor.previous_display_rect_
        = sampleDisplayRect :=
  ⟨by decide,
    (damage_within_display_rect (sampleCollaborators true false false) sampleDisplayRect
      (sampleFrame [sampleVideoQuad {} ProtectedVideoType.kClear]) (by decide)).2⟩

/-! ### Render-pass quads and the end of the traversal -/

theorem PunchThroughLoop_length_it (env : Collaborators T) [Inhabited T]
    (render_pass_id : RenderPassId) (original_shared_quad_state : SharedQuadState T)
    (rects : List Rect) (s : PunchState T) :
    (PunchThroughLoop env render_pass_id original_shared_quad_state rects s).quad_list.length
        = s.quad_list.length ∧
      (PunchThroughLoop env render_pass_id original_shared_quad_state rects s).it
        = s.it + rects.length := by
  induction rects generalizing s with
  | nil => exact ⟨rfl, rfl⟩
  | cons r rest ih =>
    unfold PunchThroughLoop
    obtain ⟨h1, h2⟩ := ih
      { quad_list := s.quad_list.set s.it
          ((deref s.quad_list s.it).SetAll { original_shared_quad_state with opacity := 1 } r r
            false SK_ColorTRANSPARENT true)
        it := s.it + 1
        damage_rect := s.damage_rect.Union
          (ToEnclosingRect (ClippedQuadRectangle env
            ((deref s.quad_list s.it).SetAll { original_shared_quad_state with opacity := 1 } r r
              false SK_ColorTRANSPARENT true)))
        pass_punch_through_rects_ := s.pass_punch_through_rects_.pushBack render_pass_id
          (ToEnclosingRect (ClippedQuadRectangle env
            ((deref s.quad_list s.it).SetAll { original_shared_quad_state with opacity := 1 } r r
              false SK_ColorTRANSPARENT true))) }
    refine ⟨?_, ?_⟩
    · rw [h1]
      simp only [List.length_set]
    · rw [h2]
      simp only [List.length_cons]
      omega

theorem InsertBeforeAndInvalidateAllPointers_length [Inhabited T] (quad_list : List (DrawQuad T))
    (it count : Nat) :
    (InsertBeforeAndInvalidateAllPointers quad_list it count).length
      = quad_list.length + count := by
  unfold InsertBeforeAndInvalidateAllPointers
  simp only [List.length_append, List.length_take, List.length_replicate, List.length_drop]
  omega

theorem ProcessRenderPassDrawQuad_measure (env : Collaborators T) [Inhabited T]
    (st : PassState T) (it : Nat) (hit : it < st.render_pass.quad_list.length) :
    (ProcessRenderPassDrawQuad env st it).2
        ≤ (ProcessRenderPassDrawQuad env st it).1.render_pass.quad_list.length ∧
      (ProcessRenderPassDrawQuad env st it).1.render_pass.quad_list.length
          - (ProcessRenderPassDrawQuad env st it).2 + 1
        = st.render_pass.quad_list.length - it := by
  unfold ProcessRenderPassDrawQuad
  simp only []
  split_ifs with h1 h2
  · simp only []
    omega
  · simp only []
    omega
  · obtain ⟨hl, hi⟩ := PunchThroughLoop_length_it env st.render_pass.id
      (deref st.render_pass.quad_list it).shared_quad_state
      (st.processor.pass_punch_through_rects_.lookup
        (deref st.render_pass.quad_list it).render_pass_id)
      { quad_list :=
          InsertBeforeAndInvalidateAllPointers st.render_pass.quad_list (it + 1)
            (st.processor.pass_punch_through_rects_.lookup
              (deref st.render_pass.quad_list it).render_pass_id).length
        it := it + 1
        damage_rect := st.damage_rect
        pass_punch_through_rects_ := st.processor.pass_punch_through_rects_ }
    simp only [InsertBeforeAndInvalidateAllPointers_length] at hl hi
    simp only [hl, hi]
    omega

theorem RecordPromotion_render_pass (env : Collaborators T) (quad_rectangle : Rect)
    (st : PassState T) (dc_layer : DCLayerOverlay T) :
    (RecordPromotion env quad_rectangle st dc_layer).render_pass = st.render_pass := rfl

theorem ProcessForUnderlayReplace_length (env : Collaborators T) [Inhabited T]
    (quad_list : List (DrawQuad T)) (it : Nat) :
    (ProcessForUnderlayReplace env quad_list it).1.length = quad_list.length := by
  obtain ⟨placeholder, hset, -⟩ := ProcessForUnderlayReplace_spec env quad_list it
  rw [hset, List.length_set]

/-- The outcomes of an iteration of the loop of `ProcessRenderPass` on a quad
that is not a render-pass quad: a rejection, which only records a sample; a
promotion by the overlay tier; a promotion by the underlay tier. -/
theorem ProcessQuad_cases (env : Collaborators T) [Inhabited T] (display_rect : RectF)
    (is_root : Bool) (st : PassState T) (it : Nat)
    (hmat : (deref st.render_pass.quad_list it).material ≠ Material.RENDER_PASS) :
    let quad := deref st.render_pass.quad_list it
    let dc_layer := FromYUVQuad env quad st.render_pass.transform_to_root_target
    let quad_rectangle := ToEnclosingRect (ClippedQuadRectangle env quad)
    let occlusion_bounding_box :=
      GetOcclusionBounds env (RectF.ofRect quad_rectangle) (st.render_pass.quad_list.take it)
    (∃ result protected_video_type, result ≠ DCLayerResult.DC_LAYER_SUCCESS ∧
      ProcessQuad env display_rect is_root st it
        = (RecordDCLayerResult result protected_video_type st, it + 1)) ∨
    (quad.material = Material.YUV_VIDEO_CONTENT ∧
      (is_root && (!st.processor.processed_overlay_in_frame_ || env.RequiresOverlay dc_layer))
        = true ∧
      occlusion_bounding_box.IsEmpty = true ∧
      ProcessQuad env display_rect is_root st it
        = (RecordPromotion env quad_rectangle
            (ProcessForOverlay env display_rect quad_rectangle occlusion_bounding_box st it).2.1
            dc_layer, it)) ∨
    (quad.material = Material.YUV_VIDEO_CONTENT ∧
      ProcessForUnderlayRejection env st it is_root dc_layer = none ∧
      ProcessQuad env display_rect is_root st it
        = (RecordPromotion env quad_rectangle
            (ProcessForUnderlay env display_rect quad_rectangle occlusion_bounding_box it
              is_root st dc_layer).2.1
            { dc_layer with z_order := -1 }, it + 1)) := by
  intro quad dc_layer quad_rectangle occlusion_bounding_box
  by_cases hfrom : (FromDrawQuad env st.processor quad
      st.render_pass.transform_to_root_target default).1 = DCLayerResult.DC_LAYER_SUCCESS
  · have hvideo := (FromDrawQuad_video env st.processor _ _ _ hfrom).1
    by_cases hc : ComplexTransformRejected env quad dc_layer = true
    · left
      refine ⟨DCLayerResult.DC_LAYER_FAILED_COMPLEX_TRANSFORM, quad.protected_video_type,
        by decide, ?_⟩
      rw [ProcessQuad_eligible env display_rect is_root st it hfrom]
      simp only []
      rw [if_pos hc]
    · have hc2 : ComplexTransformRejected env quad dc_layer = false := by simpa using hc
      by_cases hov : (is_root && (!st.processor.processed_overlay_in_frame_ ||
          env.RequiresOverlay dc_layer)) = true ∧ occlusion_bounding_box.IsEmpty = true
      · right; left
        exact ⟨hvideo, hov.1, hov.2,
          ProcessQuad_overlay env display_rect is_root st it hfrom hc2 hov.1 hov.2⟩
      · have hov2 : (is_root && (!st.processor.processed_overlay_in_frame_ ||
            env.RequiresOverlay dc_layer)) = false ∨ occlusion_bounding_box.IsEmpty = false := by
          by_cases ha : (is_root && (!st.processor.processed_overlay_in_frame_ ||
              env.RequiresOverlay dc_layer)) = true
          · right
            by_contra hb
            exact hov ⟨ha, by simpa using hb⟩
          · left
            simpa using ha
        cases hr : ProcessForUnderlayRejection env st it is_root dc_layer with
        | none =>
          right; right
          exact ⟨hvideo, rfl,
            ProcessQuad_underlay_accepted env display_rect is_root st it hfrom hc2 hov2 hr⟩
        | some result =>
          left
          obtain ⟨-, hcodes⟩ := ProcessForUnderlayRejection_codes _ _ _ _ _ _ hr
          refine ⟨result, quad.protected_video_type, ?_,
            ProcessQuad_underlay_rejected env display_rect is_root st it result hfrom hc2 hov2 hr⟩
          rcases hcodes with hx | hx | hx | hx <;> rw [hx] <;> decide
  · left
    exact ⟨_, _, hfrom, ProcessQuad_not_eligible env display_rect is_root st it hmat hfrom⟩

/-- Every iteration of the loop of `ProcessRenderPass` leaves the iterator
within the list and exactly one quad closer to its end. -/
theorem ProcessQuad_measure (env : Collaborators T) [Inhabited T] (display_rect : RectF)
    (is_root : Bool) (st : PassState T) (it : Nat) (hit : it < st.render_pass.quad_list.length) :
    (ProcessQuad env display_rect is_root st it).2
        ≤ (ProcessQuad env display_rect is_root st it).1.render_pass.quad_list.length ∧
      (ProcessQuad env display_rect is_root st it).1.render_pass.quad_list.length
          - (ProcessQuad env display_rect is_root st it).2 + 1
        = st.render_pass.quad_list.length - it := by
  by_cases hmat : (deref st.render_pass.quad_list it).material = Material.RENDER_PASS
  · have : ProcessQuad env display_rect is_root st it = ProcessRenderPassDrawQuad env st it := by
      unfold ProcessQuad
      simp only [if_pos hmat]
    rw [this]
    exact ProcessRenderPassDrawQuad_measure env st it hit
  · rcases ProcessQuad_cases env display_rect is_root st it hmat with
      ⟨result, pvt, -, heq⟩ | ⟨-, -, hocc, heq⟩ | ⟨-, hnone, heq⟩
    · rw [heq]
      show it + 1 ≤ st.render_pass.quad_list.length ∧
        st.render_pass.quad_list.length - (it + 1) + 1 = _
      omega
    · obtain ⟨-, -, hql, -⟩ := ProcessForOverlay_accepted env display_rect
        (ToEnclosingRect (ClippedQuadRectangle env (deref st.render_pass.quad_list it)))
        _ st it hocc
      rw [heq]
      simp only [RecordPromotion_render_pass, hql, List.length_eraseIdx, if_pos hit]
      omega
    · obtain ⟨-, -, hql, -⟩ := ProcessForUnderlay_accepted env display_rect
        (ToEnclosingRect (ClippedQuadRectangle env (deref st.render_pass.quad_list it)))
        (GetOcclusionBounds env
          (RectF.ofRect
            (ToEnclosingRect (ClippedQuadRectangle env (deref st.render_pass.quad_list it))))
          (st.render_pass.quad_list.take it)) it is_root st _ hnone
      rw [heq]
      simp only [RecordPromotion_render_pass, hql, ProcessForUnderlayReplace_length]
      omega

/-- The loop of `ProcessRenderPass` leaves through its exit test, with the
iterator at the end of the list, whenever the bound on the iterations is at
least the number of quads between the iterator and the end. -/
theorem ProcessQuads_reaches_end (env : Collaborators T) [Inhabited T] (display_rect : RectF)
    (is_root : Bool) (fuel : Nat) (st : PassState T) (it : Nat)
    (hle : it ≤ st.render_pass.quad_list.length)
    (hfuel : st.render_pass.quad_list.length - it ≤ fuel) :
    (ProcessQuads env display_rect is_root fuel st it).2
      = (ProcessQuads env display_rect is_root fuel st it).1.render_pass.quad_list.length := by
  induction fuel generalizing st it with
  | zero =>
    unfold ProcessQuads
    show it = st.render_pass.quad_list.length
    omega
  | succ fuel ih =>
    unfold ProcessQuads
    split_ifs with hlt
    · obtain ⟨h1, h2⟩ := ProcessQuad_measure env display_rect is_root st it hlt
      exact ih _ _ h1 (by omega)
    · show it = st.render_pass.quad_list.length
      omega

/-- More iterations than needed change nothing. -/
theorem ProcessQuads_fuel (env : Collaborators T) [Inhabited T] (display_rect : RectF)
    (is_root : Bool) (fuel extra : Nat) (st : PassState T) (it : Nat)
    (hle : it ≤ st.render_pass.quad_list.length)
    (hfuel : st.render_pass.quad_list.length - it ≤ fuel) :
    ProcessQuads env display_rect is_root (fuel + extra) st it
      = ProcessQuads env display_rect is_root fuel st it := by
  induction fuel generalizing st it with
  | zero =>
    have : ¬ it < st.render_pass.quad_list.length := by omega
    cases extra with
    | zero => rfl
    | succ extra =>
      rw [Nat.zero_add]
      unfold ProcessQuads
      rw [if_neg this]
  | succ fuel ih =>
    have : fuel + 1 + extra = (fuel + extra) + 1 := by omega
    rw [this]
    unfold ProcessQuads
    split_ifs with hlt
    · obtain ⟨h1, h2⟩ := ProcessQuad_measure env display_rect is_root st it hlt
      exact ih _ _ h1 (by omega)
    · rfl

/-- C10. When the render-pass quad at `it` refers to the pass that holds it, or
the punch-through map has no entry for the pass it refers to (as for an id of
no pass at all), `ProcessRenderPassDrawQuad` changes nothing, so the quad
sequence, the damage rectangle and the punch-through map are as before, and
returns the position after the quad. The loop of `ProcessRenderPass` over the
pass comes to the end of the quad sequence within its bound of one iteration
per quad on entry, and a larger bound gives the same result. -/
theorem broken_reference_skipped (env : Collaborators T) [Inhabited T] (display_rect : RectF)
    (is_root : Bool) (st : PassState T) (it : Nat)
    (h : (deref st.render_pass.quad_list it).render_pass_id = st.render_pass.id ∨
      st.processor.pass_punch_through_rects_.count
        (deref st.render_pass.quad_list it).render_pass_id = 0) :
    ProcessRenderPassDrawQuad env st it = (st, it + 1) ∧
      (ProcessRenderPassDrawQuad env st it).1.render_pass.quad_list
        = st.render_pass.quad_list ∧
      (ProcessRenderPassDrawQuad env st it).1.damage_rect = st.damage_rect ∧
      (ProcessRenderPassDrawQuad env st it).1.processor.pass_punch_through_rects_
        = st.processor.pass_punch_through_rects_ ∧
      (ProcessQuads env display_rect is_root st.render_pass.quad_list.length st 0).2
        = (ProcessQuads env display_rect is_root st.render_pass.quad_list.length st
            0).1.render_pass.quad_list.length ∧
      (∀ extra,
        ProcessQuads env display_rect is_root (st.render_pass.quad_list.length + extra) st 0
          = ProcessQuads env display_rect is_root st.render_pass.quad_list.length st 0) := by
  have key : ProcessRenderPassDrawQuad env st it = (st, it + 1) := by
    unfold ProcessRenderPassDrawQuad
    simp only []
    rcases h with h | h
    · rw [if_pos h]
    · split_ifs <;> rfl
  refine ⟨key, ?_, ?_, ?_, ?_, ?_⟩
  · rw [key]
  · rw [key]
  · rw [key]
  · exact ProcessQuads_reaches_end env display_rect is_root _ st 0 (Nat.zero_le _) (by omega)
  · intro extra
    exact ProcessQuads_fuel env display_rect is_root _ extra st 0 (Nat.zero_le _) (by omega)

theorem broken_reference_skipped_witness :
    (deref (samplePassState [sampleRenderPassQuad 1]).render_pass.quad_list 0).render_pass_id
        = (samplePassState [sampleRenderPassQuad 1]).render_pass.id ∧
      ProcessRenderPassDrawQuad (sampleCollaborators true true false)
        (samplePassState [sampleRenderPassQuad 1]) 0
        = (samplePassState [sampleRenderPassQuad 1], 1) :=
  ⟨by decide,
    (broken_reference_skipped (sampleCollaborators true true false) sampleDisplayRect true
      (samplePassState [sampleRenderPassQuad 1]) 0 (Or.inl (by decide))).1⟩

/-! ### One promotion per frame -/

theorem PunchThroughLoop_mem (env : Collaborators T) [Inhabited T]
    (render_pass_id : RenderPassId) (original_shared_quad_state : SharedQuadState T)
    (rects : List Rect) (s : PunchState T) (q : DrawQuad T)
    (hq : q ∈ (PunchThroughLoop env render_pass_id original_shared_quad_state rects
      s).quad_list) :
    q ∈ s.quad_list ∨ q.material = Material.SOLID_COLOR := by
  induction rects generalizing s with
  | nil => exact Or.inl hq
  | cons r rest ih =>
    unfold PunchThroughLoop at hq
    rcases ih _ hq with h | h
    · rcases List.mem_or_eq_of_mem_set h with h2 | h2
      · exact Or.inl h2
      · right
        rw [h2]
        rfl
    · exact Or.inr h

theorem InsertBeforeAndInvalidateAllPointers_mem [Inhabited T] (quad_list : List (DrawQuad T))
    (it count : Nat) (q : DrawQuad T)
    (hq : q ∈ InsertBeforeAndInvalidateAllPointers quad_list it count) :
    q ∈ quad_list ∨ q.material = Material.INVALID := by
  unfold InsertBeforeAndInvalidateAllPointers at hq
  rw [List.mem_append, List.mem_append] at hq
  rcases hq with (h | h) | h
  · exact Or.inl (List.mem_of_mem_take h)
  · right
    rw [(List.mem_replicate.mp h).2]
    rfl
  · exact Or.inl (List.mem_of_mem_drop h)

/-- What `ProcessRenderPassDrawQuad` leaves alone, and where its new quads
come from. -/
theorem ProcessRenderPassDrawQuad_frame (env : Collaborators T) [Inhabited T]
    (st : PassState T) (it : Nat) :
    (ProcessRenderPassDrawQuad env st it).1.dc_layer_overlays = st.dc_layer_overlays ∧
      (ProcessRenderPassDrawQuad env st it).1.processor.processed_overlay_in_frame_
        = st.processor.processed_overlay_in_frame_ ∧
      (ProcessRenderPassDrawQuad env st it).1.render_pass.transform_to_root_target
        = st.render_pass.transform_to_root_target ∧
      (∀ q ∈ (ProcessRenderPassDrawQuad env st it).1.render_pass.quad_list,
        q ∈ st.render_pass.quad_list ∨ q.material ≠ Material.YUV_VIDEO_CONTENT) := by
  unfold ProcessRenderPassDrawQuad
  simp only []
  split_ifs with h1 h2
  · exact ⟨rfl, rfl, rfl, fun q hq => Or.inl hq⟩
  · exact ⟨rfl, rfl, rfl, fun q hq => Or.inl hq⟩
  · refine ⟨rfl, rfl, rfl, ?_⟩
    intro q hq
    rcases PunchThroughLoop_mem env _ _ _ _ q hq with h | h
    · rcases InsertBeforeAndInvalidateAllPointers_mem _ _ _ q h with h3 | h3
      · exact Or.inl h3
      · right
        rw [h3]
        decide
    · right
      rw [h]
      decide

theorem deref_mem [Inhabited T] (quad_list : List (DrawQuad T)) (it : Nat)
    (h : (deref quad_list it).material ≠ Material.INVALID) :
    deref quad_list it ∈ quad_list := by
  unfold deref at h ⊢
  rw [List.getD_eq_getElem?_getD] at h ⊢
  cases hq : quad_list[it]? with
  | none =>
    rw [hq] at h
    exact absurd rfl h
  | some q => exact List.getElem?_mem hq

theorem ProcessForUnderlayRejection_none (env : Collaborators T) [Inhabited T]
    (st : PassState T) (it : Nat) (is_root : Bool) (dc_layer : DCLayerOverlay T)
    (h : ProcessForUnderlayRejection env st it is_root dc_layer = none) :
    st.processor.processed_overlay_in_frame_ = false ∨ env.RequiresOverlay dc_layer = true := by
  unfold ProcessForUnderlayRejection at h
  by_cases hreq : env.RequiresOverlay dc_layer = true
  · exact Or.inr hreq
  · left
    have hreq2 : env.RequiresOverlay dc_layer = false := by simpa using hreq
    simp only [hreq2, Bool.not_false, if_true] at h
    split_ifs at h with h1 h2 h3 h4
    simpa using h4

/-- The effect of one iteration of the loop of `ProcessRenderPass` on the
candidate list and on the accepted-this-frame flag: nothing, or one candidate
more and the flag set, and then the flag was clear or the candidate requires an
overlay. Quads that are new in the list are not video quads. -/
theorem ProcessQuad_promotion (env : Collaborators T) [Inhabited T] (display_rect : RectF)
    (is_root : Bool) (st : PassState T) (it : Nat) :
    (ProcessQuad env display_rect is_root st it).1.render_pass.transform_to_root_target
        = st.render_pass.transform_to_root_target ∧
      (∀ q ∈ (ProcessQuad env display_rect is_root st it).1.render_pass.quad_list,
        q ∈ st.render_pass.quad_list ∨ q.material ≠ Material.YUV_VIDEO_CONTENT) ∧
      (((ProcessQuad env display_rect is_root st it).1.dc_layer_overlays = st.dc_layer_overlays ∧
          (ProcessQuad env display_rect is_root st it).1.processor.processed_overlay_in_frame_
            = st.processor.processed_overlay_in_frame_) ∨
        (∃ dc_layer,
          (ProcessQuad env display_rect is_root st it).1.dc_layer_overlays
            = st.dc_layer_overlays ++ [dc_layer] ∧
          (ProcessQuad env display_rect is_root st it).1.processor.processed_overlay_in_frame_
            = true ∧
          (deref st.render_pass.quad_list it).material = Material.YUV_VIDEO_CONTENT ∧
          (st.processor.processed_overlay_in_frame_ = false ∨
            env.RequiresOverlay (FromYUVQuad env (deref st.render_pass.quad_list it)
              st.render_pass.transform_to_root_target) = true))) := by
  by_cases hmat : (deref st.render_pass.quad_list it).material = Material.RENDER_PASS
  · have : ProcessQuad env display_rect is_root st it = ProcessRenderPassDrawQuad env st it := by
      unfold ProcessQuad
      simp only [if_pos hmat]
    rw [this]
    obtain ⟨h1, h2, h3, h4⟩ := ProcessRenderPassDrawQuad_frame env st it
    exact ⟨h3, h4, Or.inl ⟨h1, h2⟩⟩
  · rcases ProcessQuad_cases env display_rect is_root st it hmat with
      ⟨result, pvt, -, heq⟩ | ⟨hvideo, hatt, hocc, heq⟩ | ⟨hvideo, hnone, heq⟩
    · rw [heq]
      exact ⟨rfl, fun q hq => Or.inl hq, Or.inl ⟨rfl, rfl⟩⟩
    · obtain ⟨-, -, hql, -, ht, -, hdc, -, hp⟩ := ProcessForOverlay_accepted env display_rect
        (ToEnclosingRect (ClippedQuadRectangle env (deref st.render_pass.quad_list it)))
        _ st it hocc
      rw [heq]
      refine ⟨ht, ?_, Or.inr ⟨FromYUVQuad env (deref st.render_pass.quad_list it)
        st.render_pass.transform_to_root_target, ?_, rfl, hvideo, ?_⟩⟩
      · intro q hq
        left
        have hq2 : q ∈ (ProcessForOverlay env display_rect _ _ st it).2.1.render_pass.quad_list :=
          hq
        rw [hql] at hq2
        exact List.mem_of_mem_eraseIdx hq2
      · show (ProcessForOverlay env display_rect _ _ st it).2.1.dc_layer_overlays ++ _ = _
        rw [hdc]
      · cases hflag : st.processor.processed_overlay_in_frame_
        · exact Or.inl rfl
        · right
          rw [hflag] at hatt
          have hatt2 : is_root = true ∧ env.RequiresOverlay (FromYUVQuad env
              (deref st.render_pass.quad_list it) st.render_pass.transform_to_root_target)
              = true := by
            simpa using hatt
          exact hatt2.2
    · obtain ⟨-, -, hql, -, ht, -, hdc, -⟩ := ProcessForUnderlay_accepted env display_rect
        (ToEnclosingRect (ClippedQuadRectangle env (deref st.render_pass.quad_list it)))
        (GetOcclusionBounds env
          (RectF.ofRect
            (ToEnclosingRect (ClippedQuadRectangle env (deref st.render_pass.quad_list it))))
          (st.render_pass.quad_list.take it)) it is_root st _ hnone
      rw [heq]
      refine ⟨ht, ?_, Or.inr ⟨{ FromYUVQuad env (deref st.render_pass.quad_list it)
        st.render_pass.transform_to_root_target with z_order := -1 }, ?_, rfl, hvideo,
        ProcessForUnderlayRejection_none env st it is_root _ hnone⟩⟩
      · intro q hq
        have hq2 : q ∈ (ProcessForUnderlay env display_rect _ _ it is_root st
            _).2.1.render_pass.quad_list := hq
        rw [hql] at hq2
        obtain ⟨placeholder, hset, hsolid, -⟩ :=
          ProcessForUnderlayReplace_spec env st.render_pass.quad_list it
        rw [hset] at hq2
        rcases List.mem_or_eq_of_mem_set hq2 with h | h
        · exact Or.inl h
        · right
          rw [h, hsolid]
          decide
      · show (ProcessForUnderlay env display_rect _ _ it is_root st _).2.1.dc_layer_overlays
          ++ _ = _
        rw [hdc]

/-- Two stretches of a frame, each of which accepts nothing and keeps the
flag, or accepts one candidate from a clear flag and sets it, make a stretch of
the same kind. -/
theorem one_promotion_trans {α : Type} (dc0 dc1 dc2 : List α) (f0 f1 f2 : Bool)
    (h01 : ∃ added, dc1 = dc0 ++ added ∧
      ((added = [] ∧ f1 = f0) ∨ (f0 = false ∧ added.length = 1 ∧ f1 = true)))
    (h12 : ∃ added, dc2 = dc1 ++ added ∧
      ((added = [] ∧ f2 = f1) ∨ (f1 = false ∧ added.length = 1 ∧ f2 = true))) :
    ∃ added, dc2 = dc0 ++ added ∧
      ((added = [] ∧ f2 = f0) ∨ (f0 = false ∧ added.length = 1 ∧ f2 = true)) := by
  obtain ⟨a1, e1, c1⟩ := h01
  obtain ⟨a2, e2, c2⟩ := h12
  refine ⟨a1 ++ a2, by rw [e2, e1, List.append_assoc], ?_⟩
  rcases c1 with ⟨n1, g1⟩ | ⟨z0, l1, g1⟩
  · rcases c2 with ⟨n2, g2⟩ | ⟨z1, l2, g2⟩
    · left
      exact ⟨by rw [n1, n2]; rfl, g2.trans g1⟩
    · right
      exact ⟨g1 ▸ z1, by rw [n1]; simpa using l2, g2⟩
  · rcases c2 with ⟨n2, g2⟩ | ⟨z1, l2, g2⟩
    · right
      exact ⟨z0, by rw [n2]; simpa using l1, g2.trans g1⟩
    · rw [g1] at z1
      exact absurd z1 (by decide)

theorem ProcessQuads_promotions (env : Collaborators T) [Inhabited T] (display_rect : RectF)
    (is_root : Bool) (fuel : Nat) (st : PassState T) (it : Nat)
    (hno : ∀ q ∈ st.render_pass.quad_list, q.material = Material.YUV_VIDEO_CONTENT →
      env.RequiresOverlay (FromYUVQuad env q st.render_pass.transform_to_root_target) = false) :
    ∃ added,
      (ProcessQuads env display_rect is_root fuel st it).1.dc_layer_overlays
        = st.dc_layer_overlays ++ added ∧
      ((added = [] ∧
          (ProcessQuads env display_rect is_root fuel st it).1.processor.processed_overlay_in_frame_
            = st.processor.processed_overlay_in_frame_) ∨
        (st.processor.processed_overlay_in_frame_ = false ∧ added.length = 1 ∧
          (ProcessQuads env display_rect is_root fuel st it).1.processor.processed_overlay_in_frame_
            = true)) := by
  induction fuel generalizing st it with
  | zero => exact ⟨[], by unfold ProcessQuads; simp, Or.inl ⟨rfl, rfl⟩⟩
  | succ fuel ih =>
    unfold ProcessQuads
    split_ifs with hlt
    · obtain ⟨ht, hmem, hpromo⟩ := ProcessQuad_promotion env display_rect is_root st it
      have hno2 : ∀ q ∈ (ProcessQuad env display_rect is_root st it).1.render_pass.quad_list,
          q.material = Material.YUV_VIDEO_CONTENT →
          env.RequiresOverlay (FromYUVQuad env q
            (ProcessQuad env display_rect is_root st it).1.render_pass.transform_to_root_target)
            = false := by
        intro q hq hvideo
        rw [ht]
        rcases hmem q hq with h | h
        · exact hno q h hvideo
        · exact absurd hvideo h
      refine one_promotion_trans _ _ _ _ _ _ ?_ (ih _ _ hno2)
      rcases hpromo with ⟨h1, h2⟩ | ⟨dc_layer, h1, h2, hvideo, h3⟩
      · exact ⟨[], by rw [h1]; simp, Or.inl ⟨rfl, h2⟩⟩
      · refine ⟨[dc_layer], h1, Or.inr ⟨?_, rfl, h2⟩⟩
        rcases h3 with h3 | h3
        · exact h3
        · have hin : deref st.render_pass.quad_list it ∈ st.render_pass.quad_list :=
            deref_mem _ _ (by rw [hvideo]; decide)
          rw [hno _ hin hvideo] at h3
          exact absurd h3 (by decide)
    · exact ⟨[], by simp, Or.inl ⟨rfl, rfl⟩⟩

theorem ProcessPasses_promotions (env : Collaborators T) [Inhabited T] (display_rect : RectF)
    (passes : List (RenderPass T)) (fs : FrameState T)
    (hno : ∀ pass ∈ passes, ∀ q ∈ pass.quad_list, q.material = Material.YUV_VIDEO_CONTENT →
      env.RequiresOverlay (FromYUVQuad env q pass.transform_to_root_target) = false) :
    ∃ added,
      (ProcessPasses env display_rect passes fs).dc_layer_overlays
        = fs.dc_layer_overlays ++ added ∧
      ((added = [] ∧
          (ProcessPasses env display_rect passes fs).processor.processed_overlay_in_frame_
            = fs.processor.processed_overlay_in_frame_) ∨
        (fs.processor.processed_overlay_in_frame_ = false ∧ added.length = 1 ∧
          (ProcessPasses env display_rect passes fs).processor.processed_overlay_in_frame_
            = true)) := by
  induction passes generalizing fs with
  | nil => exact ⟨[], by unfold ProcessPasses; simp, Or.inl ⟨rfl, rfl⟩⟩
  | cons pass rest ih =>
    unfold ProcessPasses
    refine one_promotion_trans _ _ _ _ _ _ ?_
      (ih _ (fun p hp => hno p (List.mem_cons_of_mem _ hp)))
    obtain ⟨-, -, hdc, -, hflag, -⟩ := ProcessRenderPass_fields env display_rect rest.isEmpty
      { processor := fs.processor
        render_pass := pass
        overlay_damage_rect := fs.overlay_damage_rect
        damage_rect := if rest.isEmpty then fs.damage_rect else pass.damage_rect
        dc_layer_overlays := fs.dc_layer_overlays
        histograms := fs.histograms }
    obtain ⟨added, h1, h2⟩ := ProcessQuads_promotions env display_rect rest.isEmpty
      pass.quad_list.length
      { processor := fs.processor
        render_pass := pass
        overlay_damage_rect := fs.overlay_damage_rect
        damage_rect := if rest.isEmpty then fs.damage_rect else pass.damage_rect
        dc_layer_overlays := fs.dc_layer_overlays
        this_frame_underlay_rect := {}
        this_frame_underlay_occlusion := {}
        histograms := fs.histograms } 0
      (hno pass (List.mem_cons_self _ _))
    refine ⟨added, ?_, ?_⟩
    · show (ProcessRenderPass env display_rect rest.isEmpty _).dc_layer_overlays = _
      rw [hdc]
      exact h1
    · show (_ ∧ (ProcessRenderPass env display_rect rest.isEmpty
          _).processor.processed_overlay_in_frame_ = _) ∨ (_ ∧ _ ∧ (ProcessRenderPass env
          display_rect rest.isEmpty _).processor.processed_overlay_in_frame_ = _)
      rw [hflag]
      exact h2

/-- C1. Within a frame, a candidate that does not require an overlay is
promoted, by either tier, only if the accepted-this-frame flag is clear, that
is, only if no candidate was accepted earlier in the frame (a promotion sets
the flag, and `Process` clears it only at the start of the frame). Hence in a
frame with no video quad whose candidate requires an overlay, `Process` appends
at most one candidate to the output list, so at most one quad is promoted by
the overlay tier. -/
theorem one_promotion_per_frame (env : Collaborators T) [Inhabited T] (display_rect : RectF) :
    (∀ (is_root : Bool) (st : PassState T) (it : Nat),
      (ProcessQuad env display_rect is_root st it).1.dc_layer_overlays ≠ st.dc_layer_overlays →
      env.RequiresOverlay (FromYUVQuad env (deref st.render_pass.quad_list it)
        st.render_pass.transform_to_root_target) = false →
      st.processor.processed_overlay_in_frame_ = false ∧
        (ProcessQuad env display_rect is_root st it).1.processor.processed_overlay_in_frame_
          = true) ∧
    (∀ fs : FrameState T,
      (∀ pass ∈ fs.render_passes, ∀ q ∈ pass.quad_list,
        q.material = Material.YUV_VIDEO_CONTENT →
        env.RequiresOverlay (FromYUVQuad env q pass.transform_to_root_target) = false) →
      ∃ added,
        (Process env display_rect fs).dc_layer_overlays = fs.dc_layer_overlays ++ added ∧
        added.length ≤ 1 ∧
        (added.filter fun dc_layer => decide (dc_layer.z_order = 1)).length ≤ 1) := by
  refine ⟨?_, ?_⟩
  · intro is_root st it hne hreq
    obtain ⟨-, -, hpromo⟩ := ProcessQuad_promotion env display_rect is_root st it
    rcases hpromo with ⟨h1, -⟩ | ⟨dc_layer, -, h2, -, h3⟩
    · exact absurd h1 hne
    · rcases h3 with h3 | h3
      · exact ⟨h3, h2⟩
      · rw [hreq] at h3
        exact absurd h3 (by decide)
  · intro fs hno
    unfold Process
    obtain ⟨added, h1, h2⟩ := ProcessPasses_promotions env display_rect fs.render_passes
      { fs with
        processor :=
          { fs.processor with
            processed_overlay_in_frame_ := false, pass_punch_through_rects_ := [] }
        render_passes := [] } hno
    have hlen : added.length ≤ 1 := by
      rcases h2 with ⟨h, -⟩ | ⟨-, h, -⟩
      · rw [h]; simp
      · omega
    exact ⟨added, h1, hlen, le_trans (List.length_filter_le _ _) hlen⟩

theorem one_promotion_per_frame_witness :
    ∃ added,
      (Process (sampleCollaborators true false false) sampleDisplayRect
        (sampleFrame [sampleVideoQuad {} ProtectedVideoType.kClear,
          sampleVideoQuad (Affine2d.translate 100 0) ProtectedVideoType.kClear])).dc_layer_overlays
        = [] ++ added ∧
      added.length ≤ 1 ∧
      (added.filter fun dc_layer => decide (dc_layer.z_order = 1)).length ≤ 1 :=
  (one_promotion_per_frame (sampleCollaborators true false false) sampleDisplayRect).2
    (sampleFrame [sampleVideoQuad {} ProtectedVideoType.kClear,
      sampleVideoQuad (Affine2d.translate 100 0) ProtectedVideoType.kClear])
    (by decide)

/-! ### Damage of an overlay-tier promotion -/

theorem ProcessForOverlay_damage (env : Collaborators T) [Inhabited T] (display_rect : RectF)
    (quad_rectangle : Rect) (occlusion_bounding_box : RectF) (st : PassState T) (it : Nat)
    (hocc : occlusion_bounding_box.IsEmpty = true) :
    (ProcessForOverlay env display_rect quad_rectangle occlusion_bounding_box st
        it).2.1.damage_rect =
      if env.Preserves2dAxisAlignment
            (deref st.render_pass.quad_list it).shared_quad_state.quad_to_target_transform = true ∧
          env.ShouldDrawWithBlending (deref st.render_pass.quad_list it) = false ∧
          display_rect = st.processor.previous_display_rect_ then
        st.damage_rect.Subtract quad_rectangle
      else st.damage_rect := by
  unfold ProcessForOverlay
  rw [hocc]
  simp only [Bool.not_true, Bool.false_eq_true, if_false]
  by_cases h1 : env.Preserves2dAxisAlignment
      (deref st.render_pass.quad_list it).shared_quad_state.quad_to_target_transform = true
  · by_cases h2 : env.ShouldDrawWithBlending (deref st.render_pass.quad_list it) = true
    · simp [h1, h2]
    · by_cases h3 : display_rect = st.processor.previous_display_rect_
      · simp [h1, h2, h3]
      · simp [h1, h2, h3]
  · simp [h1]

/-- C20. On a successful overlay-tier promotion (the overlay tier is tried and
the occlusion bound is empty) the damage rectangle becomes
`Subtract(damage, quad rectangle)` when the transform of the quad preserves
axis alignment, the quad does not draw with blending and the display rectangle
equals the stored previous display rectangle; in every other case the damage
rectangle is exactly what it was. The bookkeeping of the promotion does not
touch it. -/
theorem overlay_promotion_damage (env : Collaborators T) [Inhabited T] (display_rect : RectF)
    (is_root : Bool) (st : PassState T) (it : Nat)
    (h : (FromDrawQuad env st.processor (deref st.render_pass.quad_list it)
      st.render_pass.transform_to_root_target default).1 = DCLayerResult.DC_LAYER_SUCCESS)
    (hc : ComplexTransformRejected env (deref st.render_pass.quad_list it)
      (FromYUVQuad env (deref st.render_pass.quad_list it)
        st.render_pass.transform_to_root_target) = false)
    (hatt : (is_root && (!st.processor.processed_overlay_in_frame_ ||
      env.RequiresOverlay (FromYUVQuad env (deref st.render_pass.quad_list it)
        st.render_pass.transform_to_root_target))) = true)
    (hocc : (GetOcclusionBounds env
      (RectF.ofRect (ToEnclosingRect (ClippedQuadRectangle env (deref st.render_pass.quad_list it))))
      (st.render_pass.quad_list.take it)).IsEmpty = true) :
    let quad := deref st.render_pass.quad_list it
    let quad_rectangle := ToEnclosingRect (ClippedQuadRectangle env quad)
    let subtracts :=
      env.Preserves2dAxisAlignment quad.shared_quad_state.quad_to_target_transform = true ∧
        env.ShouldDrawWithBlending quad = false ∧
        display_rect = st.processor.previous_display_rect_
    (subtracts →
        (ProcessQuad env display_rect is_root st it).1.damage_rect
          = st.damage_rect.Subtract quad_rectangle) ∧
      (¬ subtracts →
        (ProcessQuad env display_rect is_root st it).1.damage_rect = st.damage_rect) := by
  intro quad quad_rectangle subtracts
  rw [ProcessQuad_overlay env display_rect is_root st it h hc hatt hocc]
  have hd := ProcessForOverlay_damage env display_rect quad_rectangle
    (GetOcclusionBounds env (RectF.ofRect quad_rectangle) (st.render_pass.quad_list.take it))
    st it hocc
  constructor
  · intro hs
    show (ProcessForOverlay env display_rect quad_rectangle _ st it).2.1.damage_rect = _
    rw [hd, if_pos hs]
  · intro hs
    show (ProcessForOverlay env display_rect quad_rectangle _ st it).2.1.damage_rect = _
    rw [hd, if_neg hs]

theorem overlay_promotion_damage_witness :
    (FromDrawQuad (sampleCollaborators true false false) {}
        (sampleVideoQuad {} ProtectedVideoType.kClear) {} default).1
        = DCLayerResult.DC_LAYER_SUCCESS ∧
      (ProcessQuad (sampleCollaborators true false false) sampleDisplayRect true
        { samplePassState [sampleVideoQuad {} ProtectedVideoType.kClear] with
          processor := { previous_display_rect_ := sampleDisplayRect } } 0).1.damage_rect
        = Rect.Subtract { width := 200, height := 200 }
            (ToEnclosingRect (ClippedQuadRectangle (sampleCollaborators true false false)
              (sampleVideoQuad {} ProtectedVideoType.kClear))) :=
  ⟨by decide,
    (overlay_promotion_damage (sampleCollaborators true false false) sampleDisplayRect true
      { samplePassState [sampleVideoQuad {} ProtectedVideoType.kClear] with
        processor := { previous_display_rect_ := sampleDisplayRect } } 0
      (by decide) (by decide) (by decide) (by decide)).1 ⟨by decide, by decide, by decide⟩⟩

/-! ### The per-frame fields -/

/-- C17. `Process` clears the accepted-this-frame flag and the punch-through
map before it visits any pass: two engine states that differ at most in that
flag and in that map give, on the same passes, damage rectangles, candidate
list and histogram samples, the same result in every component (mutated
passes, both damage rectangles, candidate list, samples, final engine state). -/
theorem process_ignores_per_frame_fields (env : Collaborators T) [Inhabited T]
    (display_rect : RectF) (fs1 fs2 : FrameState T)
    (hpasses : fs1.render_passes = fs2.render_passes)
    (hoverlay : fs1.overlay_damage_rect = fs2.overlay_damage_rect)
    (hdamage : fs1.damage_rect = fs2.damage_rect)
    (hlist : fs1.dc_layer_overlays = fs2.dc_layer_overlays)
    (hsamples : fs1.histograms = fs2.histograms)
    (hhw : fs1.processor.has_hw_overlay_support_ = fs2.processor.has_hw_overlay_support_)
    (hdisplay : fs1.processor.previous_display_rect_ = fs2.processor.previous_display_rect_)
    (hrect : fs1.processor.previous_frame_underlay_rect_
      = fs2.processor.previous_frame_underlay_rect_)
    (hocc : fs1.processor.previous_frame_underlay_occlusion_
      = fs2.processor.previous_frame_underlay_occlusion_) :
    Process env display_rect fs1 = Process env display_rect fs2 := by
  unfold Process
  simp only [hpasses, hoverlay, hdamage, hlist, hsamples, hhw, hdisplay, hrect, hocc]

theorem process_ignores_per_frame_fields_witness :
    Process (sampleCollaborators true true false) sampleDisplayRect
        { sampleFrame [sampleVideoQuad {} ProtectedVideoType.kClear] with
          processor :=
            { processed_overlay_in_frame_ := true
              pass_punch_through_rects_ := [(7, [{ width := 5, height := 5 }])] } }
      = Process (sampleCollaborators true true false) sampleDisplayRect
          (sampleFrame [sampleVideoQuad {} ProtectedVideoType.kClear]) :=
  process_ignores_per_frame_fields (sampleCollaborators true true false) sampleDisplayRect _ _
    rfl rfl rfl rfl rfl rfl rfl rfl rfl

/-! ### Placeholders behind a render-pass quad -/

theorem deref_append_length [Inhabited T] (pre post : List (DrawQuad T)) (q : DrawQuad T) :
    deref (pre ++ q :: post) pre.length = q := by
  unfold deref
  rw [List.getD_eq_getElem?_getD, List.getElem?_append_right (le_refl _)]
  simp

/-- The quad list the loop of `ProcessRenderPassDrawQuad` leaves: every freshly
constructed quad has been set to the placeholder of its rectangle, in order. -/
theorem PunchThroughLoop_quad_list (env : Collaborators T) [Inhabited T]
    (render_pass_id : RenderPassId) (original_shared_quad_state : SharedQuadState T)
    (rects : List Rect) (pre post : List (DrawQuad T)) (s : PunchState T)
    (hs : s.quad_list = pre ++ List.replicate rects.length default ++ post)
    (hit : s.it = pre.length) :
    (PunchThroughLoop env render_pass_id original_shared_quad_state rects s).quad_list =
      pre ++ rects.map (fun r =>
        (default : DrawQuad T).SetAll { original_shared_quad_state with opacity := 1 } r r false
          SK_ColorTRANSPARENT true) ++ post := by
  induction rects generalizing pre s with
  | nil =>
    unfold PunchThroughLoop
    simpa using hs
  | cons r rest ih =>
    unfold PunchThroughLoop
    have hs2 : s.quad_list = pre ++ (default :: (List.replicate rest.length default ++ post)) := by
      rw [hs, List.length_cons, List.replicate_succ]
      simp
    have hd : deref s.quad_list s.it = default := by
      rw [hs2, hit]
      exact deref_append_length pre _ default
    rw [ih (pre ++ [(default : DrawQuad T).SetAll { original_shared_quad_state with opacity := 1 }
      r r false SK_ColorTRANSPARENT true]) _ ?_ ?_]
    · simp
    · simp only [hd]
      rw [hs2, hit, List.set_append_right _ _ (le_refl _)]
      simp
    · simp [hit]

theorem ProcessRenderPassDrawQuad_inserts (env : Collaborators T) [Inhabited T]
    (st : PassState T) (it : Nat) (hit : it < st.render_pass.quad_list.length)
    (hne : (deref st.render_pass.quad_list it).render_pass_id ≠ st.render_pass.id)
    (hcount : st.processor.pass_punch_through_rects_.count
      (deref st.render_pass.quad_list it).render_pass_id ≠ 0) :
    (ProcessRenderPassDrawQuad env st it).1.render_pass.quad_list =
        st.render_pass.quad_list.take (it + 1) ++
          (st.processor.pass_punch_through_rects_.lookup
            (deref st.render_pass.quad_list it).render_pass_id).map (fun r =>
              (default : DrawQuad T).SetAll
                { (deref st.render_pass.quad_list it).shared_quad_state with opacity := 1 } r r
                false SK_ColorTRANSPARENT true) ++
          st.render_pass.quad_list.drop (it + 1) ∧
      (ProcessRenderPassDrawQuad env st it).2 =
        it + 1 + (st.processor.pass_punch_through_rects_.lookup
          (deref st.render_pass.quad_list it).render_pass_id).length := by
  unfold ProcessRenderPassDrawQuad
  simp only [if_neg hne, if_neg hcount]
  refine ⟨?_, ?_⟩
  · apply PunchThroughLoop_quad_list
    · rfl
    · simp only [List.length_take]
      omega
  · rw [(PunchThroughLoop_length_it env _ _ _ _).2]

theorem ProcessQuad_render_pass (env : Collaborators T) [Inhabited T] (display_rect : RectF)
    (is_root : Bool) (st : PassState T) (it : Nat)
    (hmat : (deref st.render_pass.quad_list it).material = Material.RENDER_PASS) :
    ProcessQuad env display_rect is_root st it = ProcessRenderPassDrawQuad env st it := by
  unfold ProcessQuad
  simp only [if_pos hmat]

/-- C11. When the loop of `ProcessRenderPass` visits a render-pass quad that
does not refer to its own pass and the punch-through map holds the rectangles
`r1..rn` for the pass it refers to, the quad sequence afterwards is the
original quads up to and with the render-pass quad, then `n` solid-colour
placeholders in the order `r1..rn`, then the original remaining quads. The
placeholder of `ri` is transparent, has rect and visible rect `ri`, does not
need blending, and carries the shared state of the render-pass quad with the
opacity set to one. The traversal resumes after the last placeholder, at the
quad that followed the render-pass quad. -/
theorem punch_through_placeholders (env : Collaborators T) [Inhabited T] (display_rect : RectF)
    (is_root : Bool) (st : PassState T) (it : Nat)
    (hit : it < st.render_pass.quad_list.length)
    (hmat : (deref st.render_pass.quad_list it).material = Material.RENDER_PASS)
    (hne : (deref st.render_pass.quad_list it).render_pass_id ≠ st.render_pass.id)
    (hcount : st.processor.pass_punch_through_rects_.count
      (deref st.render_pass.quad_list it).render_pass_id ≠ 0) :
    let rpdq := deref st.render_pass.quad_list it
    let rects := st.processor.pass_punch_through_rects_.lookup rpdq.render_pass_id
    let step := ProcessQuad env display_rect is_root st it
    ∃ placeholder : Rect → DrawQuad T,
      (∀ r, (placeholder r).material = Material.SOLID_COLOR ∧
        (placeholder r).color = SK_ColorTRANSPARENT ∧
        SkColorGetA (placeholder r).color = 0 ∧
        (placeholder r).rect = r ∧
        (placeholder r).visible_rect = r ∧
        (placeholder r).needs_blending = false ∧
        (placeholder r).shared_quad_state = { rpdq.shared_quad_state with opacity := 1 }) ∧
      step.1.render_pass.quad_list =
        st.render_pass.quad_list.take (it + 1) ++ rects.map placeholder ++
          st.render_pass.quad_list.drop (it + 1) ∧
      step.1.render_pass.quad_list.take (it + 1) = st.render_pass.quad_list.take (it + 1) ∧
      step.1.render_pass.quad_list[it]? = some rpdq ∧
      step.2 = it + 1 + rects.length ∧
      step.1.render_pass.quad_list.drop step.2 = st.render_pass.quad_list.drop (it + 1) := by
  intro rpdq rects step
  obtain ⟨hql, hnext⟩ := ProcessRenderPassDrawQuad_inserts env st it hit hne hcount
  have hstep : step = ProcessRenderPassDrawQuad env st it :=
    ProcessQuad_render_pass env display_rect is_root st it hmat
  rw [hstep]
  have hlen : (st.render_pass.quad_list.take (it + 1)).length = it + 1 := by
    rw [List.length_take]
    omega
  refine ⟨fun r => (default : DrawQuad T).SetAll { rpdq.shared_quad_state with opacity := 1 } r r
    false SK_ColorTRANSPARENT true, ?_, hql, ?_, ?_, hnext, ?_⟩
  · intro r
    refine ⟨rfl, rfl, ?_, rfl, rfl, rfl, rfl⟩
    show SkColorGetA SK_ColorTRANSPARENT = 0
    decide
  · rw [hql, List.append_assoc, List.take_append_of_le_length (by rw [hlen]),
      List.take_take, Nat.min_self]
  · rw [hql, List.append_assoc, List.getElem?_append_left (by rw [hlen]; omega),
      List.getElem?_take]
    simp only [Nat.lt_succ_self, if_true]
    show st.render_pass.quad_list[it]? = some (deref st.render_pass.quad_list it)
    unfold deref
    rw [List.getD_eq_getElem?_getD, List.getElem?_eq_getElem hit]
    rfl
  · rw [hql, hnext, List.append_assoc]
    have h1 : it + 1 + rects.length
        = (st.render_pass.quad_list.take (it + 1)).length + rects.length := by rw [hlen]
    rw [h1, List.drop_append]
    have h2 : rects.length = (rects.map fun r =>
        (default : DrawQuad T).SetAll { rpdq.shared_quad_state with opacity := 1 } r r false
          SK_ColorTRANSPARENT true).length := by simp
    rw [h2, List.drop_left]

theorem punch_through_placeholders_witness :
    (ProcessQuad (sampleCollaborators true true false) sampleDisplayRect true
        { samplePassState [sampleRenderPassQuad 7, sampleVideoQuad {} ProtectedVideoType.kClear] with
          processor :=
            { pass_punch_through_rects_ :=
                [(7, [{ width := 5, height := 5 }, { x := 9, width := 3, height := 3 }])] } }
        0).2 = 3 :=
  (punch_through_placeholders (sampleCollaborators true true false) sampleDisplayRect true
    { samplePassState [sampleRenderPassQuad 7, sampleVideoQuad {} ProtectedVideoType.kClear] with
      processor :=
        { pass_punch_through_rects_ :=
            [(7, [{ width := 5, height := 5 }, { x := 9, width := 3, height := 3 }])] } }
    0 (by decide) (by decide) (by decide) (by decide)).elim
    fun _ hp => hp.2.2.2.2.1

/-! ### Samples and candidates, quad by quad -/

theorem FromDrawQuad_not_video (env : Collaborators T) (processor : DCLayerOverlayProcessor)
    (quad : DrawQuad T) (t : T) (dc : DCLayerOverlay T)
    (h : quad.material ≠ Material.YUV_VIDEO_CONTENT) :
    FromDrawQuad env processor quad t dc
      = (DCLayerResult.DC_LAYER_FAILED_UNSUPPORTED_QUAD, dc) := by
  unfold FromDrawQuad
  rw [if_pos h]

theorem FromDrawQuad_of_video (env : Collaborators T) (processor : DCLayerOverlayProcessor)
    (quad : DrawQuad T) (t : T) (dc : DCLayerOverlay T)
    (h : quad.material = Material.YUV_VIDEO_CONTENT) :
    (FromDrawQuad env processor quad t dc).2 = FromYUVQuad env quad t ∧
      (FromDrawQuad env processor quad t dc).1
        ≠ DCLayerResult.DC_LAYER_FAILED_UNSUPPORTED_QUAD := by
  unfold FromDrawQuad
  simp only [h, ne_eq, not_true_eq_false, if_false]
  split_ifs <;> exact ⟨rfl, by decide⟩

/-- The outcome of an iteration of the loop of `ProcessRenderPass` on a quad
that is not a render-pass quad, with the sample, the candidate and the quad
list it leaves: a rejection, a promotion by the overlay tier, a promotion by
the underlay tier. -/
theorem ProcessQuad_outcome (env : Collaborators T) [Inhabited T] (display_rect : RectF)
    (is_root : Bool) (st : PassState T) (it : Nat)
    (hmat : (deref st.render_pass.quad_list it).material ≠ Material.RENDER_PASS) :
    let quad := deref st.render_pass.quad_list it
    let dc_layer := FromYUVQuad env quad st.render_pass.transform_to_root_target
    let step := ProcessQuad env display_rect is_root st it
    (∃ code, code ≠ DCLayerResult.DC_LAYER_SUCCESS ∧
      (code = DCLayerResult.DC_LAYER_FAILED_UNSUPPORTED_QUAD ↔
        quad.material ≠ Material.YUV_VIDEO_CONTENT) ∧
      step = (RecordDCLayerResult code
        (if quad.material = Material.YUV_VIDEO_CONTENT then quad.protected_video_type
          else ProtectedVideoType.kClear) st, it + 1)) ∨
    (quad.material = Material.YUV_VIDEO_CONTENT ∧ step.2 = it ∧
      step.1.render_pass.quad_list = st.render_pass.quad_list.eraseIdx it ∧
      step.1.histograms = st.histograms ++
        [(quad.protected_video_type, DCLayerResult.DC_LAYER_SUCCESS)] ∧
      step.1.dc_layer_overlays = st.dc_layer_overlays ++ [dc_layer]) ∨
    (quad.material = Material.YUV_VIDEO_CONTENT ∧ step.2 = it + 1 ∧
      step.1.render_pass.quad_list
        = (ProcessForUnderlayReplace env st.render_pass.quad_list it).1 ∧
      step.1.histograms = st.histograms ++
        [(quad.protected_video_type, DCLayerResult.DC_LAYER_SUCCESS)] ∧
      step.1.dc_layer_overlays = st.dc_layer_overlays ++ [{ dc_layer with z_order := -1 }]) := by
  intro quad dc_layer step
  by_cases hvideo : quad.material = Material.YUV_VIDEO_CONTENT
  · obtain ⟨hdc, hunsupported⟩ := FromDrawQuad_of_video env st.processor quad
      st.render_pass.transform_to_root_target default hvideo
    by_cases hfrom : (FromDrawQuad env st.processor quad
        st.render_pass.transform_to_root_target default).1 = DCLayerResult.DC_LAYER_SUCCESS
    · by_cases hc : ComplexTransformRejected env quad dc_layer = true
      · left
        refine ⟨DCLayerResult.DC_LAYER_FAILED_COMPLEX_TRANSFORM, by decide, ?_, ?_⟩
        · simp [hvideo]
        · show ProcessQuad env display_rect is_root st it = _
          rw [ProcessQuad_eligible env display_rect is_root st it hfrom]
          simp only []
          rw [if_pos hc, if_pos hvideo]
      · have hc2 : ComplexTransformRejected env quad dc_layer = false := by simpa using hc
        by_cases hov : (is_root && (!st.processor.processed_overlay_in_frame_ ||
            env.RequiresOverlay dc_layer)) = true ∧
            (GetOcclusionBounds env
              (RectF.ofRect (ToEnclosingRect (ClippedQuadRectangle env quad)))
              (st.render_pass.quad_list.take it)).IsEmpty = true
        · right; left
          have heq : step = _ :=
            ProcessQuad_overlay env display_rect is_root st it hfrom hc2 hov.1 hov.2
          obtain ⟨-, -, hql, -, -, hh, hdcs, -⟩ := ProcessForOverlay_accepted env display_rect
            (ToEnclosingRect (ClippedQuadRectangle env quad)) _ st it hov.2
          refine ⟨hvideo, by rw [heq], ?_, ?_, ?_⟩
          · rw [heq]
            exact hql
          · rw [heq]
            show (ProcessForOverlay env display_rect _ _ st it).2.1.histograms ++ _ = _
            rw [hh]
            rfl
          · rw [heq]
            show (ProcessForOverlay env display_rect _ _ st it).2.1.dc_layer_overlays ++ _ = _
            rw [hdcs]
        · have hov2 : (is_root && (!st.processor.processed_overlay_in_frame_ ||
              env.RequiresOverlay dc_layer)) = false ∨
              (GetOcclusionBounds env
                (RectF.ofRect (ToEnclosingRect (ClippedQuadRectangle env quad)))
                (st.render_pass.quad_list.take it)).IsEmpty = false := by
            by_cases ha : (is_root && (!st.processor.processed_overlay_in_frame_ ||
                env.RequiresOverlay dc_layer)) = true
            · right
              by_contra hb
              exact hov ⟨ha, by simpa using hb⟩
            · left
              simpa using ha
          cases hr : ProcessForUnderlayRejection env st it is_root dc_layer with
          | none =>
            right; right
            have heq : step = _ :=
              ProcessQuad_underlay_accepted env display_rect is_root st it hfrom hc2 hov2 hr
            obtain ⟨-, -, hql, -, -, hh, hdcs, -⟩ := ProcessForUnderlay_accepted env display_rect
              (ToEnclosingRect (ClippedQuadRectangle env quad))
              (GetOcclusionBounds env
                (RectF.ofRect (ToEnclosingRect (ClippedQuadRectangle env quad)))
                (st.render_pass.quad_list.take it)) it is_root st dc_layer hr
            refine ⟨hvideo, by rw [heq], ?_, ?_, ?_⟩
            · rw [heq]
              exact hql
            · rw [heq]
              show (ProcessForUnderlay env display_rect _ _ it is_root st _).2.1.histograms
                ++ _ = _
              rw [hh]
              rfl
            · rw [heq]
              show (ProcessForUnderlay env display_rect _ _ it is_root st
                _).2.1.dc_layer_overlays ++ _ = _
              rw [hdcs]
          | some result =>
            left
            obtain ⟨-, hcodes⟩ := ProcessForUnderlayRejection_codes _ _ _ _ _ _ hr
            refine ⟨result, ?_, ?_, ?_⟩
            · rcases hcodes with hx | hx | hx | hx <;> rw [hx] <;> decide
            · rcases hcodes with hx | hx | hx | hx <;> rw [hx] <;> simp [hvideo]
            · show ProcessQuad env display_rect is_root st it = _
              rw [ProcessQuad_underlay_rejected env display_rect is_root st it result hfrom hc2
                hov2 hr, if_pos hvideo]
    · left
      refine ⟨_, hfrom, ?_, ?_⟩
      · simp [hvideo, hunsupported]
      · show ProcessQuad env display_rect is_root st it = _
        rw [ProcessQuad_not_eligible env display_rect is_root st it hmat hfrom, hdc,
          if_pos hvideo]
        rfl
  · left
    have hfd := FromDrawQuad_not_video env st.processor quad
      st.render_pass.transform_to_root_target default hvideo
    have hfrom : (FromDrawQuad env st.processor quad
        st.render_pass.transform_to_root_target default).1 ≠ DCLayerResult.DC_LAYER_SUCCESS := by
      rw [hfd]
      simp
    refine ⟨DCLayerResult.DC_LAYER_FAILED_UNSUPPORTED_QUAD, by decide, ?_, ?_⟩
    · simp [hvideo]
    · show ProcessQuad env display_rect is_root st it = _
      rw [ProcessQuad_not_eligible env display_rect is_root st it hmat hfrom, hfd,
        if_neg hvideo]
      rfl

theorem deref_eq_getElem [Inhabited T] (quad_list : List (DrawQuad T)) (it : Nat)
    (hit : it < quad_list.length) : deref quad_list it = quad_list[it] := by
  unfold deref
  rw [List.getD_eq_getElem?_getD, List.getElem?_eq_getElem hit]
  rfl

theorem ProcessRenderPassDrawQuad_outputs (env : Collaborators T) [Inhabited T]
    (st : PassState T) (it : Nat) :
    (ProcessRenderPassDrawQuad env st it).1.histograms = st.histograms ∧
      (ProcessRenderPassDrawQuad env st it).1.dc_layer_overlays = st.dc_layer_overlays ∧
      (ProcessRenderPassDrawQuad env st it).1.overlay_damage_rect = st.overlay_damage_rect := by
  unfold ProcessRenderPassDrawQuad
  simp only []
  split_ifs <;> exact ⟨rfl, rfl, rfl⟩

/-- After an iteration of the loop of `ProcessRenderPass` the quads from the
iterator on are the quads that followed the quad just visited. -/
theorem ProcessQuad_suffix (env : Collaborators T) [Inhabited T] (display_rect : RectF)
    (is_root : Bool) (st : PassState T) (it : Nat) (hit : it < st.render_pass.quad_list.length) :
    (ProcessQuad env display_rect is_root st it).1.render_pass.quad_list.drop
        (ProcessQuad env display_rect is_root st it).2
      = st.render_pass.quad_list.drop (it + 1) := by
  by_cases hmat : (deref st.render_pass.quad_list it).material = Material.RENDER_PASS
  · rw [ProcessQuad_render_pass env display_rect is_root st it hmat]
    by_cases hskip : (deref st.render_pass.quad_list it).render_pass_id = st.render_pass.id ∨
        st.processor.pass_punch_through_rects_.count
          (deref st.render_pass.quad_list it).render_pass_id = 0
    · have hkey : ProcessRenderPassDrawQuad env st it = (st, it + 1) := by
        unfold ProcessRenderPassDrawQuad
        simp only []
        rcases hskip with h | h
        · rw [if_pos h]
        · split_ifs <;> rfl
      rw [hkey]
    · have hne : (deref st.render_pass.quad_list it).render_pass_id ≠ st.render_pass.id :=
        fun h => hskip (Or.inl h)
      have hcount : st.processor.pass_punch_through_rects_.count
          (deref st.render_pass.quad_list it).render_pass_id ≠ 0 := fun h => hskip (Or.inr h)
      obtain ⟨hql, hnext⟩ := ProcessRenderPassDrawQuad_inserts env st it hit hne hcount
      have hlen : (st.render_pass.quad_list.take (it + 1)).length = it + 1 := by
        rw [List.length_take]
        omega
      rw [hql, hnext, List.append_assoc]
      have h1 : it + 1 + (st.processor.pass_punch_through_rects_.lookup
          (deref st.render_pass.quad_list it).render_pass_id).length
          = (st.render_pass.quad_list.take (it + 1)).length +
            (st.processor.pass_punch_through_rects_.lookup
              (deref st.render_pass.quad_list it).render_pass_id).length := by rw [hlen]
      rw [h1, List.drop_append]
      have h2 : (st.processor.pass_punch_through_rects_.lookup
          (deref st.render_pass.quad_list it).render_pass_id).length
          = ((st.processor.pass_punch_through_rects_.lookup
            (deref st.render_pass.quad_list it).render_pass_id).map fun r =>
              (default : DrawQuad T).SetAll
                { (deref st.render_pass.quad_list it).shared_quad_state with opacity := 1 } r r
                false SK_ColorTRANSPARENT true).length := by simp
      rw [h2, List.drop_left]
  · rcases ProcessQuad_outcome env display_rect is_root st it hmat with
      ⟨code, -, -, heq⟩ | ⟨-, hnext, hql, -⟩ | ⟨-, hnext, hql, -⟩
    · rw [heq]
      rfl
    · rw [hnext, hql, List.eraseIdx_eq_take_drop_succ]
      have hlen : (st.render_pass.quad_list.take it).length = it := by
        rw [List.length_take]
        omega
      have hdrop := List.drop_left (st.render_pass.quad_list.take it)
        (st.render_pass.quad_list.drop (it + 1))
      rw [hlen] at hdrop
      exact hdrop
    · obtain ⟨placeholder, hset, -⟩ :=
        ProcessForUnderlayReplace_spec env st.render_pass.quad_list it
      rw [hnext, hql, hset, List.drop_set_of_lt _ _ (Nat.lt_succ_self it)]

/-- The samples and the candidates of one iteration of the loop of
`ProcessRenderPass`. -/
theorem ProcessQuad_trace (env : Collaborators T) [Inhabited T] (display_rect : RectF)
    (is_root : Bool) (st : PassState T) (it : Nat) :
    ∃ (samples : List (ProtectedVideoType × DCLayerResult)) (added : List (DCLayerOverlay T)),
      (ProcessQuad env display_rect is_root st it).1.histograms = st.histograms ++ samples ∧
      (ProcessQuad env display_rect is_root st it).1.dc_layer_overlays
        = st.dc_layer_overlays ++ added ∧
      (samples.filter fun sample =>
          decide (sample.2 ≠ DCLayerResult.DC_LAYER_FAILED_UNSUPPORTED_QUAD)).map Prod.fst
        = ([deref st.render_pass.quad_list it].filter fun q =>
            decide (q.material = Material.YUV_VIDEO_CONTENT)).map
              (fun q => q.protected_video_type) ∧
      added.map (fun dc_layer => dc_layer.protected_video_type)
        = (samples.filter fun sample =>
            decide (sample.2 = DCLayerResult.DC_LAYER_SUCCESS)).map Prod.fst ∧
      (∀ dc_layer ∈ added, dc_layer.z_order = 1 ∨ dc_layer.z_order = -1) := by
  by_cases hmat : (deref st.render_pass.quad_list it).material = Material.RENDER_PASS
  · rw [ProcessQuad_render_pass env display_rect is_root st it hmat]
    obtain ⟨hh, hdc, -⟩ := ProcessRenderPassDrawQuad_outputs env st it
    refine ⟨[], [], by rw [hh]; simp, by rw [hdc]; simp, ?_, rfl, by simp⟩
    simp [hmat]
  · rcases ProcessQuad_outcome env display_rect is_root st it hmat with
      ⟨code, hne, hiff, heq⟩ | ⟨hvideo, -, -, hh, hdc⟩ | ⟨hvideo, -, -, hh, hdc⟩
    · refine ⟨[(if (deref st.render_pass.quad_list it).material = Material.YUV_VIDEO_CONTENT
          then (deref st.render_pass.quad_list it).protected_video_type
          else ProtectedVideoType.kClear, code)], [], by rw [heq]; rfl, by rw [heq]; simp [RecordDCLayerResult],
        ?_, ?_, by simp⟩
      · by_cases hvideo : (deref st.render_pass.quad_list it).material
            = Material.YUV_VIDEO_CONTENT
        · have hcode : code ≠ DCLayerResult.DC_LAYER_FAILED_UNSUPPORTED_QUAD :=
            fun hx => (hiff.mp hx) hvideo
          simp [hvideo, hcode]
        · have hcode : code = DCLayerResult.DC_LAYER_FAILED_UNSUPPORTED_QUAD := hiff.mpr hvideo
          simp [hvideo, hcode]
      · simp [hne]
    · refine ⟨[((deref st.render_pass.quad_list it).protected_video_type,
        DCLayerResult.DC_LAYER_SUCCESS)], [_], hh, hdc, ?_, ?_, ?_⟩
      · simp [hvideo]
      · simp
        rfl
      · intro d hd
        left
        rw [List.mem_singleton.mp hd]
        rfl
    · refine ⟨[((deref st.render_pass.quad_list it).protected_video_type,
        DCLayerResult.DC_LAYER_SUCCESS)], [_], hh, hdc, ?_, ?_, ?_⟩
      · simp [hvideo]
      · simp
        rfl
      · intro d hd
        right
        rw [List.mem_singleton.mp hd]

theorem StretchTrace_refl (h0 : List (ProtectedVideoType × DCLayerResult))
    (d0 : List (DCLayerOverlay T)) : StretchTrace h0 d0 h0 d0 [] :=
  ⟨[], [], by simp, by simp, rfl, rfl, by simp⟩

theorem StretchTrace_trans (h0 h1 h2 : List (ProtectedVideoType × DCLayerResult))
    (d0 d1 d2 : List (DCLayerOverlay T)) (v1 v2 : List ProtectedVideoType)
    (a : StretchTrace h0 d0 h1 d1 v1) (b : StretchTrace h1 d1 h2 d2 v2) :
    StretchTrace h0 d0 h2 d2 (v1 ++ v2) := by
  obtain ⟨s1, a1, e1, f1, g1, k1, z1⟩ := a
  obtain ⟨s2, a2, e2, f2, g2, k2, z2⟩ := b
  refine ⟨s1 ++ s2, a1 ++ a2, by rw [e2, e1, List.append_assoc],
    by rw [f2, f1, List.append_assoc], ?_, ?_, ?_⟩
  · rw [List.filter_append, List.map_append, g1, g2]
  · rw [List.map_append, List.filter_append, List.map_append, k1, k2]
  · intro d hd
    rcases List.mem_append.mp hd with h | h
    · exact z1 d h
    · exact z2 d h

theorem ProcessQuad_stretch (env : Collaborators T) [Inhabited T] (display_rect : RectF)
    (is_root : Bool) (st : PassState T) (it : Nat) :
    StretchTrace st.histograms st.dc_layer_overlays
      (ProcessQuad env display_rect is_root st it).1.histograms
      (ProcessQuad env display_rect is_root st it).1.dc_layer_overlays
      (VideoTags [deref st.render_pass.quad_list it]) :=
  ProcessQuad_trace env display_rect is_root st it

theorem VideoTags_append (l1 l2 : List (DrawQuad T)) :
    VideoTags (l1 ++ l2) = VideoTags l1 ++ VideoTags l2 := by
  unfold VideoTags
  rw [List.filter_append, List.map_append]

/-- The samples and the candidates of the loop of `ProcessRenderPass`: one
sample for every video quad from the iterator to the end of the list. -/
theorem ProcessQuads_stretch (env : Collaborators T) [Inhabited T] (display_rect : RectF)
    (is_root : Bool) (fuel : Nat) (st : PassState T) (it : Nat)
    (hle : it ≤ st.render_pass.quad_list.length)
    (hfuel : st.render_pass.quad_list.length - it ≤ fuel) :
    StretchTrace st.histograms st.dc_layer_overlays
      (ProcessQuads env display_rect is_root fuel st it).1.histograms
      (ProcessQuads env display_rect is_root fuel st it).1.dc_layer_overlays
      (VideoTags (st.render_pass.quad_list.drop it)) := by
  induction fuel generalizing st it with
  | zero =>
    have hit : it = st.render_pass.quad_list.length := by omega
    rw [hit, List.drop_length]
    exact StretchTrace_refl _ _
  | succ fuel ih =>
    unfold ProcessQuads
    split_ifs with hlt
    · obtain ⟨h1, h2⟩ := ProcessQuad_measure env display_rect is_root st it hlt
      have hrest := ih (ProcessQuad env display_rect is_root st it).1
        (ProcessQuad env display_rect is_root st it).2 h1 (by omega)
      rw [ProcessQuad_suffix env display_rect is_root st it hlt] at hrest
      have hsplit : st.render_pass.quad_list.drop it
          = [deref st.render_pass.quad_list it] ++ st.render_pass.quad_list.drop (it + 1) := by
        rw [List.drop_eq_getElem_cons hlt, deref_eq_getElem _ _ hlt]
        rfl
      rw [hsplit, VideoTags_append]
      exact StretchTrace_trans _ _ _ _ _ _ _ _
        (ProcessQuad_stretch env display_rect is_root st it) hrest
    · have hit : it = st.render_pass.quad_list.length := by omega
      rw [hit, List.drop_length]
      exact StretchTrace_refl _ _

theorem ProcessPasses_stretch (env : Collaborators T) [Inhabited T] (display_rect : RectF)
    (passes : List (RenderPass T)) (fs : FrameState T) :
    StretchTrace fs.histograms fs.dc_layer_overlays
      (ProcessPasses env display_rect passes fs).histograms
      (ProcessPasses env display_rect passes fs).dc_layer_overlays
      (VideoTags (passes.flatMap fun pass => pass.quad_list)) := by
  induction passes generalizing fs with
  | nil =>
    unfold ProcessPasses
    exact StretchTrace_refl _ _
  | cons pass rest ih =>
    unfold ProcessPasses
    have hcons : (pass :: rest).flatMap (fun pass => pass.quad_list)
        = pass.quad_list ++ rest.flatMap (fun pass => pass.quad_list) := by
      simp [List.flatMap]
    rw [hcons, VideoTags_append]
    refine StretchTrace_trans _ _ _ _ _ _ _ _ ?_ (ih _)
    obtain ⟨-, hh, hdc, -⟩ := ProcessRenderPass_fields env display_rect rest.isEmpty
      { processor := fs.processor
        render_pass := pass
        overlay_damage_rect := fs.overlay_damage_rect
        damage_rect := if rest.isEmpty then fs.damage_rect else pass.damage_rect
        dc_layer_overlays := fs.dc_layer_overlays
        histograms := fs.histograms }
    have hloop := ProcessQuads_stretch env display_rect rest.isEmpty pass.quad_list.length
      { processor := fs.processor
        render_pass := pass
        overlay_damage_rect := fs.overlay_damage_rect
        damage_rect := if rest.isEmpty then fs.damage_rect else pass.damage_rect
        dc_layer_overlays := fs.dc_layer_overlays
        this_frame_underlay_rect := {}
        this_frame_underlay_occlusion := {}
        histograms := fs.histograms } 0 (Nat.zero_le _) (by simp)
    rw [List.drop_zero] at hloop
    show StretchTrace fs.histograms fs.dc_layer_overlays
      (ProcessRenderPass env display_rect rest.isEmpty _).histograms
      (ProcessRenderPass env display_rect rest.isEmpty _).dc_layer_overlays _
    rw [hh, hdc]
    exact hloop

theorem Process_stretch (env : Collaborators T) [Inhabited T] (display_rect : RectF)
    (fs : FrameState T) :
    StretchTrace fs.histograms fs.dc_layer_overlays
      (Process env display_rect fs).histograms
      (Process env display_rect fs).dc_layer_overlays
      (VideoTags (fs.render_passes.flatMap fun pass => pass.quad_list)) := by
  unfold Process
  exact ProcessPasses_stretch env display_rect fs.render_passes _

theorem deref_lt [Inhabited T] (quad_list : List (DrawQuad T)) (it : Nat)
    (h : (deref quad_list it).material ≠ Material.INVALID) : it < quad_list.length := by
  by_contra hge
  apply h
  unfold deref
  rw [List.getD_eq_getElem?_getD, List.getElem?_eq_none (by omega)]
  rfl

/-- C12. Visiting a video quad records exactly one sample, tagged with the
classification of the quad, and the code of the sample is the success code
exactly when the quad has left the list (overlay tier) or has been replaced by
a solid-colour placeholder (underlay tier); with any other code the list is as
before. Over a whole frame, the samples `Process` records with a code other
than unsupported-quad (the code of the quads that are not video quads) are, in
order, one for every video quad of every pass, with the classification of that
quad: no video quad is passed over. -/
theorem one_result_per_video_quad (env : Collaborators T) [Inhabited T] (display_rect : RectF) :
    (∀ (is_root : Bool) (st : PassState T) (it : Nat),
      (deref st.render_pass.quad_list it).material = Material.YUV_VIDEO_CONTENT →
      ∃ code,
        (ProcessQuad env display_rect is_root st it).1.histograms
          = st.histograms ++ [((deref st.render_pass.quad_list it).protected_video_type, code)] ∧
        (code = DCLayerResult.DC_LAYER_SUCCESS ↔
          ((ProcessQuad env display_rect is_root st it).1.render_pass.quad_list
              = st.render_pass.quad_list.eraseIdx it ∨
            ∃ placeholder : DrawQuad T, placeholder.material = Material.SOLID_COLOR ∧
              (ProcessQuad env display_rect is_root st it).1.render_pass.quad_list
                = st.render_pass.quad_list.set it placeholder)) ∧
        (code ≠ DCLayerResult.DC_LAYER_SUCCESS →
          (ProcessQuad env display_rect is_root st it).1.render_pass.quad_list
            = st.render_pass.quad_list)) ∧
    (∀ fs : FrameState T,
      ∃ samples : List (ProtectedVideoType × DCLayerResult),
        (Process env display_rect fs).histograms = fs.histograms ++ samples ∧
        (samples.filter fun sample =>
            decide (sample.2 ≠ DCLayerResult.DC_LAYER_FAILED_UNSUPPORTED_QUAD)).map Prod.fst
          = ((fs.render_passes.flatMap fun pass => pass.quad_list).filter fun q =>
              decide (q.material = Material.YUV_VIDEO_CONTENT)).map
                fun q => q.protected_video_type) := by
  refine ⟨?_, ?_⟩
  · intro is_root st it hvideo
    have hmat : (deref st.render_pass.quad_list it).material ≠ Material.RENDER_PASS := by
      rw [hvideo]; decide
    have hit : it < st.render_pass.quad_list.length :=
      deref_lt _ _ (by rw [hvideo]; decide)
    rcases ProcessQuad_outcome env display_rect is_root st it hmat with
      ⟨code, hne, -, heq⟩ | ⟨-, -, hql, hh, -⟩ | ⟨-, -, hql, hh, -⟩
    · refine ⟨code, ?_, ?_, ?_⟩
      · rw [heq, if_pos hvideo]
        rfl
      · constructor
        · intro hs
          exact absurd hs hne
        · intro hchanged
          exfalso
          rw [heq] at hchanged
          rcases hchanged with h | ⟨placeholder, hsolid, h⟩
          · have hlen := congrArg List.length h
            rw [List.length_eraseIdx, if_pos hit] at hlen
            have hlen2 : st.render_pass.quad_list.length
                = st.render_pass.quad_list.length - 1 := hlen
            omega
          · have hget := congrArg (fun l => l[it]?) h
            simp only [List.getElem?_set_self hit] at hget
            have hq : st.render_pass.quad_list[it]?
                = some (deref st.render_pass.quad_list it) := by
              rw [deref_eq_getElem _ _ hit, List.getElem?_eq_getElem hit]
            have hq2 : (RecordDCLayerResult code
                (if (deref st.render_pass.quad_list it).material = Material.YUV_VIDEO_CONTENT
                  then (deref st.render_pass.quad_list it).protected_video_type
                  else ProtectedVideoType.kClear) st, it + 1).1.render_pass.quad_list[it]?
                = st.render_pass.quad_list[it]? := rfl
            rw [hq2, hq] at hget
            have hsame := Option.some.inj hget
            rw [← hsame, hvideo] at hsolid
            exact absurd hsolid (by decide)
      · intro _
        rw [heq]
        rfl
    · exact ⟨DCLayerResult.DC_LAYER_SUCCESS, hh, ⟨fun _ => Or.inl hql, fun _ => rfl⟩,
        fun h => absurd rfl h⟩
    · obtain ⟨placeholder, hset, hsolid, -⟩ :=
        ProcessForUnderlayReplace_spec env st.render_pass.quad_list it
      exact ⟨DCLayerResult.DC_LAYER_SUCCESS, hh,
        ⟨fun _ => Or.inr ⟨placeholder, hsolid, hql.trans hset⟩, fun _ => rfl⟩,
        fun h => absurd rfl h⟩
  · intro fs
    obtain ⟨samples, added, h1, -, h3, -⟩ := Process_stretch env display_rect fs
    exact ⟨samples, h1, h3⟩

theorem one_result_per_video_quad_witness :
    ∃ code,
      (ProcessQuad (sampleCollaborators true false false) sampleDisplayRect true
        (samplePassState [sampleVideoQuad {} ProtectedVideoType.kSoftwareProtected]) 0).1.histograms
        = [] ++ [(ProtectedVideoType.kSoftwareProtected, code)] ∧
      (code = DCLayerResult.DC_LAYER_SUCCESS ↔
        ((ProcessQuad (sampleCollaborators true false false) sampleDisplayRect true
          (samplePassState [sampleVideoQuad {} ProtectedVideoType.kSoftwareProtected])
          0).1.render_pass.quad_list
            = [sampleVideoQuad {} ProtectedVideoType.kSoftwareProtected].eraseIdx 0 ∨
          ∃ placeholder : DrawQuad Affine2d, placeholder.material = Material.SOLID_COLOR ∧
            (ProcessQuad (sampleCollaborators true false false) sampleDisplayRect true
              (samplePassState [sampleVideoQuad {} ProtectedVideoType.kSoftwareProtected])
              0).1.render_pass.quad_list
              = [sampleVideoQuad {} ProtectedVideoType.kSoftwareProtected].set 0 placeholder)) :=
  ((one_result_per_video_quad (sampleCollaborators true false false) sampleDisplayRect).1 true
    (samplePassState [sampleVideoQuad {} ProtectedVideoType.kSoftwareProtected]) 0
    (by decide)).imp fun _ hc => ⟨hc.1, hc.2.1⟩

theorem RectF.Union_of_nonempty (a b : RectF) (ha : a.IsEmpty = false) (hb : b.IsEmpty = false) :
    (a.Union b).x = min a.x b.x ∧ (a.Union b).y = min a.y b.y ∧
      (a.Union b).right = max a.right b.right ∧ (a.Union b).bottom = max a.bottom b.bottom ∧
      (a.Union b).IsEmpty = false := by
  have hwa : 0 < a.width ∧ 0 < a.height := by
    simpa [RectF.IsEmpty] using ha
  have hwb : 0 < b.width ∧ 0 < b.height := by
    simpa [RectF.IsEmpty] using hb
  unfold RectF.Union
  rw [ha, hb]
  simp only [Bool.false_eq_true, if_false, RectF.right, RectF.bottom]
  refine ⟨trivial, trivial, by ring, by ring, ?_⟩
  simp only [RectF.IsEmpty, Bool.or_eq_false_iff, decide_eq_false_iff_not, not_le]
  constructor
  · have h1 : min a.x b.x ≤ a.x := min_le_left _ _
    have h2 : a.x + a.width ≤ max (a.x + a.width) (b.x + b.width) := le_max_left _ _
    linarith [hwa.1]
  · have h1 : min a.y b.y ≤ a.y := min_le_left _ _
    have h2 : a.y + a.height ≤ max (a.y + a.height) (b.y + b.height) := le_max_left _ _
    linarith [hwa.2]

theorem RectF.Union_empty_left (a b : RectF) (ha : a.IsEmpty = true) : a.Union b = b := by
  unfold RectF.Union
  rw [if_pos ha]

/-- Folding `Union` over non-empty rectangles from a non-empty one gives the
least rectangle that holds them all. -/
theorem RectF.foldl_Union_bounding (rects : List RectF) (acc : RectF)
    (hacc : acc.IsEmpty = false) (hall : ∀ r ∈ rects, r.IsEmpty = false) :
    (rects.foldl RectF.Union acc).IsEmpty = false ∧
      (rects.foldl RectF.Union acc).Encloses acc ∧
      (∀ r ∈ rects, (rects.foldl RectF.Union acc).Encloses r) ∧
      (∀ s : RectF, s.Encloses acc → (∀ r ∈ rects, s.Encloses r) →
        s.Encloses (rects.foldl RectF.Union acc)) := by
  induction rects generalizing acc with
  | nil =>
    refine ⟨hacc, ⟨le_refl _, le_refl _, le_refl _, le_refl _⟩, by simp, fun s hs _ => hs⟩
  | cons r rest ih =>
    have hr : r.IsEmpty = false := hall r (List.mem_cons_self _ _)
    obtain ⟨ux, uy, ur, ub, une⟩ := RectF.Union_of_nonempty acc r hacc hr
    obtain ⟨h1, h2, h3, h4⟩ := ih (acc.Union r) une
      (fun q hq => hall q (List.mem_cons_of_mem _ hq))
    have hacc_in : (acc.Union r).Encloses acc := by
      refine ⟨?_, ?_, ?_, ?_⟩
      · rw [ux]; exact min_le_left _ _
      · rw [uy]; exact min_le_left _ _
      · rw [ur]; exact le_max_left _ _
      · rw [ub]; exact le_max_left _ _
    have hr_in : (acc.Union r).Encloses r := by
      refine ⟨?_, ?_, ?_, ?_⟩
      · rw [ux]; exact min_le_right _ _
      · rw [uy]; exact min_le_right _ _
      · rw [ur]; exact le_max_right _ _
      · rw [ub]; exact le_max_right _ _
    have htrans : ∀ a b c : RectF, a.Encloses b → b.Encloses c → a.Encloses c := by
      intro a b c hab hbc
      exact ⟨le_trans hab.1 hbc.1, le_trans hab.2.1 hbc.2.1, le_trans hbc.2.2.1 hab.2.2.1,
        le_trans hbc.2.2.2 hab.2.2.2⟩
    refine ⟨h1, htrans _ _ _ h2 hacc_in, ?_, ?_⟩
    · intro q hq
      rcases List.mem_cons.mp hq with hq | hq
      · rw [hq]
        exact htrans _ _ _ h2 hr_in
      · exact h3 q hq
    · intro s hs hrs
      apply h4 s
      · have hsr := hrs r (List.mem_cons_self _ _)
        refine ⟨?_, ?_, ?_, ?_⟩
        · rw [ux]; exact le_min hs.1 hsr.1
        · rw [uy]; exact le_min hs.2.1 hsr.2.1
        · rw [ur]; exact max_le hs.2.2.1 hsr.2.2.1
        · rw [ub]; exact max_le hs.2.2.2 hsr.2.2.2
      · intro q hq
        exact hrs q (List.mem_cons_of_mem _ hq)

theorem OccluderSkipped_iff (env : Collaborators T) (quad : DrawQuad T) :
    OccluderSkipped env quad = true ↔
      (quad.shared_quad_state.opacity < float_epsilon ∨
        (quad.material = Material.SOLID_COLOR ∧
          (env.ShouldDrawWithBlending quad = true ∧
            ((SkColorGetA quad.color : ℚ) * (1 / 255)) * quad.shared_quad_state.opacity
              < float_epsilon))) := by
  have hdiv : (SkColorGetA quad.color : ℚ) / 255 = (SkColorGetA quad.color : ℚ) * (1 / 255) := by
    ring
  unfold OccluderSkipped
  rw [hdiv]
  simp [and_assoc]

theorem GetOcclusionBoundsStep_eq (env : Collaborators T) (target_quad acc : RectF)
    (quad : DrawQuad T) :
    GetOcclusionBoundsStep env target_quad acc quad =
      (OcclusionIntersections env target_quad [quad]).foldl RectF.Union acc := by
  unfold GetOcclusionBoundsStep OcclusionIntersections
  by_cases hskip : OccluderSkipped env quad = true
  · have hs := (OccluderSkipped_iff env quad).mp hskip
    simp only [List.filter_cons, hskip, Bool.not_true, Bool.false_eq_true, if_false,
      List.filter_nil, List.map_nil, List.foldl_nil]
    rcases hs with h | h
    · rw [if_pos h]
    · split_ifs <;> rfl
  · have hs : ¬ (quad.shared_quad_state.opacity < float_epsilon ∨
        (quad.material = Material.SOLID_COLOR ∧
          (env.ShouldDrawWithBlending quad = true ∧
            ((SkColorGetA quad.color : ℚ) * (1 / 255)) * quad.shared_quad_state.opacity
              < float_epsilon))) := fun h => hskip ((OccluderSkipped_iff env quad).mpr h)
    have hskip2 : OccluderSkipped env quad = false := by simpa using hskip
    push_neg at hs
    have h2 : ¬ (quad.material = Material.SOLID_COLOR ∧
        (env.ShouldDrawWithBlending quad = true ∧
          ((SkColorGetA quad.color : ℚ) * (1 / 255)) * quad.shared_quad_state.opacity
            < float_epsilon)) := by
      rintro ⟨ha, hb, hc⟩
      exact absurd hc (not_lt.mpr (hs.2 ha hb))
    simp only [List.filter_cons, hskip2, Bool.not_false, if_true, List.filter_nil, List.map_cons,
      List.map_nil]
    rw [if_neg (not_lt.mpr hs.1), if_neg h2]
    by_cases hemp : ((ClippedQuadRectangle env quad).Intersect target_quad).IsEmpty = true
    · simp [hemp]
    · have hemp2 : ((ClippedQuadRectangle env quad).Intersect target_quad).IsEmpty = false := by
        simpa using hemp
      simp [hemp2]

theorem OcclusionIntersections_cons (env : Collaborators T) (target_quad : RectF)
    (quad : DrawQuad T) (quads : List (DrawQuad T)) :
    OcclusionIntersections env target_quad (quad :: quads)
      = OcclusionIntersections env target_quad [quad]
        ++ OcclusionIntersections env target_quad quads := by
  unfold OcclusionIntersections
  rw [← List.filter_append, ← List.map_append, ← List.filter_append]
  rfl

theorem GetOcclusionBounds_foldl (env : Collaborators T) (target_quad acc : RectF)
    (quads : List (DrawQuad T)) :
    quads.foldl (GetOcclusionBoundsStep env target_quad) acc
      = (OcclusionIntersections env target_quad quads).foldl RectF.Union acc := by
  induction quads generalizing acc with
  | nil => rfl
  | cons quad rest ih =>
    rw [List.foldl_cons, ih, OcclusionIntersections_cons, List.foldl_append,
      GetOcclusionBoundsStep_eq]

/-- C19. For every target rectangle and every sequence of quads above it,
`GetOcclusionBounds` returns the bounding rectangle of the non-empty
intersections with the target of the clipped bounds of the quads that are not
skipped (`OcclusionIntersections`, where a quad is skipped as `OccluderSkipped`
says): the empty rectangle when there is no such intersection, and otherwise a
non-empty rectangle that holds every one of them and lies within every
rectangle that holds them all. -/
theorem occlusion_bounds_is_bounding_box (env : Collaborators T) (target_quad : RectF)
    (quads : List (DrawQuad T)) :
    let intersections := OcclusionIntersections env target_quad quads
    let bounds := GetOcclusionBounds env target_quad quads
    (intersections = [] → bounds = {}) ∧
      (intersections ≠ [] →
        bounds.IsEmpty = false ∧
        (∀ r ∈ intersections, bounds.Encloses r) ∧
        (∀ s : RectF, (∀ r ∈ intersections, s.Encloses r) → s.Encloses bounds)) := by
  intro intersections bounds
  have hfold : bounds = intersections.foldl RectF.Union {} :=
    GetOcclusionBounds_foldl env target_quad {} quads
  have hall : ∀ r ∈ intersections, r.IsEmpty = false := by
    intro r hr
    have := (List.mem_filter.mp hr).2
    simpa using this
  constructor
  · intro hnil
    rw [hfold, hnil]
    rfl
  · intro hne
    cases hL : intersections with
    | nil => exact absurd hL hne
    | cons r rest =>
      have hr : r.IsEmpty = false := hall r (by rw [hL]; exact List.mem_cons_self _ _)
      have hrest : ∀ q ∈ rest, q.IsEmpty = false :=
        fun q hq => hall q (by rw [hL]; exact List.mem_cons_of_mem _ hq)
      have hstart : bounds = rest.foldl RectF.Union r := by
        have hempty : RectF.IsEmpty {} = true := rfl
        rw [hfold, hL, List.foldl_cons, RectF.Union_empty_left {} r hempty]
      obtain ⟨h1, h2, h3, h4⟩ := RectF.foldl_Union_bounding rest r hr hrest
      rw [hstart]
      refine ⟨h1, ?_, ?_⟩
      · intro q hq
        rcases List.mem_cons.mp hq with hq | hq
        · rw [hq]
          exact h2
        · exact h3 q hq
      · intro s hs
        exact h4 s (hs r (List.mem_cons_self _ _))
          (fun q hq => hs q (List.mem_cons_of_mem _ hq))

/-! ### Scenario A: one video quad alone on the root pass -/

theorem ProcessRenderPass_root_damage (env : Collaborators T) [Inhabited T]
    (display_rect : RectF) (st : PassState T) :
    (ProcessRenderPass env display_rect true st).damage_rect =
      (ProcessQuads env display_rect true st.render_pass.quad_list.length
        { st with this_frame_underlay_rect := {}, this_frame_underlay_occlusion := {} }
        0).1.damage_rect.Intersect (ToEnclosingRect display_rect) := by
  unfold ProcessRenderPass
  rfl

/-- The loop of `ProcessRenderPass` on a root pass that holds one eligible
video quad, in a frame where nothing has been accepted: the overlay tier
promotes the quad. -/
theorem ProcessQuads_single_video (env : Collaborators T) [Inhabited T] (display_rect : RectF)
    (st : PassState T) (q : DrawQuad T)
    (hql : st.render_pass.quad_list = [q])
    (hflag : st.processor.processed_overlay_in_frame_ = false)
    (h : (FromDrawQuad env st.processor q st.render_pass.transform_to_root_target default).1
      = DCLayerResult.DC_LAYER_SUCCESS)
    (hc : ComplexTransformRejected env q
      (FromYUVQuad env q st.render_pass.transform_to_root_target) = false) :
    (ProcessQuads env display_rect true 1 st 0).1 =
      RecordPromotion env (ToEnclosingRect (ClippedQuadRectangle env q))
        (ProcessForOverlay env display_rect (ToEnclosingRect (ClippedQuadRectangle env q))
          (GetOcclusionBounds env (RectF.ofRect (ToEnclosingRect (ClippedQuadRectangle env q)))
            []) st 0).2.1
        (FromYUVQuad env q st.render_pass.transform_to_root_target) := by
  have hd : deref st.render_pass.quad_list 0 = q := by rw [hql]; rfl
  have htake : st.render_pass.quad_list.take 0 = [] := List.take_zero _
  have hstep := ProcessQuad_overlay env display_rect true st 0 (by rw [hd]; exact h)
    (by rw [hd]; exact hc) (by simp [hflag])
    (by rw [htake]; exact GetOcclusionBounds_nil env _)
  rw [hd, htake] at hstep
  have hlt : 0 < st.render_pass.quad_list.length := by rw [hql]; simp
  show (ProcessQuads env display_rect true (0 + 1) st 0).1 = _
  unfold ProcessQuads
  rw [if_pos hlt]
  simp only []
  unfold ProcessQuads
  rw [hstep]

/-- `Subtract` takes the rectangle `s` out of `r` when `s` does not meet `r`,
covers it, or spans it in one direction and reaches one of its edges in the
other: then no pixel of the result is a pixel of `s`. -/
theorem Rect.Subtract_excludes (r s : Rect)
    (h : r.Intersects s = false ∨ s.Contains r = true ∨
      ((s.y ≤ r.y ∧ r.bottom ≤ s.bottom) ∧ (s.x ≤ r.x ∨ r.right ≤ s.right)) ∨
      ((s.x ≤ r.x ∧ r.right ≤ s.right) ∧ (s.y ≤ r.y ∨ r.bottom ≤ s.bottom)))
    (px py : Int) (hp : (r.Subtract s).HasPoint px py) : ¬ s.HasPoint px py := by
  intro hs
  simp only [Rect.Subtract, Rect.Intersects, Rect.Contains, Rect.IsEmpty, Rect.HasPoint,
    Rect.SetByBounds, Rect.right, Rect.bottom, Bool.not_eq_true', Bool.or_eq_false_iff,
    Bool.not_eq_false', Bool.or_eq_true, Bool.and_eq_true, decide_eq_true_eq,
    decide_eq_false_iff_not, ge_iff_le] at h hp hs
  split_ifs at hp <;> (try dsimp only at hp) <;> omega

/-- Scenario A through `Process`: a frame of one pass that holds one eligible
video quad. The overlay tier promotes the quad; the damage rectangle is the one
`ProcessForOverlay` leaves, clipped to the display rectangle at the end of the
root pass. -/
theorem Process_single_video (env : Collaborators T) [Inhabited T] (display_rect : RectF)
    (fs : FrameState T) (pass : RenderPass T) (q : DrawQuad T)
    (hpasses : fs.render_passes = [pass]) (hql : pass.quad_list = [q])
    (h : (FromDrawQuad env fs.processor q pass.transform_to_root_target default).1
      = DCLayerResult.DC_LAYER_SUCCESS)
    (hc : ComplexTransformRejected env q (FromYUVQuad env q pass.transform_to_root_target)
      = false) :
    (Process env display_rect fs).histograms
        = fs.histograms ++ [(q.protected_video_type, DCLayerResult.DC_LAYER_SUCCESS)] ∧
      (Process env display_rect fs).render_passes = [{ pass with quad_list := [] }] ∧
      (Process env display_rect fs).dc_layer_overlays
        = fs.dc_layer_overlays ++ [FromYUVQuad env q pass.transform_to_root_target] ∧
      (Process env display_rect fs).damage_rect =
        (if env.Preserves2dAxisAlignment q.shared_quad_state.quad_to_target_transform = true ∧
            env.ShouldDrawWithBlending q = false ∧
            display_rect = fs.processor.previous_display_rect_ then
          fs.damage_rect.Subtract (ToEnclosingRect (ClippedQuadRectangle env q))
        else fs.damage_rect).Intersect (ToEnclosingRect display_rect) := by
  rw [Process_single_pass env display_rect fs pass hpasses]
  simp only []
  obtain ⟨hrp, hh, hdc, -⟩ := ProcessRenderPass_fields env display_rect true
    { processor :=
        { fs.processor with
          processed_overlay_in_frame_ := false, pass_punch_through_rects_ := [] }
      render_pass := pass
      overlay_damage_rect := fs.overlay_damage_rect
      damage_rect := fs.damage_rect
      dc_layer_overlays := fs.dc_layer_overlays
      histograms := fs.histograms }
  have hd := ProcessRenderPass_root_damage env display_rect
    { processor :=
        { fs.processor with
          processed_overlay_in_frame_ := false, pass_punch_through_rects_ := [] }
      render_pass := pass
      overlay_damage_rect := fs.overlay_damage_rect
      damage_rect := fs.damage_rect
      dc_layer_overlays := fs.dc_layer_overlays
      histograms := fs.histograms }
  rw [hrp, hh, hdc, hd]
  simp only [hql, List.length_cons, List.length_nil]
  have hloop := ProcessQuads_single_video env display_rect
    { processor :=
        { fs.processor with
          processed_overlay_in_frame_ := false, pass_punch_through_rects_ := [] }
      render_pass := pass
      overlay_damage_rect := fs.overlay_damage_rect
      damage_rect := fs.damage_rect
      dc_layer_overlays := fs.dc_layer_overlays
      this_frame_underlay_rect := {}
      this_frame_underlay_occlusion := {}
      histograms := fs.histograms } q hql rfl
    ((congrArg Prod.fst (FromDrawQuad_processor env _ fs.processor q
      pass.transform_to_root_target default rfl)).trans h) hc
  have hocc := GetOcclusionBounds_nil env
    (RectF.ofRect (ToEnclosingRect (ClippedQuadRectangle env q)))
  rw [hloop]
  have hdq : deref pass.quad_list 0 = q := by rw [hql]; rfl
  refine ⟨?_, ?_, ?_, ?_⟩
  · unfold RecordPromotion RecordDCLayerResult ProcessForOverlay
    rw [hocc]
    have hpvt := FromYUVQuad_protected_video_type env q pass.transform_to_root_target
    simp only [hpvt]
    rfl
  · unfold RecordPromotion RecordDCLayerResult ProcessForOverlay
    rw [hocc]
    simp only [hql]
    rfl
  · unfold RecordPromotion RecordDCLayerResult ProcessForOverlay
    rw [hocc]
    rfl
  · have hdamage := ProcessForOverlay_damage env display_rect
      (ToEnclosingRect (ClippedQuadRectangle env q))
      (GetOcclusionBounds env (RectF.ofRect (ToEnclosingRect (ClippedQuadRectangle env q))) [])
      { processor :=
          { fs.processor with
            processed_overlay_in_frame_ := false, pass_punch_through_rects_ := [] }
        render_pass := pass
        overlay_damage_rect := fs.overlay_damage_rect
        damage_rect := fs.damage_rect
        dc_layer_overlays := fs.dc_layer_overlays
        this_frame_underlay_rect := {}
        this_frame_underlay_occlusion := {}
        histograms := fs.histograms } 0 hocc
    simp only [hdq] at hdamage
    rw [← hdamage]
    rfl

/-- The rectangle of the video quad of the scenarios under the identity
transform: 100 by 100 at the origin. -/
theorem sampleVideoQuad_rectangle (underlays nonroot complex : Bool)
    (protected_video_type : ProtectedVideoType) :
    ToEnclosingRect (ClippedQuadRectangle (sampleCollaborators underlays nonroot complex)
      (sampleVideoQuad {} protected_video_type)) = { width := 100, height := 100 } := by
  simp [ToEnclosingRect, ClippedQuadRectangle, sampleCollaborators, sampleVideoQuad,
    Affine2d.TransformRect, RectF.ofRect, RectF.right, RectF.bottom]

theorem sampleDisplayRect_enclosing :
    ToEnclosingRect sampleDisplayRect = { width := 200, height := 200 } := by
  simp [ToEnclosingRect, sampleDisplayRect, RectF.right, RectF.bottom]

/-- C15. Scenario A, amended. A frame of one pass that holds one video quad
which `FromDrawQuad` accepts (hardware overlay support or a protected video,
eligible resources), whose transform is axis-aligned and which does not draw
with blending: `Process` records the success code, empties the pass, and leaves
the damage `Subtract(D, R)` clipped to the display rectangle when the display
rectangle is the one of the previous frame, and the incoming damage `D` clipped
to the display rectangle otherwise (as on the first frame of a new processor).
When the display rectangle is unchanged and `R` misses `D`, covers `D`, or
spans `D` in one direction and reaches an edge of `D` in the other, the damage
left shares no pixel with the quad rectangle `R`. -/
theorem scenario_a_overlay_promotion (env : Collaborators T) [Inhabited T]
    (display_rect : RectF) (fs : FrameState T) (pass : RenderPass T) (q : DrawQuad T)
    (hpasses : fs.render_passes = [pass]) (hql : pass.quad_list = [q])
    (h : (FromDrawQuad env fs.processor q pass.transform_to_root_target default).1
      = DCLayerResult.DC_LAYER_SUCCESS)
    (haligned : env.Preserves2dAxisAlignment q.shared_quad_state.quad_to_target_transform = true)
    (hopq : env.ShouldDrawWithBlending q = false) :
    let region := ToEnclosingRect (ClippedQuadRectangle env q)
    (Process env display_rect fs).histograms
        = fs.histograms ++ [(q.protected_video_type, DCLayerResult.DC_LAYER_SUCCESS)] ∧
      (Process env display_rect fs).render_passes = [{ pass with quad_list := [] }] ∧
      (Process env display_rect fs).damage_rect =
        (if display_rect = fs.processor.previous_display_rect_ then
          fs.damage_rect.Subtract region
        else fs.damage_rect).Intersect (ToEnclosingRect display_rect) ∧
      (display_rect = fs.processor.previous_display_rect_ →
        (fs.damage_rect.Intersects region = false ∨ region.Contains fs.damage_rect = true ∨
          ((region.y ≤ fs.damage_rect.y ∧ fs.damage_rect.bottom ≤ region.bottom) ∧
            (region.x ≤ fs.damage_rect.x ∨ fs.damage_rect.right ≤ region.right)) ∨
          ((region.x ≤ fs.damage_rect.x ∧ fs.damage_rect.right ≤ region.right) ∧
            (region.y ≤ fs.damage_rect.y ∨ fs.damage_rect.bottom ≤ region.bottom))) →
        ∀ px py : Int, (Process env display_rect fs).damage_rect.HasPoint px py →
          ¬ region.HasPoint px py) := by
  intro region
  have hc : ComplexTransformRejected env q (FromYUVQuad env q pass.transform_to_root_target)
      = false := by
    unfold ComplexTransformRejected
    rw [haligned]
    rfl
  obtain ⟨hh, hrp, -, hd⟩ := Process_single_video env display_rect fs pass q hpasses hql h hc
  have hdamage : (Process env display_rect fs).damage_rect =
      (if display_rect = fs.processor.previous_display_rect_ then
        fs.damage_rect.Subtract region
      else fs.damage_rect).Intersect (ToEnclosingRect display_rect) := by
    rw [hd]
    by_cases hdisplay : display_rect = fs.processor.previous_display_rect_
    · rw [if_pos ⟨haligned, hopq, hdisplay⟩, if_pos hdisplay]
    · rw [if_neg (fun hall => hdisplay hall.2.2), if_neg hdisplay]
  refine ⟨hh, hrp, hdamage, ?_⟩
  intro hdisplay hshape px py hp
  rw [hdamage, if_pos hdisplay] at hp
  exact Rect.Subtract_excludes fs.damage_rect region hshape px py
    (Rect.Intersect_subset_left _ _ px py hp)

theorem scenario_a_overlay_promotion_witness :
    ToEnclosingRect (ClippedQuadRectangle (sampleCollaborators false false false)
        (sampleVideoQuad {} ProtectedVideoType.kClear)) = { width := 100, height := 100 } ∧
      ∀ px py : Int,
        (Process (sampleCollaborators false false false) sampleDisplayRect
          { sampleFrame [sampleVideoQuad {} ProtectedVideoType.kClear] with
            processor := { previous_display_rect_ := sampleDisplayRect }
            damage_rect := { x := 50, width := 150, height := 100 } }).damage_rect.HasPoint
            px py →
          ¬ (ToEnclosingRect (ClippedQuadRectangle (sampleCollaborators false false false)
            (sampleVideoQuad {} ProtectedVideoType.kClear))).HasPoint px py :=
  ⟨sampleVideoQuad_rectangle false false false ProtectedVideoType.kClear,
    (scenario_a_overlay_promotion (sampleCollaborators false false false) sampleDisplayRect
      { sampleFrame [sampleVideoQuad {} ProtectedVideoType.kClear] with
        processor := { previous_display_rect_ := sampleDisplayRect }
        damage_rect := { x := 50, width := 150, height := 100 } }
      { id := 1, quad_list := [sampleVideoQuad {} ProtectedVideoType.kClear],
        transform_to_root_target := {} }
      (sampleVideoQuad {} ProtectedVideoType.kClear) rfl rfl (by decide) (by decide)
      (by decide)).2.2.2 rfl
      (by
        rw [sampleVideoQuad_rectangle false false false ProtectedVideoType.kClear]
        decide)⟩

/-- C15, counterexample. The video quad of Scenario A alone on the root pass,
display rectangle 200 by 200. On the first frame of a new processor with the
incoming damage equal to the 100 by 100 region, the quad is promoted and
removed, and the damage left is the whole region. On a later frame with the
same display rectangle and incoming damage 200 by 200, the damage left is still
200 by 200, which holds the region. -/
theorem scenario_a_damage_keeps_region :
    ToEnclosingRect (ClippedQuadRectangle (sampleCollaborators false false false)
        (sampleVideoQuad {} ProtectedVideoType.kClear)) = { width := 100, height := 100 } ∧
      (Process (sampleCollaborators false false false) sampleDisplayRect
        { sampleFrame [sampleVideoQuad {} ProtectedVideoType.kClear] with
          damage_rect := { width := 100, height := 100 } }).histograms
        = [(ProtectedVideoType.kClear, DCLayerResult.DC_LAYER_SUCCESS)] ∧
      ((Process (sampleCollaborators false false false) sampleDisplayRect
        { sampleFrame [sampleVideoQuad {} ProtectedVideoType.kClear] with
          damage_rect := { width := 100, height := 100 } }).render_passes.map
          fun pass => pass.quad_list) = [[]] ∧
      (Process (sampleCollaborators false false false) sampleDisplayRect
        { sampleFrame [sampleVideoQuad {} ProtectedVideoType.kClear] with
          damage_rect := { width := 100, height := 100 } }).damage_rect
        = { width := 100, height := 100 } ∧
      (Process (sampleCollaborators false false false) sampleDisplayRect
        { sampleFrame [sampleVideoQuad {} ProtectedVideoType.kClear] with
          processor := { previous_display_rect_ := sampleDisplayRect } }).damage_rect
        = { width := 200, height := 200 } := by
  have hregion := sampleVideoQuad_rectangle false false false ProtectedVideoType.kClear
  have hdisplay : sampleDisplayRect ≠ ({} : RectF) := by
    simp [sampleDisplayRect]
  refine ⟨hregion, by decide, by decide, ?_, ?_⟩
  · obtain ⟨-, -, -, hd⟩ := Process_single_video (sampleCollaborators false false false)
      sampleDisplayRect
      { sampleFrame [sampleVideoQuad {} ProtectedVideoType.kClear] with
        damage_rect := { width := 100, height := 100 } }
      { id := 1, quad_list := [sampleVideoQuad {} ProtectedVideoType.kClear],
        transform_to_root_target := {} }
      (sampleVideoQuad {} ProtectedVideoType.kClear) rfl rfl (by decide) (by decide)
    rw [hd, if_neg (fun hall => hdisplay hall.2.2), sampleDisplayRect_enclosing]
    decide
  · obtain ⟨-, -, -, hd⟩ := Process_single_video (sampleCollaborators false false false)
      sampleDisplayRect
      { sampleFrame [sampleVideoQuad {} ProtectedVideoType.kClear] with
        processor := { previous_display_rect_ := sampleDisplayRect } }
      { id := 1, quad_list := [sampleVideoQuad {} ProtectedVideoType.kClear],
        transform_to_root_target := {} }
      (sampleVideoQuad {} ProtectedVideoType.kClear) rfl rfl (by decide) (by decide)
    rw [hd, if_pos ⟨by decide, by decide, rfl⟩, hregion, sampleDisplayRect_enclosing]
    decide

/-! ### The underlay rectangle and occlusion kept from one frame to the next -/

theorem ProcessQuads_at_end (env : Collaborators T) [Inhabited T] (display_rect : RectF)
    (is_root : Bool) (fuel : Nat) (st : PassState T) (it : Nat)
    (h : ¬ it < st.render_pass.quad_list.length) :
    ProcessQuads env display_rect is_root fuel st it = (st, it) := by
  cases fuel with
  | zero => rfl
  | succ n => simp only [ProcessQuads, if_neg h]

theorem ProcessQuads_succ (env : Collaborators T) [Inhabited T] (display_rect : RectF)
    (is_root : Bool) (fuel : Nat) (st : PassState T) (it : Nat)
    (h : it < st.render_pass.quad_list.length) :
    ProcessQuads env display_rect is_root (fuel + 1) st it =
      ProcessQuads env display_rect is_root fuel
        (ProcessQuad env display_rect is_root st it).1
        (ProcessQuad env display_rect is_root st it).2 := by
  simp only [ProcessQuads, if_pos h]

theorem ProcessQuads_add (env : Collaborators T) [Inhabited T] (display_rect : RectF)
    (is_root : Bool) (k m : Nat) (st : PassState T) (it : Nat) :
    ProcessQuads env display_rect is_root (k + m) st it =
      ProcessQuads env display_rect is_root m
        (ProcessQuads env display_rect is_root k st it).1
        (ProcessQuads env display_rect is_root k st it).2 := by
  induction k generalizing st it with
  | zero =>
    rw [Nat.zero_add]
    rfl
  | succ k ih =>
    have hk : k + 1 + m = (k + m) + 1 := by omega
    rw [hk]
    by_cases h : it < st.render_pass.quad_list.length
    · rw [ProcessQuads_succ env display_rect is_root (k + m) st it h,
        ProcessQuads_succ env display_rect is_root k st it h]
      exact ih _ _
    · rw [ProcessQuads_at_end env display_rect is_root (k + m + 1) st it h,
        ProcessQuads_at_end env display_rect is_root (k + 1) st it h,
        ProcessQuads_at_end env display_rect is_root m st it h]

/-- What an accepted underlay leaves in the locals of `ProcessRenderPass`, in
the damage rectangle and in the fields the processor keeps from the previous
frame. -/
theorem ProcessForUnderlay_cache (env : Collaborators T) [Inhabited T] (display_rect : RectF)
    (quad_rectangle : Rect) (occlusion_bounding_box : RectF) (it : Nat) (is_root : Bool)
    (st : PassState T) (dc_layer : DCLayerOverlay T)
    (h : ProcessForUnderlayRejection env st it is_root dc_layer = none) :
    let underlay := (ProcessForUnderlay env display_rect quad_rectangle occlusion_bounding_box
      it is_root st dc_layer).2.1
    let first := is_root && !st.processor.processed_overlay_in_frame_ &&
      env.Preserves2dAxisAlignment
        (deref st.render_pass.quad_list it).shared_quad_state.quad_to_target_transform &&
      (ProcessForUnderlayReplace env st.render_pass.quad_list it).2
    underlay.this_frame_underlay_rect
        = (if first then quad_rectangle else st.this_frame_underlay_rect) ∧
      underlay.this_frame_underlay_occlusion
        = (if first then ToEnclosingRect occlusion_bounding_box
          else st.this_frame_underlay_occlusion) ∧
      underlay.damage_rect
        = (if first && !decide (quad_rectangle ≠ st.processor.previous_frame_underlay_rect_) &&
              !decide (display_rect ≠ st.processor.previous_display_rect_) then
            (st.damage_rect.Subtract quad_rectangle).Union
              ((st.damage_rect.Intersect quad_rectangle).Intersect
                ((ToEnclosingRect occlusion_bounding_box).Union
                  st.processor.previous_frame_underlay_occlusion_))
          else st.damage_rect.Union quad_rectangle) ∧
      underlay.processor.previous_display_rect_ = st.processor.previous_display_rect_ ∧
      underlay.processor.previous_frame_underlay_rect_
        = st.processor.previous_frame_underlay_rect_ ∧
      underlay.processor.previous_frame_underlay_occlusion_
        = st.processor.previous_frame_underlay_occlusion_ ∧
      underlay.processor.processed_overlay_in_frame_
        = st.processor.processed_overlay_in_frame_ := by
  unfold ProcessForUnderlay
  rw [h]
  exact ⟨rfl, rfl, rfl, rfl, rfl, rfl, rfl⟩

/-- An iteration of the loop of `ProcessRenderPass` leaves alone what the
processor keeps from the previous frame, and does not clear the flag of the
frame. -/
theorem ProcessQuad_previous (env : Collaborators T) [Inhabited T] (display_rect : RectF)
    (is_root : Bool) (st : PassState T) (it : Nat) :
    (ProcessQuad env display_rect is_root st it).1.processor.previous_display_rect_
        = st.processor.previous_display_rect_ ∧
      (ProcessQuad env display_rect is_root st it).1.processor.previous_frame_underlay_rect_
        = st.processor.previous_frame_underlay_rect_ ∧
      (ProcessQuad env display_rect is_root st it).1.processor.previous_frame_underlay_occlusion_
        = st.processor.previous_frame_underlay_occlusion_ ∧
      (st.processor.processed_overlay_in_frame_ = true →
        (ProcessQuad env display_rect is_root st it).1.processor.processed_overlay_in_frame_
          = true) := by
  by_cases hmat : (deref st.render_pass.quad_list it).material = Material.RENDER_PASS
  · rw [ProcessQuad_render_pass env display_rect is_root st it hmat]
    unfold ProcessRenderPassDrawQuad
    simp only []
    split_ifs <;> exact ⟨rfl, rfl, rfl, fun hflag => hflag⟩
  · rcases ProcessQuad_cases env display_rect is_root st it hmat with
      ⟨result, pvt, -, heq⟩ | ⟨-, -, hocc, heq⟩ | ⟨-, hnone, heq⟩
    · rw [heq]
      exact ⟨rfl, rfl, rfl, fun hflag => hflag⟩
    · obtain ⟨-, -, -, -, -, -, -, -, hproc⟩ := ProcessForOverlay_accepted env display_rect
        (ToEnclosingRect (ClippedQuadRectangle env (deref st.render_pass.quad_list it)))
        _ st it hocc
      rw [heq]
      have e1 := congrArg DCLayerOverlayProcessor.previous_display_rect_ hproc
      have e2 := congrArg DCLayerOverlayProcessor.previous_frame_underlay_rect_ hproc
      have e3 := congrArg DCLayerOverlayProcessor.previous_frame_underlay_occlusion_ hproc
      exact ⟨e1, e2, e3, fun _ => rfl⟩
    · obtain ⟨-, -, -, h1, h2, h3, -⟩ := ProcessForUnderlay_cache env display_rect
        (ToEnclosingRect (ClippedQuadRectangle env (deref st.render_pass.quad_list it)))
        (GetOcclusionBounds env
          (RectF.ofRect
            (ToEnclosingRect (ClippedQuadRectangle env (deref st.render_pass.quad_list it))))
          (st.render_pass.quad_list.take it)) it is_root st _ hnone
      rw [heq]
      exact ⟨h1, h2, h3, fun _ => rfl⟩

theorem ProcessQuads_previous (env : Collaborators T) [Inhabited T] (display_rect : RectF)
    (is_root : Bool) (fuel : Nat) (st : PassState T) (it : Nat) :
    (ProcessQuads env display_rect is_root fuel st it).1.processor.previous_display_rect_
        = st.processor.previous_display_rect_ ∧
      (ProcessQuads env display_rect is_root fuel st it).1.processor.previous_frame_underlay_rect_
        = st.processor.previous_frame_underlay_rect_ ∧
      (ProcessQuads env display_rect is_root fuel st
          it).1.processor.previous_frame_underlay_occlusion_
        = st.processor.previous_frame_underlay_occlusion_ := by
  induction fuel generalizing st it with
  | zero => exact ⟨rfl, rfl, rfl⟩
  | succ n ih =>
    by_cases h : it < st.render_pass.quad_list.length
    · rw [ProcessQuads_succ env display_rect is_root n st it h]
      obtain ⟨h1, h2, h3, -⟩ := ProcessQuad_previous env display_rect is_root st it
      obtain ⟨i1, i2, i3⟩ := ih (ProcessQuad env display_rect is_root st it).1
        (ProcessQuad env display_rect is_root st it).2
      exact ⟨i1.trans h1, i2.trans h2, i3.trans h3⟩
    · rw [ProcessQuads_at_end env display_rect is_root (n + 1) st it h]
      exact ⟨rfl, rfl, rfl⟩

/-- The locals `this_frame_underlay_rect` and `this_frame_underlay_occlusion`
across one iteration of the loop on the root pass: a first root underlay sets
them to the quad rectangle and the enclosing rectangle of the occlusion bound
and sets the flag of the frame; any other iteration leaves them alone. -/
theorem ProcessQuad_cache (env : Collaborators T) [Inhabited T] (display_rect : RectF)
    (st : PassState T) (it : Nat) :
    (FirstRootUnderlay env st it →
      (ProcessQuad env display_rect true st it).1.this_frame_underlay_rect
          = ToEnclosingRect (ClippedQuadRectangle env (deref st.render_pass.quad_list it)) ∧
        (ProcessQuad env display_rect true st it).1.this_frame_underlay_occlusion
          = ToEnclosingRect (GetOcclusionBounds env
              (RectF.ofRect
                (ToEnclosingRect (ClippedQuadRectangle env (deref st.render_pass.quad_list it))))
              (st.render_pass.quad_list.take it)) ∧
        (ProcessQuad env display_rect true st it).1.processor.processed_overlay_in_frame_
          = true) ∧
      (¬ FirstRootUnderlay env st it →
        (ProcessQuad env display_rect true st it).1.this_frame_underlay_rect
            = st.this_frame_underlay_rect ∧
          (ProcessQuad env display_rect true st it).1.this_frame_underlay_occlusion
            = st.this_frame_underlay_occlusion) := by
  constructor
  · rintro ⟨hfrom, hc, hocc, hnone, hflag, haligned, hopq⟩
    rw [ProcessQuad_underlay_accepted env display_rect true st it hfrom hc (Or.inr hocc) hnone]
    obtain ⟨h1, h2, -⟩ := ProcessForUnderlay_cache env display_rect
      (ToEnclosingRect (ClippedQuadRectangle env (deref st.render_pass.quad_list it)))
      (GetOcclusionBounds env
        (RectF.ofRect
          (ToEnclosingRect (ClippedQuadRectangle env (deref st.render_pass.quad_list it))))
        (st.render_pass.quad_list.take it)) it true st _ hnone
    simp only [hflag, haligned, hopq, Bool.not_false, Bool.and_self, if_true] at h1 h2
    exact ⟨h1, h2, rfl⟩
  · intro hnot
    by_cases hmat : (deref st.render_pass.quad_list it).material = Material.RENDER_PASS
    · rw [ProcessQuad_render_pass env display_rect true st it hmat]
      unfold ProcessRenderPassDrawQuad
      simp only []
      split_ifs <;> exact ⟨rfl, rfl⟩
    · by_cases hfrom : (FromDrawQuad env st.processor (deref st.render_pass.quad_list it)
          st.render_pass.transform_to_root_target default).1 = DCLayerResult.DC_LAYER_SUCCESS
      · by_cases hc : ComplexTransformRejected env (deref st.render_pass.quad_list it)
            (FromYUVQuad env (deref st.render_pass.quad_list it)
              st.render_pass.transform_to_root_target) = true
        · rw [ProcessQuad_eligible env display_rect true st it hfrom]
          simp only [hc, if_true]
          exact ⟨rfl, rfl⟩
        · have hc2 : ComplexTransformRejected env (deref st.render_pass.quad_list it)
              (FromYUVQuad env (deref st.render_pass.quad_list it)
                st.render_pass.transform_to_root_target) = false := by simpa using hc
          by_cases hov : (true && (!st.processor.processed_overlay_in_frame_ ||
              env.RequiresOverlay (FromYUVQuad env (deref st.render_pass.quad_list it)
                st.render_pass.transform_to_root_target))) = true ∧
              (GetOcclusionBounds env
                (RectF.ofRect
                  (ToEnclosingRect
                    (ClippedQuadRectangle env (deref st.render_pass.quad_list it))))
                (st.render_pass.quad_list.take it)).IsEmpty = true
          · rw [ProcessQuad_overlay env display_rect true st it hfrom hc2 hov.1 hov.2]
            unfold RecordPromotion RecordDCLayerResult ProcessForOverlay
            rw [hov.2]
            exact ⟨rfl, rfl⟩
          · have hov2 : (true && (!st.processor.processed_overlay_in_frame_ ||
                env.RequiresOverlay (FromYUVQuad env (deref st.render_pass.quad_list it)
                  st.render_pass.transform_to_root_target))) = false ∨
                (GetOcclusionBounds env
                  (RectF.ofRect
                    (ToEnclosingRect
                      (ClippedQuadRectangle env (deref st.render_pass.quad_list it))))
                  (st.render_pass.quad_list.take it)).IsEmpty = false := by
              by_cases hatt : (true && (!st.processor.processed_overlay_in_frame_ ||
                  env.RequiresOverlay (FromYUVQuad env (deref st.render_pass.quad_list it)
                    st.render_pass.transform_to_root_target))) = true
              · right
                by_contra hne
                exact hov ⟨hatt, by simpa using hne⟩
              · left
                simpa using hatt
            cases hrej : ProcessForUnderlayRejection env st it true
                (FromYUVQuad env (deref st.render_pass.quad_list it)
                  st.render_pass.transform_to_root_target) with
            | some result =>
              rw [ProcessQuad_underlay_rejected env display_rect true st it result hfrom hc2
                hov2 hrej]
              exact ⟨rfl, rfl⟩
            | none =>
              rw [ProcessQuad_underlay_accepted env display_rect true st it hfrom hc2 hov2 hrej]
              obtain ⟨h1, h2, -⟩ := ProcessForUnderlay_cache env display_rect
                (ToEnclosingRect (ClippedQuadRectangle env (deref st.render_pass.quad_list it)))
                (GetOcclusionBounds env
                  (RectF.ofRect
                    (ToEnclosingRect
                      (ClippedQuadRectangle env (deref st.render_pass.quad_list it))))
                  (st.render_pass.quad_list.take it)) it true st _ hrej
              have hfirst : (true && !st.processor.processed_overlay_in_frame_ &&
                  env.Preserves2dAxisAlignment
                    (deref st.render_pass.quad_list
                      it).shared_quad_state.quad_to_target_transform &&
                  (ProcessForUnderlayReplace env st.render_pass.quad_list it).2) = false := by
                by_contra hne
                have hall := Bool.of_not_eq_false hne
                simp only [Bool.and_eq_true, Bool.true_and, Bool.not_eq_true'] at hall
                obtain ⟨⟨hflag, haligned⟩, hopq⟩ := hall
                have hoccl : (GetOcclusionBounds env
                    (RectF.ofRect
                      (ToEnclosingRect
                        (ClippedQuadRectangle env (deref st.render_pass.quad_list it))))
                    (st.render_pass.quad_list.take it)).IsEmpty = false := by
                  rcases hov2 with hno | hno
                  · simp [hflag] at hno
                  · exact hno
                exact hnot ⟨hfrom, hc2, hoccl, hrej, hflag, haligned, hopq⟩
              simp only [hfirst, Bool.false_eq_true, if_false] at h1 h2
              exact ⟨h1, h2⟩
      · rw [ProcessQuad_not_eligible env display_rect true st it hmat hfrom]
        exact ⟨rfl, rfl⟩

/-- Once the flag of the frame is set, the loop on the root pass leaves the two
locals alone. -/
theorem ProcessQuads_cache_kept (env : Collaborators T) [Inhabited T] (display_rect : RectF)
    (fuel : Nat) (st : PassState T) (it : Nat)
    (hflag : st.processor.processed_overlay_in_frame_ = true) :
    (ProcessQuads env display_rect true fuel st it).1.this_frame_underlay_rect
        = st.this_frame_underlay_rect ∧
      (ProcessQuads env display_rect true fuel st it).1.this_frame_underlay_occlusion
        = st.this_frame_underlay_occlusion := by
  induction fuel generalizing st it with
  | zero => exact ⟨rfl, rfl⟩
  | succ n ih =>
    by_cases h : it < st.render_pass.quad_list.length
    · rw [ProcessQuads_succ env display_rect true n st it h]
      have hnot : ¬ FirstRootUnderlay env st it := by
        rintro ⟨-, -, -, -, hfalse, -⟩
        rw [hflag] at hfalse
        exact Bool.noConfusion hfalse
      obtain ⟨h1, h2⟩ := (ProcessQuad_cache env display_rect st it).2 hnot
      obtain ⟨i1, i2⟩ := ih (ProcessQuad env display_rect true st it).1
        (ProcessQuad env display_rect true st it).2
        ((ProcessQuad_previous env display_rect true st it).2.2.2 hflag)
      exact ⟨i1.trans h1, i2.trans h2⟩
    · rw [ProcessQuads_at_end env display_rect true (n + 1) st it h]
      exact ⟨rfl, rfl⟩

/-- When no iteration of the loop on the root pass meets a first root underlay,
the two locals are left alone. -/
theorem ProcessQuads_cache_none (env : Collaborators T) [Inhabited T] (display_rect : RectF)
    (fuel : Nat) (st : PassState T) (it : Nat)
    (hnone : ∀ (k : Nat) (st' : PassState T) (it' : Nat),
      ProcessQuads env display_rect true k st it = (st', it') →
      it' < st'.render_pass.quad_list.length → ¬ FirstRootUnderlay env st' it') :
    (ProcessQuads env display_rect true fuel st it).1.this_frame_underlay_rect
        = st.this_frame_underlay_rect ∧
      (ProcessQuads env display_rect true fuel st it).1.this_frame_underlay_occlusion
        = st.this_frame_underlay_occlusion := by
  induction fuel generalizing st it with
  | zero => exact ⟨rfl, rfl⟩
  | succ n ih =>
    by_cases h : it < st.render_pass.quad_list.length
    · rw [ProcessQuads_succ env display_rect true n st it h]
      obtain ⟨h1, h2⟩ := (ProcessQuad_cache env display_rect st it).2 (hnone 0 st it rfl h)
      obtain ⟨i1, i2⟩ := ih (ProcessQuad env display_rect true st it).1
        (ProcessQuad env display_rect true st it).2
        (fun k st' it' hreach hlt =>
          hnone (k + 1) st' it'
            ((ProcessQuads_succ env display_rect true k st it h).trans hreach) hlt)
      exact ⟨i1.trans h1, i2.trans h2⟩
    · rw [ProcessQuads_at_end env display_rect true (n + 1) st it h]
      exact ⟨rfl, rfl⟩

/-- When the loop on the root pass meets a first root underlay, the two locals
hold its quad rectangle and the enclosing rectangle of its occlusion bound when
the loop is left. -/
theorem ProcessQuads_cache_first (env : Collaborators T) [Inhabited T] (display_rect : RectF)
    (fuel k : Nat) (st st' : PassState T) (it it' : Nat)
    (hle : it ≤ st.render_pass.quad_list.length)
    (hfuel : st.render_pass.quad_list.length - it ≤ fuel)
    (hreach : ProcessQuads env display_rect true k st it = (st', it'))
    (hlt : it' < st'.render_pass.quad_list.length)
    (hfirst : FirstRootUnderlay env st' it') :
    (ProcessQuads env display_rect true fuel st it).1.this_frame_underlay_rect
        = ToEnclosingRect (ClippedQuadRectangle env (deref st'.render_pass.quad_list it')) ∧
      (ProcessQuads env display_rect true fuel st it).1.this_frame_underlay_occlusion
        = ToEnclosingRect (GetOcclusionBounds env
            (RectF.ofRect
              (ToEnclosingRect (ClippedQuadRectangle env (deref st'.render_pass.quad_list it'))))
            (st'.render_pass.quad_list.take it')) := by
  have hk : k < fuel := by
    by_contra hge
    have hsplit : k = fuel + (k - fuel) := by omega
    have hend := ProcessQuads_reaches_end env display_rect true fuel st it hle hfuel
    rw [← ProcessQuads_fuel env display_rect true fuel (k - fuel) st it hle hfuel, ← hsplit,
      hreach] at hend
    simp only [] at hend
    omega
  obtain ⟨m, hm⟩ : ∃ m, fuel = k + (m + 1) := ⟨fuel - k - 1, by omega⟩
  rw [hm, ProcessQuads_add env display_rect true k (m + 1) st it, hreach]
  simp only []
  rw [ProcessQuads_succ env display_rect true m st' it' hlt]
  obtain ⟨h1, h2, hflag⟩ := (ProcessQuad_cache env display_rect st' it').1 hfirst
  obtain ⟨i1, i2⟩ := ProcessQuads_cache_kept env display_rect m
    (ProcessQuad env display_rect true st' it').1
    (ProcessQuad env display_rect true st' it').2 hflag
  exact ⟨i1.trans h1, i2.trans h2⟩

/-- The two rectangles the processor keeps for the next frame after the root
pass: those of the first root underlay the loop meets, and empty rectangles
when it meets none. A state the loop reaches holds what the processor kept
from the previous frame. -/
theorem ProcessRenderPass_cache (env : Collaborators T) [Inhabited T] (display_rect : RectF)
    (st : PassState T) :
    (∀ (st' : PassState T) (it' : Nat), LoopReaches env display_rect st st' it' →
      st'.processor.previous_display_rect_ = st.processor.previous_display_rect_ ∧
        st'.processor.previous_frame_underlay_rect_
          = st.processor.previous_frame_underlay_rect_ ∧
        st'.processor.previous_frame_underlay_occlusion_
          = st.processor.previous_frame_underlay_occlusion_ ∧
        (FirstRootUnderlay env st' it' →
          (ProcessRenderPass env display_rect true st).processor.previous_frame_underlay_rect_
              = ToEnclosingRect
                (ClippedQuadRectangle env (deref st'.render_pass.quad_list it')) ∧
            (ProcessRenderPass env display_rect true
                st).processor.previous_frame_underlay_occlusion_
              = ToEnclosingRect (GetOcclusionBounds env
                  (RectF.ofRect
                    (ToEnclosingRect
                      (ClippedQuadRectangle env (deref st'.render_pass.quad_list it'))))
                  (st'.render_pass.quad_list.take it')))) ∧
      ((¬ ∃ (st' : PassState T) (it' : Nat),
          LoopReaches env display_rect st st' it' ∧ FirstRootUnderlay env st' it') →
        (ProcessRenderPass env display_rect true st).processor.previous_frame_underlay_rect_
            = {} ∧
          (ProcessRenderPass env display_rect true
              st).processor.previous_frame_underlay_occlusion_ = {}) := by
  have hrect : (ProcessRenderPass env display_rect true st).processor.previous_frame_underlay_rect_
      = (ProcessQuads env display_rect true st.render_pass.quad_list.length
        { st with this_frame_underlay_rect := {}, this_frame_underlay_occlusion := {} }
        0).1.this_frame_underlay_rect := by
    unfold ProcessRenderPass
    rfl
  have hocc : (ProcessRenderPass env display_rect true
        st).processor.previous_frame_underlay_occlusion_
      = (ProcessQuads env display_rect true st.render_pass.quad_list.length
        { st with this_frame_underlay_rect := {}, this_frame_underlay_occlusion := {} }
        0).1.this_frame_underlay_occlusion := by
    unfold ProcessRenderPass
    rfl
  rw [hrect, hocc]
  constructor
  · rintro st' it' ⟨hlt, k, hreach⟩
    obtain ⟨p1, p2, p3⟩ := ProcessQuads_previous env display_rect true k
      { st with this_frame_underlay_rect := {}, this_frame_underlay_occlusion := {} } 0
    rw [hreach] at p1 p2 p3
    refine ⟨p1, p2, p3, ?_⟩
    intro hfirst
    exact ProcessQuads_cache_first env display_rect st.render_pass.quad_list.length k
      { st with this_frame_underlay_rect := {}, this_frame_underlay_occlusion := {} } st' 0 it'
      (Nat.zero_le _) (Nat.le_refl _) hreach hlt hfirst
  · intro hnone
    exact ProcessQuads_cache_none env display_rect st.render_pass.quad_list.length
      { st with this_frame_underlay_rect := {}, this_frame_underlay_occlusion := {} } 0
      (fun k st' it' hreach hlt hfirst => hnone ⟨st', it', ⟨hlt, k, hreach⟩, hfirst⟩)

/-- The damage rectangle a first root underlay leaves. -/
theorem ProcessQuad_first_underlay_damage (env : Collaborators T) [Inhabited T]
    (display_rect : RectF) (st : PassState T) (it : Nat) (hfirst : FirstRootUnderlay env st it) :
    (ProcessQuad env display_rect true st it).1.damage_rect =
      if ToEnclosingRect (ClippedQuadRectangle env (deref st.render_pass.quad_list it))
            = st.processor.previous_frame_underlay_rect_ ∧
          display_rect = st.processor.previous_display_rect_ then
        (st.damage_rect.Subtract
            (ToEnclosingRect (ClippedQuadRectangle env (deref st.render_pass.quad_list it)))).Union
          ((st.damage_rect.Intersect
              (ToEnclosingRect
                (ClippedQuadRectangle env (deref st.render_pass.quad_list it)))).Intersect
            ((ToEnclosingRect (GetOcclusionBounds env
                (RectF.ofRect
                  (ToEnclosingRect
                    (ClippedQuadRectangle env (deref st.render_pass.quad_list it))))
                (st.render_pass.quad_list.take it))).Union
              st.processor.previous_frame_underlay_occlusion_))
      else
        st.damage_rect.Union
          (ToEnclosingRect (ClippedQuadRectangle env (deref st.render_pass.quad_list it))) := by
  obtain ⟨hfrom, hc, hocc, hnone, hflag, haligned, hopq⟩ := hfirst
  rw [ProcessQuad_underlay_accepted env display_rect true st it hfrom hc (Or.inr hocc) hnone]
  obtain ⟨-, -, hd, -⟩ := ProcessForUnderlay_cache env display_rect
    (ToEnclosingRect (ClippedQuadRectangle env (deref st.render_pass.quad_list it)))
    (GetOcclusionBounds env
      (RectF.ofRect
        (ToEnclosingRect (ClippedQuadRectangle env (deref st.render_pass.quad_list it))))
      (st.render_pass.quad_list.take it)) it true st _ hnone
  simp only [hflag, haligned, hopq, Bool.not_false, Bool.and_self, Bool.true_and] at hd
  show (ProcessForUnderlay env display_rect _ _ it true st _).2.1.damage_rect = _
  rw [hd]
  by_cases hrect : ToEnclosingRect (ClippedQuadRectangle env (deref st.render_pass.quad_list it))
      = st.processor.previous_frame_underlay_rect_
  · by_cases hdisplay : display_rect = st.processor.previous_display_rect_
    · simp [hrect, hdisplay]
    · simp [hrect, hdisplay]
  · simp [hrect]

/-- The state in which `Process` enters `ProcessRenderPass` for the root pass,
the last pass of the list: it holds the damage rectangle of the frame and what
the processor kept from the previous frame, and the processor after `Process`
is the processor after that call. -/
theorem ProcessPasses_root_entry (env : Collaborators T) [Inhabited T] (display_rect : RectF)
    (passes : List (RenderPass T)) (hne : passes ≠ []) (fs : FrameState T) :
    ∃ st : PassState T,
      st.render_pass = passes.getLast hne ∧
        st.damage_rect = fs.damage_rect ∧
        st.processor.previous_display_rect_ = fs.processor.previous_display_rect_ ∧
        st.processor.previous_frame_underlay_rect_
          = fs.processor.previous_frame_underlay_rect_ ∧
        st.processor.previous_frame_underlay_occlusion_
          = fs.processor.previous_frame_underlay_occlusion_ ∧
        (ProcessPasses env display_rect passes fs).processor
          = (ProcessRenderPass env display_rect true st).processor ∧
        (ProcessPasses env display_rect passes fs).damage_rect
          = (ProcessRenderPass env display_rect true st).damage_rect := by
  induction passes generalizing fs with
  | nil => exact absurd rfl hne
  | cons pass rest ih =>
    cases rest with
    | nil =>
      refine ⟨{ processor := fs.processor
                render_pass := pass
                overlay_damage_rect := fs.overlay_damage_rect
                damage_rect := fs.damage_rect
                dc_layer_overlays := fs.dc_layer_overlays
                histograms := fs.histograms }, rfl, rfl, rfl, rfl, rfl, ?_, ?_⟩
      · simp only [List.isEmpty_nil, ProcessPasses, ProcessPass, if_true]
      · simp only [List.isEmpty_nil, ProcessPasses, ProcessPass, if_true]
    | cons pass2 rest2 =>
      obtain ⟨st, h1, h2, h3, h4, h5, h6, h7⟩ := ih (by simp)
        { (ProcessPass env display_rect false fs pass).1 with
          render_passes :=
            (ProcessPass env display_rect false fs pass).1.render_passes ++
              [(ProcessPass env display_rect false fs pass).2] }
      obtain ⟨p1, p2, p3⟩ := ProcessQuads_previous env display_rect false
        pass.quad_list.length
        { processor := fs.processor
          render_pass := pass
          overlay_damage_rect := fs.overlay_damage_rect
          damage_rect := pass.damage_rect
          dc_layer_overlays := fs.dc_layer_overlays
          this_frame_underlay_rect := {}
          this_frame_underlay_occlusion := {}
          histograms := fs.histograms } 0
      refine ⟨st, ?_, h2, h3.trans p1, h4.trans p2, h5.trans p3, ?_, ?_⟩
      · rw [h1]
        simp
      · rw [← h6]
        rfl
      · rw [← h7]
        rfl

/-- The occlusion bound of the video quad of the scenarios under the solid
quad of the scenarios: the 50 by 50 rectangle of the solid quad. -/
theorem sampleVideoQuad_occlusion (underlays nonroot complex : Bool) :
    GetOcclusionBounds (sampleCollaborators underlays nonroot complex)
        (RectF.ofRect { width := 100, height := 100 }) [sampleSolidQuad]
      = { width := 50, height := 50 } := by
  simp [GetOcclusionBounds, GetOcclusionBoundsStep, ClippedQuadRectangle, sampleCollaborators,
    sampleSolidQuad, Affine2d.TransformRect, RectF.ofRect, RectF.right, RectF.bottom,
    RectF.Intersect, RectF.Union, RectF.IsEmpty, float_epsilon, ShouldDrawWithBlending]
  norm_num

theorem sampleVideoQuad_occlusion_enclosing :
    ToEnclosingRect ({ width := 50, height := 50 } : RectF) = { width := 50, height := 50 } := by
  simp [ToEnclosingRect, RectF.right, RectF.bottom]

/-- The quad list of Scenario E: the video quad of the scenarios under the
solid quad of the scenarios. In a state of the root pass with this list, with
hardware overlay support and nothing accepted in the frame so far, the video
quad is a first root underlay. -/
theorem sample_first_root_underlay (st : PassState Affine2d)
    (hpass : st.render_pass =
      { id := 1, quad_list := [sampleSolidQuad, sampleVideoQuad {} ProtectedVideoType.kClear],
        transform_to_root_target := {} })
    (hhw : st.processor.has_hw_overlay_support_ = true)
    (hflag : st.processor.processed_overlay_in_frame_ = false) :
    FirstRootUnderlay (sampleCollaborators true false false) st 1 := by
  have hd : deref st.render_pass.quad_list 1 = sampleVideoQuad {} ProtectedVideoType.kClear := by
    rw [hpass]
    rfl
  have htake : st.render_pass.quad_list.take 1 = [sampleSolidQuad] := by
    rw [hpass]
    rfl
  have htransform : st.render_pass.transform_to_root_target = {} := by
    rw [hpass]
  unfold FirstRootUnderlay
  rw [hd, htake, htransform, sampleVideoQuad_rectangle, sampleVideoQuad_occlusion]
  refine ⟨?_, by decide, by decide, ?_, hflag, by decide, ?_⟩
  · unfold FromDrawQuad
    simp [hhw, sampleVideoQuad, sampleCollaborators]
  · unfold ProcessForUnderlayRejection
    rw [hd, hflag]
    simp [sampleVideoQuad, sampleCollaborators, RequiresOverlay, FromYUVQuad]
  · unfold ProcessForUnderlayReplace
    rw [hpass]
    decide

/-- C16. Scenario E and the rectangles kept from one frame to the next. Call
first root underlay a quad of the root pass that the underlay tier promotes
as the first promotion of the frame, axis-aligned and taken for opaque.
(1) `Process` enters the root pass, the last of the list, with the damage
rectangle of the frame and with what the processor kept from the previous
frame, and the processor after `Process` is the processor after that pass.
(2) After the root pass the processor keeps the quad rectangle and the
enclosing rectangle of the occlusion bound of the first root underlay the loop
meets, and two empty rectangles when it meets none; meanwhile every state of
the loop still holds what was kept from the previous frame.
(3) When two consecutive root passes with the same display rectangle each meet
a first root underlay and the two quad rectangles are equal, the second one
leaves the damage `Subtract(D, R)` united with `D ∩ R ∩ (O2 ∪ O1)`, for `D` the
damage before the quad, `R` the quad rectangle and `O1`, `O2` the enclosing
rectangles of the two occlusion bounds.
(4) A first root underlay whose rectangle or display rectangle differs from
the one kept leaves the damage `D` united with `R`. -/
theorem underlay_cache_across_frames (env : Collaborators T) [Inhabited T]
    (display_rect : RectF) :
    (∀ (fs : FrameState T) (hne : fs.render_passes ≠ []),
      ∃ st : PassState T,
        st.render_pass = fs.render_passes.getLast hne ∧
          st.damage_rect = fs.damage_rect ∧
          st.processor.previous_display_rect_ = fs.processor.previous_display_rect_ ∧
          st.processor.previous_frame_underlay_rect_
            = fs.processor.previous_frame_underlay_rect_ ∧
          st.processor.previous_frame_underlay_occlusion_
            = fs.processor.previous_frame_underlay_occlusion_ ∧
          (Process env display_rect fs).processor
            = (ProcessRenderPass env display_rect true st).processor) ∧
      (∀ st : PassState T,
        (∀ (st' : PassState T) (it' : Nat), LoopReaches env display_rect st st' it' →
          st'.processor.previous_display_rect_ = st.processor.previous_display_rect_ ∧
            st'.processor.previous_frame_underlay_rect_
              = st.processor.previous_frame_underlay_rect_ ∧
            st'.processor.previous_frame_underlay_occlusion_
              = st.processor.previous_frame_underlay_occlusion_ ∧
            (FirstRootUnderlay env st' it' →
              (ProcessRenderPass env display_rect true
                  st).processor.previous_frame_underlay_rect_
                  = ToEnclosingRect
                    (ClippedQuadRectangle env (deref st'.render_pass.quad_list it')) ∧
                (ProcessRenderPass env display_rect true
                    st).processor.previous_frame_underlay_occlusion_
                  = ToEnclosingRect (GetOcclusionBounds env
                      (RectF.ofRect
                        (ToEnclosingRect
                          (ClippedQuadRectangle env (deref st'.render_pass.quad_list it'))))
                      (st'.render_pass.quad_list.take it')))) ∧
          ((¬ ∃ (st' : PassState T) (it' : Nat),
              LoopReaches env display_rect st st' it' ∧ FirstRootUnderlay env st' it') →
            (ProcessRenderPass env display_rect true
                st).processor.previous_frame_underlay_rect_ = {} ∧
              (ProcessRenderPass env display_rect true
                  st).processor.previous_frame_underlay_occlusion_ = {})) ∧
      (∀ (st1 st2 st1' st2' : PassState T) (it1 it2 : Nat),
        st2.processor.previous_display_rect_
            = (ProcessRenderPass env display_rect true st1).processor.previous_display_rect_ →
          st2.processor.previous_frame_underlay_rect_
            = (ProcessRenderPass env display_rect true
                st1).processor.previous_frame_underlay_rect_ →
          st2.processor.previous_frame_underlay_occlusion_
            = (ProcessRenderPass env display_rect true
                st1).processor.previous_frame_underlay_occlusion_ →
          LoopReaches env display_rect st1 st1' it1 → FirstRootUnderlay env st1' it1 →
          LoopReaches env display_rect st2 st2' it2 → FirstRootUnderlay env st2' it2 →
          ToEnclosingRect (ClippedQuadRectangle env (deref st2'.render_pass.quad_list it2))
            = ToEnclosingRect (ClippedQuadRectangle env (deref st1'.render_pass.quad_list it1)) →
          (ProcessQuad env display_rect true st2' it2).1.damage_rect =
            (st2'.damage_rect.Subtract
                (ToEnclosingRect
                  (ClippedQuadRectangle env (deref st2'.render_pass.quad_list it2)))).Union
              ((st2'.damage_rect.Intersect
                  (ToEnclosingRect
                    (ClippedQuadRectangle env (deref st2'.render_pass.quad_list it2)))).Intersect
                ((ToEnclosingRect (GetOcclusionBounds env
                    (RectF.ofRect
                      (ToEnclosingRect
                        (ClippedQuadRectangle env (deref st2'.render_pass.quad_list it2))))
                    (st2'.render_pass.quad_list.take it2))).Union
                  (ToEnclosingRect (GetOcclusionBounds env
                    (RectF.ofRect
                      (ToEnclosingRect
                        (ClippedQuadRectangle env (deref st1'.render_pass.quad_list it1))))
                    (st1'.render_pass.quad_list.take it1)))))) ∧
      (∀ (st : PassState T) (it : Nat), FirstRootUnderlay env st it →
        ¬ (ToEnclosingRect (ClippedQuadRectangle env (deref st.render_pass.quad_list it))
              = st.processor.previous_frame_underlay_rect_ ∧
            display_rect = st.processor.previous_display_rect_) →
        (ProcessQuad env display_rect true st it).1.damage_rect =
          st.damage_rect.Union
            (ToEnclosingRect (ClippedQuadRectangle env (deref st.render_pass.quad_list it)))) := by
  refine ⟨?_, ?_, ?_, ?_⟩
  · intro fs hne
    obtain ⟨st, h1, h2, h3, h4, h5, h6, -⟩ := ProcessPasses_root_entry env display_rect
      fs.render_passes hne
      { fs with
        processor :=
          { fs.processor with
            processed_overlay_in_frame_ := false, pass_punch_through_rects_ := [] }
        render_passes := [] }
    exact ⟨st, h1, h2, h3, h4, h5, h6⟩
  · intro st
    exact ProcessRenderPass_cache env display_rect st
  · intro st1 st2 st1' st2' it1 it2 hdisplay hrect hocc hreach1 hfirst1 hreach2 hfirst2 hsame
    obtain ⟨-, -, -, hstored⟩ := (ProcessRenderPass_cache env display_rect st1).1 st1' it1 hreach1
    obtain ⟨s1, s2⟩ := hstored hfirst1
    obtain ⟨q1, q2, q3, -⟩ := (ProcessRenderPass_cache env display_rect st2).1 st2' it2 hreach2
    have hroot := (ProcessRenderPass_root env display_rect st1).2
    rw [ProcessQuad_first_underlay_damage env display_rect st2' it2 hfirst2, q1, q2, q3,
      hdisplay, hrect, hocc, hroot, s1, s2, if_pos ⟨hsame, rfl⟩]
  · intro st it hfirst hdiff
    rw [ProcessQuad_first_underlay_damage env display_rect st it hfirst, if_neg hdiff]

/-- Scenario E on the sample: after a root pass that holds the video quad of the
scenarios under the solid quad of the scenarios, the processor keeps the
rectangle of the video quad and the rectangle of the solid quad. -/
theorem sample_root_pass_cache :
    (ProcessRenderPass (sampleCollaborators true false false) sampleDisplayRect true
        (samplePassState [sampleSolidQuad,
          sampleVideoQuad {} ProtectedVideoType.kClear])).processor.previous_frame_underlay_rect_
        = { width := 100, height := 100 } ∧
      (ProcessRenderPass (sampleCollaborators true false false) sampleDisplayRect true
        (samplePassState [sampleSolidQuad,
          sampleVideoQuad {} ProtectedVideoType.kClear])).processor.previous_frame_underlay_occlusion_
        = { width := 50, height := 50 } := by
  obtain ⟨-, -, -, hstored⟩ := (ProcessRenderPass_cache (sampleCollaborators true false false)
    sampleDisplayRect
    (samplePassState [sampleSolidQuad, sampleVideoQuad {} ProtectedVideoType.kClear])).1
    { samplePassState [sampleSolidQuad, sampleVideoQuad {} ProtectedVideoType.kClear] with
      histograms :=
        [(ProtectedVideoType.kClear, DCLayerResult.DC_LAYER_FAILED_UNSUPPORTED_QUAD)] }
    1 ⟨by decide, 1, rfl⟩
  obtain ⟨s1, s2⟩ := hstored (sample_first_root_underlay _ rfl rfl rfl)
  have hd : deref [sampleSolidQuad, sampleVideoQuad {} ProtectedVideoType.kClear] 1
      = sampleVideoQuad {} ProtectedVideoType.kClear := rfl
  have htake : [sampleSolidQuad, sampleVideoQuad {} ProtectedVideoType.kClear].take 1
      = [sampleSolidQuad] := rfl
  rw [s1, s2]
  show ToEnclosingRect (ClippedQuadRectangle (sampleCollaborators true false false)
      (deref [sampleSolidQuad, sampleVideoQuad {} ProtectedVideoType.kClear] 1)) = _ ∧
    ToEnclosingRect (GetOcclusionBounds (sampleCollaborators true false false)
      (RectF.ofRect (ToEnclosingRect (ClippedQuadRectangle (sampleCollaborators true false false)
        (deref [sampleSolidQuad, sampleVideoQuad {} ProtectedVideoType.kClear] 1))))
      ([sampleSolidQuad, sampleVideoQuad {} ProtectedVideoType.kClear].take 1)) = _
  rw [hd, htake, sampleVideoQuad_rectangle, sampleVideoQuad_occlusion,
    sampleVideoQuad_occlusion_enclosing]
  exact ⟨rfl, rfl⟩

theorem underlay_cache_across_frames_witness :
    (ProcessQuad (sampleCollaborators true false false) sampleDisplayRect true
      { samplePassState [sampleSolidQuad, sampleVideoQuad {} ProtectedVideoType.kClear] with
        processor :=
          { previous_display_rect_ := sampleDisplayRect
            previous_frame_underlay_rect_ := { width := 100, height := 100 }
            previous_frame_underlay_occlusion_ := { width := 50, height := 50 } }
        damage_rect := { width := 100, height := 100 }
        histograms :=
          [(ProtectedVideoType.kClear, DCLayerResult.DC_LAYER_FAILED_UNSUPPORTED_QUAD)] }
      1).1.damage_rect = { width := 50, height := 50 } := by
  have h := (underlay_cache_across_frames (sampleCollaborators true false false)
    sampleDisplayRect).2.2.1
    (samplePassState [sampleSolidQuad, sampleVideoQuad {} ProtectedVideoType.kClear])
    { samplePassState [sampleSolidQuad, sampleVideoQuad {} ProtectedVideoType.kClear] with
      processor :=
        { previous_display_rect_ := sampleDisplayRect
          previous_frame_underlay_rect_ := { width := 100, height := 100 }
          previous_frame_underlay_occlusion_ := { width := 50, height := 50 } }
      damage_rect := { width := 100, height := 100 } }
    { samplePassState [sampleSolidQuad, sampleVideoQuad {} ProtectedVideoType.kClear] with
      histograms :=
        [(ProtectedVideoType.kClear, DCLayerResult.DC_LAYER_FAILED_UNSUPPORTED_QUAD)] }
    { samplePassState [sampleSolidQuad, sampleVideoQuad {} ProtectedVideoType.kClear] with
      processor :=
        { previous_display_rect_ := sampleDisplayRect
          previous_frame_underlay_rect_ := { width := 100, height := 100 }
          previous_frame_underlay_occlusion_ := { width := 50, height := 50 } }
      damage_rect := { width := 100, height := 100 }
      histograms :=
        [(ProtectedVideoType.kClear, DCLayerResult.DC_LAYER_FAILED_UNSUPPORTED_QUAD)] }
    1 1 rfl sample_root_pass_cache.1.symm sample_root_pass_cache.2.symm
    ⟨by decide, 1, rfl⟩ (sample_first_root_underlay _ rfl rfl rfl)
    ⟨by decide, 1, rfl⟩ (sample_first_root_underlay _ rfl rfl rfl) rfl
  have hd : deref [sampleSolidQuad, sampleVideoQuad {} ProtectedVideoType.kClear] 1
      = sampleVideoQuad {} ProtectedVideoType.kClear := rfl
  have htake : [sampleSolidQuad, sampleVideoQuad {} ProtectedVideoType.kClear].take 1
      = [sampleSolidQuad] := rfl
  rw [h]
  simp only [samplePassState]
  rw [hd, htake, sampleVideoQuad_rectangle, sampleVideoQuad_occlusion,
    sampleVideoQuad_occlusion_enclosing]
  decide

/-! ### The damage an accepted underlay leaves -/

theorem ProcessForUnderlay_none_of_accepted (env : Collaborators T) [Inhabited T]
    (display_rect : RectF) (quad_rectangle : Rect) (occlusion_bounding_box : RectF) (it : Nat)
    (is_root : Bool) (st : PassState T) (dc_layer : DCLayerOverlay T)
    (hacc : (ProcessForUnderlay env display_rect quad_rectangle occlusion_bounding_box it
      is_root st dc_layer).1 = true) :
    ProcessForUnderlayRejection env st it is_root dc_layer = none := by
  rw [ProcessForUnderlay_fst] at hacc
  cases hrej : ProcessForUnderlayRejection env st it is_root dc_layer with
  | none => rfl
  | some result =>
    rw [hrej] at hacc
    exact Bool.noConfusion hacc

/-- C21. When `ProcessForUnderlay` accepts a quad, with incoming damage `D`,
quad rectangle `R` and occlusion bound `O`: if the pass is the root, nothing
has been accepted earlier in the frame, the transform of the quad is
axis-aligned, the replacement is the opaque one (the transparent fill), `R` is
the stored underlay rectangle of the previous frame and the display rectangle
is the stored one, the damage becomes `Subtract(D, R)` united with
`D ∩ R ∩ (enclosing(O) ∪ stored occlusion)`; in every other case it becomes `D`
united with `R`. -/
theorem underlay_damage_update (env : Collaborators T) [Inhabited T] (display_rect : RectF)
    (quad_rectangle : Rect) (occlusion_bounding_box : RectF) (it : Nat) (is_root : Bool)
    (st : PassState T) (dc_layer : DCLayerOverlay T)
    (hacc : (ProcessForUnderlay env display_rect quad_rectangle occlusion_bounding_box it
      is_root st dc_layer).1 = true) :
    let damage := (ProcessForUnderlay env display_rect quad_rectangle occlusion_bounding_box it
      is_root st dc_layer).2.1.damage_rect
    let optimised := is_root = true ∧ st.processor.processed_overlay_in_frame_ = false ∧
      env.Preserves2dAxisAlignment
        (deref st.render_pass.quad_list it).shared_quad_state.quad_to_target_transform = true ∧
      (ProcessForUnderlayReplace env st.render_pass.quad_list it).2 = true ∧
      quad_rectangle = st.processor.previous_frame_underlay_rect_ ∧
      display_rect = st.processor.previous_display_rect_
    (optimised →
        damage = (st.damage_rect.Subtract quad_rectangle).Union
          ((st.damage_rect.Intersect quad_rectangle).Intersect
            ((ToEnclosingRect occlusion_bounding_box).Union
              st.processor.previous_frame_underlay_occlusion_))) ∧
      (¬ optimised → damage = st.damage_rect.Union quad_rectangle) := by
  intro damage optimised
  have hnone := ProcessForUnderlay_none_of_accepted env display_rect quad_rectangle
    occlusion_bounding_box it is_root st dc_layer hacc
  obtain ⟨-, -, hd, -⟩ := ProcessForUnderlay_cache env display_rect quad_rectangle
    occlusion_bounding_box it is_root st dc_layer hnone
  have hdamage : damage = _ := hd
  constructor
  · rintro ⟨hroot, hflag, haligned, hopq, hrect, hdisplay⟩
    rw [hdamage]
    simp [hroot, hflag, haligned, hopq, ← hrect, ← hdisplay]
  · intro hnot
    rw [hdamage]
    rw [if_neg]
    intro hall
    apply hnot
    simp only [Bool.and_eq_true, Bool.not_eq_true', decide_eq_false_iff_not, ne_eq,
      not_not] at hall
    obtain ⟨⟨⟨⟨⟨hroot, hflag⟩, haligned⟩, hopq⟩, hrect⟩, hdisplay⟩ := hall
    exact ⟨hroot, hflag, haligned, hopq, hrect, hdisplay⟩

theorem underlay_damage_update_witness :
    (ProcessForUnderlay (sampleCollaborators true false false) sampleDisplayRect
      { width := 100, height := 100 } { width := 50, height := 50 } 0 true
      (samplePassState [sampleVideoQuad {} ProtectedVideoType.kClear])
      (FromYUVQuad (sampleCollaborators true false false)
        (sampleVideoQuad {} ProtectedVideoType.kClear) {})).2.1.damage_rect
        = Rect.Union { width := 200, height := 200 } { width := 100, height := 100 } ∧
      (ProcessForUnderlay (sampleCollaborators true false false) sampleDisplayRect
        { width := 100, height := 100 } { width := 50, height := 50 } 0 true
        { samplePassState [sampleVideoQuad {} ProtectedVideoType.kClear] with
          processor :=
            { previous_display_rect_ := sampleDisplayRect
              previous_frame_underlay_rect_ := { width := 100, height := 100 }
              previous_frame_underlay_occlusion_ := { width := 20, height := 20 } } }
        (FromYUVQuad (sampleCollaborators true false false)
          (sampleVideoQuad {} ProtectedVideoType.kClear) {})).2.1.damage_rect
        = (Rect.Subtract { width := 200, height := 200 } { width := 100, height := 100 }).Union
          ((Rect.Intersect { width := 200, height := 200 }
              { width := 100, height := 100 }).Intersect
            ((ToEnclosingRect { width := 50, height := 50 }).Union
              { width := 20, height := 20 })) :=
  ⟨(underlay_damage_update (sampleCollaborators true false false) sampleDisplayRect
      { width := 100, height := 100 } { width := 50, height := 50 } 0 true
      (samplePassState [sampleVideoQuad {} ProtectedVideoType.kClear])
      (FromYUVQuad (sampleCollaborators true false false)
        (sampleVideoQuad {} ProtectedVideoType.kClear) {})
      (by decide)).2 (by decide),
    (underlay_damage_update (sampleCollaborators true false false) sampleDisplayRect
      { width := 100, height := 100 } { width := 50, height := 50 } 0 true
      { samplePassState [sampleVideoQuad {} ProtectedVideoType.kClear] with
        processor :=
          { previous_display_rect_ := sampleDisplayRect
            previous_frame_underlay_rect_ := { width := 100, height := 100 }
            previous_frame_underlay_occlusion_ := { width := 20, height := 20 } } }
      (FromYUVQuad (sampleCollaborators true false false)
        (sampleVideoQuad {} ProtectedVideoType.kClear) {})
      (by decide)).1 ⟨rfl, rfl, by decide, by decide, rfl, rfl⟩⟩

/-! ### The candidate descriptor -/

/-- C22. For every video quad and transform to the root target, `FromYUVQuad`
builds a descriptor with z-order 1, the quad rectangle of the quad, the
flattening to 2-D of the quad-to-target transform followed by the transform to
the root target, the colour space and the classification of the quad, and the
clipped flag of the shared state; when the shared state is clipped the clip
rectangle is the enclosing rectangle of the clip rectangle of the shared state
transformed by the transform to the root target, and otherwise it is left as
the constructor made it, empty. -/
theorem FromYUVQuad_descriptor (env : Collaborators T) (quad : DrawQuad T)
    (transform_to_root_target : T) :
    let dc_layer := FromYUVQuad env quad transform_to_root_target
    dc_layer.z_order = 1 ∧
      dc_layer.quad_rect = quad.rect ∧
      dc_layer.transform
        = env.FlattenTo2d
          (env.ConcatTransform quad.shared_quad_state.quad_to_target_transform
            transform_to_root_target) ∧
      dc_layer.color_space = quad.video_color_space ∧
      dc_layer.protected_video_type = quad.protected_video_type ∧
      dc_layer.is_clipped = quad.shared_quad_state.is_clipped ∧
      (quad.shared_quad_state.is_clipped = true →
        dc_layer.clip_rect
          = ToEnclosingRect
            (env.TransformRect transform_to_root_target
              (RectF.ofRect quad.shared_quad_state.clip_rect))) ∧
      (quad.shared_quad_state.is_clipped = false → dc_layer.clip_rect = {}) ∧
      dc_layer.y_resource_id = quad.y_plane_resource_id ∧
      dc_layer.uv_resource_id = quad.u_plane_resource_id ∧
      dc_layer.content_rect = env.ToNearestRect quad.ya_tex_coord_rect := by
  intro dc_layer
  refine ⟨rfl, rfl, rfl, rfl, rfl, rfl, ?_, ?_, rfl, rfl, rfl⟩
  · intro hclipped
    show (if quad.shared_quad_state.is_clipped = true then _ else _) = _
    rw [if_pos hclipped]
  · intro hclipped
    show (if quad.shared_quad_state.is_clipped = true then _ else _) = _
    rw [hclipped]
    rfl

/-! ### Damage of a promotion against the incoming damage -/

theorem Rect.Subtract_subset (r s : Rect) : (r.Subtract s).SubsetOf r := by
  intro px py hp
  simp only [Rect.Subtract, Rect.Intersects, Rect.Contains, Rect.IsEmpty, Rect.HasPoint,
    Rect.SetByBounds, Rect.right, Rect.bottom, Bool.not_eq_true', Bool.or_eq_false_iff,
    Bool.not_eq_false', Bool.or_eq_true, Bool.and_eq_true, decide_eq_true_eq,
    decide_eq_false_iff_not, ge_iff_le] at hp ⊢
  split_ifs at hp <;> (try dsimp only at hp) <;> omega

theorem Rect.edges_of_subset (r d : Rect) (hne : r.IsEmpty = false) (h : r.SubsetOf d) :
    d.x ≤ r.x ∧ d.y ≤ r.y ∧ r.right ≤ d.right ∧ r.bottom ≤ d.bottom := by
  simp only [Rect.IsEmpty, Bool.or_eq_false_iff, decide_eq_false_iff_not, not_le] at hne
  have h1 := h r.x r.y
  have h2 := h (r.x + r.width - 1) (r.y + r.height - 1)
  simp only [Rect.HasPoint, Rect.right, Rect.bottom] at h1 h2 ⊢
  omega

theorem Rect.Union_subset (r s d : Rect) (hr : r.SubsetOf d) (hs : s.SubsetOf d) :
    (r.Union s).SubsetOf d := by
  unfold Rect.Union
  by_cases h1 : r.IsEmpty = true
  · rw [if_pos h1]
    exact hs
  · rw [if_neg h1]
    by_cases h2 : s.IsEmpty = true
    · rw [if_pos h2]
      exact hr
    · rw [if_neg h2]
      have er := Rect.edges_of_subset r d (by simpa using h1) hr
      have es := Rect.edges_of_subset s d (by simpa using h2) hs
      intro px py hp
      simp only [Rect.HasPoint, Rect.SetByBounds, Rect.right, Rect.bottom] at hp er es ⊢
      omega

theorem Rect.subset_Union_left (r s : Rect) : r.SubsetOf (r.Union s) := by
  intro px py hp
  unfold Rect.Union
  simp only [Rect.IsEmpty, Bool.or_eq_true, decide_eq_true_eq]
  simp only [Rect.HasPoint, Rect.right, Rect.bottom] at hp
  split_ifs <;>
    simp only [Rect.HasPoint, Rect.SetByBounds, Rect.right, Rect.bottom] <;> omega

theorem Rect.subset_Union_right (r s : Rect) : s.SubsetOf (r.Union s) := by
  intro px py hp
  unfold Rect.Union
  simp only [Rect.IsEmpty, Bool.or_eq_true, decide_eq_true_eq]
  simp only [Rect.HasPoint, Rect.right, Rect.bottom] at hp
  split_ifs <;>
    simp only [Rect.HasPoint, Rect.SetByBounds, Rect.right, Rect.bottom] <;> omega

theorem Rect.Union_Contains_right (r s : Rect) (hs : s.IsEmpty = false) :
    (r.Union s).Contains s = true := by
  unfold Rect.Union
  simp only [Rect.IsEmpty, Bool.or_eq_false_iff, decide_eq_false_iff_not, not_le] at hs
  simp only [Rect.IsEmpty, Bool.or_eq_true, decide_eq_true_eq]
  split_ifs <;>
    simp only [Rect.Contains, Rect.SetByBounds, Rect.right, Rect.bottom, Bool.and_eq_true,
      decide_eq_true_eq, ge_iff_le] <;> omega

/-- C29. A promotion against the incoming damage. What `ProcessForOverlay`
leaves as damage lies within the incoming damage. When `ProcessForUnderlay`
accepts a quad through the branch that reuses the previous frame (root pass,
nothing accepted earlier in the frame, axis-aligned, opaque replacement, same
underlay rectangle and same display rectangle as stored), the damage it
leaves lies within the incoming damage; when it accepts through the other
branch, the damage it leaves holds every pixel of the incoming damage and of
the quad rectangle, and contains the quad rectangle edge by edge when that is
not empty. -/
theorem promotion_damage_monotone (env : Collaborators T) [Inhabited T] (display_rect : RectF)
    (quad_rectangle : Rect) (occlusion_bounding_box : RectF) (it : Nat) (st : PassState T) :
    (ProcessForOverlay env display_rect quad_rectangle occlusion_bounding_box st
        it).2.1.damage_rect.SubsetOf st.damage_rect ∧
      (∀ (is_root : Bool) (dc_layer : DCLayerOverlay T),
        (ProcessForUnderlay env display_rect quad_rectangle occlusion_bounding_box it is_root st
          dc_layer).1 = true →
        ((is_root = true ∧ st.processor.processed_overlay_in_frame_ = false ∧
            env.Preserves2dAxisAlignment
              (deref st.render_pass.quad_list it).shared_quad_state.quad_to_target_transform
              = true ∧
            (ProcessForUnderlayReplace env st.render_pass.quad_list it).2 = true ∧
            quad_rectangle = st.processor.previous_frame_underlay_rect_ ∧
            display_rect = st.processor.previous_display_rect_) →
          (ProcessForUnderlay env display_rect quad_rectangle occlusion_bounding_box it is_root
            st dc_layer).2.1.damage_rect.SubsetOf st.damage_rect) ∧
        (¬ (is_root = true ∧ st.processor.processed_overlay_in_frame_ = false ∧
            env.Preserves2dAxisAlignment
              (deref st.render_pass.quad_list it).shared_quad_state.quad_to_target_transform
              = true ∧
            (ProcessForUnderlayReplace env st.render_pass.quad_list it).2 = true ∧
            quad_rectangle = st.processor.previous_frame_underlay_rect_ ∧
            display_rect = st.processor.previous_display_rect_) →
          st.damage_rect.SubsetOf
              (ProcessForUnderlay env display_rect quad_rectangle occlusion_bounding_box it
                is_root st dc_layer).2.1.damage_rect ∧
            quad_rectangle.SubsetOf
              (ProcessForUnderlay env display_rect quad_rectangle occlusion_bounding_box it
                is_root st dc_layer).2.1.damage_rect ∧
            (quad_rectangle.IsEmpty = false →
              (ProcessForUnderlay env display_rect quad_rectangle occlusion_bounding_box it
                is_root st dc_layer).2.1.damage_rect.Contains quad_rectangle = true))) := by
  constructor
  · cases hocc : occlusion_bounding_box.IsEmpty with
    | false =>
      unfold ProcessForOverlay
      rw [hocc]
      exact fun px py hp => hp
    | true =>
      rw [ProcessForOverlay_damage env display_rect quad_rectangle occlusion_bounding_box st it
        hocc]
      split_ifs
      · exact Rect.Subtract_subset _ _
      · exact fun px py hp => hp
  · intro is_root dc_layer hacc
    have hnone := ProcessForUnderlay_none_of_accepted env display_rect quad_rectangle
      occlusion_bounding_box it is_root st dc_layer hacc
    obtain ⟨-, -, hd, -⟩ := ProcessForUnderlay_cache env display_rect quad_rectangle
      occlusion_bounding_box it is_root st dc_layer hnone
    constructor
    · rintro ⟨hroot, hflag, haligned, hopq, hrect, hdisplay⟩
      rw [hd]
      simp only [hroot, hflag, haligned, hopq, ← hrect, ← hdisplay, Bool.not_false,
        Bool.and_self, ne_eq, not_true_eq_false, decide_False, Bool.not_false, if_true]
      apply Rect.Union_subset
      · exact Rect.Subtract_subset _ _
      · intro px py hp
        exact Rect.Intersect_subset_left _ _ px py (Rect.Intersect_subset_left _ _ px py hp)
    · intro hnot
      rw [hd, if_neg]
      · exact ⟨Rect.subset_Union_left _ _, Rect.subset_Union_right _ _,
          Rect.Union_Contains_right _ _⟩
      · intro hall
        apply hnot
        simp only [Bool.and_eq_true, Bool.not_eq_true', decide_eq_false_iff_not, ne_eq,
          not_not] at hall
        obtain ⟨⟨⟨⟨⟨hroot, hflag⟩, haligned⟩, hopq⟩, hrect⟩, hdisplay⟩ := hall
        exact ⟨hroot, hflag, haligned, hopq, hrect, hdisplay⟩

theorem promotion_damage_monotone_witness :
    Rect.SubsetOf { width := 200, height := 200 }
      (ProcessForUnderlay (sampleCollaborators true false false) sampleDisplayRect
        { width := 100, height := 100 } { width := 50, height := 50 } 0 true
        (samplePassState [sampleVideoQuad {} ProtectedVideoType.kClear])
        (FromYUVQuad (sampleCollaborators true false false)
          (sampleVideoQuad {} ProtectedVideoType.kClear) {})).2.1.damage_rect :=
  (((promotion_damage_monotone (sampleCollaborators true false false) sampleDisplayRect
    { width := 100, height := 100 } { width := 50, height := 50 } 0
    (samplePassState [sampleVideoQuad {} ProtectedVideoType.kClear])).2 true
    (FromYUVQuad (sampleCollaborators true false false)
      (sampleVideoQuad {} ProtectedVideoType.kClear) {}) (by decide)).2 (by decide)).1

/-! ### The occlusion bound against the target -/

theorem RectF.Intersect_enclosed (a b : RectF) (h : (a.Intersect b).IsEmpty = false) :
    a.Encloses (a.Intersect b) ∧ b.Encloses (a.Intersect b) := by
  simp only [RectF.Intersect] at h ⊢
  have hempty : RectF.IsEmpty {} = true := rfl
  split_ifs at h ⊢ with h1 h2
  · rw [hempty] at h
    exact Bool.noConfusion h
  · rw [hempty] at h
    exact Bool.noConfusion h
  · simp only [RectF.Encloses, RectF.right, RectF.bottom]
    refine ⟨⟨le_max_left _ _, le_max_left _ _, ?_, ?_⟩, ⟨le_max_right _ _, le_max_right _ _, ?_, ?_⟩⟩
    · have := min_le_left (a.x + a.width) (b.x + b.width)
      linarith
    · have := min_le_left (a.y + a.height) (b.y + b.height)
      linarith
    · have := min_le_right (a.x + a.width) (b.x + b.width)
      linarith
    · have := min_le_right (a.y + a.height) (b.y + b.height)
      linarith

theorem mem_OcclusionIntersections (env : Collaborators T) (target_quad : RectF)
    (quads : List (DrawQuad T)) (r : RectF) :
    r ∈ OcclusionIntersections env target_quad quads ↔
      ∃ q ∈ quads, OccluderSkipped env q = false ∧
        (ClippedQuadRectangle env q).Intersect target_quad = r ∧ r.IsEmpty = false := by
  unfold OcclusionIntersections
  simp only [List.mem_filter, List.mem_map, Bool.not_eq_true']
  constructor
  · rintro ⟨⟨q, ⟨hq, hskip⟩, hr⟩, hne⟩
    exact ⟨q, hq, hskip, hr, hne⟩
  · rintro ⟨q, hq, hskip, hr, hne⟩
    exact ⟨⟨q, ⟨hq, hskip⟩, hr⟩, hne⟩

/-- The result of `GetOcclusionBounds` is the empty rectangle when no quad
contributes, and otherwise a non-empty rectangle that holds every contribution
and lies within every rectangle that holds them all. -/
theorem GetOcclusionBounds_bounding (env : Collaborators T) (target_quad : RectF)
    (quads : List (DrawQuad T)) :
    (OcclusionIntersections env target_quad quads = [] →
        GetOcclusionBounds env target_quad quads = {}) ∧
      (OcclusionIntersections env target_quad quads ≠ [] →
        (GetOcclusionBounds env target_quad quads).IsEmpty = false ∧
        (∀ r ∈ OcclusionIntersections env target_quad quads,
          (GetOcclusionBounds env target_quad quads).Encloses r) ∧
        (∀ s : RectF, (∀ r ∈ OcclusionIntersections env target_quad quads, s.Encloses r) →
          s.Encloses (GetOcclusionBounds env target_quad quads))) := by
  have hfold : GetOcclusionBounds env target_quad quads
      = (OcclusionIntersections env target_quad quads).foldl RectF.Union {} :=
    GetOcclusionBounds_foldl env target_quad {} quads
  have hall : ∀ r ∈ OcclusionIntersections env target_quad quads, r.IsEmpty = false := by
    intro r hr
    obtain ⟨q, -, -, -, hne⟩ := (mem_OcclusionIntersections env target_quad quads r).mp hr
    exact hne
  rw [hfold]
  generalize OcclusionIntersections env target_quad quads = intersections at hall ⊢
  cases intersections with
  | nil => exact ⟨fun _ => rfl, fun hne => absurd rfl hne⟩
  | cons r rest =>
    refine ⟨fun hnil => absurd hnil (List.cons_ne_nil _ _), fun _ => ?_⟩
    have hr : r.IsEmpty = false := hall r (List.mem_cons_self _ _)
    have hempty : RectF.IsEmpty {} = true := rfl
    rw [List.foldl_cons, RectF.Union_empty_left {} r hempty]
    obtain ⟨h1, h2, h3, h4⟩ := RectF.foldl_Union_bounding rest r hr
      (fun q hq => hall q (List.mem_cons_of_mem _ hq))
    refine ⟨h1, ?_, ?_⟩
    · intro q hq
      rcases List.mem_cons.mp hq with hq | hq
      · rw [hq]
        exact h2
      · exact h3 q hq
    · intro s hs
      exact h4 s (hs r (List.mem_cons_self _ _))
        (fun q hq => hs q (List.mem_cons_of_mem _ hq))

/-- C28. For every target rectangle and every sequence of quads above it: the
result of `GetOcclusionBounds`, when not empty, lies within the target; it
holds the intersection with the target of the clipped bounds of every quad that
is not skipped, whenever that intersection is not empty; and it is empty if and
only if no quad that is not skipped has a non-empty intersection with the
target. Hence `ProcessForOverlay`, handed the occlusion bound of a quad
rectangle against the quads above, returns false as soon as one quad above that
is not skipped has a non-empty intersection with the quad rectangle. -/
theorem occlusion_bounds_conservative (env : Collaborators T) [Inhabited T]
    (target_quad : RectF) (quads : List (DrawQuad T)) :
    ((GetOcclusionBounds env target_quad quads).IsEmpty = false →
        target_quad.Encloses (GetOcclusionBounds env target_quad quads)) ∧
      (∀ q ∈ quads, OccluderSkipped env q = false →
        ((ClippedQuadRectangle env q).Intersect target_quad).IsEmpty = false →
        (GetOcclusionBounds env target_quad quads).Encloses
          ((ClippedQuadRectangle env q).Intersect target_quad)) ∧
      ((GetOcclusionBounds env target_quad quads).IsEmpty = true ↔
        ∀ q ∈ quads, OccluderSkipped env q = false →
          ((ClippedQuadRectangle env q).Intersect target_quad).IsEmpty = true) ∧
      (∀ (display_rect : RectF) (quad_rectangle : Rect) (st : PassState T) (it : Nat),
        target_quad = RectF.ofRect quad_rectangle →
        (∃ q ∈ quads, OccluderSkipped env q = false ∧
          ((ClippedQuadRectangle env q).Intersect target_quad).IsEmpty = false) →
        (ProcessForOverlay env display_rect quad_rectangle
          (GetOcclusionBounds env target_quad quads) st it).1 = false) := by
  obtain ⟨hnil, hcons⟩ := GetOcclusionBounds_bounding env target_quad quads
  have hmem := mem_OcclusionIntersections env target_quad quads
  have hiff : (GetOcclusionBounds env target_quad quads).IsEmpty = true ↔
      ∀ q ∈ quads, OccluderSkipped env q = false →
        ((ClippedQuadRectangle env q).Intersect target_quad).IsEmpty = true := by
    constructor
    · intro hempty q hq hskip
      by_contra hne
      have hne2 : ((ClippedQuadRectangle env q).Intersect target_quad).IsEmpty = false := by
        simpa using hne
      have hin : (ClippedQuadRectangle env q).Intersect target_quad
          ∈ OcclusionIntersections env target_quad quads :=
        (hmem _).mpr ⟨q, hq, hskip, rfl, hne2⟩
      have hb := (hcons (List.ne_nil_of_mem hin)).1
      rw [hempty] at hb
      exact Bool.noConfusion hb
    · intro hall
      have hno : OcclusionIntersections env target_quad quads = [] := by
        apply List.eq_nil_iff_forall_not_mem.mpr
        intro r hr
        obtain ⟨q, hq, hskip, hrq, hne⟩ := (hmem r).mp hr
        have := hall q hq hskip
        rw [hrq, hne] at this
        exact Bool.noConfusion this
      rw [hnil hno]
      rfl
  refine ⟨?_, ?_, hiff, ?_⟩
  · intro hne
    have hnn : OcclusionIntersections env target_quad quads ≠ [] := by
      intro hno
      rw [hnil hno] at hne
      exact Bool.noConfusion hne
    apply (hcons hnn).2.2
    intro r hr
    obtain ⟨q, -, -, hrq, hrne⟩ := (hmem r).mp hr
    rw [← hrq] at hrne ⊢
    exact (RectF.Intersect_enclosed _ _ hrne).2
  · intro q hq hskip hne
    have hin : (ClippedQuadRectangle env q).Intersect target_quad
        ∈ OcclusionIntersections env target_quad quads :=
      (hmem _).mpr ⟨q, hq, hskip, rfl, hne⟩
    exact (hcons (List.ne_nil_of_mem hin)).2.1 _ hin
  · intro display_rect quad_rectangle st it _ hex
    obtain ⟨q, hq, hskip, hne⟩ := hex
    rw [ProcessForOverlay_fst]
    cases hb : (GetOcclusionBounds env target_quad quads).IsEmpty with
    | false => rfl
    | true =>
      have := hiff.mp hb q hq hskip
      rw [hne] at this
      exact Bool.noConfusion this

theorem sampleSolidQuad_occludes (underlays nonroot complex : Bool) :
    OccluderSkipped (sampleCollaborators underlays nonroot complex) sampleSolidQuad = false ∧
      ((ClippedQuadRectangle (sampleCollaborators underlays nonroot complex)
        sampleSolidQuad).Intersect (RectF.ofRect { width := 100, height := 100 })).IsEmpty
        = false := by
  constructor
  · simp [OccluderSkipped, sampleCollaborators, sampleSolidQuad, ShouldDrawWithBlending,
      float_epsilon]
    norm_num
  · simp [ClippedQuadRectangle, sampleCollaborators, sampleSolidQuad, Affine2d.TransformRect,
      RectF.ofRect, RectF.right, RectF.bottom, RectF.Intersect, RectF.IsEmpty]
    norm_num

theorem occlusion_bounds_conservative_witness :
    (ProcessForOverlay (sampleCollaborators true false false) sampleDisplayRect
      { width := 100, height := 100 }
      (GetOcclusionBounds (sampleCollaborators true false false)
        (RectF.ofRect { width := 100, height := 100 }) [sampleSolidQuad])
      (samplePassState [sampleSolidQuad, sampleVideoQuad {} ProtectedVideoType.kClear])
      1).1 = false :=
  (occlusion_bounds_conservative (sampleCollaborators true false false)
    (RectF.ofRect { width := 100, height := 100 }) [sampleSolidQuad]).2.2.2
    sampleDisplayRect { width := 100, height := 100 }
    (samplePassState [sampleSolidQuad, sampleVideoQuad {} ProtectedVideoType.kClear]) 1 rfl
    ⟨sampleSolidQuad, List.mem_singleton.mpr rfl,
      (sampleSolidQuad_occludes true false false).1,
      (sampleSolidQuad_occludes true false false).2⟩

/-! ### The overlay damage rectangle -/

/-- What an iteration of the loop of `ProcessRenderPass` does to the quad list
of a pass that is not the root: nothing, or the replacement in place of the
quad by a solid-colour quad, or the insertion of solid-colour quads right after
the quad. -/
theorem ProcessQuad_nonroot_list (env : Collaborators T) [Inhabited T] (display_rect : RectF)
    (st : PassState T) (it : Nat) (hit : it < st.render_pass.quad_list.length) :
    (ProcessQuad env display_rect false st it).1.render_pass.quad_list
        = st.render_pass.quad_list ∨
      (∃ placeholder : DrawQuad T, placeholder.material = Material.SOLID_COLOR ∧
        (deref st.render_pass.quad_list it).material = Material.YUV_VIDEO_CONTENT ∧
        (ProcessQuad env display_rect false st it).1.render_pass.quad_list
          = st.render_pass.quad_list.set it placeholder) ∨
      (∃ inserted : List (DrawQuad T),
        (∀ q ∈ inserted, q.material = Material.SOLID_COLOR) ∧
        (ProcessQuad env display_rect false st it).1.render_pass.quad_list
          = st.render_pass.quad_list.take (it + 1) ++ inserted ++
            st.render_pass.quad_list.drop (it + 1)) := by
  by_cases hmat : (deref st.render_pass.quad_list it).material = Material.RENDER_PASS
  · rw [ProcessQuad_render_pass env display_rect false st it hmat]
    by_cases hself : (deref st.render_pass.quad_list it).render_pass_id = st.render_pass.id
    · left
      unfold ProcessRenderPassDrawQuad
      simp only [hself, if_true]
    · by_cases hcount : st.processor.pass_punch_through_rects_.count
          (deref st.render_pass.quad_list it).render_pass_id = 0
      · left
        unfold ProcessRenderPassDrawQuad
        simp only [hself, hcount, if_true, if_false]
      · right; right
        obtain ⟨hlist, -⟩ := ProcessRenderPassDrawQuad_inserts env st it hit hself hcount
        refine ⟨_, ?_, hlist⟩
        intro q hq
        obtain ⟨r, -, hr⟩ := List.mem_map.mp hq
        rw [← hr]
        rfl
  · rcases ProcessQuad_cases env display_rect false st it hmat with
      ⟨result, pvt, -, heq⟩ | ⟨-, hatt, -, -⟩ | ⟨hvideo, hnone, heq⟩
    · left
      rw [heq]
      rfl
    · simp at hatt
    · right; left
      obtain ⟨placeholder, hset, hsolid, -⟩ := ProcessForUnderlayReplace_spec env
        st.render_pass.quad_list it
      obtain ⟨-, -, hql, -⟩ := ProcessForUnderlay_accepted env display_rect
        (ToEnclosingRect (ClippedQuadRectangle env (deref st.render_pass.quad_list it)))
        (GetOcclusionBounds env
          (RectF.ofRect
            (ToEnclosingRect (ClippedQuadRectangle env (deref st.render_pass.quad_list it))))
          (st.render_pass.quad_list.take it)) it false st _ hnone
      refine ⟨placeholder, hsolid, hvideo, ?_⟩
      rw [heq]
      simp only [RecordPromotion_render_pass, hql, hset]

theorem ProcessQuads_nonroot_length (env : Collaborators T) [Inhabited T] (display_rect : RectF)
    (fuel : Nat) (st : PassState T) (it : Nat) :
    st.render_pass.quad_list.length
        ≤ (ProcessQuads env display_rect false fuel st it).1.render_pass.quad_list.length ∧
      (ProcessQuads env display_rect false fuel st it).1.render_pass.id = st.render_pass.id := by
  induction fuel generalizing st it with
  | zero => exact ⟨Nat.le_refl _, rfl⟩
  | succ n ih =>
    by_cases h : it < st.render_pass.quad_list.length
    · rw [ProcessQuads_succ env display_rect false n st it h]
      obtain ⟨ilen, iid⟩ := ih (ProcessQuad env display_rect false st it).1
        (ProcessQuad env display_rect false st it).2
      have hid : (ProcessQuad env display_rect false st it).1.render_pass.id
          = st.render_pass.id := by
        by_cases hmat : (deref st.render_pass.quad_list it).material = Material.RENDER_PASS
        · rw [ProcessQuad_render_pass env display_rect false st it hmat]
          unfold ProcessRenderPassDrawQuad
          simp only []
          split_ifs <;> rfl
        · rcases ProcessQuad_cases env display_rect false st it hmat with
            ⟨result, pvt, -, heq⟩ | ⟨-, hatt, -, -⟩ | ⟨-, hnone, heq⟩
          · rw [heq]
            rfl
          · simp at hatt
          · obtain ⟨-, -, -, hpid, -⟩ := ProcessForUnderlay_accepted env display_rect
              (ToEnclosingRect (ClippedQuadRectangle env (deref st.render_pass.quad_list it)))
              (GetOcclusionBounds env
                (RectF.ofRect
                  (ToEnclosingRect
                    (ClippedQuadRectangle env (deref st.render_pass.quad_list it))))
                (st.render_pass.quad_list.take it)) it false st _ hnone
            rw [heq]
            simp only [RecordPromotion_render_pass, hpid]
      refine ⟨Nat.le_trans ?_ ilen, iid.trans hid⟩
      rcases ProcessQuad_nonroot_list env display_rect st it h with
        hsame | ⟨placeholder, -, -, hset⟩ | ⟨inserted, -, hins⟩
      · rw [hsame]
      · rw [hset, List.length_set]
      · rw [hins]
        simp only [List.length_append, List.length_take, List.length_drop]
        omega
    · rw [ProcessQuads_at_end env display_rect false (n + 1) st it h]
      exact ⟨Nat.le_refl _, rfl⟩

theorem ProcessPass_nonroot (env : Collaborators T) [Inhabited T] (display_rect : RectF)
    (fs : FrameState T) (pass : RenderPass T) :
    (ProcessPass env display_rect false fs pass).1.damage_rect = fs.damage_rect ∧
      (ProcessPass env display_rect false fs pass).2.damage_rect
        = (ProcessRenderPass env display_rect false
            { processor := fs.processor
              render_pass := pass
              overlay_damage_rect := fs.overlay_damage_rect
              damage_rect := pass.damage_rect
              dc_layer_overlays := fs.dc_layer_overlays
              histograms := fs.histograms }).damage_rect ∧
      (ProcessPass env display_rect false fs pass).2.id = pass.id ∧
      pass.quad_list.length ≤ (ProcessPass env display_rect false fs pass).2.quad_list.length := by
  obtain ⟨hlen, hid⟩ := ProcessQuads_nonroot_length env display_rect pass.quad_list.length
    { processor := fs.processor
      render_pass := pass
      overlay_damage_rect := fs.overlay_damage_rect
      damage_rect := pass.damage_rect
      dc_layer_overlays := fs.dc_layer_overlays
      this_frame_underlay_rect := {}
      this_frame_underlay_occlusion := {}
      histograms := fs.histograms } 0
  exact ⟨rfl, rfl, hid, hlen⟩

/-- Over `Process`, every pass but the last keeps its id and loses no quad. -/
theorem ProcessPasses_nonroot (env : Collaborators T) [Inhabited T] (display_rect : RectF)
    (passes : List (RenderPass T)) (fs : FrameState T) :
    ∃ processed : List (RenderPass T),
      (ProcessPasses env display_rect passes fs).render_passes = fs.render_passes ++ processed ∧
      processed.length = passes.length ∧
      List.Forall₂ (fun (pass0 pass1 : RenderPass T) =>
        pass1.id = pass0.id ∧ pass0.quad_list.length ≤ pass1.quad_list.length)
        passes.dropLast processed.dropLast := by
  induction passes generalizing fs with
  | nil => exact ⟨[], by unfold ProcessPasses; simp, rfl, List.Forall₂.nil⟩
  | cons pass rest ih =>
    unfold ProcessPasses
    obtain ⟨processed, h1, h2, h3⟩ := ih
      { (ProcessPass env display_rect rest.isEmpty fs pass).1 with
        render_passes := (ProcessPass env display_rect rest.isEmpty fs pass).1.render_passes
          ++ [(ProcessPass env display_rect rest.isEmpty fs pass).2] }
    refine ⟨(ProcessPass env display_rect rest.isEmpty fs pass).2 :: processed, ?_, ?_, ?_⟩
    · simp only []
      rw [h1]
      show (fs.render_passes ++ [_]) ++ processed = _
      simp
    · simp [h2]
    · cases rest with
      | nil =>
        have hnil : processed = [] := List.length_eq_zero.mp h2
        rw [hnil]
        exact List.Forall₂.nil
      | cons pass2 rest2 =>
        cases processed with
        | nil => simp at h2
        | cons p2 ps =>
          show List.Forall₂ _ (pass :: (pass2 :: rest2).dropLast)
            ((ProcessPass env display_rect false fs pass).2 :: (p2 :: ps).dropLast)
          obtain ⟨-, -, hid, hlen⟩ := ProcessPass_nonroot env display_rect fs pass
          exact List.Forall₂.cons ⟨hid, hlen⟩ h3

/-- C30. Only the last pass of the list is processed as the root. On a pass
that is not the root an iteration of the loop of `ProcessRenderPass` removes no
quad: it leaves the quad list alone, or replaces a video quad in place by a
solid-colour quad, or inserts solid-colour quads right after the quad. Over
`Process` every pass but the last keeps its id and loses no quad. In the
iteration of `Process` for a pass that is not the root the damage rectangle of
the frame is left as it was and the pass gets the damage that
`ProcessRenderPass` computed from its own damage rectangle. For a non-empty
list of passes, the damage rectangle of the frame after `Process` is what
`ProcessRenderPass` on the last pass made of the damage rectangle of the frame
handed in. -/
theorem only_last_pass_is_root (env : Collaborators T) [Inhabited T] (display_rect : RectF) :
    (∀ (st : PassState T) (it : Nat), it < st.render_pass.quad_list.length →
      ((ProcessQuad env display_rect false st it).1.render_pass.quad_list
          = st.render_pass.quad_list ∨
        (∃ placeholder : DrawQuad T, placeholder.material = Material.SOLID_COLOR ∧
          (deref st.render_pass.quad_list it).material = Material.YUV_VIDEO_CONTENT ∧
          (ProcessQuad env display_rect false st it).1.render_pass.quad_list
            = st.render_pass.quad_list.set it placeholder) ∨
        (∃ inserted : List (DrawQuad T),
          (∀ q ∈ inserted, q.material = Material.SOLID_COLOR) ∧
          (ProcessQuad env display_rect false st it).1.render_pass.quad_list
            = st.render_pass.quad_list.take (it + 1) ++ inserted ++
              st.render_pass.quad_list.drop (it + 1)))) ∧
      (∀ fs : FrameState T,
        (Process env display_rect fs).render_passes.length = fs.render_passes.length ∧
          List.Forall₂ (fun (pass0 pass1 : RenderPass T) =>
            pass1.id = pass0.id ∧ pass0.quad_list.length ≤ pass1.quad_list.length)
            fs.render_passes.dropLast (Process env display_rect fs).render_passes.dropLast) ∧
      (∀ (fs : FrameState T) (pass : RenderPass T),
        (ProcessPass env display_rect false fs pass).1.damage_rect = fs.damage_rect ∧
          (ProcessPass env display_rect false fs pass).2.damage_rect
            = (ProcessRenderPass env display_rect false
                { processor := fs.processor
                  render_pass := pass
                  overlay_damage_rect := fs.overlay_damage_rect
                  damage_rect := pass.damage_rect
                  dc_layer_overlays := fs.dc_layer_overlays
                  histograms := fs.histograms }).damage_rect) ∧
      (∀ (fs : FrameState T) (hne : fs.render_passes ≠ []),
        ∃ st : PassState T,
          st.render_pass = fs.render_passes.getLast hne ∧
            st.damage_rect = fs.damage_rect ∧
            (Process env display_rect fs).damage_rect
              = (ProcessRenderPass env display_rect true st).damage_rect) := by
  refine ⟨fun st it hit => ProcessQuad_nonroot_list env display_rect st it hit, ?_, ?_, ?_⟩
  · intro fs
    obtain ⟨processed, h1, h2, h3⟩ := ProcessPasses_nonroot env display_rect fs.render_passes
      { fs with
        processor :=
          { fs.processor with
            processed_overlay_in_frame_ := false, pass_punch_through_rects_ := [] }
        render_passes := [] }
    have hrp : (Process env display_rect fs).render_passes = processed := by
      unfold Process
      rw [h1]
      simp
    rw [hrp]
    exact ⟨h2, h3⟩
  · intro fs pass
    obtain ⟨h1, h2, -⟩ := ProcessPass_nonroot env display_rect fs pass
    exact ⟨h1, h2⟩
  · intro fs hne
    obtain ⟨st, h1, h2, -, -, -, -, h7⟩ := ProcessPasses_root_entry env display_rect
      fs.render_passes hne
      { fs with
        processor :=
          { fs.processor with
            processed_overlay_in_frame_ := false, pass_punch_through_rects_ := [] }
        render_passes := [] }
    exact ⟨st, h1, h2, h7⟩

theorem only_last_pass_is_root_witness :
    ((Process (sampleCollaborators true true false) sampleDisplayRect
      { sampleFrame [] with
        render_passes :=
          [{ id := 2, quad_list := [sampleVideoQuad {} ProtectedVideoType.kClear],
             transform_to_root_target := {} },
            { id := 1, quad_list := [sampleRenderPassQuad 2],
              transform_to_root_target := {} }] }).render_passes.map
        fun pass => pass.quad_list.length) = [1, 2] ∧
      (Process (sampleCollaborators true true false) sampleDisplayRect
        { sampleFrame [] with
          render_passes :=
            [{ id := 2, quad_list := [sampleVideoQuad {} ProtectedVideoType.kClear],
               transform_to_root_target := {} },
              { id := 1, quad_list := [sampleRenderPassQuad 2],
                transform_to_root_target := {} }] }).render_passes.length = 2 :=
  ⟨by decide,
    ((only_last_pass_is_root (sampleCollaborators true true false) sampleDisplayRect).2.1
      { sampleFrame [] with
        render_passes :=
          [{ id := 2, quad_list := [sampleVideoQuad {} ProtectedVideoType.kClear],
             transform_to_root_target := {} },
            { id := 1, quad_list := [sampleRenderPassQuad 2],
              transform_to_root_target := {} }] }).1⟩

/-! ### The punch-through map -/

theorem PunchThroughMap.lookup_pushBack_other (m : PunchThroughMap) (id id' : RenderPassId)
    (r : Rect) (hne : id' ≠ id) : (m.pushBack id r).lookup id' = m.lookup id' := by
  induction m with
  | nil =>
    show (if id = id' then [r] else []) = []
    rw [if_neg (fun h => hne h.symm)]
  | cons e m ih =>
    obtain ⟨k, v⟩ := e
    unfold PunchThroughMap.pushBack
    split_ifs with h1 h2
    · show (if k = id' then v ++ [r] else PunchThroughMap.lookup m id') = 
        (if k = id' then v else PunchThroughMap.lookup m id')
      rw [if_neg (fun h => hne (h.symm.trans h1)), if_neg (fun h => hne (h.symm.trans h1))]
    · show (if id = id' then [r] else PunchThroughMap.lookup ((k, v) :: m) id') = _
      rw [if_neg (fun h => hne h.symm)]
    · show (if k = id' then v else PunchThroughMap.lookup (PunchThroughMap.pushBack m id r) id')
        = (if k = id' then v else PunchThroughMap.lookup m id')
      rw [ih]

theorem PunchThroughMap.count_pushBack_other (m : PunchThroughMap) (id id' : RenderPassId)
    (r : Rect) (hne : id' ≠ id) : (m.pushBack id r).count id' = m.count id' := by
  have hb : (id == id') = false := beq_eq_false_iff_ne.mpr (Ne.symm hne)
  induction m with
  | nil =>
    simp [PunchThroughMap.pushBack, PunchThroughMap.count, List.filter, hb]
  | cons e m ih =>
    obtain ⟨k, v⟩ := e
    unfold PunchThroughMap.pushBack
    split_ifs with h1 h2
    · simp only [PunchThroughMap.count, List.filter_cons]
      split_ifs <;> simp
    · simp [PunchThroughMap.count, List.filter_cons, hb]
    · simp only [PunchThroughMap.count, List.filter_cons] at ih ⊢
      split_ifs <;> simp [ih]

theorem PunchThroughMap.count_pushBack_same (m : PunchThroughMap) (id : RenderPassId)
    (r : Rect) : (m.pushBack id r).count id ≠ 0 := by
  induction m with
  | nil => simp [PunchThroughMap.pushBack, PunchThroughMap.count, List.filter]
  | cons e m ih =>
    obtain ⟨k, v⟩ := e
    unfold PunchThroughMap.pushBack
    split_ifs with h1 h2
    · simp [PunchThroughMap.count, List.filter_cons, h1]
    · simp [PunchThroughMap.count, List.filter_cons]
    · simp only [PunchThroughMap.count, List.filter_cons] at ih ⊢
      split_ifs <;> simp [ih]

theorem PunchThroughMap.lookup_of_absent (m : PunchThroughMap) (id : RenderPassId)
    (h : ∀ e ∈ m, e.1 ≠ id) : m.lookup id = [] := by
  induction m with
  | nil => rfl
  | cons e m ih =>
    obtain ⟨k, v⟩ := e
    show (if k = id then v else PunchThroughMap.lookup m id) = []
    rw [if_neg (h (k, v) (List.mem_cons_self _ _))]
    exact ih (fun e he => h e (List.mem_cons_of_mem _ he))

theorem PunchThroughMap.lookup_pushBack_same (m : PunchThroughMap) (id : RenderPassId)
    (r : Rect) (hs : m.Sorted) : (m.pushBack id r).lookup id = m.lookup id ++ [r] := by
  induction m with
  | nil =>
    show (if id = id then [r] else []) = [] ++ [r]
    rw [if_pos rfl]
    rfl
  | cons e m ih =>
    obtain ⟨k, v⟩ := e
    have hs2 : PunchThroughMap.Sorted m := (List.pairwise_cons.mp hs).2
    have hk : ∀ e ∈ m, k < e.1 := by
      intro e he
      exact (List.pairwise_cons.mp hs).1 e.1 (List.mem_map_of_mem Prod.fst he)
    unfold PunchThroughMap.pushBack
    split_ifs with h1 h2
    · show (if k = id then v ++ [r] else _) = (if k = id then v else _) ++ [r]
      rw [if_pos h1, if_pos h1]
    · show (if id = id then [r] else _) = (if k = id then v else PunchThroughMap.lookup m id) ++ [r]
      rw [if_pos rfl, if_neg h1, PunchThroughMap.lookup_of_absent m id]
      · rfl
      · intro e he heq
        have hlt := hk e he
        rw [heq] at hlt
        exact Nat.lt_asymm h2 hlt
    · show (if k = id then v else PunchThroughMap.lookup (PunchThroughMap.pushBack m id r) id)
        = (if k = id then v else PunchThroughMap.lookup m id) ++ [r]
      rw [if_neg h1, if_neg h1]
      exact ih hs2

theorem PunchThroughMap.keys_pushBack (m : PunchThroughMap) (id : RenderPassId) (r : Rect) :
    ∀ key ∈ (m.pushBack id r).map Prod.fst, key = id ∨ key ∈ m.map Prod.fst := by
  induction m with
  | nil =>
    intro key hkey
    simp [PunchThroughMap.pushBack] at hkey
    exact Or.inl hkey
  | cons e m ih =>
    obtain ⟨k, v⟩ := e
    intro key hkey
    unfold PunchThroughMap.pushBack at hkey
    split_ifs at hkey with h1 h2
    · right
      simpa using hkey
    · simp only [List.map_cons, List.mem_cons] at hkey ⊢
      rcases hkey with h | h | h
      · exact Or.inl h
      · exact Or.inr (Or.inl h)
      · exact Or.inr (Or.inr h)
    · simp only [List.map_cons, List.mem_cons] at hkey ⊢
      rcases hkey with h | h
      · exact Or.inr (Or.inl h)
      · rcases ih key h with h3 | h3
        · exact Or.inl h3
        · exact Or.inr (Or.inr h3)

theorem PunchThroughMap.Sorted_pushBack (m : PunchThroughMap) (id : RenderPassId) (r : Rect)
    (hs : m.Sorted) : (m.pushBack id r).Sorted := by
  induction m with
  | nil => simp [PunchThroughMap.pushBack, PunchThroughMap.Sorted]
  | cons e m ih =>
    obtain ⟨k, v⟩ := e
    have hs2 : PunchThroughMap.Sorted m := (List.pairwise_cons.mp hs).2
    have hk : ∀ key ∈ m.map Prod.fst, k < key := (List.pairwise_cons.mp hs).1
    unfold PunchThroughMap.pushBack
    split_ifs with h1 h2
    · exact hs
    · unfold PunchThroughMap.Sorted
      rw [List.map_cons]
      apply List.pairwise_cons.mpr
      refine ⟨?_, hs⟩
      intro key hkey
      simp only [List.map_cons, List.mem_cons] at hkey
      rcases hkey with h | h
      · rw [h]
        exact h2
      · exact Nat.lt_trans h2 (hk key h)
    · unfold PunchThroughMap.Sorted
      rw [List.map_cons]
      apply List.pairwise_cons.mpr
      refine ⟨?_, ih hs2⟩
      intro key hkey
      rcases PunchThroughMap.keys_pushBack m id r key hkey with h | h
      · rw [h]
        exact Nat.lt_of_le_of_ne (Nat.le_of_not_lt h2) h1
      · exact hk key h

theorem PunchThroughMap.foldl_pushBack (rs : List Rect) (m : PunchThroughMap)
    (id : RenderPassId) (hs : m.Sorted) :
    (rs.foldl (fun acc r => PunchThroughMap.pushBack acc id r) m).lookup id
        = m.lookup id ++ rs ∧
      (∀ id' : RenderPassId, id' ≠ id →
        (rs.foldl (fun acc r => PunchThroughMap.pushBack acc id r) m).lookup id'
            = m.lookup id' ∧
          (rs.foldl (fun acc r => PunchThroughMap.pushBack acc id r) m).count id'
            = m.count id') ∧
      (rs.foldl (fun acc r => PunchThroughMap.pushBack acc id r) m).Sorted := by
  induction rs generalizing m with
  | nil => exact ⟨by simp, fun id' _ => ⟨rfl, rfl⟩, hs⟩
  | cons r rest ih =>
    obtain ⟨h1, h2, h3⟩ := ih (PunchThroughMap.pushBack m id r)
      (PunchThroughMap.Sorted_pushBack m id r hs)
    rw [List.foldl_cons]
    refine ⟨?_, ?_, h3⟩
    · rw [h1, PunchThroughMap.lookup_pushBack_same m id r hs]
      simp
    · intro id' hne
      obtain ⟨l1, c1⟩ := h2 id' hne
      exact ⟨l1.trans (PunchThroughMap.lookup_pushBack_other m id id' r hne),
        c1.trans (PunchThroughMap.count_pushBack_other m id id' r hne)⟩

/-- The damage rectangle and the punch-through map after the loop of
`ProcessRenderPassDrawQuad`: the clipped bounds of the placeholders are united
into the damage rectangle and pushed to the entry of the pass, one by one and
in order. -/
theorem PunchThroughLoop_effects (env : Collaborators T) [Inhabited T]
    (render_pass_id : RenderPassId) (original_shared_quad_state : SharedQuadState T)
    (rects : List Rect) (s : PunchState T) :
    (PunchThroughLoop env render_pass_id original_shared_quad_state rects s).damage_rect
        = (rects.map (PlaceholderBounds env original_shared_quad_state)).foldl Rect.Union
          s.damage_rect ∧
      (PunchThroughLoop env render_pass_id original_shared_quad_state rects
          s).pass_punch_through_rects_
        = (rects.map (PlaceholderBounds env original_shared_quad_state)).foldl
          (fun acc r => PunchThroughMap.pushBack acc render_pass_id r)
          s.pass_punch_through_rects_ := by
  induction rects generalizing s with
  | nil => exact ⟨rfl, rfl⟩
  | cons r rest ih =>
    simp only [PunchThroughLoop, List.map_cons, List.foldl_cons]
    exact ih _

/-- C23. When `ProcessRenderPassDrawQuad` meets a render-pass quad that does not
refer to its own pass `P` and the map holds `n` rectangles for the pass it
refers to, it inserts `n` placeholders, and afterwards: the damage rectangle is
the incoming one united, in order, with the clipped bounds of each placeholder
(`PlaceholderBounds`: the enclosing rectangle of the placeholder rect mapped by
the transform of the copied shared state and intersected with its clip); the
entry of the map for the id of `P` is the former entry followed by those `n`
clipped bounds in the same order; the entries for all other ids are as they
were; and the keys of the map are still strictly increasing. -/
theorem punch_through_damage_and_map (env : Collaborators T) [Inhabited T]
    (st : PassState T) (it : Nat)
    (hne : (deref st.render_pass.quad_list it).render_pass_id ≠ st.render_pass.id)
    (hcount : st.processor.pass_punch_through_rects_.count
      (deref st.render_pass.quad_list it).render_pass_id ≠ 0)
    (hsorted : st.processor.pass_punch_through_rects_.Sorted) :
    let rects := st.processor.pass_punch_through_rects_.lookup
      (deref st.render_pass.quad_list it).render_pass_id
    let bounds := rects.map
      (PlaceholderBounds env (deref st.render_pass.quad_list it).shared_quad_state)
    let step := (ProcessRenderPassDrawQuad env st it).1
    step.render_pass.quad_list.length = st.render_pass.quad_list.length + rects.length ∧
      bounds.length = rects.length ∧
      step.damage_rect = bounds.foldl Rect.Union st.damage_rect ∧
      step.processor.pass_punch_through_rects_.lookup st.render_pass.id
        = st.processor.pass_punch_through_rects_.lookup st.render_pass.id ++ bounds ∧
      (∀ id : RenderPassId, id ≠ st.render_pass.id →
        step.processor.pass_punch_through_rects_.lookup id
            = st.processor.pass_punch_through_rects_.lookup id ∧
          step.processor.pass_punch_through_rects_.count id
            = st.processor.pass_punch_through_rects_.count id) ∧
      step.processor.pass_punch_through_rects_.Sorted := by
  intro rects bounds step
  have hstep : step =
      { st with
        render_pass :=
          { st.render_pass with
            quad_list := (PunchThroughLoop env st.render_pass.id
              (deref st.render_pass.quad_list it).shared_quad_state rects
              { quad_list :=
                  InsertBeforeAndInvalidateAllPointers st.render_pass.quad_list (it + 1)
                    rects.length
                it := it + 1
                damage_rect := st.damage_rect
                pass_punch_through_rects_ := st.processor.pass_punch_through_rects_ }).quad_list }
        damage_rect := (PunchThroughLoop env st.render_pass.id
          (deref st.render_pass.quad_list it).shared_quad_state rects
          { quad_list :=
              InsertBeforeAndInvalidateAllPointers st.render_pass.quad_list (it + 1)
                rects.length
            it := it + 1
            damage_rect := st.damage_rect
            pass_punch_through_rects_ := st.processor.pass_punch_through_rects_ }).damage_rect
        processor :=
          { st.processor with
            pass_punch_through_rects_ := (PunchThroughLoop env st.render_pass.id
              (deref st.render_pass.quad_list it).shared_quad_state rects
              { quad_list :=
                  InsertBeforeAndInvalidateAllPointers st.render_pass.quad_list (it + 1)
                    rects.length
                it := it + 1
                damage_rect := st.damage_rect
                pass_punch_through_rects_ :=
                  st.processor.pass_punch_through_rects_ }).pass_punch_through_rects_ } } := by
    show (ProcessRenderPassDrawQuad env st it).1 = _
    unfold ProcessRenderPassDrawQuad
    simp only [hne, hcount, if_false]
  obtain ⟨hdamage, hmap⟩ := PunchThroughLoop_effects env st.render_pass.id
    (deref st.render_pass.quad_list it).shared_quad_state rects
    { quad_list :=
        InsertBeforeAndInvalidateAllPointers st.render_pass.quad_list (it + 1) rects.length
      it := it + 1
      damage_rect := st.damage_rect
      pass_punch_through_rects_ := st.processor.pass_punch_through_rects_ }
  obtain ⟨hlen, -⟩ := PunchThroughLoop_length_it env st.render_pass.id
    (deref st.render_pass.quad_list it).shared_quad_state rects
    { quad_list :=
        InsertBeforeAndInvalidateAllPointers st.render_pass.quad_list (it + 1) rects.length
      it := it + 1
      damage_rect := st.damage_rect
      pass_punch_through_rects_ := st.processor.pass_punch_through_rects_ }
  obtain ⟨f1, f2, f3⟩ := PunchThroughMap.foldl_pushBack bounds
    st.processor.pass_punch_through_rects_ st.render_pass.id hsorted
  rw [hstep]
  simp only []
  rw [hdamage, hmap, hlen, InsertBeforeAndInvalidateAllPointers_length]
  exact ⟨rfl, List.length_map _ _, rfl, f1, f2, f3⟩

theorem punch_through_damage_and_map_witness :
    (ProcessRenderPassDrawQuad (sampleCollaborators true true false)
      { samplePassState [sampleRenderPassQuad 2] with
        processor :=
          { pass_punch_through_rects_ := [(2, [{ width := 100, height := 100 }])] } }
      0).1.processor.pass_punch_through_rects_.lookup 1
      = [PlaceholderBounds (sampleCollaborators true true false)
          (sampleRenderPassQuad 2).shared_quad_state { width := 100, height := 100 }] :=
  (punch_through_damage_and_map (sampleCollaborators true true false)
    { samplePassState [sampleRenderPassQuad 2] with
      processor :=
        { pass_punch_through_rects_ := [(2, [{ width := 100, height := 100 }])] } }
    0 (by decide) (by decide) (by simp [PunchThroughMap.Sorted])).2.2.2.1

/-! ### The punch-through entry of an accepted underlay -/

theorem ProcessForUnderlay_map (env : Collaborators T) [Inhabited T] (display_rect : RectF)
    (quad_rectangle : Rect) (occlusion_bounding_box : RectF) (it : Nat) (is_root : Bool)
    (st : PassState T) (dc_layer : DCLayerOverlay T)
    (h : ProcessForUnderlayRejection env st it is_root dc_layer = none) :
    (ProcessForUnderlay env display_rect quad_rectangle occlusion_bounding_box it is_root st
        dc_layer).2.1.processor.pass_punch_through_rects_
      = st.processor.pass_punch_through_rects_.pushBack st.render_pass.id
        (ToEnclosingRect
          (ClippedQuadRectangle env
            (deref (ProcessForUnderlayReplace env st.render_pass.quad_list it).1 it))) := by
  unfold ProcessForUnderlay
  rw [h]

theorem ProcessForOverlay_processor (env : Collaborators T) [Inhabited T] (display_rect : RectF)
    (quad_rectangle : Rect) (occlusion_bounding_box : RectF) (st : PassState T) (it : Nat) :
    (ProcessForOverlay env display_rect quad_rectangle occlusion_bounding_box st
      it).2.1.processor = st.processor := by
  unfold ProcessForOverlay
  split_ifs <;> rfl

/-- C24, as the code has it. When `ProcessForUnderlay` accepts a quad of the
pass `P`, exactly one rectangle is appended to the entry of the punch-through
map for the id of `P`, and the other entries are as they were. The rectangle is
the enclosing rectangle of `ClippedQuadRectangle` of the placeholder that
replaced the quad: the rect of the placeholder mapped by its own quad-to-target
transform and cut by its clip, in the target space of `P`; the transform of
`P` to the root target plays no part in it. `ProcessForOverlay` leaves the map
as it was, and so does the bookkeeping of a promotion. -/
theorem underlay_punch_through_entry (env : Collaborators T) [Inhabited T]
    (display_rect : RectF) (quad_rectangle : Rect) (occlusion_bounding_box : RectF) (it : Nat)
    (is_root : Bool) (st : PassState T) (dc_layer : DCLayerOverlay T)
    (hacc : (ProcessForUnderlay env display_rect quad_rectangle occlusion_bounding_box it
      is_root st dc_layer).1 = true)
    (hsorted : st.processor.pass_punch_through_rects_.Sorted) :
    let placeholder := deref (ProcessForUnderlayReplace env st.render_pass.quad_list it).1 it
    let entry := ToEnclosingRect (ClippedQuadRectangle env placeholder)
    let underlay := (ProcessForUnderlay env display_rect quad_rectangle
      occlusion_bounding_box it is_root st dc_layer).2.1
    underlay.processor.pass_punch_through_rects_.lookup st.render_pass.id
        = st.processor.pass_punch_through_rects_.lookup st.render_pass.id ++ [entry] ∧
      (∀ id : RenderPassId, id ≠ st.render_pass.id →
        underlay.processor.pass_punch_through_rects_.lookup id
            = st.processor.pass_punch_through_rects_.lookup id ∧
          underlay.processor.pass_punch_through_rects_.count id
            = st.processor.pass_punch_through_rects_.count id) ∧
      underlay.processor.pass_punch_through_rects_.Sorted ∧
      underlay.render_pass.quad_list = (ProcessForUnderlayReplace env
        st.render_pass.quad_list it).1 ∧
      ClippedQuadRectangle env placeholder
        = (if placeholder.shared_quad_state.is_clipped then
            (env.MapClippedRect placeholder.shared_quad_state.quad_to_target_transform
              (RectF.ofRect placeholder.rect)).Intersect
              (RectF.ofRect placeholder.shared_quad_state.clip_rect)
          else
            env.MapClippedRect placeholder.shared_quad_state.quad_to_target_transform
              (RectF.ofRect placeholder.rect)) ∧
      (RecordPromotion env quad_rectangle underlay
          { dc_layer with z_order := -1 }).processor.pass_punch_through_rects_
        = underlay.processor.pass_punch_through_rects_ ∧
      (ProcessForOverlay env display_rect quad_rectangle occlusion_bounding_box st
          it).2.1.processor.pass_punch_through_rects_
        = st.processor.pass_punch_through_rects_ := by
  intro placeholder entry underlay
  have hnone := ProcessForUnderlay_none_of_accepted env display_rect quad_rectangle
    occlusion_bounding_box it is_root st dc_layer hacc
  have hmap : underlay.processor.pass_punch_through_rects_
      = st.processor.pass_punch_through_rects_.pushBack st.render_pass.id entry :=
    ProcessForUnderlay_map env display_rect quad_rectangle occlusion_bounding_box it is_root st
      dc_layer hnone
  obtain ⟨-, -, hql, -⟩ := ProcessForUnderlay_accepted env display_rect quad_rectangle
    occlusion_bounding_box it is_root st dc_layer hnone
  refine ⟨?_, ?_, ?_, hql, rfl, rfl, ?_⟩
  · rw [hmap]
    exact PunchThroughMap.lookup_pushBack_same _ _ _ hsorted
  · intro id hid
    rw [hmap]
    exact ⟨PunchThroughMap.lookup_pushBack_other _ _ _ _ hid,
      PunchThroughMap.count_pushBack_other _ _ _ _ hid⟩
  · rw [hmap]
    exact PunchThroughMap.Sorted_pushBack _ _ _ hsorted
  · rw [ProcessForOverlay_processor]

theorem underlay_punch_through_entry_witness :
    ((ProcessForUnderlay (sampleCollaborators true true false) sampleDisplayRect
      { width := 100, height := 100 } {} 0 false
      (samplePassState [sampleVideoQuad {} ProtectedVideoType.kClear])
      (FromYUVQuad (sampleCollaborators true true false)
        (sampleVideoQuad {} ProtectedVideoType.kClear)
        {})).2.1.processor.pass_punch_through_rects_.lookup 1).length = 1 :=
  congrArg List.length
    (underlay_punch_through_entry (sampleCollaborators true true false) sampleDisplayRect
      { width := 100, height := 100 } {} 0 false
      (samplePassState [sampleVideoQuad {} ProtectedVideoType.kClear])
      (FromYUVQuad (sampleCollaborators true true false)
        (sampleVideoQuad {} ProtectedVideoType.kClear) {})
      (by decide) (by simp [PunchThroughMap.Sorted, samplePassState])).1

/-- The placeholder that replaces the video quad of the scenarios, and its
clipped bounds: 100 by 100 at the origin. -/
theorem sampleVideoQuad_placeholder (underlays nonroot complex : Bool) :
    (deref (ProcessForUnderlayReplace (sampleCollaborators underlays nonroot complex)
        [sampleVideoQuad {} ProtectedVideoType.kClear] 0).1 0).rect
        = { width := 100, height := 100 } ∧
      ToEnclosingRect (ClippedQuadRectangle (sampleCollaborators underlays nonroot complex)
        (deref (ProcessForUnderlayReplace (sampleCollaborators underlays nonroot complex)
          [sampleVideoQuad {} ProtectedVideoType.kClear] 0).1 0))
        = { width := 100, height := 100 } := by
  have hq : deref (ProcessForUnderlayReplace (sampleCollaborators underlays nonroot complex)
      [sampleVideoQuad {} ProtectedVideoType.kClear] 0).1 0
      = (default : DrawQuad Affine2d).SetAll
          (sampleVideoQuad {} ProtectedVideoType.kClear).shared_quad_state
          { width := 100, height := 100 } { width := 100, height := 100 } false
          SK_ColorTRANSPARENT true := by
    cases underlays <;> cases nonroot <;> cases complex <;> decide
  rw [hq]
  refine ⟨rfl, ?_⟩
  simp [ToEnclosingRect, ClippedQuadRectangle, sampleCollaborators, sampleVideoQuad,
    DrawQuad.SetAll, Affine2d.TransformRect, RectF.ofRect, RectF.right, RectF.bottom]

/-- C24, against the claim as stated. A pass with id 1 whose transform to the
root target is the translation by (10, 0) holds the video quad of the
scenarios, 100 by 100 at the origin under the identity. `ProcessForUnderlay`
accepts the quad; the placeholder has rect 100 by 100 at the origin; the
rectangle appended to the entry of the map for id 1 is 100 by 100 at the
origin, while that rect mapped by the transform of the pass to the root target
is 100 by 100 at (10, 0). -/
theorem underlay_entry_in_pass_space :
    (ProcessForUnderlay (sampleCollaborators true true false) sampleDisplayRect
        { width := 100, height := 100 } {} 0 false
        { samplePassState [] with
          render_pass :=
            { id := 1, quad_list := [sampleVideoQuad {} ProtectedVideoType.kClear],
              transform_to_root_target := Affine2d.translate 10 0 } }
        (FromYUVQuad (sampleCollaborators true true false)
          (sampleVideoQuad {} ProtectedVideoType.kClear) (Affine2d.translate 10 0))).1 = true ∧
      (deref (ProcessForUnderlay (sampleCollaborators true true false) sampleDisplayRect
        { width := 100, height := 100 } {} 0 false
        { samplePassState [] with
          render_pass :=
            { id := 1, quad_list := [sampleVideoQuad {} ProtectedVideoType.kClear],
              transform_to_root_target := Affine2d.translate 10 0 } }
        (FromYUVQuad (sampleCollaborators true true false)
          (sampleVideoQuad {} ProtectedVideoType.kClear)
          (Affine2d.translate 10 0))).2.1.render_pass.quad_list 0).rect
        = { width := 100, height := 100 } ∧
      (ProcessForUnderlay (sampleCollaborators true true false) sampleDisplayRect
        { width := 100, height := 100 } {} 0 false
        { samplePassState [] with
          render_pass :=
            { id := 1, quad_list := [sampleVideoQuad {} ProtectedVideoType.kClear],
              transform_to_root_target := Affine2d.translate 10 0 } }
        (FromYUVQuad (sampleCollaborators true true false)
          (sampleVideoQuad {} ProtectedVideoType.kClear)
          (Affine2d.translate 10 0))).2.1.processor.pass_punch_through_rects_
        = [(1, [{ width := 100, height := 100 }])] ∧
      (sampleCollaborators true true false).MapEnclosingClippedRect (Affine2d.translate 10 0)
          { width := 100, height := 100 }
        = { x := 10, width := 100, height := 100 } ∧
      ({ width := 100, height := 100 } : Rect) ≠ { x := 10, width := 100, height := 100 } := by
  obtain ⟨hrect, hbounds⟩ := sampleVideoQuad_placeholder true true false
  refine ⟨by decide, ?_, ?_, ?_, by decide⟩
  · obtain ⟨-, -, hql, -⟩ := ProcessForUnderlay_accepted (sampleCollaborators true true false)
      sampleDisplayRect { width := 100, height := 100 } {} 0 false
      { samplePassState [] with
        render_pass :=
          { id := 1, quad_list := [sampleVideoQuad {} ProtectedVideoType.kClear],
            transform_to_root_target := Affine2d.translate 10 0 } }
      (FromYUVQuad (sampleCollaborators true true false)
        (sampleVideoQuad {} ProtectedVideoType.kClear) (Affine2d.translate 10 0))
      (by decide)
    rw [hql]
    exact hrect
  · rw [ProcessForUnderlay_map (sampleCollaborators true true false) sampleDisplayRect
      { width := 100, height := 100 } {} 0 false _ _ (by decide)]
    show PunchThroughMap.pushBack [] 1
      (ToEnclosingRect (ClippedQuadRectangle (sampleCollaborators true true false)
        (deref (ProcessForUnderlayReplace (sampleCollaborators true true false)
          [sampleVideoQuad {} ProtectedVideoType.kClear] 0).1 0))) = _
    rw [hbounds]
    rfl
  · simp [sampleCollaborators, ToEnclosingRect, Affine2d.TransformRect, Affine2d.translate,
      RectF.ofRect, RectF.right, RectF.bottom]

/-! ### The black placeholder of a translucent underlay -/

/-- C27. In the branch of `ProcessForUnderlay` that replaces a quad drawn with
blending in the normal blend mode, `SetAll` is handed `it->needs_blending` read
after `ReplaceExistingElement` has put a freshly constructed quad at `it`: the
black destination-out placeholder gets the flag of the fresh quad, false,
whatever the flag of the video quad was; its rect and visible rect are the
visible rect of the video quad. Here a pass with id 2 below the root holds one
opaque video quad flagged `needs_blending`, with rect 100 by 100 and visible
rect 60 by 60, and non-root overlays and underlays are enabled: after `Process`
the quad is the black destination-out placeholder with rect and visible rect
60 by 60 and with `needs_blending` false. -/
theorem black_placeholder_needs_blending :
    ({ sampleVideoQuad {} ProtectedVideoType.kClear with
        needs_blending := true
        visible_rect := { width := 60, height := 60 } } : DrawQuad Affine2d).needs_blending
        = true ∧
      (((Process (sampleCollaborators true true false) sampleDisplayRect
        { sampleFrame [] with
          render_passes :=
            [{ id := 2
               quad_list :=
                 [{ sampleVideoQuad {} ProtectedVideoType.kClear with
                    needs_blending := true
                    visible_rect := { width := 60, height := 60 } }]
               transform_to_root_target := {} },
              { id := 1, quad_list := [sampleRenderPassQuad 2],
                transform_to_root_target := {} }] }).render_passes.take 1).map
        fun pass => pass.quad_list.map fun quad => quad.material)
        = [[Material.SOLID_COLOR]] ∧
      (((Process (sampleCollaborators true true false) sampleDisplayRect
        { sampleFrame [] with
          render_passes :=
            [{ id := 2
               quad_list :=
                 [{ sampleVideoQuad {} ProtectedVideoType.kClear with
                    needs_blending := true
                    visible_rect := { width := 60, height := 60 } }]
               transform_to_root_target := {} },
              { id := 1, quad_list := [sampleRenderPassQuad 2],
                transform_to_root_target := {} }] }).render_passes.take 1).map
        fun pass => pass.quad_list.map fun quad => quad.color)
        = [[SK_ColorBLACK]] ∧
      (((Process (sampleCollaborators true true false) sampleDisplayRect
        { sampleFrame [] with
          render_passes :=
            [{ id := 2
               quad_list :=
                 [{ sampleVideoQuad {} ProtectedVideoType.kClear with
                    needs_blending := true
                    visible_rect := { width := 60, height := 60 } }]
               transform_to_root_target := {} },
              { id := 1, quad_list := [sampleRenderPassQuad 2],
                transform_to_root_target := {} }] }).render_passes.take 1).map
        fun pass => pass.quad_list.map fun quad => quad.shared_quad_state.blend_mode)
        = [[SkBlendMode.kDstOut]] ∧
      (((Process (sampleCollaborators true true false) sampleDisplayRect
        { sampleFrame [] with
          render_passes :=
            [{ id := 2
               quad_list :=
                 [{ sampleVideoQuad {} ProtectedVideoType.kClear with
                    needs_blending := true
                    visible_rect := { width := 60, height := 60 } }]
               transform_to_root_target := {} },
              { id := 1, quad_list := [sampleRenderPassQuad 2],
                transform_to_root_target := {} }] }).render_passes.take 1).map
        fun pass => pass.quad_list.map fun quad => quad.rect)
        = [[{ width := 60, height := 60 }]] ∧
      (((Process (sampleCollaborators true true false) sampleDisplayRect
        { sampleFrame [] with
          render_passes :=
            [{ id := 2
               quad_list :=
                 [{ sampleVideoQuad {} ProtectedVideoType.kClear with
                    needs_blending := true
                    visible_rect := { width := 60, height := 60 } }]
               transform_to_root_target := {} },
              { id := 1, quad_list := [sampleRenderPassQuad 2],
                transform_to_root_target := {} }] }).render_passes.take 1).map
        fun pass => pass.quad_list.map fun quad => quad.visible_rect)
        = [[{ width := 60, height := 60 }]] ∧
      (((Process (sampleCollaborators true true false) sampleDisplayRect
        { sampleFrame [] with
          render_passes :=
            [{ id := 2
               quad_list :=
                 [{ sampleVideoQuad {} ProtectedVideoType.kClear with
                    needs_blending := true
                    visible_rect := { width := 60, height := 60 } }]
               transform_to_root_target := {} },
              { id := 1, quad_list := [sampleRenderPassQuad 2],
                transform_to_root_target := {} }] }).render_passes.take 1).map
        fun pass => pass.quad_list.map fun quad => quad.needs_blending)
        = [[false]] ∧
      (Process (sampleCollaborators true true false) sampleDisplayRect
        { sampleFrame [] with
          render_passes :=
            [{ id := 2
               quad_list :=
                 [{ sampleVideoQuad {} ProtectedVideoType.kClear with
                    needs_blending := true
                    visible_rect := { width := 60, height := 60 } }]
               transform_to_root_target := {} },
              { id := 1, quad_list := [sampleRenderPassQuad 2],
                transform_to_root_target := {} }] }).histograms
        = [(ProtectedVideoType.kClear, DCLayerResult.DC_LAYER_SUCCESS)] := by
  refine ⟨rfl, by decide, by decide, by decide, by decide, by decide, by decide, by decide⟩

/-! ### The punch-through map when non-root overlays are disabled -/

/-- On a pass that is not the root, with non-root overlays disabled, an empty
punch-through map and no video quad whose candidate requires an overlay, an
iteration of the loop of `ProcessRenderPass` records at most one sample, never
a success, and changes nothing else. -/
theorem ProcessQuad_nonroot_disabled (env : Collaborators T) [Inhabited T]
    (display_rect : RectF) (st : PassState T) (it : Nat)
    (hflag : env.kDirectCompositionNonrootOverlays = false)
    (hmap : st.processor.pass_punch_through_rects_ = [])
    (hreq : ∀ q ∈ st.render_pass.quad_list, q.material = Material.YUV_VIDEO_CONTENT →
      env.RequiresOverlay (FromYUVQuad env q st.render_pass.transform_to_root_target) = false) :
    ∃ samples : List (ProtectedVideoType × DCLayerResult),
      (∀ sample ∈ samples, sample.2 ≠ DCLayerResult.DC_LAYER_SUCCESS) ∧
      (ProcessQuad env display_rect false st it).1
        = { st with histograms := st.histograms ++ samples } := by
  by_cases hmat : (deref st.render_pass.quad_list it).material = Material.RENDER_PASS
  · rw [ProcessQuad_render_pass env display_rect false st it hmat]
    refine ⟨[], by simp, ?_⟩
    have hkey : ProcessRenderPassDrawQuad env st it = (st, it + 1) := by
      unfold ProcessRenderPassDrawQuad
      simp only [hmap]
      split_ifs with h1 h2
      · rfl
      · rfl
      · exact absurd rfl h2
    rw [hkey]
    simp
  · rcases ProcessQuad_cases env display_rect false st it hmat with
      ⟨result, pvt, hne, heq⟩ | ⟨-, hatt, -, -⟩ | ⟨hvideo, hnone, -⟩
    · refine ⟨[(pvt, result)], ?_, ?_⟩
      · intro sample hs
        rw [List.mem_singleton.mp hs]
        exact hne
      · rw [heq]
        rfl
    · simp at hatt
    · exfalso
      have hin : deref st.render_pass.quad_list it ∈ st.render_pass.quad_list :=
        deref_mem _ _ (by rw [hvideo]; decide)
      have hr := hreq _ hin hvideo
      unfold ProcessForUnderlayRejection at hnone
      simp only [hr, hflag, Bool.not_false, Bool.and_self, if_true] at hnone
      split_ifs at hnone

theorem ProcessQuads_nonroot_disabled (env : Collaborators T) [Inhabited T]
    (display_rect : RectF) (fuel : Nat) (st : PassState T) (it : Nat)
    (hflag : env.kDirectCompositionNonrootOverlays = false)
    (hmap : st.processor.pass_punch_through_rects_ = [])
    (hreq : ∀ q ∈ st.render_pass.quad_list, q.material = Material.YUV_VIDEO_CONTENT →
      env.RequiresOverlay (FromYUVQuad env q st.render_pass.transform_to_root_target) = false) :
    ∃ samples : List (ProtectedVideoType × DCLayerResult),
      (∀ sample ∈ samples, sample.2 ≠ DCLayerResult.DC_LAYER_SUCCESS) ∧
      (ProcessQuads env display_rect false fuel st it).1
        = { st with histograms := st.histograms ++ samples } := by
  induction fuel generalizing st it with
  | zero => exact ⟨[], by simp, by unfold ProcessQuads; simp⟩
  | succ fuel ih =>
    by_cases hlt : it < st.render_pass.quad_list.length
    · rw [ProcessQuads_succ env display_rect false fuel st it hlt]
      obtain ⟨s1, hs1, heq1⟩ := ProcessQuad_nonroot_disabled env display_rect st it hflag hmap
        hreq
      obtain ⟨s2, hs2, heq2⟩ := ih (ProcessQuad env display_rect false st it).1
        (ProcessQuad env display_rect false st it).2 (by rw [heq1]; exact hmap)
        (by rw [heq1]; exact hreq)
      refine ⟨s1 ++ s2, ?_, ?_⟩
      · intro sample hs
        rcases List.mem_append.mp hs with h | h
        · exact hs1 sample h
        · exact hs2 sample h
      · rw [heq2, heq1]
        simp
    · rw [ProcessQuads_at_end env display_rect false (fuel + 1) st it hlt]
      exact ⟨[], by simp, by simp⟩

theorem ProcessPass_nonroot_disabled (env : Collaborators T) [Inhabited T]
    (display_rect : RectF) (fs : FrameState T) (pass : RenderPass T)
    (hflag : env.kDirectCompositionNonrootOverlays = false)
    (hmap : fs.processor.pass_punch_through_rects_ = [])
    (hreq : ∀ q ∈ pass.quad_list, q.material = Material.YUV_VIDEO_CONTENT →
      env.RequiresOverlay (FromYUVQuad env q pass.transform_to_root_target) = false) :
    (ProcessPass env display_rect false fs pass).2 = pass ∧
      (ProcessPass env display_rect false fs pass).1.render_passes = fs.render_passes ∧
      (ProcessPass env display_rect false fs pass).1.processor = fs.processor ∧
      (ProcessPass env display_rect false fs pass).1.damage_rect = fs.damage_rect := by
  obtain ⟨samples, -, heq⟩ := ProcessQuads_nonroot_disabled env display_rect
    pass.quad_list.length
    { processor := fs.processor
      render_pass := pass
      overlay_damage_rect := fs.overlay_damage_rect
      damage_rect := pass.damage_rect
      dc_layer_overlays := fs.dc_layer_overlays
      this_frame_underlay_rect := {}
      this_frame_underlay_occlusion := {}
      histograms := fs.histograms } 0 hflag hmap hreq
  unfold ProcessPass ProcessRenderPass
  simp only [Bool.false_eq_true, if_false]
  rw [heq]
  refine ⟨?_, ?_, ?_, ?_⟩ <;> first | rfl | trivial

theorem ProcessPasses_nonroot_disabled (env : Collaborators T) [Inhabited T]
    (display_rect : RectF) (passes : List (RenderPass T)) (hne : passes ≠ [])
    (fs : FrameState T)
    (hflag : env.kDirectCompositionNonrootOverlays = false)
    (hmap : fs.processor.pass_punch_through_rects_ = [])
    (hreq : ∀ pass ∈ passes.dropLast, ∀ q ∈ pass.quad_list,
      q.material = Material.YUV_VIDEO_CONTENT →
      env.RequiresOverlay (FromYUVQuad env q pass.transform_to_root_target) = false) :
    ∃ st : PassState T,
      st.render_pass = passes.getLast hne ∧
        st.processor = fs.processor ∧
        (ProcessPasses env display_rect passes fs).processor
          = (ProcessRenderPass env display_rect true st).processor ∧
        (ProcessPasses env display_rect passes fs).render_passes
          = fs.render_passes ++ passes.dropLast ++
            [(ProcessRenderPass env display_rect true st).render_pass] := by
  induction passes generalizing fs with
  | nil => exact absurd rfl hne
  | cons pass rest ih =>
    cases rest with
    | nil =>
      refine ⟨{ processor := fs.processor
                render_pass := pass
                overlay_damage_rect := fs.overlay_damage_rect
                damage_rect := fs.damage_rect
                dc_layer_overlays := fs.dc_layer_overlays
                histograms := fs.histograms }, rfl, rfl, ?_, ?_⟩
      · simp only [List.isEmpty_nil, ProcessPasses, ProcessPass, if_true]
      · simp only [List.isEmpty_nil, ProcessPasses, ProcessPass, if_true, List.dropLast_single,
          List.append_nil]
    | cons pass2 rest2 =>
      obtain ⟨p1, p2, p3, -⟩ := ProcessPass_nonroot_disabled env display_rect fs pass hflag hmap
        (hreq pass (List.mem_cons_self _ _))
      obtain ⟨st, h1, h2, h3, h4⟩ := ih (by simp)
        { (ProcessPass env display_rect false fs pass).1 with
          render_passes :=
            (ProcessPass env display_rect false fs pass).1.render_passes ++
              [(ProcessPass env display_rect false fs pass).2] }
        (by
          show (ProcessPass env display_rect false fs pass).1.processor.pass_punch_through_rects_
            = []
          rw [p3]
          exact hmap)
        (fun p hp => hreq p (List.mem_cons_of_mem _ hp))
      refine ⟨st, ?_, ?_, ?_, ?_⟩
      · rw [h1]
        simp
      · exact h2.trans p3
      · rw [← h3]
        rfl
      · have h5 : (ProcessPasses env display_rect (pass :: pass2 :: rest2) fs).render_passes
            = ((ProcessPass env display_rect false fs pass).1.render_passes ++
                [(ProcessPass env display_rect false fs pass).2]) ++
              (pass2 :: rest2).dropLast ++
              [(ProcessRenderPass env display_rect true st).render_pass] := h4
        rw [h5, p1, p2]
        show _ = fs.render_passes ++ (pass :: (pass2 :: rest2).dropLast) ++ _
        simp

/-- While every entry of the punch-through map is under the id of the pass
being visited, an iteration of the loop of `ProcessRenderPass` keeps it so, and
a render-pass quad is passed over without any insertion. -/
theorem ProcessQuad_own_key (env : Collaborators T) [Inhabited T] (display_rect : RectF)
    (is_root : Bool) (st : PassState T) (it : Nat)
    (hinv : ∀ id : RenderPassId, id ≠ st.render_pass.id →
      st.processor.pass_punch_through_rects_.count id = 0) :
    (ProcessQuad env display_rect is_root st it).1.render_pass.id = st.render_pass.id ∧
      (∀ id : RenderPassId, id ≠ st.render_pass.id →
        (ProcessQuad env display_rect is_root st it).1.processor.pass_punch_through_rects_.count
          id = 0) ∧
      ((deref st.render_pass.quad_list it).material = Material.RENDER_PASS →
        ProcessQuad env display_rect is_root st it = (st, it + 1)) := by
  by_cases hmat : (deref st.render_pass.quad_list it).material = Material.RENDER_PASS
  · have hkey : ProcessQuad env display_rect is_root st it = (st, it + 1) := by
      rw [ProcessQuad_render_pass env display_rect is_root st it hmat]
      unfold ProcessRenderPassDrawQuad
      by_cases hself : (deref st.render_pass.quad_list it).render_pass_id = st.render_pass.id
      · simp only [hself, if_true]
      · simp only [hself, hinv _ hself, if_true, if_false]
    rw [hkey]
    exact ⟨rfl, hinv, fun _ => rfl⟩
  · refine ⟨?_, ?_, fun h => absurd h hmat⟩
    · rcases ProcessQuad_cases env display_rect is_root st it hmat with
        ⟨result, pvt, -, heq⟩ | ⟨-, -, hocc, heq⟩ | ⟨-, hnone, heq⟩
      · rw [heq]
        rfl
      · obtain ⟨-, -, -, hid, -⟩ := ProcessForOverlay_accepted env display_rect
          (ToEnclosingRect (ClippedQuadRectangle env (deref st.render_pass.quad_list it)))
          _ st it hocc
        rw [heq]
        simp only [RecordPromotion_render_pass, hid]
      · obtain ⟨-, -, -, hid, -⟩ := ProcessForUnderlay_accepted env display_rect
          (ToEnclosingRect (ClippedQuadRectangle env (deref st.render_pass.quad_list it)))
          (GetOcclusionBounds env
            (RectF.ofRect
              (ToEnclosingRect (ClippedQuadRectangle env (deref st.render_pass.quad_list it))))
            (st.render_pass.quad_list.take it)) it is_root st _ hnone
        rw [heq]
        simp only [RecordPromotion_render_pass, hid]
    · intro id hid
      rcases ProcessQuad_cases env display_rect is_root st it hmat with
        ⟨result, pvt, -, heq⟩ | ⟨-, -, hocc, heq⟩ | ⟨-, hnone, heq⟩
      · rw [heq]
        exact hinv id hid
      · rw [heq]
        show (ProcessForOverlay env display_rect _ _ st
          it).2.1.processor.pass_punch_through_rects_.count id = 0
        rw [ProcessForOverlay_processor]
        exact hinv id hid
      · rw [heq]
        show (ProcessForUnderlay env display_rect _ _ it is_root st
          _).2.1.processor.pass_punch_through_rects_.count id = 0
        rw [ProcessForUnderlay_map env display_rect _ _ it is_root st _ hnone,
          PunchThroughMap.count_pushBack_other _ _ _ _ hid]
        exact hinv id hid

theorem ProcessQuads_own_key (env : Collaborators T) [Inhabited T] (display_rect : RectF)
    (is_root : Bool) (fuel : Nat) (st : PassState T) (it : Nat)
    (hinv : ∀ id : RenderPassId, id ≠ st.render_pass.id →
      st.processor.pass_punch_through_rects_.count id = 0) :
    (ProcessQuads env display_rect is_root fuel st it).1.render_pass.id = st.render_pass.id ∧
      (∀ id : RenderPassId, id ≠ st.render_pass.id →
        (ProcessQuads env display_rect is_root fuel st
          it).1.processor.pass_punch_through_rects_.count id = 0) := by
  induction fuel generalizing st it with
  | zero => exact ⟨rfl, hinv⟩
  | succ n ih =>
    by_cases h : it < st.render_pass.quad_list.length
    · rw [ProcessQuads_succ env display_rect is_root n st it h]
      obtain ⟨hid, hcount, -⟩ := ProcessQuad_own_key env display_rect is_root st it hinv
      obtain ⟨iid, icount⟩ := ih (ProcessQuad env display_rect is_root st it).1
        (ProcessQuad env display_rect is_root st it).2
        (fun id hne => hcount id (by rw [← hid]; exact hne))
      exact ⟨iid.trans hid, fun id hne => icount id (by rw [hid]; exact hne)⟩
    · rw [ProcessQuads_at_end env display_rect is_root (n + 1) st it h]
      exact ⟨rfl, hinv⟩

/-- The part of the map that does stay empty. With non-root overlays disabled
and no video quad of a pass other than the last whose candidate requires an
overlay: on such a pass, while the punch-through map is empty, an iteration of
the loop of `ProcessRenderPass` changes nothing but the samples recorded;
`Process` leaves every pass but the last as it was and enters the root pass
with an empty map; at every iteration of the loop on the root pass the map has
no entry under an id other than that of the root pass, and a render-pass quad
is passed over without the insertion of a placeholder; after `Process` the map
has no entry under an id other than that of the root pass. -/
theorem punch_through_map_root_only (env : Collaborators T) [Inhabited T]
    (display_rect : RectF) (fs : FrameState T) (hne : fs.render_passes ≠ [])
    (hflag : env.kDirectCompositionNonrootOverlays = false)
    (hreq : ∀ pass ∈ fs.render_passes.dropLast, ∀ q ∈ pass.quad_list,
      q.material = Material.YUV_VIDEO_CONTENT →
      env.RequiresOverlay (FromYUVQuad env q pass.transform_to_root_target) = false) :
    (∀ (st : PassState T) (it : Nat), st.processor.pass_punch_through_rects_ = [] →
      (∀ q ∈ st.render_pass.quad_list, q.material = Material.YUV_VIDEO_CONTENT →
        env.RequiresOverlay (FromYUVQuad env q st.render_pass.transform_to_root_target)
          = false) →
      ∃ samples : List (ProtectedVideoType × DCLayerResult),
        (ProcessQuad env display_rect false st it).1
          = { st with histograms := st.histograms ++ samples }) ∧
      (Process env display_rect fs).render_passes.dropLast = fs.render_passes.dropLast ∧
      ∃ st : PassState T,
        st.render_pass = fs.render_passes.getLast hne ∧
          st.processor.pass_punch_through_rects_ = [] ∧
          (Process env display_rect fs).processor
            = (ProcessRenderPass env display_rect true st).processor ∧
          (Process env display_rect fs).render_passes
            = fs.render_passes.dropLast ++
              [(ProcessRenderPass env display_rect true st).render_pass] ∧
          (∀ (st' : PassState T) (it' : Nat), LoopReaches env display_rect st st' it' →
            (∀ id : RenderPassId, id ≠ st.render_pass.id →
              st'.processor.pass_punch_through_rects_.count id = 0) ∧
            ((deref st'.render_pass.quad_list it').material = Material.RENDER_PASS →
              ProcessQuad env display_rect true st' it' = (st', it' + 1))) ∧
          (∀ id : RenderPassId, id ≠ st.render_pass.id →
            (Process env display_rect fs).processor.pass_punch_through_rects_.count id = 0) := by
  obtain ⟨st, h1, h2, h3, h4⟩ := ProcessPasses_nonroot_disabled env display_rect
    fs.render_passes hne
    { fs with
      processor :=
        { fs.processor with
          processed_overlay_in_frame_ := false, pass_punch_through_rects_ := [] }
      render_passes := [] } hflag rfl hreq
  have hmap : st.processor.pass_punch_through_rects_ = [] := by
    rw [h2]
  have hinv : ∀ id : RenderPassId, id ≠ st.render_pass.id →
      st.processor.pass_punch_through_rects_.count id = 0 := by
    intro id _
    rw [hmap]
    rfl
  have hrp : (Process env display_rect fs).render_passes
      = fs.render_passes.dropLast ++ [(ProcessRenderPass env display_rect true st).render_pass] := by
    have h5 : (Process env display_rect fs).render_passes = _ := h4
    rw [h5]
    simp
  refine ⟨?_, ?_, st, h1, hmap, h3, hrp, ?_, ?_⟩
  · intro st0 it hmap0 hreq0
    obtain ⟨samples, -, heq⟩ := ProcessQuad_nonroot_disabled env display_rect st0 it hflag hmap0
      hreq0
    exact ⟨samples, heq⟩
  · rw [hrp, List.dropLast_concat]
  · rintro st' it' ⟨-, k, hreach⟩
    obtain ⟨hid, hcount⟩ := ProcessQuads_own_key env display_rect true k
      { st with this_frame_underlay_rect := {}, this_frame_underlay_occlusion := {} } 0 hinv
    rw [hreach] at hid hcount
    have hid2 : st'.render_pass.id = st.render_pass.id := hid
    have hinv2 : ∀ id : RenderPassId, id ≠ st'.render_pass.id →
        st'.processor.pass_punch_through_rects_.count id = 0 := by
      intro id hne2
      exact hcount id (by rw [← hid2]; exact hne2)
    exact ⟨hcount, (ProcessQuad_own_key env display_rect true st' it' hinv2).2.2⟩
  · intro id hid
    have h6 : (Process env display_rect fs).processor
        = (ProcessRenderPass env display_rect true st).processor := h3
    rw [h6]
    obtain ⟨-, -, -, -, -, hm, -⟩ := ProcessRenderPass_fields env display_rect true st
    rw [hm]
    exact (ProcessQuads_own_key env display_rect true st.render_pass.quad_list.length
      { st with this_frame_underlay_rect := {}, this_frame_underlay_occlusion := {} } 0
      hinv).2 id hid

theorem punch_through_map_root_only_sample :
    (Process (sampleCollaborators true false false) sampleDisplayRect
      { sampleFrame [] with
        render_passes :=
          [{ id := 2, quad_list := [sampleVideoQuad {} ProtectedVideoType.kClear],
             transform_to_root_target := {} },
            { id := 1, quad_list := [sampleRenderPassQuad 2],
              transform_to_root_target := {} }] }).render_passes.dropLast
      = [{ id := 2, quad_list := [sampleVideoQuad {} ProtectedVideoType.kClear],
           transform_to_root_target := {} }] :=
  (punch_through_map_root_only (sampleCollaborators true false false) sampleDisplayRect
    { sampleFrame [] with
      render_passes :=
        [{ id := 2, quad_list := [sampleVideoQuad {} ProtectedVideoType.kClear],
           transform_to_root_target := {} },
          { id := 1, quad_list := [sampleRenderPassQuad 2],
            transform_to_root_target := {} }] }
    (by decide) rfl (by decide)).2.1

/-- A first root underlay leaves an entry under the id of the root pass. -/
theorem ProcessQuad_first_underlay_map (env : Collaborators T) [Inhabited T]
    (display_rect : RectF) (st : PassState T) (it : Nat) (hfirst : FirstRootUnderlay env st it) :
    (ProcessQuad env display_rect true st it).1.processor.pass_punch_through_rects_.count
      st.render_pass.id ≠ 0 := by
  obtain ⟨hfrom, hc, hocc, hnone, -⟩ := hfirst
  rw [ProcessQuad_underlay_accepted env display_rect true st it hfrom hc (Or.inr hocc) hnone]
  show (ProcessForUnderlay env display_rect _ _ it true st
    _).2.1.processor.pass_punch_through_rects_.count st.render_pass.id ≠ 0
  rw [ProcessForUnderlay_map env display_rect _ _ it true st _ hnone]
  exact PunchThroughMap.count_pushBack_same _ _ _

/-- C26. The comment at lines 201-202 says that the punch-through map is
empty unless non-root overlays are enabled; the code fills it with non-root
overlays disabled, in both frames here. First frame: underlays disabled as
well, a pass with id 2 below the root holds a hardware-protected video quad and
the root pass, with id 1, holds a render-pass quad that refers to pass 2. The
video quad is accepted as an underlay, the map gets an entry under id 2, and
`ProcessRenderPassDrawQuad` inserts a placeholder into the root pass. Second
frame: underlays enabled, the root pass alone, holding the video quad of the
scenarios under the solid quad of the scenarios. The video quad is accepted as
an underlay and the map gets an entry under the id of the root pass. -/
theorem punch_through_without_nonroot_overlays :
    (sampleCollaborators false false false).kDirectCompositionNonrootOverlays = false ∧
      (Process (sampleCollaborators false false false) sampleDisplayRect
        { sampleFrame [] with
          render_passes :=
            [{ id := 2, quad_list := [sampleVideoQuad {} ProtectedVideoType.kHardwareProtected],
               transform_to_root_target := {} },
              { id := 1, quad_list := [sampleRenderPassQuad 2],
                transform_to_root_target := {} }] }).processor.pass_punch_through_rects_.count
          2 = 1 ∧
      ((Process (sampleCollaborators false false false) sampleDisplayRect
        { sampleFrame [] with
          render_passes :=
            [{ id := 2, quad_list := [sampleVideoQuad {} ProtectedVideoType.kHardwareProtected],
               transform_to_root_target := {} },
              { id := 1, quad_list := [sampleRenderPassQuad 2],
                transform_to_root_target := {} }] }).render_passes.map
          fun pass => pass.quad_list.map fun quad => quad.material)
        = [[Material.SOLID_COLOR], [Material.RENDER_PASS, Material.SOLID_COLOR]] ∧
      (sampleCollaborators true false false).kDirectCompositionNonrootOverlays = false ∧
      (Process (sampleCollaborators true false false) sampleDisplayRect
        (sampleFrame [sampleSolidQuad,
          sampleVideoQuad {} ProtectedVideoType.kClear])).processor.pass_punch_through_rects_.count
          1 ≠ 0 := by
  refine ⟨rfl, by decide, by decide, rfl, ?_⟩
  rw [Process_single_pass (sampleCollaborators true false false) sampleDisplayRect
    (sampleFrame [sampleSolidQuad, sampleVideoQuad {} ProtectedVideoType.kClear])
    { id := 1, quad_list := [sampleSolidQuad, sampleVideoQuad {} ProtectedVideoType.kClear],
      transform_to_root_target := {} } rfl]
  simp only []
  obtain ⟨-, -, -, -, -, hm, -⟩ := ProcessRenderPass_fields (sampleCollaborators true false false)
    sampleDisplayRect true
    { processor :=
        { (sampleFrame [sampleSolidQuad,
            sampleVideoQuad {} ProtectedVideoType.kClear]).processor with
          processed_overlay_in_frame_ := false, pass_punch_through_rects_ := [] }
      render_pass :=
        { id := 1, quad_list := [sampleSolidQuad, sampleVideoQuad {} ProtectedVideoType.kClear],
          transform_to_root_target := {} }
      overlay_damage_rect := (sampleFrame [sampleSolidQuad,
        sampleVideoQuad {} ProtectedVideoType.kClear]).overlay_damage_rect
      damage_rect := (sampleFrame [sampleSolidQuad,
        sampleVideoQuad {} ProtectedVideoType.kClear]).damage_rect
      dc_layer_overlays := (sampleFrame [sampleSolidQuad,
        sampleVideoQuad {} ProtectedVideoType.kClear]).dc_layer_overlays
      histograms := (sampleFrame [sampleSolidQuad,
        sampleVideoQuad {} ProtectedVideoType.kClear]).histograms }
  rw [hm]
  have hloop : ProcessQuads (sampleCollaborators true false false) sampleDisplayRect true 2
      (samplePassState [sampleSolidQuad, sampleVideoQuad {} ProtectedVideoType.kClear]) 0
      = ProcessQuad (sampleCollaborators true false false) sampleDisplayRect true
        { samplePassState [sampleSolidQuad, sampleVideoQuad {} ProtectedVideoType.kClear] with
          histograms :=
            [(ProtectedVideoType.kClear, DCLayerResult.DC_LAYER_FAILED_UNSUPPORTED_QUAD)] }
        1 := by
    rw [ProcessQuads_add (sampleCollaborators true false false) sampleDisplayRect true 1 1]
    have hfirst : ProcessQuads (sampleCollaborators true false false) sampleDisplayRect true 1
        (samplePassState [sampleSolidQuad, sampleVideoQuad {} ProtectedVideoType.kClear]) 0
        = ({ samplePassState [sampleSolidQuad,
              sampleVideoQuad {} ProtectedVideoType.kClear] with
            histograms :=
              [(ProtectedVideoType.kClear, DCLayerResult.DC_LAYER_FAILED_UNSUPPORTED_QUAD)] },
          1) := rfl
    rw [hfirst]
    simp only []
    rw [ProcessQuads_succ _ _ _ _ _ _ (by decide)]
    rfl
  have hcount := ProcessQuad_first_underlay_map (sampleCollaborators true false false)
    sampleDisplayRect
    { samplePassState [sampleSolidQuad, sampleVideoQuad {} ProtectedVideoType.kClear] with
      histograms :=
        [(ProtectedVideoType.kClear, DCLayerResult.DC_LAYER_FAILED_UNSUPPORTED_QUAD)] }
    1 (sample_first_root_underlay _ rfl rfl rfl)
  rw [← hloop] at hcount
  exact hcount

/-! ### Running `Process` again -/

theorem ProcessForUnderlayRejection_none_iff (env : Collaborators T) [Inhabited T]
    (st : PassState T) (it : Nat) (is_root : Bool) (dc_layer : DCLayerOverlay T) :
    ProcessForUnderlayRejection env st it is_root dc_layer = none ↔
      (env.RequiresOverlay dc_layer = true ∨
        (env.kDirectCompositionUnderlays = true ∧
          (is_root = true ∨ env.kDirectCompositionNonrootOverlays = true) ∧
          ¬ (deref st.render_pass.quad_list it).shared_quad_state.opacity < 1 ∧
          st.processor.processed_overlay_in_frame_ = false)) := by
  unfold ProcessForUnderlayRejection
  cases hreq : env.RequiresOverlay dc_layer <;> cases hun : env.kDirectCompositionUnderlays <;>
    cases is_root <;> cases hnr : env.kDirectCompositionNonrootOverlays <;>
    cases hfl : st.processor.processed_overlay_in_frame_ <;>
    by_cases hop : (deref st.render_pass.quad_list it).shared_quad_state.opacity < 1 <;>
    simp [hop]

theorem RecordPromotion_dc_layer_overlays (env : Collaborators T) (quad_rectangle : Rect)
    (st : PassState T) (dc_layer : DCLayerOverlay T) :
    (RecordPromotion env quad_rectangle st dc_layer).dc_layer_overlays
      = st.dc_layer_overlays ++ [dc_layer] := rfl

/-- An iteration of the loop of `ProcessRenderPass` appends a candidate exactly
when the tiers promote the quad it stands at. -/
theorem ProcessQuad_promotes_iff (env : Collaborators T) [Inhabited T] (display_rect : RectF)
    (is_root : Bool) (st : PassState T) (it : Nat) :
    (ProcessQuad env display_rect is_root st it).1.dc_layer_overlays.length
        ≠ st.dc_layer_overlays.length ↔
      TiersPromote env is_root st.processor.has_hw_overlay_support_
        st.processor.processed_overlay_in_frame_ st.render_pass it := by
  have hproc : ∀ q : DrawQuad T,
      FromDrawQuad env { has_hw_overlay_support_ := st.processor.has_hw_overlay_support_ } q
        st.render_pass.transform_to_root_target default
      = FromDrawQuad env st.processor q st.render_pass.transform_to_root_target default :=
    fun q => FromDrawQuad_processor env _ _ _ _ _ rfl
  unfold TiersPromote
  rw [hproc]
  by_cases hmat : (deref st.render_pass.quad_list it).material = Material.RENDER_PASS
  · rw [ProcessQuad_render_pass env display_rect is_root st it hmat,
      (ProcessRenderPassDrawQuad_outputs env st it).2.1]
    have hnv : (deref st.render_pass.quad_list it).material ≠ Material.YUV_VIDEO_CONTENT := by
      rw [hmat]; decide
    rw [FromDrawQuad_not_video env _ _ _ _ hnv]
    constructor
    · intro h; exact absurd rfl h
    · rintro ⟨h, -⟩; cases h
  · by_cases hfrom : (FromDrawQuad env st.processor (deref st.render_pass.quad_list it)
        st.render_pass.transform_to_root_target default).1 = DCLayerResult.DC_LAYER_SUCCESS
    · by_cases hc : ComplexTransformRejected env (deref st.render_pass.quad_list it)
          (FromYUVQuad env (deref st.render_pass.quad_list it)
            st.render_pass.transform_to_root_target) = true
      · have hstep : ProcessQuad env display_rect is_root st it
            = (RecordDCLayerResult DCLayerResult.DC_LAYER_FAILED_COMPLEX_TRANSFORM
                (deref st.render_pass.quad_list it).protected_video_type st, it + 1) := by
          rw [ProcessQuad_eligible env display_rect is_root st it hfrom]
          simp only []
          rw [if_pos hc]
        rw [hstep]
        constructor
        · intro h; exact absurd rfl h
        · rintro ⟨-, h, -⟩; rw [hc] at h; exact absurd h (by decide)
      · have hc2 : ComplexTransformRejected env (deref st.render_pass.quad_list it)
            (FromYUVQuad env (deref st.render_pass.quad_list it)
              st.render_pass.transform_to_root_target) = false := by simpa using hc
        by_cases hov : (is_root && (!st.processor.processed_overlay_in_frame_ ||
            env.RequiresOverlay (FromYUVQuad env (deref st.render_pass.quad_list it)
              st.render_pass.transform_to_root_target))) = true ∧
            (GetOcclusionBounds env
              (RectF.ofRect
                (ToEnclosingRect (ClippedQuadRectangle env (deref st.render_pass.quad_list it))))
              (st.render_pass.quad_list.take it)).IsEmpty = true
        · rw [ProcessQuad_overlay env display_rect is_root st it hfrom hc2 hov.1 hov.2]
          constructor
          · intro _; exact ⟨hfrom, hc2, Or.inl hov⟩
          · intro _
            show (RecordPromotion env _ _ _).dc_layer_overlays.length ≠ _
            rw [RecordPromotion_dc_layer_overlays]
            have := (ProcessForOverlay_accepted env display_rect
              (ToEnclosingRect (ClippedQuadRectangle env (deref st.render_pass.quad_list it)))
              _ st it hov.2).2.2.2.2.2.2.1
            simp only [] at this
            rw [this]
            simp
        · have hov2 : (is_root && (!st.processor.processed_overlay_in_frame_ ||
              env.RequiresOverlay (FromYUVQuad env (deref st.render_pass.quad_list it)
                st.render_pass.transform_to_root_target))) = false ∨
              (GetOcclusionBounds env
                (RectF.ofRect
                  (ToEnclosingRect (ClippedQuadRectangle env (deref st.render_pass.quad_list it))))
                (st.render_pass.quad_list.take it)).IsEmpty = false := by
            by_cases ha : (is_root && (!st.processor.processed_overlay_in_frame_ ||
                env.RequiresOverlay (FromYUVQuad env (deref st.render_pass.quad_list it)
                  st.render_pass.transform_to_root_target))) = true
            · right
              by_contra hb
              exact hov ⟨ha, by simpa using hb⟩
            · left
              simpa using ha
          cases hr : ProcessForUnderlayRejection env st it is_root
              (FromYUVQuad env (deref st.render_pass.quad_list it)
                st.render_pass.transform_to_root_target) with
          | none =>
            rw [ProcessQuad_underlay_accepted env display_rect is_root st it hfrom hc2 hov2 hr]
            constructor
            · intro _
              exact ⟨hfrom, hc2, Or.inr
                ((ProcessForUnderlayRejection_none_iff env st it is_root _).mp hr)⟩
            · intro _
              show (RecordPromotion env _ _ _).dc_layer_overlays.length ≠ _
              rw [RecordPromotion_dc_layer_overlays]
              have := (ProcessForUnderlay_accepted env display_rect
                (ToEnclosingRect (ClippedQuadRectangle env (deref st.render_pass.quad_list it)))
                (GetOcclusionBounds env
                  (RectF.ofRect
                    (ToEnclosingRect
                      (ClippedQuadRectangle env (deref st.render_pass.quad_list it))))
                  (st.render_pass.quad_list.take it)) it is_root st _ hr).2.2.2.2.2.2.1
              simp only [] at this
              rw [this]
              simp
          | some result =>
            rw [ProcessQuad_underlay_rejected env display_rect is_root st it result hfrom hc2
              hov2 hr]
            constructor
            · intro h; exact absurd rfl h
            · rintro ⟨-, -, h | h⟩
              · exact absurd h hov
              · have hnone := (ProcessForUnderlayRejection_none_iff env st it is_root _).mpr h
                rw [hr] at hnone
                exact absurd hnone (by simp)
    · rw [ProcessQuad_not_eligible env display_rect is_root st it hmat hfrom]
      constructor
      · intro h; exact absurd rfl h
      · rintro ⟨h, -⟩; exact absurd h hfrom

theorem TiersPromote_mono (env : Collaborators T) [Inhabited T] (is_root has_hw : Bool)
    (render_pass : RenderPass T) (it : Nat)
    (h : TiersPromote env is_root has_hw true render_pass it) :
    TiersPromote env is_root has_hw false render_pass it := by
  obtain ⟨h1, h2, h3⟩ := h
  refine ⟨h1, h2, ?_⟩
  rcases h3 with ⟨ha, hb⟩ | h3 | ⟨-, -, -, h3⟩
  · left
    refine ⟨?_, hb⟩
    cases is_root
    · simp at ha
    · simp
  · exact Or.inr (Or.inl h3)
  · cases h3

theorem deref_take [Inhabited T] (quad_list : List (DrawQuad T)) (it n : Nat) (h : it < n) :
    deref (quad_list.take n) it = deref quad_list it := by
  unfold deref
  simp [List.getD, List.getElem?_take, h]

/-- Whether the tiers promote the quad at `it` depends on the pass through its
transform to the root target and its quads up to and with the one at `it`. -/
theorem TiersPromote_congr (env : Collaborators T) [Inhabited T] (is_root has_hw processed : Bool)
    (pass pass' : RenderPass T) (it : Nat)
    (ht : pass'.transform_to_root_target = pass.transform_to_root_target)
    (hl : pass'.quad_list.take (it + 1) = pass.quad_list.take (it + 1)) :
    TiersPromote env is_root has_hw processed pass' it ↔
      TiersPromote env is_root has_hw processed pass it := by
  have hd : deref pass'.quad_list it = deref pass.quad_list it := by
    rw [← deref_take pass'.quad_list it (it + 1) (Nat.lt_succ_self it),
      ← deref_take pass.quad_list it (it + 1) (Nat.lt_succ_self it), hl]
  have hk : pass'.quad_list.take it = pass.quad_list.take it := by
    have := congrArg (List.take it) hl
    simpa [List.take_take] using this
  unfold TiersPromote
  rw [hd, hk, ht]

theorem HeldBack_iff (env : Collaborators T) [Inhabited T] (display_rect : RectF)
    (is_root : Bool) (st : PassState T) (it : Nat) :
    HeldBack env display_rect is_root st it = true ↔
      (¬ TiersPromote env is_root st.processor.has_hw_overlay_support_
          st.processor.processed_overlay_in_frame_ st.render_pass it ∧
        TiersPromote env is_root st.processor.has_hw_overlay_support_ false st.render_pass it) := by
  unfold HeldBack
  rw [Bool.and_eq_true, decide_eq_true_iff, decide_eq_true_iff]
  have h1 := ProcessQuad_promotes_iff env display_rect is_root st it
  have h2 := ProcessQuad_promotes_iff env display_rect is_root
    { st with processor := { st.processor with processed_overlay_in_frame_ := false } } it
  simp only [] at h2
  rw [h2, ← h1]
  simp

theorem ProcessQuad_has_hw (env : Collaborators T) [Inhabited T] (display_rect : RectF)
    (is_root : Bool) (st : PassState T) (it : Nat) :
    (ProcessQuad env display_rect is_root st it).1.processor.has_hw_overlay_support_
      = st.processor.has_hw_overlay_support_ := by
  by_cases hmat : (deref st.render_pass.quad_list it).material = Material.RENDER_PASS
  · rw [ProcessQuad_render_pass env display_rect is_root st it hmat]
    unfold ProcessRenderPassDrawQuad
    simp only []
    split_ifs <;> rfl
  · rcases ProcessQuad_cases env display_rect is_root st it hmat with
      ⟨result, pvt, -, h⟩ | ⟨-, -, hocc, h⟩ | ⟨-, hnone, h⟩
    · rw [h]; rfl
    · rw [h]
      show (ProcessForOverlay env display_rect _ _ st it).2.1.processor.has_hw_overlay_support_ = _
      rw [ProcessForOverlay_processor]
    · rw [h]
      show (ProcessForUnderlay env display_rect _ _ it is_root st
        _).2.1.processor.has_hw_overlay_support_ = _
      unfold ProcessForUnderlay
      rw [hnone]

theorem ProcessQuads_has_hw (env : Collaborators T) [Inhabited T] (display_rect : RectF)
    (is_root : Bool) (fuel : Nat) (st : PassState T) (it : Nat) :
    (ProcessQuads env display_rect is_root fuel st it).1.processor.has_hw_overlay_support_
      = st.processor.has_hw_overlay_support_ := by
  induction fuel generalizing st it with
  | zero => rfl
  | succ fuel ih =>
    unfold ProcessQuads
    split_ifs with hlt
    · exact (ih _ _).trans (ProcessQuad_has_hw env display_rect is_root st it)
    · rfl

theorem ProcessQuad_dc_le (env : Collaborators T) [Inhabited T] (display_rect : RectF)
    (is_root : Bool) (st : PassState T) (it : Nat) :
    st.dc_layer_overlays.length
      ≤ (ProcessQuad env display_rect is_root st it).1.dc_layer_overlays.length := by
  obtain ⟨samples, added, -, h, -⟩ := ProcessQuad_trace env display_rect is_root st it
  rw [h, List.length_append]
  exact Nat.le_add_right _ _

theorem ProcessQuads_dc_le (env : Collaborators T) [Inhabited T] (display_rect : RectF)
    (is_root : Bool) (fuel : Nat) (st : PassState T) (it : Nat) :
    st.dc_layer_overlays.length
      ≤ (ProcessQuads env display_rect is_root fuel st it).1.dc_layer_overlays.length := by
  induction fuel generalizing st it with
  | zero => exact Nat.le_refl _
  | succ fuel ih =>
    unfold ProcessQuads
    split_ifs with hlt
    · exact Nat.le_trans (ProcessQuad_dc_le env display_rect is_root st it) (ih _ _)
    · exact Nat.le_refl _

/-- With nothing accepted in the frame and an empty punch-through map, an
iteration at a quad that the tiers do not promote records at most one sample,
never a success, moves to the next quad and changes nothing else. -/
theorem ProcessQuad_settled (env : Collaborators T) [Inhabited T] (display_rect : RectF)
    (is_root : Bool) (st : PassState T) (it : Nat)
    (hmap : st.processor.pass_punch_through_rects_ = [])
    (hflag : st.processor.processed_overlay_in_frame_ = false)
    (hno : ¬ TiersPromote env is_root st.processor.has_hw_overlay_support_ false
      st.render_pass it) :
    ∃ samples : List (ProtectedVideoType × DCLayerResult),
      (∀ sample ∈ samples, sample.2 ≠ DCLayerResult.DC_LAYER_SUCCESS) ∧
      ProcessQuad env display_rect is_root st it
        = ({ st with histograms := st.histograms ++ samples }, it + 1) := by
  by_cases hmat : (deref st.render_pass.quad_list it).material = Material.RENDER_PASS
  · rw [ProcessQuad_render_pass env display_rect is_root st it hmat]
    refine ⟨[], by simp, ?_⟩
    have hkey : ProcessRenderPassDrawQuad env st it = (st, it + 1) := by
      unfold ProcessRenderPassDrawQuad
      simp only [hmap]
      split_ifs with h1 h2
      · rfl
      · rfl
      · exact absurd rfl h2
    rw [hkey]
    simp
  · have hdc : ¬ (ProcessQuad env display_rect is_root st it).1.dc_layer_overlays.length
        ≠ st.dc_layer_overlays.length := by
      rw [ProcessQuad_promotes_iff, hflag]
      exact hno
    rcases ProcessQuad_cases env display_rect is_root st it hmat with
      ⟨result, pvt, hres, h⟩ | ⟨-, -, hocc, h⟩ | ⟨-, hnone, h⟩
    · refine ⟨[(pvt, result)], ?_, ?_⟩
      · intro sample hs
        rw [List.mem_singleton.mp hs]
        exact hres
      · rw [h]
        rfl
    · exfalso
      apply hdc
      rw [h]
      show (RecordPromotion env _ _ _).dc_layer_overlays.length ≠ _
      rw [RecordPromotion_dc_layer_overlays]
      have := (ProcessForOverlay_accepted env display_rect
        (ToEnclosingRect (ClippedQuadRectangle env (deref st.render_pass.quad_list it)))
        _ st it hocc).2.2.2.2.2.2.1
      simp only [] at this
      rw [this]
      simp
    · exfalso
      apply hdc
      rw [h]
      show (RecordPromotion env _ _ _).dc_layer_overlays.length ≠ _
      rw [RecordPromotion_dc_layer_overlays]
      have := (ProcessForUnderlay_accepted env display_rect
        (ToEnclosingRect (ClippedQuadRectangle env (deref st.render_pass.quad_list it)))
        (GetOcclusionBounds env
          (RectF.ofRect
            (ToEnclosingRect (ClippedQuadRectangle env (deref st.render_pass.quad_list it))))
          (st.render_pass.quad_list.take it)) it is_root st _ hnone).2.2.2.2.2.2.1
      simp only [] at this
      rw [this]
      simp

theorem ProcessQuads_settled (env : Collaborators T) [Inhabited T] (display_rect : RectF)
    (is_root : Bool) (fuel : Nat) (st : PassState T) (it : Nat)
    (hmap : st.processor.pass_punch_through_rects_ = [])
    (hflag : st.processor.processed_overlay_in_frame_ = false)
    (hno : ∀ i, it ≤ i → i < st.render_pass.quad_list.length →
      ¬ TiersPromote env is_root st.processor.has_hw_overlay_support_ false st.render_pass i) :
    ∃ samples : List (ProtectedVideoType × DCLayerResult),
      (∀ sample ∈ samples, sample.2 ≠ DCLayerResult.DC_LAYER_SUCCESS) ∧
      (ProcessQuads env display_rect is_root fuel st it).1
        = { st with histograms := st.histograms ++ samples } := by
  induction fuel generalizing st it with
  | zero => exact ⟨[], by simp, by unfold ProcessQuads; simp⟩
  | succ fuel ih =>
    unfold ProcessQuads
    split_ifs with hlt
    · obtain ⟨s1, hs1, heq1⟩ := ProcessQuad_settled env display_rect is_root st it hmap hflag
        (hno it (Nat.le_refl _) hlt)
      obtain ⟨s2, hs2, heq2⟩ := ih (ProcessQuad env display_rect is_root st it).1
        (ProcessQuad env display_rect is_root st it).2 (by rw [heq1]; exact hmap)
        (by rw [heq1]; exact hflag)
        (by
          rw [heq1]
          intro i hle hi
          exact hno i (Nat.le_of_succ_le hle) hi)
      refine ⟨s1 ++ s2, ?_, ?_⟩
      · intro sample hs
        rcases List.mem_append.mp hs with h | h
        · exact hs1 sample h
        · exact hs2 sample h
      · simp only []
        rw [heq2, heq1]
        simp
    · exact ⟨[], by simp, by simp⟩

/-- With nothing accepted in the frame and an empty punch-through map, the loop
of `ProcessRenderPass` appends a candidate as soon as the tiers promote one of
the quads from the iterator on. -/
theorem ProcessQuads_unsettled (env : Collaborators T) [Inhabited T] (display_rect : RectF)
    (is_root : Bool) (fuel : Nat) (st : PassState T) (it i : Nat)
    (hmap : st.processor.pass_punch_through_rects_ = [])
    (hflag : st.processor.processed_overlay_in_frame_ = false)
    (hle : it ≤ i) (hi : i < st.render_pass.quad_list.length)
    (hfuel : st.render_pass.quad_list.length - it ≤ fuel)
    (hyes : TiersPromote env is_root st.processor.has_hw_overlay_support_ false
      st.render_pass i) :
    st.dc_layer_overlays.length
      < (ProcessQuads env display_rect is_root fuel st it).1.dc_layer_overlays.length := by
  induction fuel generalizing st it with
  | zero => omega
  | succ fuel ih =>
    have hlt : it < st.render_pass.quad_list.length := Nat.lt_of_le_of_lt hle hi
    rw [ProcessQuads_succ env display_rect is_root fuel st it hlt]
    by_cases hit : TiersPromote env is_root st.processor.has_hw_overlay_support_ false
        st.render_pass it
    · have hne : (ProcessQuad env display_rect is_root st it).1.dc_layer_overlays.length
          ≠ st.dc_layer_overlays.length := by
        rw [ProcessQuad_promotes_iff, hflag]
        exact hit
      have h1 := ProcessQuad_dc_le env display_rect is_root st it
      have h2 := ProcessQuads_dc_le env display_rect is_root fuel
        (ProcessQuad env display_rect is_root st it).1
        (ProcessQuad env display_rect is_root st it).2
      omega
    · obtain ⟨s1, -, heq1⟩ := ProcessQuad_settled env display_rect is_root st it hmap hflag hit
      have hne : i ≠ it := by
        intro h
        rw [h] at hyes
        exact hit hyes
      rw [heq1]
      exact ih { st with histograms := st.histograms ++ s1 } (it + 1) hmap hflag
        (by omega) hi (by show st.render_pass.quad_list.length - (it + 1) ≤ fuel; omega) hyes

/-- What `ProcessPass` returns, in terms of the state in which the loop of
`ProcessRenderPass` over the pass is left. -/
theorem ProcessPass_loop (env : Collaborators T) [Inhabited T] (display_rect : RectF)
    (is_root : Bool) (fs : FrameState T) (pass : RenderPass T) :
    (ProcessPass env display_rect is_root fs pass).2.quad_list
        = (ProcessQuads env display_rect is_root pass.quad_list.length
            { processor := fs.processor
              render_pass := pass
              overlay_damage_rect := fs.overlay_damage_rect
              damage_rect := if is_root then fs.damage_rect else pass.damage_rect
              dc_layer_overlays := fs.dc_layer_overlays
              this_frame_underlay_rect := {}
              this_frame_underlay_occlusion := {}
              histograms := fs.histograms } 0).1.render_pass.quad_list ∧
      (ProcessPass env display_rect is_root fs pass).2.transform_to_root_target
        = (ProcessQuads env display_rect is_root pass.quad_list.length
            { processor := fs.processor
              render_pass := pass
              overlay_damage_rect := fs.overlay_damage_rect
              damage_rect := if is_root then fs.damage_rect else pass.damage_rect
              dc_layer_overlays := fs.dc_layer_overlays
              this_frame_underlay_rect := {}
              this_frame_underlay_occlusion := {}
              histograms := fs.histograms } 0).1.render_pass.transform_to_root_target ∧
      (ProcessPass env display_rect is_root fs pass).1.dc_layer_overlays
        = (ProcessQuads env display_rect is_root pass.quad_list.length
            { processor := fs.processor
              render_pass := pass
              overlay_damage_rect := fs.overlay_damage_rect
              damage_rect := if is_root then fs.damage_rect else pass.damage_rect
              dc_layer_overlays := fs.dc_layer_overlays
              this_frame_underlay_rect := {}
              this_frame_underlay_occlusion := {}
              histograms := fs.histograms } 0).1.dc_layer_overlays ∧
      (ProcessPass env display_rect is_root fs pass).1.processor.has_hw_overlay_support_
        = (ProcessQuads env display_rect is_root pass.quad_list.length
            { processor := fs.processor
              render_pass := pass
              overlay_damage_rect := fs.overlay_damage_rect
              damage_rect := if is_root then fs.damage_rect else pass.damage_rect
              dc_layer_overlays := fs.dc_layer_overlays
              this_frame_underlay_rect := {}
              this_frame_underlay_occlusion := {}
              histograms := fs.histograms } 0).1.processor.has_hw_overlay_support_ ∧
      (ProcessPass env display_rect is_root fs pass).1.render_passes = fs.render_passes := by
  unfold ProcessPass ProcessRenderPass
  cases is_root <;> exact ⟨rfl, rfl, rfl, rfl, rfl⟩

theorem ProcessPass_has_hw (env : Collaborators T) [Inhabited T] (display_rect : RectF)
    (is_root : Bool) (fs : FrameState T) (pass : RenderPass T) :
    (ProcessPass env display_rect is_root fs pass).1.processor.has_hw_overlay_support_
      = fs.processor.has_hw_overlay_support_ := by
  rw [(ProcessPass_loop env display_rect is_root fs pass).2.2.2.1]
  exact ProcessQuads_has_hw env display_rect is_root _ _ _

theorem ProcessPasses_has_hw (env : Collaborators T) [Inhabited T] (display_rect : RectF)
    (passes : List (RenderPass T)) (fs : FrameState T) :
    (ProcessPasses env display_rect passes fs).processor.has_hw_overlay_support_
      = fs.processor.has_hw_overlay_support_ := by
  induction passes generalizing fs with
  | nil => rfl
  | cons pass rest ih =>
    unfold ProcessPasses
    exact (ih _).trans (ProcessPass_has_hw env display_rect rest.isEmpty fs pass)

theorem ProcessPass_dc_le (env : Collaborators T) [Inhabited T] (display_rect : RectF)
    (is_root : Bool) (fs : FrameState T) (pass : RenderPass T) :
    fs.dc_layer_overlays.length
      ≤ (ProcessPass env display_rect is_root fs pass).1.dc_layer_overlays.length := by
  rw [(ProcessPass_loop env display_rect is_root fs pass).2.2.1]
  exact ProcessQuads_dc_le env display_rect is_root pass.quad_list.length
    { processor := fs.processor
      render_pass := pass
      overlay_damage_rect := fs.overlay_damage_rect
      damage_rect := if is_root then fs.damage_rect else pass.damage_rect
      dc_layer_overlays := fs.dc_layer_overlays
      this_frame_underlay_rect := {}
      this_frame_underlay_occlusion := {}
      histograms := fs.histograms } 0

theorem ProcessPasses_dc_le (env : Collaborators T) [Inhabited T] (display_rect : RectF)
    (passes : List (RenderPass T)) (fs : FrameState T) :
    fs.dc_layer_overlays.length
      ≤ (ProcessPasses env display_rect passes fs).dc_layer_overlays.length := by
  induction passes generalizing fs with
  | nil => exact Nat.le_refl _
  | cons pass rest ih =>
    unfold ProcessPasses
    have h1 := ProcessPass_dc_le env display_rect rest.isEmpty fs pass
    have h2 := ih
      { (ProcessPass env display_rect rest.isEmpty fs pass).1 with
        render_passes := (ProcessPass env display_rect rest.isEmpty fs pass).1.render_passes
          ++ [(ProcessPass env display_rect rest.isEmpty fs pass).2] }
    simp only [] at h2 ⊢
    exact Nat.le_trans h1 h2

theorem ProcessPass_settled (env : Collaborators T) [Inhabited T]
    (display_rect : RectF) (is_root : Bool) (fs : FrameState T) (pass : RenderPass T)
    (hmap : fs.processor.pass_punch_through_rects_ = [])
    (hflag : fs.processor.processed_overlay_in_frame_ = false)
    (hno : ∀ i, i < pass.quad_list.length →
      ¬ TiersPromote env is_root fs.processor.has_hw_overlay_support_ false pass i) :
    (ProcessPass env display_rect is_root fs pass).2 = pass ∧
      (ProcessPass env display_rect is_root fs pass).1.render_passes = fs.render_passes ∧
      (ProcessPass env display_rect is_root fs pass).1.dc_layer_overlays
        = fs.dc_layer_overlays ∧
      (ProcessPass env display_rect is_root fs pass).1.processor.pass_punch_through_rects_
        = [] ∧
      (ProcessPass env display_rect is_root fs pass).1.processor.processed_overlay_in_frame_
        = false ∧
      (∃ samples : List (ProtectedVideoType × DCLayerResult),
        (∀ sample ∈ samples, sample.2 ≠ DCLayerResult.DC_LAYER_SUCCESS) ∧
        (ProcessPass env display_rect is_root fs pass).1.histograms
          = fs.histograms ++ samples) := by
  obtain ⟨samples, hs, heq⟩ := ProcessQuads_settled env display_rect is_root
    pass.quad_list.length
    { processor := fs.processor
      render_pass := pass
      overlay_damage_rect := fs.overlay_damage_rect
      damage_rect := if is_root then fs.damage_rect else pass.damage_rect
      dc_layer_overlays := fs.dc_layer_overlays
      this_frame_underlay_rect := {}
      this_frame_underlay_occlusion := {}
      histograms := fs.histograms } 0 hmap hflag (fun i _ hi => hno i hi)
  unfold ProcessPass ProcessRenderPass
  simp only []
  rw [heq]
  cases is_root
  · refine ⟨?_, ?_, ?_, ?_, ?_, samples, hs, ?_⟩ <;> first | exact hmap | exact hflag | trivial
  · refine ⟨?_, ?_, ?_, ?_, ?_, samples, hs, ?_⟩ <;> first | exact hmap | exact hflag | trivial

theorem ProcessPass_unsettled (env : Collaborators T) [Inhabited T]
    (display_rect : RectF) (is_root : Bool) (fs : FrameState T) (pass : RenderPass T) (i : Nat)
    (hmap : fs.processor.pass_punch_through_rects_ = [])
    (hflag : fs.processor.processed_overlay_in_frame_ = false)
    (hi : i < pass.quad_list.length)
    (hyes : TiersPromote env is_root fs.processor.has_hw_overlay_support_ false pass i) :
    fs.dc_layer_overlays.length
      < (ProcessPass env display_rect is_root fs pass).1.dc_layer_overlays.length := by
  rw [(ProcessPass_loop env display_rect is_root fs pass).2.2.1]
  exact ProcessQuads_unsettled env display_rect is_root pass.quad_list.length
    { processor := fs.processor
      render_pass := pass
      overlay_damage_rect := fs.overlay_damage_rect
      damage_rect := if is_root then fs.damage_rect else pass.damage_rect
      dc_layer_overlays := fs.dc_layer_overlays
      this_frame_underlay_rect := {}
      this_frame_underlay_occlusion := {}
      histograms := fs.histograms } 0 i hmap hflag (Nat.zero_le _) hi (Nat.le_refl _) hyes

/-- With nothing accepted so far and an empty punch-through map, `ProcessPasses`
over passes none of whose quads the tiers promote leaves the passes as they
are, appends no candidate and records no success. -/
theorem ProcessPasses_settled (env : Collaborators T) [Inhabited T]
    (display_rect : RectF) (passes : List (RenderPass T)) (fs : FrameState T)
    (hmap : fs.processor.pass_punch_through_rects_ = [])
    (hflag : fs.processor.processed_overlay_in_frame_ = false)
    (hno : PassesSettled env fs.processor.has_hw_overlay_support_ passes) :
    (ProcessPasses env display_rect passes fs).render_passes = fs.render_passes ++ passes ∧
      (ProcessPasses env display_rect passes fs).dc_layer_overlays = fs.dc_layer_overlays ∧
      (∃ samples : List (ProtectedVideoType × DCLayerResult),
        (∀ sample ∈ samples, sample.2 ≠ DCLayerResult.DC_LAYER_SUCCESS) ∧
        (ProcessPasses env display_rect passes fs).histograms = fs.histograms ++ samples) := by
  induction passes generalizing fs with
  | nil => exact ⟨by unfold ProcessPasses; simp, rfl, [], by simp, by unfold ProcessPasses; simp⟩
  | cons pass rest ih =>
    unfold ProcessPasses
    obtain ⟨hpass, hrest⟩ := hno
    obtain ⟨h1, h2, h3, h4, h5, s1, hs1, h6⟩ := ProcessPass_settled env display_rect
      rest.isEmpty fs pass hmap hflag hpass
    have hhw := ProcessPass_has_hw env display_rect rest.isEmpty fs pass
    obtain ⟨g1, g2, s2, hs2, g3⟩ := ih
      { (ProcessPass env display_rect rest.isEmpty fs pass).1 with
        render_passes := (ProcessPass env display_rect rest.isEmpty fs pass).1.render_passes
          ++ [(ProcessPass env display_rect rest.isEmpty fs pass).2] }
      h4 h5 (by show PassesSettled env _ rest; rw [hhw]; exact hrest)
    refine ⟨?_, ?_, s1 ++ s2, ?_, ?_⟩
    · simp only []
      rw [g1, h1, h2]
      simp
    · simp only []
      rw [g2]
      exact h3
    · intro sample hs
      rcases List.mem_append.mp hs with h | h
      · exact hs1 sample h
      · exact hs2 sample h
    · simp only []
      rw [g3]
      show (ProcessPass env display_rect rest.isEmpty fs pass).1.histograms ++ s2 = _
      rw [h6, List.append_assoc]

/-- With nothing accepted so far and an empty punch-through map, `ProcessPasses`
appends a candidate as soon as the tiers promote a quad of one of the passes. -/
theorem ProcessPasses_unsettled (env : Collaborators T) [Inhabited T]
    (display_rect : RectF) (passes : List (RenderPass T)) (fs : FrameState T)
    (hmap : fs.processor.pass_punch_through_rects_ = [])
    (hflag : fs.processor.processed_overlay_in_frame_ = false)
    (hyes : ¬ PassesSettled env fs.processor.has_hw_overlay_support_ passes) :
    fs.dc_layer_overlays.length
      < (ProcessPasses env display_rect passes fs).dc_layer_overlays.length := by
  induction passes generalizing fs with
  | nil => exact absurd trivial hyes
  | cons pass rest ih =>
    unfold ProcessPasses
    by_cases hpass : ∀ i, i < pass.quad_list.length →
        ¬ TiersPromote env rest.isEmpty fs.processor.has_hw_overlay_support_ false pass i
    · obtain ⟨-, -, h3, h4, h5, -⟩ := ProcessPass_settled env display_rect
        rest.isEmpty fs pass hmap hflag hpass
      have hhw := ProcessPass_has_hw env display_rect rest.isEmpty fs pass
      have hrest : ¬ PassesSettled env fs.processor.has_hw_overlay_support_ rest :=
        fun h => hyes ⟨hpass, h⟩
      have := ih
        { (ProcessPass env display_rect rest.isEmpty fs pass).1 with
          render_passes := (ProcessPass env display_rect rest.isEmpty fs pass).1.render_passes
            ++ [(ProcessPass env display_rect rest.isEmpty fs pass).2] }
        h4 h5 (by show ¬ PassesSettled env _ rest; rw [hhw]; exact hrest)
      have hlen := congrArg List.length h3
      simp only [] at this ⊢
      omega
    · have hex : ∃ i, i < pass.quad_list.length ∧
          TiersPromote env rest.isEmpty fs.processor.has_hw_overlay_support_ false pass i := by
        by_contra hcon
        apply hpass
        intro i hi hp
        exact hcon ⟨i, hi, hp⟩
      obtain ⟨i, hi, hp⟩ := hex
      have h1 := ProcessPass_unsettled env display_rect rest.isEmpty fs pass i hmap hflag hi hp
      have h2 := ProcessPasses_dc_le env display_rect rest
        { (ProcessPass env display_rect rest.isEmpty fs pass).1 with
          render_passes := (ProcessPass env display_rect rest.isEmpty fs pass).1.render_passes
            ++ [(ProcessPass env display_rect rest.isEmpty fs pass).2] }
      simp only [] at h2 ⊢
      omega

theorem take_eraseIdx_self {α : Type} (l : List α) (it : Nat) :
    (l.eraseIdx it).take it = l.take it := by
  induction l generalizing it with
  | nil => simp
  | cons a l ih =>
    cases it with
    | zero => simp
    | succ it => simp [ih]

theorem take_set_self {α : Type} (l : List α) (it : Nat) (a : α) :
    (l.set it a).take it = l.take it := by
  induction l generalizing it with
  | nil => simp
  | cons b l ih =>
    cases it with
    | zero => simp
    | succ it => simp [ih]

theorem deref_set_self [Inhabited T] (quad_list : List (DrawQuad T)) (it : Nat) (q : DrawQuad T)
    (h : it < quad_list.length) : deref (quad_list.set it q) it = q := by
  unfold deref
  simp [List.getD, h]

theorem take_of_take_le {α : Type} (l l' : List α) (n m : Nat) (hmn : m ≤ n)
    (h : l'.take n = l.take n) : l'.take m = l.take m := by
  have := congrArg (List.take m) h
  simpa [List.take_take, Nat.min_eq_left hmn] using this

theorem deref_insert_placeholder [Inhabited T] (pre post : List (DrawQuad T))
    (rects : List Rect) (f : Rect → DrawQuad T) (i : Nat) (h1 : pre.length ≤ i)
    (h2 : i < pre.length + rects.length) :
    ∃ r, deref (pre ++ rects.map f ++ post) i = f r := by
  have hi : i - pre.length < rects.length := by omega
  refine ⟨rects[i - pre.length], ?_⟩
  unfold deref
  have h3 : i - pre.length < (rects.map f).length := by simp; exact hi
  rw [List.append_assoc, List.getD_eq_getElem?_getD, List.getElem?_append_right h1,
    List.getElem?_append_left h3]
  simp [hi]

theorem deref_append_left [Inhabited T] (pre post : List (DrawQuad T)) (i : Nat)
    (h : i < pre.length) : deref (pre ++ post) i = deref pre i := by
  unfold deref
  simp [List.getD, List.getElem?_append_left h]

/-- What an iteration of the loop of `ProcessRenderPass` does to the quad
list: the quads before the iterator stay; the quads between the iterator and
the iterator returned are not video quads, unless the iteration turned the quad
down, and then the list is as it was and no candidate was appended. -/
theorem ProcessQuad_shape (env : Collaborators T) [Inhabited T] (display_rect : RectF)
    (is_root : Bool) (st : PassState T) (it : Nat) (hit : it < st.render_pass.quad_list.length) :
    (ProcessQuad env display_rect is_root st it).1.render_pass.quad_list.take it
        = st.render_pass.quad_list.take it ∧
      it ≤ (ProcessQuad env display_rect is_root st it).2 ∧
      ∀ i, it ≤ i → i < (ProcessQuad env display_rect is_root st it).2 →
        (deref (ProcessQuad env display_rect is_root st it).1.render_pass.quad_list i).material
            ≠ Material.YUV_VIDEO_CONTENT ∨
          (i = it ∧
            (ProcessQuad env display_rect is_root st it).1.render_pass.quad_list
              = st.render_pass.quad_list ∧
            (ProcessQuad env display_rect is_root st it).1.dc_layer_overlays
              = st.dc_layer_overlays) := by
  by_cases hmat : (deref st.render_pass.quad_list it).material = Material.RENDER_PASS
  · rw [ProcessQuad_render_pass env display_rect is_root st it hmat]
    by_cases hskip : (deref st.render_pass.quad_list it).render_pass_id = st.render_pass.id ∨
        st.processor.pass_punch_through_rects_.count
          (deref st.render_pass.quad_list it).render_pass_id = 0
    · have hkey : ProcessRenderPassDrawQuad env st it = (st, it + 1) := by
        unfold ProcessRenderPassDrawQuad
        simp only []
        split_ifs with h1 h2
        · rfl
        · rfl
        · rcases hskip with h | h
          · exact absurd h h1
          · exact absurd h h2
      rw [hkey]
      refine ⟨rfl, Nat.le_succ _, ?_⟩
      intro i h1 h2
      left
      have hi : i = it := by
        have : i < it + 1 := h2
        omega
      rw [hi]
      show (deref st.render_pass.quad_list it).material ≠ _
      rw [hmat]
      decide
    · have hne : (deref st.render_pass.quad_list it).render_pass_id ≠ st.render_pass.id :=
        fun h => hskip (Or.inl h)
      have hcount : st.processor.pass_punch_through_rects_.count
          (deref st.render_pass.quad_list it).render_pass_id ≠ 0 := fun h => hskip (Or.inr h)
      obtain ⟨hl, hnext⟩ := ProcessRenderPassDrawQuad_inserts env st it hit hne hcount
      rw [hl, hnext]
      have hlen : (st.render_pass.quad_list.take (it + 1)).length = it + 1 := by
        rw [List.length_take]
        omega
      refine ⟨?_, by omega, ?_⟩
      · rw [List.append_assoc, List.take_append_of_le_length (by omega), List.take_take]
        congr 1
        omega
      · intro i h1 h2
        left
        by_cases hi : i = it
        · rw [hi, List.append_assoc, deref_append_left _ _ _ (by omega),
            deref_take _ _ _ (Nat.lt_succ_self it), hmat]
          decide
        · obtain ⟨r, hr⟩ := deref_insert_placeholder (st.render_pass.quad_list.take (it + 1))
            (st.render_pass.quad_list.drop (it + 1))
            (st.processor.pass_punch_through_rects_.lookup
              (deref st.render_pass.quad_list it).render_pass_id)
            (fun r => (default : DrawQuad T).SetAll
              { (deref st.render_pass.quad_list it).shared_quad_state with opacity := 1 } r r
              false SK_ColorTRANSPARENT true) i (by omega) (by omega)
          rw [hr]
          show Material.SOLID_COLOR ≠ _
          decide
  · rcases ProcessQuad_outcome env display_rect is_root st it hmat with
      ⟨code, -, -, h⟩ | ⟨-, hnext, hl, -, -⟩ | ⟨-, hnext, hl, -, -⟩
    · rw [h]
      refine ⟨rfl, Nat.le_succ _, ?_⟩
      intro i h1 h2
      right
      have hi : i = it := by
        have : i < it + 1 := h2
        omega
      exact ⟨hi, rfl, rfl⟩
    · rw [hnext, hl]
      refine ⟨take_eraseIdx_self _ _, Nat.le_refl _, ?_⟩
      intro i h1 h2
      omega
    · rw [hnext, hl]
      obtain ⟨placeholder, hset, hsolid, -⟩ := ProcessForUnderlayReplace_spec env
        st.render_pass.quad_list it
      rw [hset]
      refine ⟨take_set_self _ _ _, Nat.le_succ _, ?_⟩
      intro i h1 h2
      left
      have hi : i = it := by omega
      rw [hi, deref_set_self _ _ _ hit, hsolid]
      decide

theorem ProcessQuad_transform (env : Collaborators T) [Inhabited T] (display_rect : RectF)
    (is_root : Bool) (st : PassState T) (it : Nat) :
    (ProcessQuad env display_rect is_root st it).1.render_pass.transform_to_root_target
      = st.render_pass.transform_to_root_target :=
  (ProcessQuad_promotion env display_rect is_root st it).1

/-- The loop of `ProcessRenderPass` leaves the quads before its iterator as
they are. -/
theorem ProcessQuads_before (env : Collaborators T) [Inhabited T] (display_rect : RectF)
    (is_root : Bool) (fuel : Nat) (st : PassState T) (it : Nat) :
    (ProcessQuads env display_rect is_root fuel st it).1.render_pass.quad_list.take it
        = st.render_pass.quad_list.take it ∧
      (ProcessQuads env display_rect is_root fuel st it).1.render_pass.transform_to_root_target
        = st.render_pass.transform_to_root_target := by
  induction fuel generalizing st it with
  | zero => exact ⟨rfl, rfl⟩
  | succ fuel ih =>
    unfold ProcessQuads
    split_ifs with hlt
    · obtain ⟨h1, h2, -⟩ := ProcessQuad_shape env display_rect is_root st it hlt
      obtain ⟨g1, g2⟩ := ih (ProcessQuad env display_rect is_root st it).1
        (ProcessQuad env display_rect is_root st it).2
      refine ⟨?_, g2.trans (ProcessQuad_transform env display_rect is_root st it)⟩
      simp only []
      rw [take_of_take_le _ _ _ it h2 g1]
      exact h1
    · exact ⟨rfl, rfl⟩

/-- One iteration of the first run keeps the quads before the iterator such
that the tiers, with nothing accepted, promote none of them, provided it does
not hold its quad back. -/
theorem ProcessQuad_settles (env : Collaborators T) [Inhabited T] (display_rect : RectF)
    (is_root : Bool) (st : PassState T) (it : Nat) (hit : it < st.render_pass.quad_list.length)
    (hinv : ∀ i, i < it →
      ¬ TiersPromote env is_root st.processor.has_hw_overlay_support_ false st.render_pass i)
    (hheld : HeldBack env display_rect is_root st it = false) :
    ∀ i, i < (ProcessQuad env display_rect is_root st it).2 →
      ¬ TiersPromote env is_root st.processor.has_hw_overlay_support_ false
        (ProcessQuad env display_rect is_root st it).1.render_pass i := by
  obtain ⟨h1, h2, h3⟩ := ProcessQuad_shape env display_rect is_root st it hit
  have ht := ProcessQuad_transform env display_rect is_root st it
  intro i hi
  by_cases hlt : i < it
  · rw [TiersPromote_congr env is_root _ false st.render_pass _ i ht
      (take_of_take_le _ _ it (i + 1) hlt h1)]
    exact hinv i hlt
  · rcases h3 i (Nat.le_of_not_lt hlt) hi with hmat | ⟨hi2, hlist, hdc⟩
    · intro hp
      exact hmat (FromDrawQuad_video env _ _ _ _ hp.1).1
    · rw [TiersPromote_congr env is_root _ false st.render_pass _ i ht (by rw [hlist]), hi2]
      intro hp
      have hnot : ¬ TiersPromote env is_root st.processor.has_hw_overlay_support_
          st.processor.processed_overlay_in_frame_ st.render_pass it := by
        rw [← ProcessQuad_promotes_iff env display_rect is_root st it, hdc]
        exact fun h => h rfl
      have := (HeldBack_iff env display_rect is_root st it).mpr ⟨hnot, hp⟩
      rw [hheld] at this
      exact absurd this (by decide)

theorem ProcessQuads_settles (env : Collaborators T) [Inhabited T] (display_rect : RectF)
    (is_root : Bool) (fuel : Nat) (st : PassState T) (it : Nat)
    (hle : it ≤ st.render_pass.quad_list.length)
    (hfuel : st.render_pass.quad_list.length - it ≤ fuel)
    (hinv : ∀ i, i < it →
      ¬ TiersPromote env is_root st.processor.has_hw_overlay_support_ false st.render_pass i)
    (hheld : HeldBackInLoop env display_rect is_root fuel st it = false) :
    ∀ i, i < (ProcessQuads env display_rect is_root fuel st it).1.render_pass.quad_list.length →
      ¬ TiersPromote env is_root st.processor.has_hw_overlay_support_ false
        (ProcessQuads env display_rect is_root fuel st it).1.render_pass i := by
  induction fuel generalizing st it with
  | zero =>
    intro i hi
    exact hinv i (by
      have : i < st.render_pass.quad_list.length := hi
      omega)
  | succ fuel ih =>
    by_cases hlt : it < st.render_pass.quad_list.length
    · rw [ProcessQuads_succ env display_rect is_root fuel st it hlt]
      unfold HeldBackInLoop at hheld
      rw [if_pos hlt, Bool.or_eq_false_iff] at hheld
      obtain ⟨hm1, hm2⟩ := ProcessQuad_measure env display_rect is_root st it hlt
      have hhw := ProcessQuad_has_hw env display_rect is_root st it
      have := ih (ProcessQuad env display_rect is_root st it).1
        (ProcessQuad env display_rect is_root st it).2 hm1 (by omega)
        (by
          rw [hhw]
          exact ProcessQuad_settles env display_rect is_root st it hlt hinv hheld.1)
        hheld.2
      rw [hhw] at this
      exact this
    · rw [ProcessQuads_at_end env display_rect is_root (fuel + 1) st it hlt]
      intro i hi
      exact hinv i (by
        have : i < st.render_pass.quad_list.length := hi
        omega)

/-- A quad held back by an iteration of the first run stays in the list, and
the tiers, with nothing accepted, promote it. -/
theorem ProcessQuads_held_back (env : Collaborators T) [Inhabited T] (display_rect : RectF)
    (is_root : Bool) (fuel : Nat) (st : PassState T) (it : Nat)
    (hheld : HeldBackInLoop env display_rect is_root fuel st it = true) :
    ∃ i, i < (ProcessQuads env display_rect is_root fuel st it).1.render_pass.quad_list.length ∧
      TiersPromote env is_root st.processor.has_hw_overlay_support_ false
        (ProcessQuads env display_rect is_root fuel st it).1.render_pass i := by
  induction fuel generalizing st it with
  | zero =>
    unfold HeldBackInLoop at hheld
    exact absurd hheld (by decide)
  | succ fuel ih =>
    unfold HeldBackInLoop at hheld
    by_cases hlt : it < st.render_pass.quad_list.length
    · rw [if_pos hlt, Bool.or_eq_true] at hheld
      rw [ProcessQuads_succ env display_rect is_root fuel st it hlt]
      rcases hheld with hheld | hheld
      · obtain ⟨hnot, hp⟩ := (HeldBack_iff env display_rect is_root st it).mp hheld
        have hvideo := (FromDrawQuad_video env _ _ _ _ hp.1).1
        have hmat : (deref st.render_pass.quad_list it).material ≠ Material.RENDER_PASS := by
          rw [hvideo]
          decide
        have hdc : (ProcessQuad env display_rect is_root st it).1.dc_layer_overlays.length
            = st.dc_layer_overlays.length := by
          by_contra hne
          exact hnot ((ProcessQuad_promotes_iff env display_rect is_root st it).mp hne)
        have hstep : ∃ code pvt, ProcessQuad env display_rect is_root st it
            = (RecordDCLayerResult code pvt st, it + 1) := by
          rcases ProcessQuad_outcome env display_rect is_root st it hmat with
            ⟨code, -, -, h⟩ | ⟨-, -, -, -, h⟩ | ⟨-, -, -, -, h⟩
          · exact ⟨code, _, h⟩
          · rw [h] at hdc
            simp at hdc
          · rw [h] at hdc
            simp at hdc
        obtain ⟨code, pvt, hstep⟩ := hstep
        rw [hstep]
        simp only []
        obtain ⟨g1, g2⟩ := ProcessQuads_before env display_rect is_root fuel
          (RecordDCLayerResult code pvt st) (it + 1)
        have g1' : (ProcessQuads env display_rect is_root fuel
            (RecordDCLayerResult code pvt st) (it + 1)).1.render_pass.quad_list.take (it + 1)
            = st.render_pass.quad_list.take (it + 1) := g1
        have g2' : (ProcessQuads env display_rect is_root fuel
            (RecordDCLayerResult code pvt st) (it + 1)).1.render_pass.transform_to_root_target
            = st.render_pass.transform_to_root_target := g2
        refine ⟨it, ?_, ?_⟩
        · have := congrArg List.length g1'
          rw [List.length_take, List.length_take] at this
          omega
        · rw [TiersPromote_congr env is_root _ false st.render_pass _ it g2' g1']
          exact hp
      · obtain ⟨i, hi, hp⟩ := ih _ _ hheld
        rw [ProcessQuad_has_hw env display_rect is_root st it] at hp
        exact ⟨i, hi, hp⟩
    · rw [if_neg hlt] at hheld
      exact absurd hheld (by decide)

/-- The first run over a pass holds no quad back exactly when the tiers, with
nothing accepted, promote no quad of the pass it leaves. -/
theorem ProcessPass_settles (env : Collaborators T) [Inhabited T] (display_rect : RectF)
    (is_root : Bool) (fs : FrameState T) (pass : RenderPass T) :
    HeldBackInLoop env display_rect is_root pass.quad_list.length
        { processor := fs.processor
          render_pass := pass
          overlay_damage_rect := fs.overlay_damage_rect
          damage_rect := if is_root then fs.damage_rect else pass.damage_rect
          dc_layer_overlays := fs.dc_layer_overlays
          this_frame_underlay_rect := {}
          this_frame_underlay_occlusion := {}
          histograms := fs.histograms } 0 = false ↔
      ∀ i, i < (ProcessPass env display_rect is_root fs pass).2.quad_list.length →
        ¬ TiersPromote env is_root fs.processor.has_hw_overlay_support_ false
          (ProcessPass env display_rect is_root fs pass).2 i := by
  obtain ⟨hl, ht, -, -, -⟩ := ProcessPass_loop env display_rect is_root fs pass
  constructor
  · intro hheld i hi
    rw [hl] at hi
    rw [TiersPromote_congr env is_root _ false _ _ i ht (by rw [hl])]
    exact ProcessQuads_settles env display_rect is_root pass.quad_list.length
      { processor := fs.processor
        render_pass := pass
        overlay_damage_rect := fs.overlay_damage_rect
        damage_rect := if is_root then fs.damage_rect else pass.damage_rect
        dc_layer_overlays := fs.dc_layer_overlays
        this_frame_underlay_rect := {}
        this_frame_underlay_occlusion := {}
        histograms := fs.histograms } 0 (Nat.zero_le _) (Nat.le_refl _)
      (fun i hi => absurd hi (Nat.not_lt_zero i)) hheld i hi
  · intro hno
    by_contra hheld
    obtain ⟨i, hi, hp⟩ := ProcessQuads_held_back env display_rect is_root pass.quad_list.length
      { processor := fs.processor
        render_pass := pass
        overlay_damage_rect := fs.overlay_damage_rect
        damage_rect := if is_root then fs.damage_rect else pass.damage_rect
        dc_layer_overlays := fs.dc_layer_overlays
        this_frame_underlay_rect := {}
        this_frame_underlay_occlusion := {}
        histograms := fs.histograms } 0 (by simpa using hheld)
    rw [← hl] at hi
    apply hno i hi
    rw [TiersPromote_congr env is_root _ false _ _ i ht (by rw [hl])]
    exact hp

/-- The first run holds no quad back exactly when the tiers, with nothing
accepted, promote no quad of the passes it leaves. -/
theorem ProcessPasses_settles (env : Collaborators T) [Inhabited T] (display_rect : RectF)
    (passes : List (RenderPass T)) (fs : FrameState T) :
    ∃ processed : List (RenderPass T),
      (ProcessPasses env display_rect passes fs).render_passes = fs.render_passes ++ processed ∧
      processed.length = passes.length ∧
      (HeldBackInPasses env display_rect passes fs = false ↔
        PassesSettled env fs.processor.has_hw_overlay_support_ processed) := by
  induction passes generalizing fs with
  | nil =>
    refine ⟨[], by unfold ProcessPasses; simp, rfl, ?_⟩
    unfold HeldBackInPasses PassesSettled
    simp
  | cons pass rest ih =>
    obtain ⟨processed, h1, h2, h3⟩ := ih
      { (ProcessPass env display_rect rest.isEmpty fs pass).1 with
        render_passes := (ProcessPass env display_rect rest.isEmpty fs pass).1.render_passes
          ++ [(ProcessPass env display_rect rest.isEmpty fs pass).2] }
    have hroot : processed.isEmpty = rest.isEmpty := by
      cases processed <;> cases rest <;> simp at h2 ⊢
    refine ⟨(ProcessPass env display_rect rest.isEmpty fs pass).2 :: processed, ?_, ?_, ?_⟩
    · unfold ProcessPasses
      simp only []
      rw [h1, (ProcessPass_loop env display_rect rest.isEmpty fs pass).2.2.2.2]
      simp
    · simp [h2]
    · unfold HeldBackInPasses PassesSettled
      rw [Bool.or_eq_false_iff, hroot, ProcessPass_settles env display_rect rest.isEmpty fs pass,
        h3]
      show _ ↔ _ ∧ PassesSettled env fs.processor.has_hw_overlay_support_ processed
      have hhw : (ProcessPass env display_rect rest.isEmpty fs
          pass).1.processor.has_hw_overlay_support_ = fs.processor.has_hw_overlay_support_ :=
        ProcessPass_has_hw env display_rect rest.isEmpty fs pass
      simp only [hhw]

/-- While nothing has been accepted in the frame, no quad is held back. -/
theorem HeldBack_of_flag_clear (env : Collaborators T) [Inhabited T] (display_rect : RectF)
    (is_root : Bool) (st : PassState T) (it : Nat)
    (hflag : st.processor.processed_overlay_in_frame_ = false) :
    HeldBack env display_rect is_root st it = false := by
  by_contra h
  obtain ⟨h1, h2⟩ := (HeldBack_iff env display_rect is_root st it).mp (by simpa using h)
  rw [hflag] at h1
  exact h1 h2

theorem HeldBackInLoop_succ (env : Collaborators T) [Inhabited T] (display_rect : RectF)
    (is_root : Bool) (fuel : Nat) (st : PassState T) (it : Nat)
    (h : it < st.render_pass.quad_list.length) :
    HeldBackInLoop env display_rect is_root (fuel + 1) st it =
      (HeldBack env display_rect is_root st it ||
        HeldBackInLoop env display_rect is_root fuel
          (ProcessQuad env display_rect is_root st it).1
          (ProcessQuad env display_rect is_root st it).2) := by
  rw [HeldBackInLoop, if_pos h]

/-- The video quad of the scenarios under the solid quad of the scenarios,
alone on the root pass, with underlays disabled: the first run accepts nothing,
so that it holds no quad back. -/
theorem sample_occluded_not_held_back :
    HeldBackInFrame (sampleCollaborators false false false) sampleDisplayRect
      (sampleFrame [sampleSolidQuad, sampleVideoQuad {} ProtectedVideoType.kClear]) = false := by
  have hstep : ProcessQuad (sampleCollaborators false false false) sampleDisplayRect true
      (samplePassState [sampleSolidQuad, sampleVideoQuad {} ProtectedVideoType.kClear]) 0
      = ({ samplePassState [sampleSolidQuad, sampleVideoQuad {} ProtectedVideoType.kClear] with
          histograms :=
            [(ProtectedVideoType.kClear, DCLayerResult.DC_LAYER_FAILED_UNSUPPORTED_QUAD)] },
        1) := rfl
  show (HeldBackInLoop (sampleCollaborators false false false) sampleDisplayRect true 2
      (samplePassState [sampleSolidQuad, sampleVideoQuad {} ProtectedVideoType.kClear]) 0
    || false) = false
  rw [HeldBackInLoop_succ _ _ _ _ _ _ (by decide), HeldBack_of_flag_clear _ _ _ _ _ rfl, hstep,
    HeldBackInLoop_succ _ _ _ _ _ _ (by decide), HeldBack_of_flag_clear _ _ _ _ _ rfl]
  rfl

/-- C14, as the code has it. `Process` applied again to the result of
`Process`, with the same display rectangle, capabilities and resource provider,
promotes no quad exactly when the first run held no quad back. If no iteration
of the first run turned a quad down that the same iteration would have
promoted with `processed_overlay_in_frame_` clear, the second run leaves every
pass unchanged, appends no candidate and records no success sample. If some
iteration of the first run did, the second run appends at least one
candidate. -/
theorem rerun_promotes_nothing (env : Collaborators T) [Inhabited T] (display_rect : RectF)
    (fs : FrameState T) :
    (HeldBackInFrame env display_rect fs = false →
      (Process env display_rect (Process env display_rect fs)).render_passes
          = (Process env display_rect fs).render_passes ∧
        (Process env display_rect (Process env display_rect fs)).dc_layer_overlays
          = (Process env display_rect fs).dc_layer_overlays ∧
        (∃ samples : List (ProtectedVideoType × DCLayerResult),
          (∀ sample ∈ samples, sample.2 ≠ DCLayerResult.DC_LAYER_SUCCESS) ∧
          (Process env display_rect (Process env display_rect fs)).histograms
            = (Process env display_rect fs).histograms ++ samples)) ∧
      (HeldBackInFrame env display_rect fs = true →
        (Process env display_rect fs).dc_layer_overlays.length
          < (Process env display_rect (Process env display_rect fs)).dc_layer_overlays.length) := by
  obtain ⟨processed, h1, -, h3⟩ := ProcessPasses_settles env display_rect fs.render_passes
    { fs with
      processor :=
        { fs.processor with
          processed_overlay_in_frame_ := false, pass_punch_through_rects_ := [] }
      render_passes := [] }
  have hrun : (Process env display_rect fs).render_passes = processed := by
    unfold Process
    rw [h1]
    simp
  have hhw : (Process env display_rect fs).processor.has_hw_overlay_support_
      = fs.processor.has_hw_overlay_support_ := by
    unfold Process
    exact ProcessPasses_has_hw env display_rect _ _
  have hiff : HeldBackInFrame env display_rect fs = false ↔
      PassesSettled env (Process env display_rect fs).processor.has_hw_overlay_support_
        (Process env display_rect fs).render_passes := by
    rw [hrun, hhw]
    exact h3
  constructor
  · intro hheld
    obtain ⟨g1, g2, g3⟩ := ProcessPasses_settled env display_rect
      (Process env display_rect fs).render_passes
      { Process env display_rect fs with
        processor :=
          { (Process env display_rect fs).processor with
            processed_overlay_in_frame_ := false, pass_punch_through_rects_ := [] }
        render_passes := [] } rfl rfl (hiff.mp hheld)
    refine ⟨?_, g2, g3⟩
    have g1' : (Process env display_rect (Process env display_rect fs)).render_passes
        = [] ++ (Process env display_rect fs).render_passes := g1
    rw [g1']
    simp
  · intro hheld
    have hns : ¬ PassesSettled env (Process env display_rect fs).processor.has_hw_overlay_support_
        (Process env display_rect fs).render_passes := by
      intro h
      rw [hiff.mpr h] at hheld
      exact absurd hheld (by decide)
    exact ProcessPasses_unsettled env display_rect
      (Process env display_rect fs).render_passes
      { Process env display_rect fs with
        processor :=
          { (Process env display_rect fs).processor with
            processed_overlay_in_frame_ := false, pass_punch_through_rects_ := [] }
        render_passes := [] } rfl rfl hns

theorem rerun_promotes_nothing_witness :
    (Process (sampleCollaborators true false false) sampleDisplayRect
        (Process (sampleCollaborators true false false) sampleDisplayRect
          (sampleFrame [sampleVideoQuad {} ProtectedVideoType.kClear,
            sampleVideoQuad Affine2d.shear ProtectedVideoType.kClear]))).dc_layer_overlays
      = (Process (sampleCollaborators true false false) sampleDisplayRect
          (sampleFrame [sampleVideoQuad {} ProtectedVideoType.kClear,
            sampleVideoQuad Affine2d.shear ProtectedVideoType.kClear])).dc_layer_overlays ∧
      (Process (sampleCollaborators false false false) sampleDisplayRect
        (Process (sampleCollaborators false false false) sampleDisplayRect
          (sampleFrame [sampleSolidQuad,
            sampleVideoQuad {} ProtectedVideoType.kClear]))).render_passes
      = (Process (sampleCollaborators false false false) sampleDisplayRect
          (sampleFrame [sampleSolidQuad,
            sampleVideoQuad {} ProtectedVideoType.kClear])).render_passes ∧
      (Process (sampleCollaborators true false false) sampleDisplayRect
          (sampleFrame [sampleVideoQuad {} ProtectedVideoType.kClear,
            sampleVideoQuad (Affine2d.translate 100 0)
              ProtectedVideoType.kClear])).dc_layer_overlays.length
        < (Process (sampleCollaborators true false false) sampleDisplayRect
          (Process (sampleCollaborators true false false) sampleDisplayRect
            (sampleFrame [sampleVideoQuad {} ProtectedVideoType.kClear,
              sampleVideoQuad (Affine2d.translate 100 0)
                ProtectedVideoType.kClear]))).dc_layer_overlays.length :=
  ⟨((rerun_promotes_nothing (sampleCollaborators true false false) sampleDisplayRect
      (sampleFrame [sampleVideoQuad {} ProtectedVideoType.kClear,
        sampleVideoQuad Affine2d.shear ProtectedVideoType.kClear])).1 (by decide)).2.1,
    ((rerun_promotes_nothing (sampleCollaborators false false false) sampleDisplayRect
      (sampleFrame [sampleSolidQuad, sampleVideoQuad {} ProtectedVideoType.kClear])).1
        sample_occluded_not_held_back).1,
    (rerun_promotes_nothing (sampleCollaborators true false false) sampleDisplayRect
      (sampleFrame [sampleVideoQuad {} ProtectedVideoType.kClear,
        sampleVideoQuad (Affine2d.translate 100 0) ProtectedVideoType.kClear])).2 (by decide)⟩

/-- C14, against the claim as stated. Two eligible video quads that do not
require an overlay, alone on the root pass, with underlays enabled: the first
run promotes the first quad and rejects the second with the too-many-overlays
code; the second run, on the result of the first, promotes the quad that was
left: it records a success sample, appends a candidate and empties the pass. -/
theorem rerun_promotes_rejected_quad :
    (Process (sampleCollaborators true false false) sampleDisplayRect
        (sampleFrame [sampleVideoQuad {} ProtectedVideoType.kClear,
          sampleVideoQuad (Affine2d.translate 100 0) ProtectedVideoType.kClear])).histograms
        = [(ProtectedVideoType.kClear, DCLayerResult.DC_LAYER_SUCCESS),
            (ProtectedVideoType.kClear, DCLayerResult.DC_LAYER_FAILED_TOO_MANY_OVERLAYS)] ∧
      ((Process (sampleCollaborators true false false) sampleDisplayRect
        (sampleFrame [sampleVideoQuad {} ProtectedVideoType.kClear,
          sampleVideoQuad (Affine2d.translate 100 0) ProtectedVideoType.kClear])).render_passes.map
          fun pass => pass.quad_list.length) = [1] ∧
      (Process (sampleCollaborators true false false) sampleDisplayRect
        (Process (sampleCollaborators true false false) sampleDisplayRect
          (sampleFrame [sampleVideoQuad {} ProtectedVideoType.kClear,
            sampleVideoQuad (Affine2d.translate 100 0) ProtectedVideoType.kClear]))).histograms
        = [(ProtectedVideoType.kClear, DCLayerResult.DC_LAYER_SUCCESS),
            (ProtectedVideoType.kClear, DCLayerResult.DC_LAYER_FAILED_TOO_MANY_OVERLAYS),
            (ProtectedVideoType.kClear, DCLayerResult.DC_LAYER_SUCCESS)] ∧
      ((Process (sampleCollaborators true false false) sampleDisplayRect
        (Process (sampleCollaborators true false false) sampleDisplayRect
          (sampleFrame [sampleVideoQuad {} ProtectedVideoType.kClear,
            sampleVideoQuad (Affine2d.translate 100 0)
              ProtectedVideoType.kClear]))).render_passes.map
          fun pass => pass.quad_list.length) = [0] ∧
      (Process (sampleCollaborators true false false) sampleDisplayRect
        (Process (sampleCollaborators true false false) sampleDisplayRect
          (sampleFrame [sampleVideoQuad {} ProtectedVideoType.kClear,
            sampleVideoQuad (Affine2d.translate 100 0)
              ProtectedVideoType.kClear]))).dc_layer_overlays.length = 2 := by
  refine ⟨by decide, by decide, by decide, by decide, by decide⟩

end Theorems

end Viz
